import Mathlib

/-!
# Alc/ALu.c — voice parameter calculator and mixer loop

A shallow embedding of `src/Alc/ALu.c` (the OpenAL Soft mixer core) and theorems about it.

Conventions of the embedding.

* `ALfloat` is modelled in exact arithmetic by an arbitrary linearly ordered field `K`
  (instantiate `K := ℚ` to run the definitions, `K := ℝ` for the transcendental functions).
* C arrays are total functions on `Nat`; an assignment `a[i] = x` is `Function.update a i x`.
* A C loop `for(i = 0;i < n;i++) body` is `forLoop n body`, which runs `body 0`, …, `body (n-1)`
  in this order on an explicit state.
* Constants and macros of headers that are not part of `ALu.c` are fields of `Consts`;
  functions of `libm` are fields of `Libm`; functions of other translation units
  (panning, HRTF lookup) are fields of `Externs`, and the ones the mixer loop calls (backend,
  synth, `MixSource`, effect states, HRTF and crossfeed filters, loopback ring) are fields of
  `MixerExterns`, with their own state threaded through.
* Objects that are reached through pointers (sources, the wet buffers and flags of effect
  slots) live in memories indexed by `Nat`; a `NULL` pointer is `none`.
* Integers of the C code are `Nat` or `Int`; where a result is converted to a narrower type
  the wrap-around is explicit (`toSigned`, `toUnsigned`).
-/

namespace ALu

/-! ## Loops and program constants -/

/-- The C loop `for(i = 0;i < n;i++) s = body i s`. -/
def forLoop {σ : Type} : Nat → (Nat → σ → σ) → σ → σ
  | 0, _, s => s
  | n + 1, body, s => body n (forLoop n body s)

/-- Constants, macros and tunables that `ALu.c` takes from its headers (`alu.h`, `alMain.h`,
`float.h`) or from process-wide globals (`ConeScale`, `ZScale`). -/
structure Consts (K : Type) where
  GAIN_SILENCE_THRESHOLD : K
  MAX_PITCH : Nat
  FRACTIONBITS : Nat
  MAX_SENDS : Nat
  MAX_OUTPUT_CHANNELS : Nat
  HRIR_LENGTH : Nat
  BUFFERSIZE : Nat
  DEVICE_CLOCK_RES : Nat
  AIRABSORBGAINHF : K
  SPEEDOFSOUNDMETRESPERSEC : K
  FLT_EPSILON : K
  F_PI : K
  ConeScale : K
  ZScale : K

/-- The functions of the C math library that `ALu.c` calls. -/
structure Libm (K : Type) where
  sqrtf : K → K
  powf : K → K → K
  acosf : K → K
  asinf : K → K
  atan2f : K → K → K
  log10f : K → K

section Field

variable {K : Type} [LinearOrderedField K]

/-- The macro `FRACTIONONE`, `1<<FRACTIONBITS`. -/
def Consts.FRACTIONONE (cfg : Consts K) : Nat := 1 <<< cfg.FRACTIONBITS

/-! ## Scalar helpers of `alu.h` -/

/-- Modelled from the spec: `minf` is defined in `alu.h` (only its `extern inline` declaration is
in `ALu.c`); the minimum of two floats, `(a > b) ? b : a`. -/
def minf (a b : K) : K := if a > b then b else a

/-- Modelled from the spec: `maxf` is defined in `alu.h`; the maximum of two floats,
`(a > b) ? a : b`. -/
def maxf (a b : K) : K := if a > b then a else b

/-- Modelled from the spec: `clampf` is defined in `alu.h`; `clamp(val, min, max)`, computed as
`minf(max, maxf(min, val))`. -/
def clampf (val min max : K) : K := minf max (maxf min val)

/-- Modelled from the spec: `lerp` is defined in `alu.h`; linear interpolation
`val1 + (val2-val1)*mu`. -/
def lerp (val1 val2 mu : K) : K := val1 + (val2 - val1) * mu

/-! ## Gain ramps (`MixGains`, `DirectParams`, `SendParams`) -/

/-- The struct `MixGains`: one gain ramp. -/
structure MixGains (K : Type) where
  Current : K
  Step : K
  Target : K

/-- The struct `HrtfParams` of one input channel: HRIR coefficients `Coeffs[HRIR_LENGTH][2]`,
their per-sample steps, and the left/right delays with their steps. -/
structure HrtfParams (K : Type) where
  Coeffs : Nat → Nat → K
  CoeffStep : Nat → Nat → K
  Delay : Nat → Nat
  DelayStep : Nat → Int

/-- The enum `ALfilterType` (the two shelf types used by `ALu.c`). -/
inductive ALfilterType where
  | ALfilterType_HighShelf
  | ALfilterType_LowShelf
  deriving DecidableEq, Repr

/-- Modelled from the spec: `ALfilterState` and `ALfilterState_setParams` belong to `alFilter.c`,
which is not part of `ALu.c`; a filter state is represented by the parameters it was last
initialised with (its coefficients are a function of them). -/
structure ALfilterState (K : Type) where
  type : ALfilterType
  gain : K
  freq_scale : K
  bandwidth : K

/-- Modelled from the spec: `ALfilterState_setParams(filter, type, gain, freq_scale, bandwidth)`
initialises a shelf filter with the given corner frequency and gain. -/
def ALfilterState_setParams (_filter : ALfilterState K) (type : ALfilterType)
    (gain freq_scale bandwidth : K) : ALfilterState K :=
  { type := type, gain := gain, freq_scale := freq_scale, bandwidth := bandwidth }

/-- The bitmask `enum ActiveFilters`: `AF_None` is both bits clear, `|= AF_LowPass` and
`|= AF_HighPass` set one bit each. -/
structure ActiveFilters where
  AF_LowPass : Bool
  AF_HighPass : Bool
  deriving DecidableEq, Repr

/-- The constant `AF_None`. -/
def AF_None : ActiveFilters := { AF_LowPass := false, AF_HighPass := false }

/-- One element of `Filters[]`: the active-type mask and the two shelf filters. -/
structure VoiceFilter (K : Type) where
  ActiveType : ActiveFilters
  LowPass : ALfilterState K
  HighPass : ALfilterState K

/-- The four-component vector `aluVector` (`v[0..3]`). -/
structure aluVector (K : Type) where
  v0 : K
  v1 : K
  v2 : K
  v3 : K

/-- A plain `ALfloat[3]` array, as `N`, `V`, `U` and `dir` in `ALu.c`. -/
structure Float3 (K : Type) where
  e0 : K
  e1 : K
  e2 : K

/-- The row-major 4×4 matrix `aluMatrix`; `m0 … m3` are the rows `m[0] … m[3]`. -/
structure aluMatrix (K : Type) where
  m0 : aluVector K
  m1 : aluVector K
  m2 : aluVector K
  m3 : aluVector K

/-- The struct `DirectParams`: the dry path of a voice.  `OutBuffer` is the number of channel
rows by which the pointer is advanced from `Device->DryBuffer`. -/
structure DirectParams (K : Type) where
  OutBuffer : Nat
  OutChannels : Nat
  Gains : Nat → Nat → MixGains K
  Hrtf : Nat → HrtfParams K
  Filters : Nat → VoiceFilter K
  Counter : Nat
  Moving : Bool
  LastGain : K
  LastDir : aluVector K

/-- The struct `SendParams`: one auxiliary send of a voice.  `OutBuffer` is `none` for `NULL`
and `some b` for the wet buffer `b` of an effect slot. -/
structure SendParams (K : Type) where
  OutBuffer : Option Nat
  Gain : MixGains K
  Filters : Nat → VoiceFilter K
  Counter : Nat
  Moving : Bool

/-- Function `UpdateDryStepping` (ALu.c 204-238). -/
def UpdateDryStepping (cfg : Consts K) (params : DirectParams K) (num_chans steps : Nat) :
    DirectParams K :=
  if steps < 2 then
    let Gains := forLoop num_chans (fun i G =>
      Function.update G i (forLoop params.OutChannels (fun j gains =>
        let g := gains j
        Function.update gains j { Current := g.Target, Step := 0, Target := g.Target }) (G i)))
      params.Gains
    { params with Gains := Gains, Counter := 0 }
  else
    let delta : K := 1 / (steps : K)
    let Gains := forLoop num_chans (fun i G =>
      Function.update G i (forLoop params.OutChannels (fun j gains =>
        let diff := (gains j).Target - (gains j).Current
        if |diff| ≥ cfg.GAIN_SILENCE_THRESHOLD then
          Function.update gains j { gains j with Step := diff * delta }
        else
          Function.update gains j { gains j with Step := 0 }) (G i)))
      params.Gains
    { params with Gains := Gains, Counter := steps }

/-- Function `UpdateWetStepping` (ALu.c 240-262). -/
def UpdateWetStepping (cfg : Consts K) (params : SendParams K) (steps : Nat) : SendParams K :=
  if steps < 2 then
    let g := params.Gain
    { params with
      Gain := { Current := g.Target, Step := 0, Target := g.Target }
      Counter := 0 }
  else
    let delta : K := 1 / (steps : K)
    let diff := params.Gain.Target - params.Gain.Current
    let Gain : MixGains K :=
      if |diff| ≥ cfg.GAIN_SILENCE_THRESHOLD then
        { params.Gain with Step := diff * delta }
      else
        { params.Gain with Step := 0 }
    { params with Gain := Gain, Counter := steps }

/-! ## Math kernel -/

/-- Function `aluVectorSet`. -/
def aluVectorSet (x y z w : K) : aluVector K := { v0 := x, v1 := y, v2 := z, v3 := w }

/-- Function `aluMatrixSetRow`: overwrite row `row` (0..3) of the matrix. -/
def aluMatrixSetRow (matrix : aluMatrix K) (row : Nat) (m0 m1 m2 m3 : K) : aluMatrix K :=
  match row with
  | 0 => { matrix with m0 := aluVectorSet m0 m1 m2 m3 }
  | 1 => { matrix with m1 := aluVectorSet m0 m1 m2 m3 }
  | 2 => { matrix with m2 := aluVectorSet m0 m1 m2 m3 }
  | 3 => { matrix with m3 := aluVectorSet m0 m1 m2 m3 }
  | _ => matrix

/-- Function `aluMatrixSet`. -/
def aluMatrixSet (m00 m01 m02 m03 m10 m11 m12 m13 m20 m21 m22 m23 m30 m31 m32 m33 : K) :
    aluMatrix K :=
  { m0 := aluVectorSet m00 m01 m02 m03
    m1 := aluVectorSet m10 m11 m12 m13
    m2 := aluVectorSet m20 m21 m22 m23
    m3 := aluVectorSet m30 m31 m32 m33 }

/-- The row `mtx->m[c]` of a matrix. -/
def aluMatrix.row (mtx : aluMatrix K) (c : Nat) : aluVector K :=
  match c with
  | 0 => mtx.m0
  | 1 => mtx.m1
  | 2 => mtx.m2
  | _ => mtx.m3

/-- Function `aluCrossproduct` (ALu.c 133-138). -/
def aluCrossproduct (inVector1 inVector2 : Float3 K) : Float3 K :=
  { e0 := inVector1.e1 * inVector2.e2 - inVector1.e2 * inVector2.e1
    e1 := inVector1.e2 * inVector2.e0 - inVector1.e0 * inVector2.e2
    e2 := inVector1.e0 * inVector2.e1 - inVector1.e1 * inVector2.e0 }

/-- Function `aluDotproduct` (ALu.c 140-143): only the first three components take part. -/
def aluDotproduct (vec1 vec2 : aluVector K) : K :=
  vec1.v0 * vec2.v0 + vec1.v1 * vec2.v1 + vec1.v2 * vec2.v2

/-- Function `aluNormalize` (ALu.c 145-155) on an `ALfloat[3]`. -/
def aluNormalize (lm : Libm K) (vec : Float3 K) : Float3 K :=
  let lengthsqr := vec.e0 * vec.e0 + vec.e1 * vec.e1 + vec.e2 * vec.e2
  if lengthsqr > 0 then
    let inv_length := 1 / lm.sqrtf lengthsqr
    { e0 := vec.e0 * inv_length, e1 := vec.e1 * inv_length, e2 := vec.e2 * inv_length }
  else vec

/-- `aluNormalize(vec.v)` applied to the first three components of an `aluVector`; the fourth
component is not touched. -/
def aluVector.normalize (lm : Libm K) (vec : aluVector K) : aluVector K :=
  let n := aluNormalize lm { e0 := vec.v0, e1 := vec.v1, e2 := vec.v2 }
  { v0 := n.e0, v1 := n.e1, v2 := n.e2, v3 := vec.v3 }

/-- Function `aluMatrixVector` (ALu.c 157-165): `vec'[i] = Σ_j vec[j]*mtx->m[j][i]`. -/
def aluMatrixVector (vec : aluVector K) (mtx : aluMatrix K) : aluVector K :=
  let v := vec
  { v0 := v.v0 * mtx.m0.v0 + v.v1 * mtx.m1.v0 + v.v2 * mtx.m2.v0 + v.v3 * mtx.m3.v0
    v1 := v.v0 * mtx.m0.v1 + v.v1 * mtx.m1.v1 + v.v2 * mtx.m2.v1 + v.v3 * mtx.m3.v1
    v2 := v.v0 * mtx.m0.v2 + v.v1 * mtx.m1.v2 + v.v2 * mtx.m2.v2 + v.v3 * mtx.m3.v2
    v3 := v.v0 * mtx.m0.v3 + v.v1 * mtx.m1.v3 + v.v2 * mtx.m2.v3 + v.v3 * mtx.m3.v3 }

/-- Function `CalcFadeTime` (ALu.c 172-201). -/
def CalcFadeTime (lm : Libm K) (cfg : Consts K) (oldGain newGain : K)
    (olddir newdir : aluVector K) : K :=
  let newGain := maxf newGain 0.0001
  let oldGain := maxf oldGain 0.0001
  let gainChange := |lm.log10f (newGain / oldGain) / lm.log10f 0.0001|
  let angleChange : K :=
    if gainChange > 0.0001 ∨ newGain > 0.0001 then
      if newdir.v0 ≠ olddir.v0 ∨ newdir.v1 ≠ olddir.v1 ∨ newdir.v2 ≠ olddir.v2 then
        let dotp := aluDotproduct olddir newdir
        lm.acosf (clampf dotp (-1) 1) / cfg.F_PI
      else 0
    else 0
  let change := maxf (angleChange * 25) gainChange * 2
  minf change 1 * 0.015

/-! ## Listener -/

/-- The derived block `Listener->Params`. -/
structure ListenerParams (K : Type) where
  Matrix : aluMatrix K
  Velocity : aluVector K

/-- The fields of `ALlistener` that `ALu.c` uses. -/
structure ALlistener (K : Type) where
  Position : aluVector K
  Velocity : aluVector K
  Forward : Float3 K
  Up : Float3 K
  Gain : K
  MetersPerUnit : K
  Params : ListenerParams K

/-- Function `CalcListenerParams` (ALu.c 265-296). -/
def CalcListenerParams (lm : Libm K) (Listener : ALlistener K) : ALlistener K :=
  /- AT then UP -/
  let N := aluNormalize lm Listener.Forward
  let V := aluNormalize lm Listener.Up
  /- Build and normalize right-vector -/
  let U := aluNormalize lm (aluCrossproduct N V)
  let P := Listener.Position
  let Matrix := aluMatrixSet
    U.e0 V.e0 (-N.e0) 0
    U.e1 V.e1 (-N.e1) 0
    U.e2 V.e2 (-N.e2) 0
    0 0 0 1
  let P := aluMatrixVector P Matrix
  let Matrix := aluMatrixSetRow Matrix 3 (-P.v0) (-P.v1) (-P.v2) 1
  let Velocity := aluMatrixVector Listener.Velocity Matrix
  { Listener with Params := { Matrix := Matrix, Velocity := Velocity } }

/-! ## Sources, buffers, effect slots, devices, contexts, voices -/

/-- The enum `DistanceModel`. -/
inductive DistanceModel where
  | InverseDistanceClamped
  | LinearDistanceClamped
  | ExponentDistanceClamped
  | InverseDistance
  | LinearDistance
  | ExponentDistance
  | DisableDistance
  deriving DecidableEq, Repr

/-- The output channel names of `enum Channel` that `ALu.c` mentions. -/
inductive Channel where
  | FrontLeft
  | FrontRight
  | FrontCenter
  | LFE
  | BackLeft
  | BackRight
  | BackCenter
  | SideLeft
  | SideRight
  deriving DecidableEq, Repr

/-- The enum `FmtChannels`: channel layout of a buffer. -/
inductive FmtChannels where
  | FmtMono
  | FmtStereo
  | FmtRear
  | FmtQuad
  | FmtX51
  | FmtX61
  | FmtX71
  | FmtBFormat2D
  | FmtBFormat3D
  deriving DecidableEq, Repr

/-- The enum `DevFmtChannels`: channel layout of a device (`ALu.c` only tests for
`DevFmtStereo`). -/
inductive DevFmtChannels where
  | DevFmtMono
  | DevFmtStereo
  | DevFmtQuad
  | DevFmtX51
  | DevFmtX51Side
  | DevFmtX61
  | DevFmtX71
  deriving DecidableEq, Repr

/-- The effect types that `ALu.c` distinguishes: the null effect, the two reverbs, anything
else. -/
inductive EffectType where
  | AL_EFFECT_NULL
  | AL_EFFECT_REVERB
  | AL_EFFECT_EAXREVERB
  | other (code : Nat)
  deriving DecidableEq, Repr

/-- Modelled from the spec: `IsReverbEffect` is defined in `alAuxEffectSlot.h`; it holds of the
reverb-family effects. -/
def IsReverbEffect (type : EffectType) : Bool :=
  type = EffectType.AL_EFFECT_REVERB || type = EffectType.AL_EFFECT_EAXREVERB

/-- The fields of `Slot->EffectProps.Reverb` that `ALu.c` reads. -/
structure ReverbProps (K : Type) where
  RoomRolloffFactor : K
  DecayTime : K
  AirAbsorptionGainHF : K

/-- The fields of `ALeffectslot` that the parameter calculators read.  `WetBuffer` identifies the
slot's wet buffer. -/
structure ALeffectslot (K : Type) where
  EffectType : EffectType
  AuxSendAuto : Bool
  Reverb : ReverbProps K
  WetBuffer : Nat

/-- The fields of `ALbuffer` that `ALu.c` reads. -/
structure ALbuffer where
  Frequency : Int
  FmtChannels : FmtChannels
  deriving DecidableEq, Repr

/-- The HRTF data set `struct Hrtf`, which `ALu.c` only hands to the HRTF lookup functions. -/
structure Hrtf where
  sampleRate : Nat
  irSize : Nat
  deriving DecidableEq, Repr

/-- The fields of `ALCdevice` that the parameter calculators read.  `Hrtf` is `none` for a
`NULL` pointer; `DefaultSlot` likewise. -/
structure ALCdevice (K : Type) where
  Frequency : Nat
  NumChannels : Nat
  NumAuxSends : Nat
  FmtChans : DevFmtChannels
  Hrtf : Option Hrtf
  DefaultSlot : Option (ALeffectslot K)

/-- The direct-path filter block `ALSource->Direct`. -/
structure SourceDirect (K : Type) where
  Gain : K
  GainHF : K
  HFReference : K
  GainLF : K
  LFReference : K

/-- One auxiliary send `ALSource->Send[i]`. -/
structure SourceSend (K : Type) where
  Slot : Option (ALeffectslot K)
  Gain : K
  GainHF : K
  HFReference : K
  GainLF : K
  LFReference : K

/-- The fields of `ALsource` that the parameter calculators read.  `queue` is the buffer list;
an item whose `buffer` pointer is `NULL` is `none`.  `Orientation0` and `Orientation1` are the
rows `Orientation[0]` (AT) and `Orientation[1]` (UP). -/
structure ALsource (K : Type) where
  Pitch : K
  Gain : K
  OuterGain : K
  MinGain : K
  MaxGain : K
  InnerAngle : K
  OuterAngle : K
  RefDistance : K
  MaxDistance : K
  RollOffFactor : K
  Position : aluVector K
  Velocity : aluVector K
  Direction : aluVector K
  Orientation0 : Float3 K
  Orientation1 : Float3 K
  HeadRelative : Bool
  DistanceModel : DistanceModel
  DirectChannels : Bool
  DryGainHFAuto : Bool
  WetGainAuto : Bool
  WetGainHFAuto : Bool
  OuterGainHF : K
  AirAbsorptionFactor : K
  RoomRolloffFactor : K
  DopplerFactor : K
  Radius : K
  queue : List (Option ALbuffer)
  Direct : SourceDirect K
  Send : Nat → SourceSend K

/-- The fields of `ALCcontext` that the parameter calculators read. -/
structure ALCcontext (K : Type) where
  Listener : ALlistener K
  SourceDistanceModel : Bool
  DistanceModel : DistanceModel
  DopplerFactor : K
  DopplerVelocity : K
  SpeedOfSound : K
  Device : ALCdevice K

/-- The mixing parameters of `ALvoice` that the parameter calculators write.  `Step` holds the
integer value that the code stores into `voice->Step`. -/
structure ALvoice (K : Type) where
  Step : Int
  IsHrtf : Bool
  Direct : DirectParams K
  Send : Nat → SendParams K

/-- The functions of other translation units (`panning.c`, `hrtf.c`, `alMain.h`) called by the
parameter calculators.  A function that fills an output array returns the array. -/
structure Externs (K : Type) where
  /-- `ComputeAngleGains(device, angle, elevation, ingain, gains)`. -/
  ComputeAngleGains : ALCdevice K → K → K → K → Nat → K
  /-- `ComputeDirectionalGains(device, dir, ingain, gains)`. -/
  ComputeDirectionalGains : ALCdevice K → Float3 K → K → Nat → K
  /-- `ComputeBFormatGains(device, mtx, ingain, gains)`. -/
  ComputeBFormatGains : ALCdevice K → aluVector K → K → Nat → K
  /-- `GetChannelIdxByName(device, chan)`, `-1` when the layout has no such channel. -/
  GetChannelIdxByName : ALCdevice K → Channel → Int
  /-- `GetLerpedHrtfCoeffs(Hrtf, elevation, azimuth, dirfact, gain, coeffs, delays)`: the
  coefficients and delays it writes. -/
  GetLerpedHrtfCoeffs : Hrtf → K → K → K → K → (Nat → Nat → K) × (Nat → Nat)
  /-- `GetMovingHrtfCoeffs(Hrtf, elevation, azimuth, dirfact, gain, delta, counter, coeffs,
  delays, coeffStep, delayStep)`: the parameter block it leaves and the counter it returns. -/
  GetMovingHrtfCoeffs : Hrtf → K → K → K → K → K → Nat → HrtfParams K → HrtfParams K × Nat

/-! ## Pieces shared by both parameter calculators -/

/-- Modelled from the spec: the macro `DEG2RAD` of `alu.h`, `x * (F_PI/180)`. -/
def DEG2RAD (cfg : Consts K) (x : K) : K := x * (cfg.F_PI / 180)

/-- Modelled from the spec: the macro `RAD2DEG` of `alu.h`, `x * (180/F_PI)`. -/
def RAD2DEG (cfg : Consts K) (x : K) : K := x * (180 / cfg.F_PI)

/-- The walk over the buffer queue, `while(BufferListItem != NULL)`: the first item with a
non-`NULL` buffer. -/
def firstBuffer : List (Option ALbuffer) → Option ALbuffer
  | [] => none
  | some ALBuffer :: _ => some ALBuffer
  | none :: next => firstBuffer next

/-- The variable `Channels` of `CalcNonAttnSourceParams` (ALu.c 393-414): the layout of the
first buffer of the queue, `FmtMono` when the queue has no buffer. -/
def bufferChannels (ALSource : ALsource K) : FmtChannels :=
  match firstBuffer ALSource.queue with
  | some ALBuffer => ALBuffer.FmtChannels
  | none => FmtChannels.FmtMono

/-- The slot a send uses: `ALSource->Send[i].Slot`, replaced for send 0 by the device's default
slot when it is `NULL`. -/
def sendSlot (Device : ALCdevice K) (ALSource : ALsource K) (i : Nat) : Option (ALeffectslot K) :=
  let Slot := (ALSource.Send i).Slot
  if Slot.isNone ∧ i = 0 then Device.DefaultSlot else Slot

/-- The buffer that the first send loop of `CalcNonAttnSourceParams` (ALu.c 383-389) stores in
`voice->Send[i].OutBuffer`: `NULL` when the send has no slot or the slot runs the null effect,
the slot's wet buffer otherwise. -/
def sendOutBuffer (Device : ALCdevice K) (ALSource : ALsource K) (i : Nat) : Option Nat :=
  match sendSlot Device ALSource i with
  | none => none
  | some Slot =>
    if Slot.EffectType = EffectType.AL_EFFECT_NULL then none else some Slot.WetBuffer

/-- The loop `for(j = 0;j < n;j++) gains[j].Target = Target[j];` on one row of gains. -/
def storeTargets (n : Nat) (Target : Nat → K) (gains : Nat → MixGains K) : Nat → MixGains K :=
  forLoop n (fun j gains => Function.update gains j { gains j with Target := Target j }) gains

/-- The closing send loop of both calculators (ALu.c 630-635 and 1093-1098): store the wet gain
as target, update the stepping, mark the send as moving. -/
def updateSendGains (cfg : Consts K) (NumSends : Nat) (WetGain : Nat → K)
    (Send : Nat → SendParams K) : Nat → SendParams K :=
  forLoop NumSends (fun i Send =>
    let s : SendParams K := { Send i with Gain := { (Send i).Gain with Target := WetGain i } }
    let s := UpdateWetStepping cfg s (if s.Moving then 64 else 0)
    Function.update Send i { s with Moving := true }) Send

/-- The shelf-filter set-up of one `Filters[c]` entry (ALu.c 644-654, 665-675, 1105-1115,
1123-1133). -/
def setVoiceFilter (gainhf gainlf hfscale lfscale : K) (f : VoiceFilter K) : VoiceFilter K :=
  let ActiveType := AF_None
  let ActiveType := if gainhf ≠ 1 then { ActiveType with AF_LowPass := true } else ActiveType
  let ActiveType := if gainlf ≠ 1 then { ActiveType with AF_HighPass := true } else ActiveType
  { ActiveType := ActiveType
    LowPass := ALfilterState_setParams f.LowPass ALfilterType.ALfilterType_HighShelf gainhf
      hfscale 0
    HighPass := ALfilterState_setParams f.HighPass ALfilterType.ALfilterType_LowShelf gainlf
      lfscale 0 }

end Field

section Floor

variable {K : Type} [LinearOrderedField K] [FloorRing K]

/-- Modelled from the spec: `fastf2i` is defined in `alu.h`; it converts a float to the nearest
integer (`round`). -/
def fastf2i (f : K) : Int := round f

/-- The fixed-point stepping value stored in `voice->Step` for the pitch `Pitch` (already scaled
by the buffer and device frequencies), ALu.c 401-408 and 993-1000. -/
def pitchStep (cfg : Consts K) (Pitch : K) : Int :=
  if Pitch > (cfg.MAX_PITCH : K) then
    ((cfg.MAX_PITCH <<< cfg.FRACTIONBITS : Nat) : Int)
  else
    let Step := fastf2i (Pitch * (cfg.FRACTIONONE : K))
    if Step = 0 then 1 else Step

/-! ## `CalcSourceParams`: the spatial path -/

/-- What the first send loop of `CalcSourceParams` (ALu.c 750-792) derives for one send. -/
structure RoomParams (K : Type) where
  RoomRolloff : K
  DecayDistance : K
  RoomAirAbsorption : K
  OutBuffer : Option Nat

/-- The body of the first send loop of `CalcSourceParams` (ALu.c 752-791) for send `i`. -/
def roomParams (cfg : Consts K) (Device : ALCdevice K) (ALSource : ALsource K) (i : Nat) :
    RoomParams K :=
  let Rolloff := ALSource.RollOffFactor
  let RoomRolloffBase := ALSource.RoomRolloffFactor
  match sendSlot Device ALSource i with
  | none =>
    { RoomRolloff := 0, DecayDistance := 0, RoomAirAbsorption := 1, OutBuffer := none }
  | some Slot =>
    if Slot.EffectType = EffectType.AL_EFFECT_NULL then
      { RoomRolloff := 0, DecayDistance := 0, RoomAirAbsorption := 1, OutBuffer := none }
    else if Slot.AuxSendAuto then
      if IsReverbEffect Slot.EffectType then
        { RoomRolloff := RoomRolloffBase + Slot.Reverb.RoomRolloffFactor
          DecayDistance := Slot.Reverb.DecayTime * cfg.SPEEDOFSOUNDMETRESPERSEC
          RoomAirAbsorption := Slot.Reverb.AirAbsorptionGainHF
          OutBuffer := some Slot.WetBuffer }
      else
        { RoomRolloff := RoomRolloffBase, DecayDistance := 0, RoomAirAbsorption := 1
          OutBuffer := some Slot.WetBuffer }
    else
      /- If the slot's auxiliary send auto is off, the data sent to the effect slot is the same
      as the dry path, sans filter effects -/
      { RoomRolloff := Rolloff, DecayDistance := 0, RoomAirAbsorption := cfg.AIRABSORBGAINHF
        OutBuffer := some Slot.WetBuffer }

/-- The values the distance-model switch (ALu.c 821-882) leaves: the clamped distance, the dry
attenuation and the room attenuation of each send. -/
structure DistanceAtten (K : Type) where
  ClampedDist : K
  Attenuation : K
  RoomAttenuation : Nat → K

/-- The body of `case InverseDistance` (ALu.c 835-845). -/
def caseInverseDistance (MinDist ClampedDist Rolloff : K) (RoomRolloff : Nat → K) :
    DistanceAtten K :=
  if MinDist > 0 then
    let dist := lerp MinDist ClampedDist Rolloff
    { ClampedDist := ClampedDist
      Attenuation := if dist > 0 then MinDist / dist else 1
      RoomAttenuation := fun i =>
        let dist := lerp MinDist ClampedDist (RoomRolloff i)
        if dist > 0 then MinDist / dist else 1 }
  else
    { ClampedDist := ClampedDist, Attenuation := 1, RoomAttenuation := fun _ => 1 }

/-- The body of `case LinearDistance` (ALu.c 853-863). -/
def caseLinearDistance (MinDist MaxDist ClampedDist Rolloff : K) (RoomRolloff : Nat → K) :
    DistanceAtten K :=
  if MaxDist ≠ MinDist then
    { ClampedDist := ClampedDist
      Attenuation := maxf (1 - (Rolloff * (ClampedDist - MinDist) / (MaxDist - MinDist))) 0
      RoomAttenuation := fun i =>
        maxf (1 - (RoomRolloff i * (ClampedDist - MinDist) / (MaxDist - MinDist))) 0 }
  else
    { ClampedDist := ClampedDist, Attenuation := 1, RoomAttenuation := fun _ => 1 }

/-- The body of `case ExponentDistance` (ALu.c 871-877). -/
def caseExponentDistance (lm : Libm K) (MinDist ClampedDist Rolloff : K)
    (RoomRolloff : Nat → K) : DistanceAtten K :=
  if ClampedDist > 0 ∧ MinDist > 0 then
    { ClampedDist := ClampedDist
      Attenuation := lm.powf (ClampedDist / MinDist) (-Rolloff)
      RoomAttenuation := fun i => lm.powf (ClampedDist / MinDist) (-(RoomRolloff i)) }
  else
    { ClampedDist := ClampedDist, Attenuation := 1, RoomAttenuation := fun _ => 1 }

/-- The distance-model switch of `CalcSourceParams` (ALu.c 821-882).  A clamped case clamps the
distance, leaves the switch when `MaxDist < MinDist`, and otherwise falls through into the
unclamped case.  Entry `i` of `RoomAttenuation` is the value of `RoomAttenuation[i]`, which the
code computes for the sends `i < NumSends`. -/
def distanceAttenuation (lm : Libm K) (model : DistanceModel)
    (Distance MinDist MaxDist Rolloff : K) (RoomRolloff : Nat → K) : DistanceAtten K :=
  let ClampedDist := Distance
  let start : DistanceAtten K :=
    { ClampedDist := ClampedDist, Attenuation := 1, RoomAttenuation := fun _ => 1 }
  match model with
  | DistanceModel.InverseDistanceClamped =>
    let ClampedDist := clampf ClampedDist MinDist MaxDist
    if MaxDist < MinDist then { start with ClampedDist := ClampedDist }
    else caseInverseDistance MinDist ClampedDist Rolloff RoomRolloff
  | DistanceModel.InverseDistance =>
    caseInverseDistance MinDist ClampedDist Rolloff RoomRolloff
  | DistanceModel.LinearDistanceClamped =>
    let ClampedDist := clampf ClampedDist MinDist MaxDist
    if MaxDist < MinDist then { start with ClampedDist := ClampedDist }
    else caseLinearDistance MinDist MaxDist ClampedDist Rolloff RoomRolloff
  | DistanceModel.LinearDistance =>
    caseLinearDistance MinDist MaxDist ClampedDist Rolloff RoomRolloff
  | DistanceModel.ExponentDistanceClamped =>
    let ClampedDist := clampf ClampedDist MinDist MaxDist
    if MaxDist < MinDist then { start with ClampedDist := ClampedDist }
    else caseExponentDistance lm MinDist ClampedDist Rolloff RoomRolloff
  | DistanceModel.ExponentDistance =>
    caseExponentDistance lm MinDist ClampedDist Rolloff RoomRolloff
  | DistanceModel.DisableDistance =>
    { start with ClampedDist := MinDist }

/-- The spec's reading of a clamped distance model, "clamp then call unclamped" (spec §4.6
step 4 and §9): if `MaxDist < MinDist` every attenuation is 1, otherwise the attenuations are
those of the unclamped model `unclamped` at the distance `clamp(Distance, MinDist, MaxDist)`.
This definition follows the spec's words; `distanceAttenuation` is the one taken from the
code. -/
def clampThenUnclamped (lm : Libm K) (unclamped : DistanceModel)
    (Distance MinDist MaxDist Rolloff : K) (RoomRolloff : Nat → K) : DistanceAtten K :=
  if MaxDist < MinDist then
    { ClampedDist := clampf Distance MinDist MaxDist, Attenuation := 1
      RoomAttenuation := fun _ => 1 }
  else
    distanceAttenuation lm unclamped (clampf Distance MinDist MaxDist) MinDist MaxDist Rolloff
      RoomRolloff

/-- The cone gains `ConeVolume` and `ConeHF`. -/
structure ConeGains (K : Type) where
  ConeVolume : K
  ConeHF : K

/-- The directional sound cone of `CalcSourceParams` (ALu.c 918-933) for the cone angle
`Angle`. -/
def coneGains (Angle InnerAngle OuterAngle OuterGain OuterGainHF : K) : ConeGains K :=
  if Angle > InnerAngle ∧ Angle ≤ OuterAngle then
    let scale := (Angle - InnerAngle) / (OuterAngle - InnerAngle)
    { ConeVolume := lerp 1 OuterGain scale, ConeHF := lerp 1 OuterGainHF scale }
  else if Angle > OuterAngle then
    { ConeVolume := OuterGain, ConeHF := OuterGainHF }
  else
    { ConeVolume := 1, ConeHF := 1 }

/-- The velocity-based doppler effect of `CalcSourceParams` (ALu.c 966-982): the pitch after
the doppler shift. -/
def dopplerPitch (Pitch DopplerFactor SpeedOfSound : K)
    (Velocity lvelocity SourceToListener : aluVector K) : K :=
  if DopplerFactor > 0 then
    let DopplerFactor' := if SpeedOfSound < 1 then DopplerFactor * (1 / SpeedOfSound)
      else DopplerFactor
    let SpeedOfSound' := if SpeedOfSound < 1 then 1 else SpeedOfSound
    let VSS := aluDotproduct Velocity SourceToListener * DopplerFactor'
    let VLS := aluDotproduct lvelocity SourceToListener * DopplerFactor'
    Pitch * (clampf (SpeedOfSound' - VLS) 1 (SpeedOfSound' * 2 - 1) /
             clampf (SpeedOfSound' - VSS) 1 (SpeedOfSound' * 2 - 1))
  else Pitch

/-- The local variables of `CalcSourceParams` at the point where the voice is written
(ALu.c 1006).  Entry `i` of a per-send array is the value the code computes for send `i`
(`i < NumSends`). -/
structure SourceLocals (K : Type) where
  Position : aluVector K
  Velocity : aluVector K
  Direction : aluVector K
  SourceToListener : aluVector K
  Distance : K
  ClampedDist : K
  Attenuation : K
  RoomAttenuation : Nat → K
  Angle : K
  ConeVolume : K
  ConeHF : K
  DryGain : K
  DryGainHF : K
  DryGainLF : K
  WetGain : Nat → K
  WetGainHF : Nat → K
  WetGainLF : Nat → K
  Pitch : K

/-- The computation of `CalcSourceParams` from the source properties up to the doppler shift
(ALu.c 711-982), without the writes to the voice. -/
def sourceLocals (lm : Libm K) (cfg : Consts K) (ALSource : ALsource K)
    (ALContext : ALCcontext K) : SourceLocals K :=
  let Device := ALContext.Device
  /- Get context/device properties -/
  let DopplerFactor := ALContext.DopplerFactor * ALSource.DopplerFactor
  let SpeedOfSound := ALContext.SpeedOfSound * ALContext.DopplerVelocity
  /- Get listener properties -/
  let ListenerGain := ALContext.Listener.Gain
  let MetersPerUnit := ALContext.Listener.MetersPerUnit
  /- Get source properties -/
  let SourceVolume := ALSource.Gain
  let MinVolume := ALSource.MinGain
  let MaxVolume := ALSource.MaxGain
  let Pitch := ALSource.Pitch
  let Position := ALSource.Position
  let Direction := ALSource.Direction
  let Velocity := ALSource.Velocity
  let MinDist := ALSource.RefDistance
  let MaxDist := ALSource.MaxDistance
  let Rolloff := ALSource.RollOffFactor
  let InnerAngle := ALSource.InnerAngle
  let OuterAngle := ALSource.OuterAngle
  let AirAbsorptionFactor := ALSource.AirAbsorptionFactor
  let DryGainHFAuto := ALSource.DryGainHFAuto
  let WetGainAuto := ALSource.WetGainAuto
  let WetGainHFAuto := ALSource.WetGainHFAuto
  let Room := roomParams cfg Device ALSource
  /- Transform source to listener space (convert to head relative) -/
  let Matrix := ALContext.Listener.Params.Matrix
  let lvelocity := ALContext.Listener.Params.Velocity
  let Position := if ALSource.HeadRelative = false then aluMatrixVector Position Matrix
    else Position
  let Direction := if ALSource.HeadRelative = false then aluMatrixVector Direction Matrix
    else Direction
  let Velocity := if ALSource.HeadRelative = false then aluMatrixVector Velocity Matrix
    else
      /- Offset the source velocity to be relative of the listener velocity -/
      { Velocity with v0 := Velocity.v0 + lvelocity.v0, v1 := Velocity.v1 + lvelocity.v1
                      v2 := Velocity.v2 + lvelocity.v2 }
  let SourceToListener : aluVector K :=
    aluVector.normalize lm { v0 := -Position.v0, v1 := -Position.v1, v2 := -Position.v2, v3 := 0 }
  let Direction := aluVector.normalize lm Direction
  /- Calculate distance attenuation -/
  let Distance := lm.sqrtf (aluDotproduct Position Position)
  let model := if ALContext.SourceDistanceModel then ALSource.DistanceModel
    else ALContext.DistanceModel
  let att := distanceAttenuation lm model Distance MinDist MaxDist Rolloff
    (fun i => (Room i).RoomRolloff)
  let ClampedDist := att.ClampedDist
  let Attenuation := att.Attenuation
  let RoomAttenuation := att.RoomAttenuation
  /- Source Gain + Attenuation -/
  let DryGain := SourceVolume * Attenuation
  let WetGain : Nat → K := fun i => SourceVolume * RoomAttenuation i
  let DryGainHF : K := 1
  let DryGainLF : K := 1
  let WetGainHF : Nat → K := fun _ => 1
  let WetGainLF : Nat → K := fun _ => 1
  /- Distance-based air absorption -/
  let meters := (ClampedDist - MinDist) * MetersPerUnit
  let DryGainHF := if AirAbsorptionFactor > 0 ∧ ClampedDist > MinDist then
      DryGainHF * lm.powf cfg.AIRABSORBGAINHF (AirAbsorptionFactor * meters)
    else DryGainHF
  let WetGainHF : Nat → K := fun i =>
    if AirAbsorptionFactor > 0 ∧ ClampedDist > MinDist then
      WetGainHF i * lm.powf (Room i).RoomAirAbsorption (AirAbsorptionFactor * meters)
    else WetGainHF i
  /- Apply a decay-time transformation to the wet path, based on the attenuation of the dry
  path. -/
  let ApparentDist := 1 / maxf Attenuation 0.00001 - 1
  let WetGain : Nat → K := fun i =>
    if WetGainAuto = true ∧ (Room i).DecayDistance > 0 then
      WetGain i * lm.powf 0.001 (ApparentDist / (Room i).DecayDistance)
    else WetGain i
  /- Calculate directional soundcones -/
  let Angle := RAD2DEG cfg (lm.acosf (aluDotproduct Direction SourceToListener) * cfg.ConeScale) * 2
  let cone := coneGains Angle InnerAngle OuterAngle ALSource.OuterGain ALSource.OuterGainHF
  let ConeVolume := cone.ConeVolume
  let ConeHF := cone.ConeHF
  let DryGain := DryGain * ConeVolume
  let WetGain : Nat → K := fun i => if WetGainAuto then WetGain i * ConeVolume else WetGain i
  let DryGainHF := if DryGainHFAuto then DryGainHF * ConeHF else DryGainHF
  let WetGainHF : Nat → K := fun i => if WetGainHFAuto then WetGainHF i * ConeHF else WetGainHF i
  /- Clamp to Min/Max Gain -/
  let DryGain := clampf DryGain MinVolume MaxVolume
  let WetGain : Nat → K := fun i => clampf (WetGain i) MinVolume MaxVolume
  /- Apply gain and frequency filters -/
  let DryGain := DryGain * (ALSource.Direct.Gain * ListenerGain)
  let DryGainHF := DryGainHF * ALSource.Direct.GainHF
  let DryGainLF := DryGainLF * ALSource.Direct.GainLF
  let WetGain : Nat → K := fun i => WetGain i * ((ALSource.Send i).Gain * ListenerGain)
  let WetGainHF : Nat → K := fun i => WetGainHF i * (ALSource.Send i).GainHF
  let WetGainLF : Nat → K := fun i => WetGainLF i * (ALSource.Send i).GainLF
  /- Calculate velocity-based doppler effect -/
  let Pitch := dopplerPitch Pitch DopplerFactor SpeedOfSound Velocity lvelocity SourceToListener
  { Position := Position, Velocity := Velocity, Direction := Direction
    SourceToListener := SourceToListener, Distance := Distance, ClampedDist := ClampedDist
    Attenuation := Attenuation, RoomAttenuation := RoomAttenuation, Angle := Angle
    ConeVolume := ConeVolume, ConeHF := ConeHF, DryGain := DryGain, DryGainHF := DryGainHF
    DryGainLF := DryGainLF, WetGain := WetGain, WetGainHF := WetGainHF, WetGainLF := WetGainLF
    Pitch := Pitch }

/-- Function `CalcSourceParams` (ALu.c 680-1135): the update of a voice playing a mono,
spatialised source. -/
def CalcSourceParams (lm : Libm K) (ext : Externs K) (cfg : Consts K) (voice : ALvoice K)
    (ALSource : ALsource K) (ALContext : ALCcontext K) : ALvoice K :=
  let Device := ALContext.Device
  let NumSends := Device.NumAuxSends
  let Frequency := Device.Frequency
  let L := sourceLocals lm cfg ALSource ALContext
  let Position := L.Position
  let Distance := L.Distance
  let DryGain := L.DryGain
  /- ALu.c 748-792 -/
  let voice : ALvoice K :=
    { voice with Direct := { voice.Direct with OutBuffer := 0, OutChannels := Device.NumChannels } }
  let Send := forLoop NumSends (fun i Send =>
    Function.update Send i { Send i with OutBuffer := (roomParams cfg Device ALSource i).OutBuffer })
    voice.Send
  let voice : ALvoice K := { voice with Send := Send }
  /- ALu.c 984-1005 -/
  let Step : Int :=
    match firstBuffer ALSource.queue with
    | some ALBuffer =>
      /- Calculate fixed-point stepping value, based on the pitch, buffer frequency, and output
      frequency. -/
      pitchStep cfg (L.Pitch * (ALBuffer.Frequency : K) / (Frequency : K))
    | none => voice.Step
  let voice : ALvoice K := { voice with Step := Step }
  let voice : ALvoice K :=
    match Device.Hrtf with
    | some Hrtf =>
      /- Use a binaural HRTF algorithm for stereo headphone playback -/
      let dir : aluVector K := { v0 := 0, v1 := 0, v2 := -1, v3 := 0 }
      let radius := ALSource.Radius
      let Direct : DirectParams K :=
        { voice.Direct with OutBuffer := voice.Direct.OutBuffer + voice.Direct.OutChannels
                            OutChannels := 2 }
      let invlen := 1 / Distance
      let dir : aluVector K := if Distance > cfg.FLT_EPSILON then
          { dir with v0 := Position.v0 * invlen, v1 := Position.v1 * invlen
                     v2 := Position.v2 * invlen * cfg.ZScale }
        else dir
      /- Calculate elevation and azimuth only when the source is not at the listener. -/
      let ev : K := if Distance > cfg.FLT_EPSILON then lm.asinf (clampf dir.v1 (-1) 1) else 0
      let az : K := if Distance > cfg.FLT_EPSILON then lm.atan2f dir.v0 (-dir.v2) else 0
      let dirfact : K := if radius > Distance then 1 * (Distance / radius) else 1
      /- Check to see if the HRIR is already moving. -/
      let Direct : DirectParams K :=
        if Direct.Moving then
          let delta := CalcFadeTime lm cfg Direct.LastGain DryGain Direct.LastDir dir
          /- If the delta is large enough, get the moving HRIR target coefficients, target
          delays, steppping values, and counter. -/
          if delta > 0.000015 then
            let r := ext.GetMovingHrtfCoeffs Hrtf ev az dirfact DryGain delta Direct.Counter
              (Direct.Hrtf 0)
            { Direct with Hrtf := Function.update Direct.Hrtf 0 r.1
                          Counter := r.2, LastGain := DryGain, LastDir := dir }
          else Direct
        else
          /- Get the initial (static) HRIR coefficients and delays. -/
          let r := ext.GetLerpedHrtfCoeffs Hrtf ev az dirfact DryGain
          { Direct with
            Hrtf := Function.update Direct.Hrtf 0 { Direct.Hrtf 0 with Coeffs := r.1, Delay := r.2 }
            Counter := 0, Moving := true, LastGain := DryGain, LastDir := dir }
      { voice with Direct := Direct, IsHrtf := true }
    | none =>
      let dir : Float3 K := { e0 := 0, e1 := 0, e2 := -1 }
      let radius := ALSource.Radius
      /- Normalize the length, and compute panned gains. -/
      let invlen := 1 / maxf Distance radius
      let dir : Float3 K := if Distance > cfg.FLT_EPSILON ∨ radius > cfg.FLT_EPSILON then
          { e0 := Position.v0 * invlen, e1 := Position.v1 * invlen
            e2 := Position.v2 * invlen * cfg.ZScale }
        else dir
      let Target := ext.ComputeDirectionalGains Device dir DryGain
      let Direct : DirectParams K :=
        { voice.Direct with
          Gains := Function.update voice.Direct.Gains 0
            (storeTargets cfg.MAX_OUTPUT_CHANNELS Target (voice.Direct.Gains 0)) }
      let Direct := UpdateDryStepping cfg Direct 1 (if Direct.Moving then 64 else 0)
      { voice with Direct := { Direct with Moving := true }, IsHrtf := false }
  let voice : ALvoice K :=
    { voice with Send := updateSendGains cfg NumSends L.WetGain voice.Send }
  /- ALu.c 1100-1134 -/
  let voice : ALvoice K :=
    let gainhf := maxf 0.01 L.DryGainHF
    let gainlf := maxf 0.01 L.DryGainLF
    let hfscale := ALSource.Direct.HFReference / (Frequency : K)
    let lfscale := ALSource.Direct.LFReference / (Frequency : K)
    { voice with Direct := { voice.Direct with
        Filters := Function.update voice.Direct.Filters 0
          (setVoiceFilter gainhf gainlf hfscale lfscale (voice.Direct.Filters 0)) } }
  let Send := forLoop NumSends (fun i Send =>
    let gainhf := maxf 0.01 (L.WetGainHF i)
    let gainlf := maxf 0.01 (L.WetGainLF i)
    let hfscale := (ALSource.Send i).HFReference / (Frequency : K)
    let lfscale := (ALSource.Send i).LFReference / (Frequency : K)
    Function.update Send i { Send i with
      Filters := Function.update (Send i).Filters 0
        (setVoiceFilter gainhf gainlf hfscale lfscale ((Send i).Filters 0)) })
    voice.Send
  { voice with Send := Send }

/-- The locals `dir`, `ev`, `az` and `dirfact` of the HRTF branch of `CalcSourceParams`. -/
structure HrtfDirection (K : Type) where
  dir : aluVector K
  ev : K
  az : K
  dirfact : K

/-- The direction, elevation, azimuth and directional factor the HRTF branch of
`CalcSourceParams` computes from the position and distance of the source (ALu.c 1010-1033). -/
def hrtfDirection (lm : Libm K) (cfg : Consts K) (Position : aluVector K) (Distance radius : K) :
    HrtfDirection K :=
  let dir : aluVector K := { v0 := 0, v1 := 0, v2 := -1, v3 := 0 }
  let invlen := 1 / Distance
  let dir : aluVector K := if Distance > cfg.FLT_EPSILON then
      { dir with v0 := Position.v0 * invlen, v1 := Position.v1 * invlen
                 v2 := Position.v2 * invlen * cfg.ZScale }
    else dir
  /- Calculate elevation and azimuth only when the source is not at the listener. -/
  let ev : K := if Distance > cfg.FLT_EPSILON then lm.asinf (clampf dir.v1 (-1) 1) else 0
  let az : K := if Distance > cfg.FLT_EPSILON then lm.atan2f dir.v0 (-dir.v2) else 0
  let dirfact : K := if radius > Distance then 1 * (Distance / radius) else 1
  { dir := dir, ev := ev, az := az, dirfact := dirfact }


/-- The local `dir` of the panning branch of `CalcSourceParams` for a device without HRTF, as
computed from the position and distance of the source (ALu.c 1072-1083). -/
def panDirection (cfg : Consts K) (Position : aluVector K) (Distance radius : K) : Float3 K :=
  let dir : Float3 K := { e0 := 0, e1 := 0, e2 := -1 }
  /- Normalize the length, and compute panned gains. -/
  let invlen := 1 / maxf Distance radius
  if Distance > cfg.FLT_EPSILON ∨ radius > cfg.FLT_EPSILON then
    { e0 := Position.v0 * invlen, e1 := Position.v1 * invlen
      e2 := Position.v2 * invlen * cfg.ZScale }
  else dir


/-! ## `CalcNonAttnSourceParams`: the non-spatial path -/

/-- The struct `ChanMap`. -/
structure ChanMap (K : Type) where
  channel : Channel
  angle : K
  elevation : K

/-- The table `MonoMap`. -/
def MonoMap : List (ChanMap K) := [⟨Channel.FrontCenter, 0, 0⟩]

/-- The table `StereoMap`. -/
def StereoMap (cfg : Consts K) : List (ChanMap K) :=
  [ ⟨Channel.FrontLeft, DEG2RAD cfg (-30), DEG2RAD cfg 0⟩,
    ⟨Channel.FrontRight, DEG2RAD cfg 30, DEG2RAD cfg 0⟩ ]

/-- The table `StereoWideMap`. -/
def StereoWideMap (cfg : Consts K) : List (ChanMap K) :=
  [ ⟨Channel.FrontLeft, DEG2RAD cfg (-90), DEG2RAD cfg 0⟩,
    ⟨Channel.FrontRight, DEG2RAD cfg 90, DEG2RAD cfg 0⟩ ]

/-- The table `RearMap`. -/
def RearMap (cfg : Consts K) : List (ChanMap K) :=
  [ ⟨Channel.BackLeft, DEG2RAD cfg (-150), DEG2RAD cfg 0⟩,
    ⟨Channel.BackRight, DEG2RAD cfg 150, DEG2RAD cfg 0⟩ ]

/-- The table `QuadMap`. -/
def QuadMap (cfg : Consts K) : List (ChanMap K) :=
  [ ⟨Channel.FrontLeft, DEG2RAD cfg (-45), DEG2RAD cfg 0⟩,
    ⟨Channel.FrontRight, DEG2RAD cfg 45, DEG2RAD cfg 0⟩,
    ⟨Channel.BackLeft, DEG2RAD cfg (-135), DEG2RAD cfg 0⟩,
    ⟨Channel.BackRight, DEG2RAD cfg 135, DEG2RAD cfg 0⟩ ]

/-- The table `X51Map`. -/
def X51Map (cfg : Consts K) : List (ChanMap K) :=
  [ ⟨Channel.FrontLeft, DEG2RAD cfg (-30), DEG2RAD cfg 0⟩,
    ⟨Channel.FrontRight, DEG2RAD cfg 30, DEG2RAD cfg 0⟩,
    ⟨Channel.FrontCenter, DEG2RAD cfg 0, DEG2RAD cfg 0⟩,
    ⟨Channel.LFE, 0, 0⟩,
    ⟨Channel.SideLeft, DEG2RAD cfg (-110), DEG2RAD cfg 0⟩,
    ⟨Channel.SideRight, DEG2RAD cfg 110, DEG2RAD cfg 0⟩ ]

/-- The table `X61Map`. -/
def X61Map (cfg : Consts K) : List (ChanMap K) :=
  [ ⟨Channel.FrontLeft, DEG2RAD cfg (-30), DEG2RAD cfg 0⟩,
    ⟨Channel.FrontRight, DEG2RAD cfg 30, DEG2RAD cfg 0⟩,
    ⟨Channel.FrontCenter, DEG2RAD cfg 0, DEG2RAD cfg 0⟩,
    ⟨Channel.LFE, 0, 0⟩,
    ⟨Channel.BackCenter, DEG2RAD cfg 180, DEG2RAD cfg 0⟩,
    ⟨Channel.SideLeft, DEG2RAD cfg (-90), DEG2RAD cfg 0⟩,
    ⟨Channel.SideRight, DEG2RAD cfg 90, DEG2RAD cfg 0⟩ ]

/-- The table `X71Map`. -/
def X71Map (cfg : Consts K) : List (ChanMap K) :=
  [ ⟨Channel.FrontLeft, DEG2RAD cfg (-30), DEG2RAD cfg 0⟩,
    ⟨Channel.FrontRight, DEG2RAD cfg 30, DEG2RAD cfg 0⟩,
    ⟨Channel.FrontCenter, DEG2RAD cfg 0, DEG2RAD cfg 0⟩,
    ⟨Channel.LFE, 0, 0⟩,
    ⟨Channel.BackLeft, DEG2RAD cfg (-150), DEG2RAD cfg 0⟩,
    ⟨Channel.BackRight, DEG2RAD cfg 150, DEG2RAD cfg 0⟩,
    ⟨Channel.SideLeft, DEG2RAD cfg (-90), DEG2RAD cfg 0⟩,
    ⟨Channel.SideRight, DEG2RAD cfg 90, DEG2RAD cfg 0⟩ ]

/-- The element `chans[c]` of a channel map (`c` is always below the length of the map). -/
def chanAt (chans : List (ChanMap K)) (c : Nat) : ChanMap K :=
  chans.getD c ⟨Channel.FrontCenter, 0, 0⟩

/-- What `switch(Channels)` of `CalcNonAttnSourceParams` (ALu.c 429-483) selects. -/
structure ChannelSetup (K : Type) where
  chans : List (ChanMap K)
  num_channels : Nat
  isbformat : Bool
  DirectChannels : Bool

/-- The statement `switch(Channels)` of `CalcNonAttnSourceParams` (ALu.c 429-483); `chans` is
the empty list where the code leaves the pointer `NULL`. -/
def channelSetup (cfg : Consts K) (Device : ALCdevice K) (Channels : FmtChannels)
    (DirectChannels : Bool) : ChannelSetup K :=
  match Channels with
  | FmtChannels.FmtMono =>
    { chans := MonoMap, num_channels := 1, isbformat := false, DirectChannels := DirectChannels }
  | FmtChannels.FmtStereo =>
    /- HACK: Place the stereo channels at plus/minus 90 degrees when using non-HRTF stereo
    output. -/
    { chans := if Device.FmtChans = DevFmtChannels.DevFmtStereo ∧ Device.Hrtf.isNone then
        StereoWideMap cfg else StereoMap cfg
      num_channels := 2, isbformat := false, DirectChannels := DirectChannels }
  | FmtChannels.FmtRear =>
    { chans := RearMap cfg, num_channels := 2, isbformat := false
      DirectChannels := DirectChannels }
  | FmtChannels.FmtQuad =>
    { chans := QuadMap cfg, num_channels := 4, isbformat := false
      DirectChannels := DirectChannels }
  | FmtChannels.FmtX51 =>
    { chans := X51Map cfg, num_channels := 6, isbformat := false
      DirectChannels := DirectChannels }
  | FmtChannels.FmtX61 =>
    { chans := X61Map cfg, num_channels := 7, isbformat := false
      DirectChannels := DirectChannels }
  | FmtChannels.FmtX71 =>
    { chans := X71Map cfg, num_channels := 8, isbformat := false
      DirectChannels := DirectChannels }
  | FmtChannels.FmtBFormat2D =>
    { chans := [], num_channels := 3, isbformat := true, DirectChannels := false }
  | FmtChannels.FmtBFormat3D =>
    { chans := [], num_channels := 4, isbformat := true, DirectChannels := false }

/-- The assignment `gains[idx].Target = DryGain` of one row of gains. -/
def setTarget (gains : Nat → MixGains K) (idx : Nat) (DryGain : K) : Nat → MixGains K :=
  Function.update gains idx { gains idx with Target := DryGain }

/-- The B-Format branch of `CalcNonAttnSourceParams` (ALu.c 487-533), without the scaling of
the wet gains. -/
def bformatBranch (lm : Libm K) (ext : Externs K) (cfg : Consts K) (voice : ALvoice K)
    (ALSource : ALsource K) (ALContext : ALCcontext K) (num_channels : Nat) (DryGain : K) :
    ALvoice K :=
  let Device := ALContext.Device
  let Relative := ALSource.HeadRelative
  /- AT then UP -/
  let N := aluNormalize lm ALSource.Orientation0
  let V := aluNormalize lm ALSource.Orientation1
  let lmatrix := ALContext.Listener.Params.Matrix
  let at_ := aluMatrixVector (aluVectorSet N.e0 N.e1 N.e2 0) lmatrix
  let up := aluMatrixVector (aluVectorSet V.e0 V.e1 V.e2 0) lmatrix
  let N : Float3 K := if Relative = false then { e0 := at_.v0, e1 := at_.v1, e2 := at_.v2 } else N
  let V : Float3 K := if Relative = false then { e0 := up.v0, e1 := up.v1, e2 := up.v2 } else V
  /- Build and normalize right-vector -/
  let U := aluNormalize lm (aluCrossproduct N V)
  let matrix := aluMatrixSet
    1 0 0 0
    0 (-N.e2) (-N.e0) N.e1
    0 U.e2 U.e0 (-U.e1)
    0 (-V.e2) (-V.e0) V.e1
  let Gains := forLoop num_channels (fun c Gains =>
    let Target := ext.ComputeBFormatGains Device (matrix.row c) DryGain
    Function.update Gains c (storeTargets cfg.MAX_OUTPUT_CHANNELS Target (Gains c)))
    voice.Direct.Gains
  let Direct : DirectParams K := { voice.Direct with Gains := Gains }
  let Direct := UpdateDryStepping cfg Direct num_channels (if Direct.Moving then 64 else 0)
  { voice with Direct := { Direct with Moving := true }, IsHrtf := false }

/-- The direct-channels branch of `CalcNonAttnSourceParams` (ALu.c 539-569). -/
def directChannelsBranch (ext : Externs K) (cfg : Consts K) (voice : ALvoice K)
    (Device : ALCdevice K) (chans : List (ChanMap K)) (num_channels : Nat) (DryGain : K) :
    ALvoice K :=
  let Direct : DirectParams K :=
    match Device.Hrtf with
    | some _ =>
      let Direct : DirectParams K :=
        { voice.Direct with OutBuffer := voice.Direct.OutBuffer + voice.Direct.OutChannels
                            OutChannels := 2 }
      let Gains := forLoop num_channels (fun c Gains =>
        let gains := storeTargets cfg.MAX_OUTPUT_CHANNELS (fun _ => 0) (Gains c)
        let gains :=
          if (chanAt chans c).channel = Channel.FrontLeft then setTarget gains 0 DryGain
          else if (chanAt chans c).channel = Channel.FrontRight then setTarget gains 1 DryGain
          else gains
        Function.update Gains c gains) Direct.Gains
      { Direct with Gains := Gains }
    | none =>
      let Gains := forLoop num_channels (fun c Gains =>
        let gains := storeTargets cfg.MAX_OUTPUT_CHANNELS (fun _ => 0) (Gains c)
        let idx := ext.GetChannelIdxByName Device (chanAt chans c).channel
        let gains := if idx ≠ -1 then setTarget gains idx.toNat DryGain else gains
        Function.update Gains c gains) voice.Direct.Gains
      { voice.Direct with Gains := Gains }
  let Direct := UpdateDryStepping cfg Direct num_channels (if Direct.Moving then 64 else 0)
  { voice with Direct := { Direct with Moving := true }, IsHrtf := false }

/-- The per-channel HRTF branch of `CalcNonAttnSourceParams` (ALu.c 573-601). -/
def hrtfChannelsBranch (ext : Externs K) (cfg : Consts K) (voice : ALvoice K) (Hrtf : Hrtf)
    (chans : List (ChanMap K)) (num_channels : Nat) (DryGain : K) : ALvoice K :=
  let Direct : DirectParams K :=
    { voice.Direct with OutBuffer := voice.Direct.OutBuffer + voice.Direct.OutChannels
                        OutChannels := 2 }
  let HrtfState := forLoop num_channels (fun c H =>
    if (chanAt chans c).channel = Channel.LFE then
      /- Skip LFE -/
      let Delay := Function.update (Function.update (H c).Delay 0 0) 1 0
      let Coeffs := forLoop cfg.HRIR_LENGTH (fun i Coeffs =>
        Function.update Coeffs i (Function.update (Function.update (Coeffs i) 0 0) 1 0))
        (H c).Coeffs
      Function.update H c { H c with Coeffs := Coeffs, Delay := Delay }
    else
      /- Get the static HRIR coefficients and delays for this channel. -/
      let r := ext.GetLerpedHrtfCoeffs Hrtf (chanAt chans c).elevation (chanAt chans c).angle 1
        DryGain
      Function.update H c { H c with Coeffs := r.1, Delay := r.2 }) Direct.Hrtf
  { voice with
    Direct := { Direct with Hrtf := HrtfState, Counter := 0, Moving := true }
    IsHrtf := true }

/-- The regular panning branch of `CalcNonAttnSourceParams` (ALu.c 605-628). -/
def panningBranch (ext : Externs K) (cfg : Consts K) (voice : ALvoice K) (Device : ALCdevice K)
    (chans : List (ChanMap K)) (num_channels : Nat) (DryGain : K) : ALvoice K :=
  let Gains := forLoop num_channels (fun c Gains =>
    /- Special-case LFE -/
    if (chanAt chans c).channel = Channel.LFE then
      let gains := storeTargets cfg.MAX_OUTPUT_CHANNELS (fun _ => 0) (Gains c)
      let idx := ext.GetChannelIdxByName Device (chanAt chans c).channel
      let gains := if idx ≠ -1 then setTarget gains idx.toNat DryGain else gains
      Function.update Gains c gains
    else
      let Target := ext.ComputeAngleGains Device (chanAt chans c).angle (chanAt chans c).elevation
        DryGain
      Function.update Gains c (storeTargets cfg.MAX_OUTPUT_CHANNELS Target (Gains c)))
    voice.Direct.Gains
  let Direct : DirectParams K := { voice.Direct with Gains := Gains }
  let Direct := UpdateDryStepping cfg Direct num_channels (if Direct.Moving then 64 else 0)
  { voice with Direct := { Direct with Moving := true }, IsHrtf := false }

/-- Function `CalcNonAttnSourceParams` (ALu.c 298-678): the update of a voice playing a
multi-channel, B-Format or direct-channels source. -/
def CalcNonAttnSourceParams (lm : Libm K) (ext : Externs K) (cfg : Consts K) (voice : ALvoice K)
    (ALSource : ALsource K) (ALContext : ALCcontext K) : ALvoice K :=
  let Device := ALContext.Device
  /- Get device properties -/
  let NumSends := Device.NumAuxSends
  let Frequency := Device.Frequency
  /- Get listener properties -/
  let ListenerGain := ALContext.Listener.Gain
  /- Get source properties -/
  let SourceVolume := ALSource.Gain
  let MinVolume := ALSource.MinGain
  let MaxVolume := ALSource.MaxGain
  let Pitch := ALSource.Pitch
  let DirectChannels := ALSource.DirectChannels
  let voice : ALvoice K :=
    { voice with Direct := { voice.Direct with OutBuffer := 0, OutChannels := Device.NumChannels } }
  let Send := forLoop NumSends (fun i Send =>
    Function.update Send i { Send i with OutBuffer := sendOutBuffer Device ALSource i })
    voice.Send
  let voice : ALvoice K := { voice with Send := Send }
  /- Calculate the stepping value -/
  let Step : Int :=
    match firstBuffer ALSource.queue with
    | some ALBuffer => pitchStep cfg (Pitch * (ALBuffer.Frequency : K) / (Frequency : K))
    | none => voice.Step
  let voice : ALvoice K := { voice with Step := Step }
  let Channels := bufferChannels ALSource
  /- Calculate gains -/
  let DryGain := clampf SourceVolume MinVolume MaxVolume * (ALSource.Direct.Gain * ListenerGain)
  let DryGainHF := ALSource.Direct.GainHF
  let DryGainLF := ALSource.Direct.GainLF
  let WetGain : Nat → K := fun i =>
    clampf SourceVolume MinVolume MaxVolume * ((ALSource.Send i).Gain * ListenerGain)
  let WetGainHF : Nat → K := fun i => (ALSource.Send i).GainHF
  let WetGainLF : Nat → K := fun i => (ALSource.Send i).GainLF
  let setup := channelSetup cfg Device Channels DirectChannels
  let chans := setup.chans
  let num_channels := setup.num_channels
  let voice : ALvoice K :=
    if setup.isbformat then
      bformatBranch lm ext cfg voice ALSource ALContext num_channels DryGain
    else if setup.DirectChannels ≠ false then
      directChannelsBranch ext cfg voice Device chans num_channels DryGain
    else
      match Device.Hrtf with
      | some Hrtf => hrtfChannelsBranch ext cfg voice Hrtf chans num_channels DryGain
      | none => panningBranch ext cfg voice Device chans num_channels DryGain
  let WetGain : Nat → K := fun i => if setup.isbformat then WetGain i * 1.4142 else WetGain i
  let voice : ALvoice K :=
    { voice with Send := updateSendGains cfg NumSends WetGain voice.Send }
  /- ALu.c 637-677 -/
  let Filters :=
    let gainhf := maxf 0.01 DryGainHF
    let gainlf := maxf 0.01 DryGainLF
    let hfscale := ALSource.Direct.HFReference / (Frequency : K)
    let lfscale := ALSource.Direct.LFReference / (Frequency : K)
    forLoop num_channels (fun c Filters =>
      Function.update Filters c (setVoiceFilter gainhf gainlf hfscale lfscale (Filters c)))
      voice.Direct.Filters
  let voice : ALvoice K := { voice with Direct := { voice.Direct with Filters := Filters } }
  let Send := forLoop NumSends (fun i Send =>
    let gainhf := maxf 0.01 (WetGainHF i)
    let gainlf := maxf 0.01 (WetGainLF i)
    let hfscale := (ALSource.Send i).HFReference / (Frequency : K)
    let lfscale := (ALSource.Send i).LFReference / (Frequency : K)
    let Filters := forLoop num_channels (fun c Filters =>
      Function.update Filters c (setVoiceFilter gainhf gainlf hfscale lfscale (Filters c)))
      (Send i).Filters
    Function.update Send i { Send i with Filters := Filters }) voice.Send
  { voice with Send := Send }

/-! ## Sample conversion and output writing (ALu.c 1138-1184) -/

/-- The value an integer expression has after the conversion to a signed integer type of `w`
bits (two's complement wrap-around). -/
def toSigned (w : Nat) (x : Int) : Int := (x + 2 ^ (w - 1)) % 2 ^ w - 2 ^ (w - 1)

/-- The value an integer expression has after the conversion to an unsigned integer type of `w`
bits. -/
def toUnsigned (w : Nat) (x : Int) : Int := x % 2 ^ w

/-- Function `aluF2I25` (ALu.c 1138-1145). -/
def aluF2I25 (val : K) : Int :=
  /- Clamp the value between -1 and +1. This handles that with only a single branch. -/
  let val : K := if |val| > 1 then
      (((if 0 < val then 1 else 0) - (if val < 0 then 1 else 0) : Int) : K)
    else val
  /- Convert to a signed integer, between -16777215 and +16777215. -/
  fastf2i (val * 16777215)

/-- Function `aluF2F`. -/
def aluF2F (val : K) : K := val

/-- Function `aluF2I`: an `ALint`. -/
def aluF2I (val : K) : Int := toSigned 32 (aluF2I25 val <<< 7)

/-- Function `aluF2UI`: an `ALuint`; the sum is taken in unsigned arithmetic. -/
def aluF2UI (val : K) : Int := toUnsigned 32 (aluF2I val + 2147483648)

/-- Function `aluF2S`: an `ALshort`. -/
def aluF2S (val : K) : Int := toSigned 16 (aluF2I25 val >>> (9 : Nat))

/-- Function `aluF2US`: an `ALushort`. -/
def aluF2US (val : K) : Int := toUnsigned 16 (aluF2S val + 32768)

/-- Function `aluF2B`: an `ALbyte`. -/
def aluF2B (val : K) : Int := toSigned 8 (aluF2I25 val >>> (17 : Nat))

/-- Function `aluF2UB`: an `ALubyte`. -/
def aluF2UB (val : K) : Int := toUnsigned 8 (aluF2B val + 128)

/-- One element of the untyped output memory: a sample of the device format, an `ALfloat` or
an integer. -/
inductive PCM (K : Type) where
  | float (val : K)
  | int (val : Int)

/-- The template `Write_##T` (ALu.c 1162-1174) for the conversion `func`: `OutBuffer` is the
output seen from the pointer passed in, `InBuffer j i` is `InBuffer[j][i]`. -/
def Write {T : Type} (func : K → T) (InBuffer : Nat → Nat → K) (OutBuffer : Nat → T)
    (SamplesToDo numchans : Nat) : Nat → T :=
  forLoop numchans (fun j OutBuffer =>
    /- `in = InBuffer[j]`, `out = (T*)OutBuffer + j` -/
    forLoop SamplesToDo (fun i OutBuffer =>
      Function.update OutBuffer (j + i * numchans) (func (InBuffer j i))) OutBuffer) OutBuffer

/-- Function `Write_ALfloat`, `DECL_TEMPLATE(ALfloat, aluF2F)`. -/
def Write_ALfloat (InBuffer : Nat → Nat → K) (OutBuffer : Nat → PCM K)
    (SamplesToDo numchans : Nat) : Nat → PCM K :=
  Write (fun val => PCM.float (aluF2F val)) InBuffer OutBuffer SamplesToDo numchans

/-- Function `Write_ALuint`, `DECL_TEMPLATE(ALuint, aluF2UI)`. -/
def Write_ALuint (InBuffer : Nat → Nat → K) (OutBuffer : Nat → PCM K)
    (SamplesToDo numchans : Nat) : Nat → PCM K :=
  Write (fun val => PCM.int (aluF2UI val)) InBuffer OutBuffer SamplesToDo numchans

/-- Function `Write_ALint`, `DECL_TEMPLATE(ALint, aluF2I)`. -/
def Write_ALint (InBuffer : Nat → Nat → K) (OutBuffer : Nat → PCM K)
    (SamplesToDo numchans : Nat) : Nat → PCM K :=
  Write (fun val => PCM.int (aluF2I val)) InBuffer OutBuffer SamplesToDo numchans

/-- Function `Write_ALushort`, `DECL_TEMPLATE(ALushort, aluF2US)`. -/
def Write_ALushort (InBuffer : Nat → Nat → K) (OutBuffer : Nat → PCM K)
    (SamplesToDo numchans : Nat) : Nat → PCM K :=
  Write (fun val => PCM.int (aluF2US val)) InBuffer OutBuffer SamplesToDo numchans

/-- Function `Write_ALshort`, `DECL_TEMPLATE(ALshort, aluF2S)`. -/
def Write_ALshort (InBuffer : Nat → Nat → K) (OutBuffer : Nat → PCM K)
    (SamplesToDo numchans : Nat) : Nat → PCM K :=
  Write (fun val => PCM.int (aluF2S val)) InBuffer OutBuffer SamplesToDo numchans

/-- Function `Write_ALubyte`, `DECL_TEMPLATE(ALubyte, aluF2UB)`. -/
def Write_ALubyte (InBuffer : Nat → Nat → K) (OutBuffer : Nat → PCM K)
    (SamplesToDo numchans : Nat) : Nat → PCM K :=
  Write (fun val => PCM.int (aluF2UB val)) InBuffer OutBuffer SamplesToDo numchans

/-- Function `Write_ALbyte`, `DECL_TEMPLATE(ALbyte, aluF2B)`. -/
def Write_ALbyte (InBuffer : Nat → Nat → K) (OutBuffer : Nat → PCM K)
    (SamplesToDo numchans : Nat) : Nat → PCM K :=
  Write (fun val => PCM.int (aluF2B val)) InBuffer OutBuffer SamplesToDo numchans


/-! ## Devices, contexts, voices and sources as the mixer sees them -/

/-- The source states `AL_INITIAL`, `AL_PLAYING`, `AL_PAUSED` and `AL_STOPPED`. -/
inductive SourceState where
  | AL_INITIAL
  | AL_PLAYING
  | AL_PAUSED
  | AL_STOPPED
  deriving DecidableEq, Repr

/-- The enum `DevFmtType`. -/
inductive DevFmtType where
  | DevFmtByte
  | DevFmtUByte
  | DevFmtShort
  | DevFmtUShort
  | DevFmtInt
  | DevFmtUInt
  | DevFmtFloat
  deriving DecidableEq, Repr

/-- The function a voice's `Update` pointer designates: one of the two parameter calculators
of `ALu.c`. -/
inductive UpdateFunc where
  | CalcSourceParams
  | CalcNonAttnSourceParams
  deriving DecidableEq, Repr

/-- An `ALsource` object in memory: the properties the parameter calculators read, and the
playback fields the mixer and `aluHandleDisconnect` use.  `current_buffer` is the pointer to
the current buffer list item, `none` for `NULL`. -/
structure SourceObject (K : Type) extends ALsource K where
  state : SourceState
  NeedsUpdate : Bool
  position : Nat
  position_fraction : Nat
  current_buffer : Option Nat

/-- An `ALvoice` object in memory: the mixing parameters, the pointer `Source` to the source
it plays (an address in the source memory, `none` for `NULL`) and the pointer `Update`. -/
structure VoiceObject (K : Type) extends ALvoice K where
  Source : Option Nat
  Update : UpdateFunc

/-- An `ALCcontext` object in memory: what the parameter calculators read, and the fields the
mixer uses.  `Voices` is the voice array, of which the first `VoiceCount` entries are in use;
`ActiveAuxSlots` is the vector of active effect slots. -/
structure ContextObject (K : Type) extends ALCcontext K where
  DeferUpdates : Bool
  UpdateSources : Bool
  Voices : Nat → VoiceObject K
  VoiceCount : Nat
  ActiveAuxSlots : List (ALeffectslot K)

/-- An `ALCdevice` object in memory: what the parameter calculators read, and the fields the
mixer uses.  `ContextList` is the linked list of the device's contexts; `Bs2b` tells whether
the crossfeed pointer is non-`NULL`. -/
structure DeviceObject (K : Type) extends ALCdevice K where
  Connected : Bool
  MixCount : Nat
  FmtType : DevFmtType
  Bs2b : Bool
  SamplesDone : Nat
  ClockBase : Nat
  Hrtf_Offset : Nat
  ContextList : List (ContextObject K)

/-! ## `aluHandleDisconnect` (ALu.c 1371-1403) -/

/-- The body of the voice loop of `aluHandleDisconnect` for the voice `v`. -/
def disconnectVoice (v : Nat) (s : (Nat → VoiceObject K) × (Nat → SourceObject K)) :
    (Nat → VoiceObject K) × (Nat → SourceObject K) :=
  let Voices := s.1
  let Sources := s.2
  let source := (Voices v).Source
  let Voices := Function.update Voices v { Voices v with Source := none }
  match source with
  | some p =>
    if (Sources p).state = SourceState.AL_PLAYING then
      (Voices, Function.update Sources p
        { Sources p with
          state := SourceState.AL_STOPPED
          current_buffer := none
          position := 0
          position_fraction := 0 })
    else (Voices, Sources)
  | none => (Voices, Sources)

/-- The loop `while(Context)` of `aluHandleDisconnect` over the context list, with the source
memory threaded through. -/
def disconnectContexts :
    List (ContextObject K) → (Nat → SourceObject K) →
      List (ContextObject K) × (Nat → SourceObject K)
  | [], Sources => ([], Sources)
  | Context :: next, Sources =>
    let r := forLoop Context.VoiceCount disconnectVoice (Context.Voices, Sources)
    let Context := { Context with Voices := r.1, VoiceCount := 0 }
    let rest := disconnectContexts next r.2
    (Context :: rest.1, rest.2)

/-- Function `aluHandleDisconnect`: the device and the source memory it leaves. -/
def aluHandleDisconnect (device : DeviceObject K) (Sources : Nat → SourceObject K) :
    DeviceObject K × (Nat → SourceObject K) :=
  let device := { device with Connected := false }
  let r := disconnectContexts device.ContextList Sources
  ({ device with ContextList := r.1 }, r.2)


/-- A source is drained: stopped, with no current buffer and its playback position at 0. -/
def SourceObject.Drained (s : SourceObject K) : Prop :=
  s.state = SourceState.AL_STOPPED ∧ s.current_buffer = none ∧ s.position = 0 ∧
    s.position_fraction = 0


/-! ## `aluMixData` (ALu.c 1187-1368) -/

/-- Modelled from the spec: `IncrementRef` is defined in `atomic.h`; it bumps a reference
count by one.  `device.MixCount` is "a monotonically increasing counter, bumped by the mixer
before and after each tick": a natural number here. -/
def IncrementRef (ref : Nat) : Nat := ref + 1

/-- Modelled from the spec: `minu` is defined in `alu.h`; the minimum of two unsigned
integers, `(a > b) ? b : a`. -/
def minu (a b : Nat) : Nat := if a > b then b else a

/-- The calls `aluMixData` makes to code outside `ALu.c` and to the parameter calculators, as
they are recorded in the trace of a run.  Contexts are named by their position in the context
list, voices by their index in the voice array of their context, effect slots by their wet
buffer. -/
inductive MixEvent (K : Type) where
  | Backend_lock
  | Backend_unlock
  | Synth_process (SamplesToDo : Nat)
  | CalcListenerParams (ctx : Nat)
  | Update (ctx voice : Nat)
  | MixSource (ctx voice SamplesToDo : Nat)
  | EffectState_update (slot : Nat)
  | EffectState_process (slot SamplesToDo : Nat)
  | HrtfMix (c : Nat)
  | bs2b_cross_feed (i : Nat)
  | WriteRingBuffer (data : List (PCM K)) (len : Nat)

/-- What a call of `MixSource` (`mixer.c`) leaves: the state of the code outside `ALu.c`, the
voice's mixing parameters, the playback fields of the source, and the dry and wet buffers it
mixes into. -/
structure MixSourceResult (K : Type) (σ : Type) where
  world : σ
  voice : ALvoice K
  state : SourceState
  position : Nat
  position_fraction : Nat
  current_buffer : Option Nat
  DryBuffer : Nat → Nat → K
  WetBuffer : Nat → Nat → K

/-- The functions `aluMixData` calls that are not defined in `ALu.c`, as parameters.  `σ` is
the state they keep between calls (the synth, the effect states, the HRTF and crossfeed filter
states, the backend, the loopback ring).  Buffers are passed and returned by value:
`DryBuffer c i` is `device->DryBuffer[c][i]`, `WetBuffer s i` is sample `i` of the wet buffer
`s`. -/
structure MixerExterns (K : Type) (σ : Type) where
  /-- `V0(device->Backend,lock)()`. -/
  Backend_lock : σ → σ
  /-- `V0(device->Backend,unlock)()`. -/
  Backend_unlock : σ → σ
  /-- `V(device->Synth,process)(SamplesToDo, OutBuffer, OutChannels)`; `OutBuffer` is given by
  the dry buffer and the row it starts at. -/
  Synth_process : σ → Nat → (Nat → Nat → K) → Nat → Nat → σ × (Nat → Nat → K)
  /-- `MixSource(voice, source, device, SamplesToDo)`. -/
  MixSource : σ → ALvoice K → SourceObject K → ALCdevice K → (Nat → Nat → K) →
    (Nat → Nat → K) → Nat → MixSourceResult K σ
  /-- `V(slot->EffectState,update)(device, slot)`. -/
  EffectState_update : σ → ALCdevice K → ALeffectslot K → σ
  /-- `V(slot->EffectState,process)(SamplesToDo, slot->WetBuffer[0], device->DryBuffer,
  device->NumChannels)`. -/
  EffectState_process : σ → ALeffectslot K → Nat → (Nat → K) → (Nat → Nat → K) → Nat →
    σ × (Nat → Nat → K)
  /-- `HrtfMix(OutBuffer, device->DryBuffer[c], 0, Offset, 0, irsize, &Hrtf_Params[c],
  &Hrtf_State[c], SamplesToDo)` with the function `SelectHrtfMixer()` returns: the arguments
  are the dry buffer, the row `OutBuffer` starts at, `c`, `Offset`, `irsize`, `SamplesToDo`. -/
  HrtfMix : σ → (Nat → Nat → K) → Nat → Nat → Nat → Nat → Nat → σ × (Nat → Nat → K)
  /-- `bs2b_cross_feed(device->Bs2b, samples)` on the pair `samples[0]`, `samples[1]`. -/
  bs2b_cross_feed : σ → K × K → σ × (K × K)
  /-- `WriteRingBuffer(device->loopback_ring, data, len)`. -/
  WriteRingBuffer : σ → (Nat → PCM K) → Nat → σ

/-- The memory `aluMixData` works on besides the device and context objects: the device's dry
buffer, the wet buffers of the effect slots and their `NeedsUpdate` flags (both by wet buffer),
the source objects (by address), the state of the code outside `ALu.c`, and the trace of the
calls made so far, each with the value `device->MixCount` had when it was made. -/
structure MixerMemory (K : Type) (σ : Type) where
  DryBuffer : Nat → Nat → K
  WetBuffer : Nat → Nat → K
  SlotNeedsUpdate : Nat → Bool
  Sources : Nat → SourceObject K
  world : σ
  trace : List (Nat × MixEvent K)

/-- Record a call in the trace. -/
def MixerMemory.log {σ : Type} (mem : MixerMemory K σ) (MixCount : Nat) (e : MixEvent K) :
    MixerMemory K σ :=
  { mem with trace := mem.trace ++ [(MixCount, e)] }

/-- The output pointer `buffer` of `aluMixData`: the output memory and the element the
pointer is at. -/
structure OutputPointer (K : Type) where
  mem : Nat → PCM K
  pos : Nat

/-- The loop `for(c = 0;c < OutChannels;c++) memset(OutBuffer[c], 0,
SamplesToDo*sizeof(ALfloat))` on the rows of the dry buffer from `OutBuffer` on. -/
def clearRows (DryBuffer : Nat → Nat → K) (OutBuffer OutChannels SamplesToDo : Nat) :
    Nat → Nat → K :=
  forLoop OutChannels (fun c DryBuffer =>
    Function.update DryBuffer (OutBuffer + c)
      (fun i => if i < SamplesToDo then 0 else DryBuffer (OutBuffer + c) i)) DryBuffer


/-- The call `voice->Update(voice, source, ctx)`: the voice parameters it leaves. -/
def callUpdate (lm : Libm K) (ext : Externs K) (cfg : Consts K) (voice : VoiceObject K)
    (source : SourceObject K) (ctx : ContextObject K) : VoiceObject K :=
  match voice.Update with
  | UpdateFunc.CalcSourceParams =>
    { voice with
      toALvoice := CalcSourceParams lm ext cfg voice.toALvoice source.toALsource
        ctx.toALCcontext }
  | UpdateFunc.CalcNonAttnSourceParams =>
    { voice with
      toALvoice := CalcNonAttnSourceParams lm ext cfg voice.toALvoice source.toALsource
        ctx.toALCcontext }

/-- The body of the voice loop of `aluMixData` ("source processing", ALu.c 1236-1258) for the
voice `v` of the context at position `ci`; `DeferUpdates` and `UpdateSources` are the locals of
the context loop, `MixCount` is the value of `device->MixCount` during the slice. -/
def mixVoice {σ : Type} (lm : Libm K) (ext : Externs K) (mx : MixerExterns K σ) (cfg : Consts K)
    (device : ALCdevice K) (MixCount SamplesToDo ci : Nat) (DeferUpdates UpdateSources : Bool)
    (v : Nat) (s : ContextObject K × MixerMemory K σ) : ContextObject K × MixerMemory K σ :=
  let ctx := s.1
  let mem := s.2
  let voice := ctx.Voices v
  match voice.Source with
  | none => (ctx, mem)
  | some p =>
    let source := mem.Sources p
    if source.state ≠ SourceState.AL_PLAYING ∧ source.state ≠ SourceState.AL_PAUSED then
      ({ ctx with Voices := Function.update ctx.Voices v { voice with Source := none } }, mem)
    else
      /- `!DeferUpdates && (ATOMIC_EXCHANGE(&source->NeedsUpdate, AL_FALSE) || UpdateSources)`:
      the exchange is made only when updates are not deferred -/
      let NeedsUpdate := source.NeedsUpdate
      let source : SourceObject K :=
        if DeferUpdates = false then { source with NeedsUpdate := false } else source
      let mem : MixerMemory K σ :=
        { mem with Sources := Function.update mem.Sources p source }
      let s : VoiceObject K × MixerMemory K σ :=
        if DeferUpdates = false ∧ (NeedsUpdate = true ∨ UpdateSources = true) then
          (callUpdate lm ext cfg voice source ctx, mem.log MixCount (MixEvent.Update ci v))
        else (voice, mem)
      let voice := s.1
      let mem := s.2
      if source.state ≠ SourceState.AL_PAUSED then
        let mem := mem.log MixCount (MixEvent.MixSource ci v SamplesToDo)
        let r := mx.MixSource mem.world voice.toALvoice source device mem.DryBuffer
          mem.WetBuffer SamplesToDo
        let voice : VoiceObject K := { voice with toALvoice := r.voice }
        let source : SourceObject K :=
          { source with
            state := r.state
            position := r.position
            position_fraction := r.position_fraction
            current_buffer := r.current_buffer }
        ({ ctx with Voices := Function.update ctx.Voices v voice },
          { mem with
            world := r.world
            DryBuffer := r.DryBuffer
            WetBuffer := r.WetBuffer
            Sources := Function.update mem.Sources p source })
      else
        ({ ctx with Voices := Function.update ctx.Voices v voice }, mem)

/-- The body of the slot loop of `aluMixData` ("effect slot processing", ALu.c 1261-1275) for
one slot.  The statements for the device's default slot (ALu.c 1280-1291) are the same without
the test of `DeferUpdates`, that is with `DeferUpdates = false`. -/
def mixSlot {σ : Type} (mx : MixerExterns K σ) (device : ALCdevice K)
    (MixCount SamplesToDo : Nat) (DeferUpdates : Bool) (mem : MixerMemory K σ)
    (slot : ALeffectslot K) : MixerMemory K σ :=
  /- `!DeferUpdates && ATOMIC_EXCHANGE(&(*slot)->NeedsUpdate, AL_FALSE)` -/
  let NeedsUpdate := mem.SlotNeedsUpdate slot.WetBuffer
  let mem : MixerMemory K σ :=
    if DeferUpdates = false then
      { mem with SlotNeedsUpdate := Function.update mem.SlotNeedsUpdate slot.WetBuffer false }
    else mem
  let mem : MixerMemory K σ :=
    if DeferUpdates = false ∧ NeedsUpdate = true then
      { mem.log MixCount (MixEvent.EffectState_update slot.WetBuffer) with
        world := mx.EffectState_update mem.world device slot }
    else mem
  let mem := mem.log MixCount (MixEvent.EffectState_process slot.WetBuffer SamplesToDo)
  let r := mx.EffectState_process mem.world slot SamplesToDo (mem.WetBuffer slot.WetBuffer)
    mem.DryBuffer device.NumChannels
  let mem : MixerMemory K σ := { mem with world := r.1, DryBuffer := r.2 }
  /- `for(i = 0;i < SamplesToDo;i++) (*slot)->WetBuffer[0][i] = 0.0f` -/
  { mem with
    WetBuffer := Function.update mem.WetBuffer slot.WetBuffer
      (forLoop SamplesToDo (fun i wet => Function.update wet i 0)
        (mem.WetBuffer slot.WetBuffer)) }

/-- The loop `while(ctx)` of `aluMixData` over the context list (ALu.c 1223-1278); `ci` is the
position of the first context of the list. -/
def mixContexts {σ : Type} (lm : Libm K) (ext : Externs K) (mx : MixerExterns K σ)
    (cfg : Consts K) (device : ALCdevice K) (MixCount SamplesToDo : Nat) :
    Nat → List (ContextObject K) → MixerMemory K σ →
      List (ContextObject K) × MixerMemory K σ
  | _, [], mem => ([], mem)
  | ci, ctx :: next, mem =>
    let DeferUpdates := ctx.DeferUpdates
    /- `if(!DeferUpdates) UpdateSources = ATOMIC_EXCHANGE(&ctx->UpdateSources, AL_FALSE)` -/
    let UpdateSources : Bool := if DeferUpdates = false then ctx.UpdateSources else false
    let ctx : ContextObject K :=
      if DeferUpdates = false then { ctx with UpdateSources := false } else ctx
    let s : ContextObject K × MixerMemory K σ :=
      if UpdateSources = true then
        ({ ctx with Listener := CalcListenerParams lm ctx.Listener },
          mem.log MixCount (MixEvent.CalcListenerParams ci))
      else (ctx, mem)
    /- source processing -/
    let s := forLoop s.1.VoiceCount
      (mixVoice lm ext mx cfg device MixCount SamplesToDo ci DeferUpdates UpdateSources) s
    /- effect slot processing -/
    let mem := s.1.ActiveAuxSlots.foldl (mixSlot mx device MixCount SamplesToDo DeferUpdates)
      s.2
    let rest := mixContexts lm ext mx cfg device MixCount SamplesToDo (ci + 1) next mem
    (s.1 :: rest.1, rest.2)


/-- The HRTF loop of `aluMixData` (ALu.c 1303-1311) over the channels of the device. -/
def hrtfLoop {σ : Type} (mx : MixerExterns K σ) (MixCount NumChannels OutBuffer Offset irsize
    SamplesToDo : Nat) (mem : MixerMemory K σ) : MixerMemory K σ :=
  forLoop NumChannels (fun c mem =>
    let mem := mem.log MixCount (MixEvent.HrtfMix c)
    let r := mx.HrtfMix mem.world mem.DryBuffer OutBuffer c Offset irsize SamplesToDo
    { mem with world := r.1, DryBuffer := r.2 }) mem

/-- The crossfeed loop of `aluMixData` (ALu.c 1313-1325), "Apply binaural/crossfeed filter". -/
def crossFeedLoop {σ : Type} (mx : MixerExterns K σ) (MixCount SamplesToDo : Nat)
    (mem : MixerMemory K σ) : MixerMemory K σ :=
  forLoop SamplesToDo (fun i mem =>
    let samples : K × K := (mem.DryBuffer 0 i, mem.DryBuffer 1 i)
    let mem := mem.log MixCount (MixEvent.bs2b_cross_feed i)
    let r := mx.bs2b_cross_feed mem.world samples
    let DryBuffer := Function.update mem.DryBuffer 0 (Function.update (mem.DryBuffer 0) i r.2.1)
    let DryBuffer := Function.update DryBuffer 1 (Function.update (DryBuffer 1) i r.2.2)
    { mem with world := r.1, DryBuffer := DryBuffer }) mem

/-- The macro `WRITE(T, OutBuffer, buffer, SamplesToDo, OutChannels)` under the switch on
`device->FmtType` (ALu.c 1328-1357): `Write_T` on the memory from the pointer on, and the
pointer advanced by `SamplesToDo*OutChannels` elements. -/
def writeOutput (FmtType : DevFmtType) (InBuffer : Nat → Nat → K) (buffer : OutputPointer K)
    (SamplesToDo OutChannels : Nat) : OutputPointer K :=
  let view : Nat → PCM K := fun k => buffer.mem (buffer.pos + k)
  let out : Nat → PCM K :=
    match FmtType with
    | DevFmtType.DevFmtByte => Write_ALbyte InBuffer view SamplesToDo OutChannels
    | DevFmtType.DevFmtUByte => Write_ALubyte InBuffer view SamplesToDo OutChannels
    | DevFmtType.DevFmtShort => Write_ALshort InBuffer view SamplesToDo OutChannels
    | DevFmtType.DevFmtUShort => Write_ALushort InBuffer view SamplesToDo OutChannels
    | DevFmtType.DevFmtInt => Write_ALint InBuffer view SamplesToDo OutChannels
    | DevFmtType.DevFmtUInt => Write_ALuint InBuffer view SamplesToDo OutChannels
    | DevFmtType.DevFmtFloat => Write_ALfloat InBuffer view SamplesToDo OutChannels
  { mem := fun k => if k < buffer.pos then buffer.mem k else out (k - buffer.pos)
    pos := buffer.pos + SamplesToDo * OutChannels }

/-- What one pass through the body of the loop `while(size > 0)` of `aluMixData` leaves. -/
structure MixSlice (K : Type) (σ : Type) where
  device : DeviceObject K
  mem : MixerMemory K σ
  buffer : Option (OutputPointer K)
  size : Int

/-- The body of the loop `while(size > 0)` of `aluMixData` (ALu.c 1199-1365): one slice of
`min(size, BUFFERSIZE)` samples.  It is entered with `size > 0`. -/
def aluMixSlice {σ : Type} (lm : Libm K) (ext : Externs K) (mx : MixerExterns K σ)
    (cfg : Consts K) (s : MixSlice K σ) : MixSlice K σ :=
  let device := s.device
  let mem := s.mem
  let device : DeviceObject K := { device with MixCount := IncrementRef device.MixCount }
  let MixCount := device.MixCount
  let OutBuffer : Nat := 0
  let OutChannels := device.NumChannels
  let SamplesToDo := minu s.size.toNat cfg.BUFFERSIZE
  let mem : MixerMemory K σ :=
    { mem with DryBuffer := clearRows mem.DryBuffer OutBuffer OutChannels SamplesToDo }
  /- Set OutBuffer/OutChannels to correspond to the actual output with HRTF. Make sure to
  clear them too. -/
  let OutBuffer : Nat := if device.Hrtf.isSome then OutBuffer + OutChannels else OutBuffer
  let OutChannels : Nat := if device.Hrtf.isSome then 2 else OutChannels
  let mem : MixerMemory K σ :=
    if device.Hrtf.isSome then
      { mem with DryBuffer := clearRows mem.DryBuffer OutBuffer OutChannels SamplesToDo }
    else mem
  let mem : MixerMemory K σ :=
    { mem.log MixCount MixEvent.Backend_lock with world := mx.Backend_lock mem.world }
  let mem := mem.log MixCount (MixEvent.Synth_process SamplesToDo)
  let r := mx.Synth_process mem.world SamplesToDo mem.DryBuffer OutBuffer OutChannels
  let mem : MixerMemory K σ := { mem with world := r.1, DryBuffer := r.2 }
  let r := mixContexts lm ext mx cfg device.toALCdevice MixCount SamplesToDo 0
    device.ContextList mem
  let device : DeviceObject K := { device with ContextList := r.1 }
  let mem := r.2
  let mem : MixerMemory K σ :=
    match device.DefaultSlot with
    | some slot => mixSlot mx device.toALCdevice MixCount SamplesToDo false mem slot
    | none => mem
  /- Increment the clock time. Every second's worth of samples is converted and added to clock
  base so that large sample counts don't overflow during conversion. This also guarantees an
  exact, stable conversion. -/
  let device : DeviceObject K := { device with SamplesDone := device.SamplesDone + SamplesToDo }
  let device : DeviceObject K :=
    { device with
      ClockBase := device.ClockBase +
        (device.SamplesDone / device.Frequency) * cfg.DEVICE_CLOCK_RES }
  let device : DeviceObject K :=
    { device with SamplesDone := device.SamplesDone % device.Frequency }
  let mem : MixerMemory K σ :=
    { mem.log MixCount MixEvent.Backend_unlock with world := mx.Backend_unlock mem.world }
  let s2 : DeviceObject K × MixerMemory K σ :=
    match device.Hrtf with
    | some Hrtf =>
      let irsize := Hrtf.irSize
      let mem := hrtfLoop mx MixCount device.NumChannels OutBuffer device.Hrtf_Offset irsize
        SamplesToDo mem
      ({ device with Hrtf_Offset := device.Hrtf_Offset + SamplesToDo }, mem)
    | none =>
      if device.Bs2b then (device, crossFeedLoop mx MixCount SamplesToDo mem)
      else (device, mem)
  let device := s2.1
  let mem := s2.2
  let InBuffer : Nat → Nat → K := fun j i => mem.DryBuffer (OutBuffer + j) i
  let buffer : Option (OutputPointer K) :=
    match s.buffer with
    | some buffer => some (writeOutput device.FmtType InBuffer buffer SamplesToDo OutChannels)
    | none => none
  /- `int16_t loopback_out_array[SamplesToDo]` -/
  let loopback_out_array := Write_ALshort InBuffer (fun _ => PCM.int 0) SamplesToDo 1
  let mem := mem.log MixCount
    (MixEvent.WriteRingBuffer ((List.range SamplesToDo).map loopback_out_array)
      (SamplesToDo * 2))
  let mem : MixerMemory K σ :=
    { mem with world := mx.WriteRingBuffer mem.world loopback_out_array (SamplesToDo * 2) }
  let size := s.size - (SamplesToDo : Int)
  let device : DeviceObject K := { device with MixCount := IncrementRef device.MixCount }
  { device := device, mem := mem, buffer := buffer, size := size }

/-- The loop `while(size > 0)` of `aluMixData`, run for at most `fuel` slices: `none` when the
fuel runs out before `size` is used up. -/
def aluMixLoop {σ : Type} (lm : Libm K) (ext : Externs K) (mx : MixerExterns K σ)
    (cfg : Consts K) : Nat → MixSlice K σ → Option (MixSlice K σ)
  | fuel, s =>
    if s.size > 0 then
      match fuel with
      | 0 => none
      | fuel + 1 => aluMixLoop lm ext mx cfg fuel (aluMixSlice lm ext mx cfg s)
    else some s

/-- Function `aluMixData` (ALu.c 1187-1368).  `SetMixerFPUMode` and `RestoreFPUMode` only
change the floating-point mode, which exact arithmetic does not have. -/
def aluMixData {σ : Type} (lm : Libm K) (ext : Externs K) (mx : MixerExterns K σ)
    (cfg : Consts K) (fuel : Nat) (device : DeviceObject K) (mem : MixerMemory K σ)
    (buffer : Option (OutputPointer K)) (size : Int) : Option (MixSlice K σ) :=
  aluMixLoop lm ext mx cfg fuel { device := device, mem := mem, buffer := buffer, size := size }


/-- The trace `t'` extends the trace `t` by calls that were all made while `device->MixCount`
had one of the values `P` holds of. -/
def TraceExtends (P : Nat → Prop) (t t' : List (Nat × MixEvent K)) : Prop :=
  ∃ new : List (Nat × MixEvent K), t' = t ++ new ∧ ∀ e ∈ new, P e.1


/-- The trace `t'` extends the trace `t` by calls that all satisfy `Q`. -/
def TraceExtendsBy (Q : Nat × MixEvent K → Prop) (t t' : List (Nat × MixEvent K)) : Prop :=
  ∃ new : List (Nat × MixEvent K), t' = t ++ new ∧ ∀ e ∈ new, Q e


end Floor

/-! ## Sample objects

Concrete objects over `ℚ` on which the definitions above can be run. -/

namespace Sample

/-- A configuration with the values the constants usually have in the headers
(`GAIN_SILENCE_THRESHOLD` is 0.00001, `MAX_PITCH` 10, `FRACTIONBITS` 14, …); `F_PI` is a rational
approximation. -/
def consts : Consts ℚ :=
  { GAIN_SILENCE_THRESHOLD := 0.00001
    MAX_PITCH := 10
    FRACTIONBITS := 14
    MAX_SENDS := 4
    MAX_OUTPUT_CHANNELS := 8
    HRIR_LENGTH := 128
    BUFFERSIZE := 2048
    DEVICE_CLOCK_RES := 1000000000
    AIRABSORBGAINHF := 0.99426
    SPEEDOFSOUNDMETRESPERSEC := 343.3
    FLT_EPSILON := 1 / 8388608
    F_PI := 3.14159265358979323846
    ConeScale := 1
    ZScale := 1 }

/-- A stand-in for `libm` over `ℚ`: each function is exact at the few arguments listed and is
not meant to be used elsewhere. -/
def libm : Libm ℚ :=
  { sqrtf := fun x => if x = 0 then 0 else if x = 1 then 1 else if x = 4 then 2 else x
    powf := fun x y => if y = 0 then 1 else if x = 1 then 1 else x
    acosf := fun x => if x = 1 then 0 else if x = 0 then consts.F_PI / 2 else consts.F_PI
    asinf := fun x => if x = 0 then 0 else if x = 1 then consts.F_PI / 2 else -(consts.F_PI / 2)
    atan2f := fun y x => if y = 0 ∧ x > 0 then 0 else consts.F_PI / 2
    log10f := fun x => if x = 1 then 0 else if x = 10000 then 4 else if x = 0.0001 then -4
      else 0 }

/-- Modelled from the spec: `GetMovingHrtfCoeffs` is defined in `hrtf.c`, which is not part of
`ALu.c`.  It "returns the target coefficients along with per-sample deltas from the current
values over `fadeTime` seconds", and its counter "is the number of samples before the target is
reached": `delta * sampleRate` rounded to the nearest sample, and at least 1.  The coefficients
are a stand-in, `gain * dirfact` everywhere. -/
def GetMovingHrtfCoeffs (Hrtf : Hrtf) (_elevation _azimuth dirfact gain delta : ℚ)
    (_counter : Nat) (params : HrtfParams ℚ) : HrtfParams ℚ × Nat :=
  ({ params with Coeffs := fun _ _ => gain * dirfact },
    max (Int.toNat ⌊delta * (Hrtf.sampleRate : ℚ) + 1 / 2⌋) 1)

/-- Stand-ins for the externs.  The panners give every output channel of the device the input
gain; the device layout is (FrontLeft, FrontRight); the HRTF coefficients are `gain * dirfact`
everywhere. -/
def externs : Externs ℚ :=
  { ComputeAngleGains := fun Device _ _ ingain j => if j < Device.NumChannels then ingain else 0
    ComputeDirectionalGains := fun Device _ ingain j =>
      if j < Device.NumChannels then ingain else 0
    ComputeBFormatGains := fun Device _ ingain j => if j < Device.NumChannels then ingain else 0
    GetChannelIdxByName := fun _ chan =>
      if chan = Channel.FrontLeft then 0 else if chan = Channel.FrontRight then 1 else -1
    GetLerpedHrtfCoeffs := fun _ _ _ dirfact gain => (fun _ _ => gain * dirfact, fun _ => 0)
    GetMovingHrtfCoeffs := GetMovingHrtfCoeffs }

/-- A voice filter in its initial state. -/
def voiceFilter : VoiceFilter ℚ :=
  { ActiveType := AF_None
    LowPass := { type := ALfilterType.ALfilterType_HighShelf, gain := 1, freq_scale := 1
                 bandwidth := 0 }
    HighPass := { type := ALfilterType.ALfilterType_LowShelf, gain := 1, freq_scale := 1
                  bandwidth := 0 } }

/-- A voice that has not been updated yet: all gains zero, not moving. -/
def voice : ALvoice ℚ :=
  { Step := 0
    IsHrtf := false
    Direct :=
      { OutBuffer := 0, OutChannels := 0
        Gains := fun _ _ => { Current := 0, Step := 0, Target := 0 }
        Hrtf := fun _ => { Coeffs := fun _ _ => 0, CoeffStep := fun _ _ => 0, Delay := fun _ => 0
                           DelayStep := fun _ => 0 }
        Filters := fun _ => voiceFilter
        Counter := 0, Moving := false, LastGain := 0
        LastDir := { v0 := 0, v1 := 0, v2 := 0, v3 := 0 } }
    Send := fun _ =>
      { OutBuffer := none, Gain := { Current := 0, Step := 0, Target := 0 }
        Filters := fun _ => voiceFilter, Counter := 0, Moving := false } }

/-- A voice that has been updated before: moving, with the direct gains and the send gains at
zero, last HRTF gain 0 and last HRTF direction forward. -/
def movingVoice : ALvoice ℚ :=
  { voice with
    Direct := { voice.Direct with Moving := true, OutChannels := 2
                                  LastDir := { v0 := 0, v1 := 0, v2 := -1, v3 := 0 } }
    Send := fun _ => { voice.Send 0 with Moving := true } }

/-- A direct block with two output channels whose gains are at 0 and have the target 1. -/
def pendingDirect : DirectParams ℚ :=
  { voice.Direct with
    OutChannels := 2
    Gains := fun _ _ => { Current := 0, Step := 0, Target := 1 } }

/-- A direct block with two output channels whose gains are at 0 and have the target 0.000005,
which is below the silence threshold of `consts`. -/
def nearDirect : DirectParams ℚ :=
  { voice.Direct with
    OutChannels := 2
    Gains := fun _ _ => { Current := 0, Step := 0, Target := 0.000005 } }

/-- A stereo device at 44100 Hz without HRTF, with one auxiliary send and no default slot. -/
def device : ALCdevice ℚ :=
  { Frequency := 44100, NumChannels := 2, NumAuxSends := 1
    FmtChans := DevFmtChannels.DevFmtStereo, Hrtf := none, DefaultSlot := none }

/-- The same device with an HRTF data set. -/
def hrtfDevice : ALCdevice ℚ :=
  { device with Hrtf := some { sampleRate := 44100, irSize := 32 } }

/-- A listener at the origin facing -Z with +Y up, with its derived parameters. -/
def listener : ALlistener ℚ :=
  { Position := { v0 := 0, v1 := 0, v2 := 0, v3 := 1 }
    Velocity := { v0 := 0, v1 := 0, v2 := 0, v3 := 0 }
    Forward := { e0 := 0, e1 := 0, e2 := -1 }
    Up := { e0 := 0, e1 := 1, e2 := 0 }
    Gain := 1
    MetersPerUnit := 1
    Params :=
      { Matrix := aluMatrixSet 1 0 0 0  0 1 0 0  0 0 1 0  0 0 0 1
        Velocity := { v0 := 0, v1 := 0, v2 := 0, v3 := 0 } } }

/-- A head-relative mono source at the listener with the default source properties, playing a
44100 Hz mono buffer. -/
def source : ALsource ℚ :=
  { Pitch := 1, Gain := 1, OuterGain := 0, MinGain := 0, MaxGain := 1
    InnerAngle := 360, OuterAngle := 360
    RefDistance := 1, MaxDistance := 1000000, RollOffFactor := 1
    Position := { v0 := 0, v1 := 0, v2 := 0, v3 := 1 }
    Velocity := { v0 := 0, v1 := 0, v2 := 0, v3 := 0 }
    Direction := { v0 := 0, v1 := 0, v2 := 0, v3 := 0 }
    Orientation0 := { e0 := 0, e1 := 0, e2 := -1 }
    Orientation1 := { e0 := 0, e1 := 1, e2 := 0 }
    HeadRelative := true
    DistanceModel := DistanceModel.InverseDistanceClamped
    DirectChannels := false
    DryGainHFAuto := true, WetGainAuto := true, WetGainHFAuto := true
    OuterGainHF := 1, AirAbsorptionFactor := 0, RoomRolloffFactor := 0, DopplerFactor := 1
    Radius := 0
    queue := [some { Frequency := 44100, FmtChannels := FmtChannels.FmtMono }]
    Direct := { Gain := 1, GainHF := 1, HFReference := 5000, GainLF := 1, LFReference := 250 }
    Send := fun _ =>
      { Slot := none, Gain := 1, GainHF := 1, HFReference := 5000, GainLF := 1
        LFReference := 250 } }

/-- The sample source with the pitch -1. -/
def negativePitchSource : ALsource ℚ := { source with Pitch := -1 }

/-- A context of `device` with the default context properties. -/
def context : ALCcontext ℚ :=
  { Listener := listener
    SourceDistanceModel := false
    DistanceModel := DistanceModel.InverseDistanceClamped
    DopplerFactor := 1, DopplerVelocity := 1, SpeedOfSound := 343.3
    Device := device }

/-- A context of `hrtfDevice`. -/
def hrtfContext : ALCcontext ℚ := { context with Device := hrtfDevice }

/-- A world-space mono source two units in front of the listener, at (0,0,-2), otherwise like
`source`. -/
def worldSource : ALsource ℚ :=
  { source with
    HeadRelative := false
    Position := { v0 := 0, v1 := 0, v2 := -2, v3 := 1 }
    DistanceModel := DistanceModel.InverseDistance }

/-- A context with the (unclamped) inverse distance model whose listener parameters are the
ones `CalcListenerParams` computes for `listener`. -/
def inverseContext : ALCcontext ℚ :=
  { context with
    Listener := CalcListenerParams libm listener
    DistanceModel := DistanceModel.InverseDistance }

/-- The sample listener moving with the velocity (3,0,4). -/
def movingListener : ALlistener ℚ :=
  { listener with Velocity := { v0 := 3, v1 := 0, v2 := 4, v3 := 0 } }

/-- The world-space source moving with the velocity (3,0,4). -/
def movingSource : ALsource ℚ :=
  { worldSource with Velocity := { v0 := 3, v1 := 0, v2 := 4, v3 := 0 } }

/-- A context whose listener is `movingListener` with up-to-date parameters. -/
def movingContext : ALCcontext ℚ :=
  { inverseContext with Listener := CalcListenerParams libm movingListener }

/-- Stand-ins for the functions the mixer calls: the state of the outside world counts the
calls; `MixSource` adds 1/4 to the first `SamplesToDo` samples of row 0 of the dry buffer and
advances the source position; the others leave the buffers as they are. -/
def mixerExterns : MixerExterns ℚ Nat :=
  { Backend_lock := fun w => w + 1
    Backend_unlock := fun w => w + 1
    Synth_process := fun w _ DryBuffer _ _ => (w + 1, DryBuffer)
    MixSource := fun w voice source _ DryBuffer WetBuffer SamplesToDo =>
      { world := w + 1, voice := voice, state := source.state
        position := source.position + SamplesToDo
        position_fraction := source.position_fraction
        current_buffer := source.current_buffer
        DryBuffer := Function.update DryBuffer 0
          (fun i => if i < SamplesToDo then DryBuffer 0 i + 1 / 4 else DryBuffer 0 i)
        WetBuffer := WetBuffer }
    EffectState_update := fun w _ _ => w + 1
    EffectState_process := fun w _ _ _ DryBuffer _ => (w + 1, DryBuffer)
    HrtfMix := fun w DryBuffer _ _ _ _ _ => (w + 1, DryBuffer)
    bs2b_cross_feed := fun w samples => (w + 1, samples)
    WriteRingBuffer := fun w _ _ => w + 1 }

/-- The sample source as an object in memory: playing, with an update pending, at position
100 of its first buffer. -/
def playingSource : SourceObject ℚ :=
  { toALsource := source, state := SourceState.AL_PLAYING, NeedsUpdate := true
    position := 100, position_fraction := 7, current_buffer := some 0 }

/-- The same source object, paused. -/
def pausedSource : SourceObject ℚ := { playingSource with state := SourceState.AL_PAUSED }

/-- A source memory: the source at address 1 is paused, all others are playing. -/
def sources : Nat → SourceObject ℚ := fun p => if p = 1 then pausedSource else playingSource

/-- A context object with three voices in use, voice `v` playing the source at address `v`. -/
def mixerContext : ContextObject ℚ :=
  { toALCcontext := context, DeferUpdates := false, UpdateSources := true
    Voices := fun v =>
      { toALvoice := voice, Source := some v, Update := UpdateFunc.CalcSourceParams }
    VoiceCount := 3
    ActiveAuxSlots := [] }

/-- A connected device object with the one context `mixerContext`, writing 16-bit samples. -/
def mixerDevice : DeviceObject ℚ :=
  { toALCdevice := device, Connected := true, MixCount := 0
    FmtType := DevFmtType.DevFmtShort, Bs2b := false
    SamplesDone := 0, ClockBase := 0, Hrtf_Offset := 0
    ContextList := [mixerContext] }

/-- A mixer memory with silent buffers, the sample sources and an empty trace. -/
def mixerMemory : MixerMemory ℚ Nat :=
  { DryBuffer := fun _ _ => 0, WetBuffer := fun _ _ => 0, SlotNeedsUpdate := fun _ => false
    Sources := sources, world := 0, trace := [] }


/-- The sample configuration with slices of 4 samples (`BUFFERSIZE = 4`). -/
def smallConsts : Consts ℚ := { consts with BUFFERSIZE := 4 }


/-- An effect slot running a reverb with automatic send adjustment, with the wet buffer 7. -/
def reverbSlot : ALeffectslot ℚ :=
  { EffectType := EffectType.AL_EFFECT_REVERB, AuxSendAuto := true
    Reverb := { RoomRolloffFactor := 0, DecayTime := 1.49, AirAbsorptionGainHF := 0.994 }
    WetBuffer := 7 }

/-- The sample device with `reverbSlot` as its default slot. -/
def defaultSlotDevice : ALCdevice ℚ := { device with DefaultSlot := some reverbSlot }

/-- A context of `defaultSlotDevice`. -/
def defaultSlotContext : ALCcontext ℚ := { context with Device := defaultSlotDevice }


/-- The sample source with the gain 0.00005, below the 0.0001 at which `CalcFadeTime` clamps
gains. -/
def quietSource : ALsource ℚ := { source with Gain := 0.00005 }


/-- The sample source playing a 3D B-Format buffer. -/
def bformatSource : ALsource ℚ :=
  { source with queue := [some { Frequency := 44100, FmtChannels := FmtChannels.FmtBFormat3D }] }



/-- The sample source playing a 44100 Hz stereo buffer. -/
def stereoSource : ALsource ℚ :=
  { source with queue := [some { Frequency := 44100, FmtChannels := FmtChannels.FmtStereo }] }

/-- Stand-ins for the externs whose panners depend on the direction: `ComputeAngleGains` gives
the whole input gain to output channel 0 for a negative azimuth and to output channel 1 for a
positive one; `ComputeDirectionalGains` gives every output channel of the device the input gain
times `(1 - z) / 2`, which is the input gain for the forward direction (0,0,-1). -/
def panners : Externs ℚ :=
  { externs with
    ComputeAngleGains := fun _ angle _ ingain j =>
      if j = 0 then (if angle < 0 then ingain else 0)
      else if j = 1 then (if 0 < angle then ingain else 0) else 0
    ComputeDirectionalGains := fun Device dir ingain j =>
      if j < Device.NumChannels then ingain * ((1 - dir.e2) / 2) else 0 }



/-- The stereo sample source with `DirectChannels` set. -/
def directSource : ALsource ℚ := { stereoSource with DirectChannels := true }

/-- The sample source playing a rear (back left, back right) buffer with `DirectChannels` set;
the layout of `externs` has neither channel. -/
def directRearSource : ALsource ℚ :=
  { source with
    DirectChannels := true
    queue := [some { Frequency := 44100, FmtChannels := FmtChannels.FmtRear }] }



/-- The sample source with the radius 1: a head-relative mono source at the listener that
extends one unit around its position. -/
def wideSource : ALsource ℚ := { source with Radius := 1 }



/-- An effect slot of a context, running a reverb, with the wet buffer 3. -/
def auxSlot : ALeffectslot ℚ := { reverbSlot with WetBuffer := 3 }

/-- The sample context object on `defaultSlotDevice` with its updates deferred: the context
update is pending (`UpdateSources`), and `auxSlot` is its one active slot. -/
def deferContext : ContextObject ℚ :=
  { mixerContext with
    toALCcontext := defaultSlotContext
    DeferUpdates := true
    ActiveAuxSlots := [auxSlot] }

/-- The sample device object with the default slot `reverbSlot` and the one context
`deferContext`. -/
def deferDevice : DeviceObject ℚ :=
  { mixerDevice with toALCdevice := defaultSlotDevice, ContextList := [deferContext] }

/-- The sample mixer memory with the `NeedsUpdate` flag of every slot set. -/
def pendingMemory : MixerMemory ℚ Nat := { mixerMemory with SlotNeedsUpdate := fun _ => true }



/-- The inverse-distance sample context with the speed of sound 1/2 (and the doppler velocity
1), so that `SpeedOfSound * DopplerVelocity` is below 1. -/
def slowContext : ALCcontext ℚ := { inverseContext with SpeedOfSound := 1 / 2 }



/-- The sample `libm` with a `powf` that is `1` for the exponent 0 and `1/x` otherwise: exact
for the exponents 0 and -1, between 0 and 1 and not increasing in `x` for every base `x >= 1`
and every exponent that is not positive. -/
def reciprocalLibm : Libm ℚ :=
  { libm with powf := fun x y => if y = 0 then 1 else 1 / x }

/-- The world-space sample source with the clamped exponent distance model. -/
def exponentSource : ALsource ℚ :=
  { worldSource with DistanceModel := DistanceModel.ExponentDistanceClamped }

/-- A context in which each source chooses its distance model. -/
def sourceModelContext : ALCcontext ℚ := { inverseContext with SourceDistanceModel := true }



/-- The sample mixer externs with a synth that plays the constant 1 on the second output
channel (the row after `OutBuffer`) and nothing on the others. -/
def rightSynth : MixerExterns ℚ Nat :=
  { mixerExterns with
    Synth_process := fun w n DryBuffer OutBuffer _ =>
      (w + 1, Function.update DryBuffer (OutBuffer + 1)
        (fun i => if i < n then 1 else DryBuffer (OutBuffer + 1) i)) }

/-- The sample device object without contexts: only the synth plays. -/
def idleDevice : DeviceObject ℚ := { mixerDevice with ContextList := [] }


end Sample

/-! # Theorems -/

section Stepping

variable {K : Type} [LinearOrderedField K]

theorem forLoop_succ {σ : Type} (n : Nat) (body : Nat → σ → σ) (s : σ) :
    forLoop (n + 1) body s = body n (forLoop n body s) := rfl

theorem forLoop_pointwise {α : Type} (f : Nat → α → α) (body : Nat → (Nat → α) → (Nat → α))
    (hbody : ∀ j a, body j a = Function.update a j (f j (a j))) (n : Nat) (a0 : Nat → α)
    (k : Nat) : forLoop n body a0 k = if k < n then f k (a0 k) else a0 k := by
  induction n with
  | zero => simp [forLoop]
  | succ n ih =>
    rw [forLoop_succ, hbody]
    by_cases hk : k = n
    · subst hk
      simp [ih]
    · rw [Function.update_noteq hk, ih]
      by_cases hlt : k < n
      · simp [hlt, Nat.lt_succ_of_lt hlt]
      · have : ¬ k < n + 1 := by omega
        simp [hlt, this]

theorem UpdateDryStepping_Gains (cfg : Consts K) (params : DirectParams K)
    (num_chans steps i j : Nat) :
    (UpdateDryStepping cfg params num_chans steps).Gains i j =
      if i < num_chans ∧ j < params.OutChannels then
        if steps < 2 then
          { params.Gains i j with Current := (params.Gains i j).Target, Step := 0 }
        else if |(params.Gains i j).Target - (params.Gains i j).Current|
            ≥ cfg.GAIN_SILENCE_THRESHOLD then
          { params.Gains i j with
            Step := ((params.Gains i j).Target - (params.Gains i j).Current) * (1 / (steps : K)) }
        else { params.Gains i j with Step := 0 }
      else params.Gains i j := by
  unfold UpdateDryStepping
  by_cases hs : steps < 2
  · simp only [hs, if_true]
    rw [forLoop_pointwise (fun _ (row : Nat → MixGains K) => forLoop params.OutChannels
        (fun j gains =>
          Function.update gains j
            { Current := (gains j).Target, Step := 0, Target := (gains j).Target }) row)
        _ (fun _ _ => rfl)]
    by_cases hi : i < num_chans
    · simp only [hi, if_true, true_and]
      rw [forLoop_pointwise (fun _ (g : MixGains K) => { g with Current := g.Target, Step := 0 })
        _ (fun _ _ => rfl)]
    · simp [hi]
  · simp only [hs, if_false]
    rw [forLoop_pointwise (fun _ (row : Nat → MixGains K) => forLoop params.OutChannels (fun j gains =>
        if |(gains j).Target - (gains j).Current| ≥ cfg.GAIN_SILENCE_THRESHOLD then
          Function.update gains j { gains j with
            Step := ((gains j).Target - (gains j).Current) * (1 / (steps : K)) }
        else Function.update gains j { gains j with Step := 0 }) row)
        _ (fun _ _ => rfl)]
    by_cases hi : i < num_chans
    · simp only [hi, if_true, true_and]
      rw [forLoop_pointwise (fun _ (g : MixGains K) =>
        if |g.Target - g.Current| ≥ cfg.GAIN_SILENCE_THRESHOLD then
          { g with Step := (g.Target - g.Current) * (1 / (steps : K)) }
        else { g with Step := 0 }) _ (fun j a => by beta_reduce; split_ifs <;> rfl)]
    · simp [hi]


/-- C1: gain smoothing conservation.  For every horizon `k ≥ 2` and every gain table, after
`UpdateDryStepping(params, numInChans, k)` each processed gain slot (input channel
`i < numInChans`, output channel `j < OutChannels`) satisfies, in exact arithmetic,
`|Target - (Current + Step*k)| < GAIN_SILENCE_THRESHOLD`, and `Step = 0` implies
`|Target - Current| < GAIN_SILENCE_THRESHOLD` (the threshold being a positive constant). -/
theorem UpdateDryStepping_conservation (cfg : Consts K)
    (hthr : 0 < cfg.GAIN_SILENCE_THRESHOLD) (params : DirectParams K) (numInChans k : Nat)
    (hk : 2 ≤ k) (i j : Nat) (hi : i < numInChans) (hj : j < params.OutChannels) :
    |((UpdateDryStepping cfg params numInChans k).Gains i j).Target -
        (((UpdateDryStepping cfg params numInChans k).Gains i j).Current +
          ((UpdateDryStepping cfg params numInChans k).Gains i j).Step * (k : K))|
      < cfg.GAIN_SILENCE_THRESHOLD ∧
    (((UpdateDryStepping cfg params numInChans k).Gains i j).Step = 0 →
      |((UpdateDryStepping cfg params numInChans k).Gains i j).Target -
        ((UpdateDryStepping cfg params numInChans k).Gains i j).Current|
      < cfg.GAIN_SILENCE_THRESHOLD) := by
  have hk2 : ¬ k < 2 := by omega
  have hk0 : (k : K) ≠ 0 := by
    have : 0 < k := by omega
    exact_mod_cast this.ne'
  rw [UpdateDryStepping_Gains]
  simp only [hi, hj, and_self, if_true, hk2, if_false]
  by_cases hd : |(params.Gains i j).Target - (params.Gains i j).Current|
      ≥ cfg.GAIN_SILENCE_THRESHOLD
  · simp only [hd, if_true]
    have hne : (params.Gains i j).Target - (params.Gains i j).Current ≠ 0 := by
      intro h0
      rw [h0, abs_zero] at hd
      exact absurd hthr (not_lt.mpr hd)
    constructor
    · have : (params.Gains i j).Target -
          ((params.Gains i j).Current +
            ((params.Gains i j).Target - (params.Gains i j).Current) * (1 / (k : K)) * (k : K))
          = 0 := by
        field_simp
      rw [this, abs_zero]
      exact hthr
    · intro h0
      exfalso
      rcases mul_eq_zero.mp h0 with h | h
      · exact hne h
      · exact (one_div_ne_zero hk0) h
  · simp only [hd, if_false]
    have hlt := not_le.mp hd
    constructor
    · simpa using hlt
    · intro _
      exact hlt

end Stepping

section VoiceUpdate

variable {K : Type} [LinearOrderedField K]

theorem UpdateDryStepping_Counter (cfg : Consts K) (params : DirectParams K)
    (num_chans steps : Nat) :
    (UpdateDryStepping cfg params num_chans steps).Counter = if steps < 2 then 0 else steps := by
  unfold UpdateDryStepping
  split_ifs <;> rfl

theorem UpdateDryStepping_Moving (cfg : Consts K) (params : DirectParams K)
    (num_chans steps : Nat) :
    (UpdateDryStepping cfg params num_chans steps).Moving = params.Moving := by
  unfold UpdateDryStepping
  split_ifs <;> rfl

theorem UpdateDryStepping_OutChannels (cfg : Consts K) (params : DirectParams K)
    (num_chans steps : Nat) :
    (UpdateDryStepping cfg params num_chans steps).OutChannels = params.OutChannels := by
  unfold UpdateDryStepping
  split_ifs <;> rfl

theorem CalcSourceParams_Direct_noHrtf [FloorRing K] (lm : Libm K) (ext : Externs K)
    (cfg : Consts K) (voice : ALvoice K) (ALSource : ALsource K) (ALContext : ALCcontext K)
    (hH : ALContext.Device.Hrtf = none) :
    ∃ D : DirectParams K,
      (CalcSourceParams lm ext cfg voice ALSource ALContext).Direct.Gains =
        (UpdateDryStepping cfg D 1 (if voice.Direct.Moving then 64 else 0)).Gains ∧
      (CalcSourceParams lm ext cfg voice ALSource ALContext).Direct.Counter =
        (UpdateDryStepping cfg D 1 (if voice.Direct.Moving then 64 else 0)).Counter ∧
      D.OutChannels = ALContext.Device.NumChannels ∧
      (CalcSourceParams lm ext cfg voice ALSource ALContext).Direct.OutChannels =
        ALContext.Device.NumChannels ∧
      (CalcSourceParams lm ext cfg voice ALSource ALContext).Direct.Moving = true ∧
      (CalcSourceParams lm ext cfg voice ALSource ALContext).IsHrtf = false := by
  unfold CalcSourceParams
  simp only [hH]
  refine ⟨_, rfl, rfl, rfl, ?_⟩
  simp [UpdateDryStepping_OutChannels]

theorem forLoop_apply_of_ge {α : Type} (f : Nat → α → α)
    (body : Nat → (Nat → α) → (Nat → α))
    (hbody : ∀ j a, body j a = Function.update a j (f j (a j))) (n : Nat) (a0 : Nat → α)
    (k : Nat) (hk : n ≤ k) : forLoop n body a0 k = a0 k := by
  rw [forLoop_pointwise f body hbody, if_neg (by omega)]

theorem updateSendGains_apply (cfg : Consts K) (NumSends : Nat) (WetGain : Nat → K)
    (Send : Nat → SendParams K) (i : Nat) :
    updateSendGains cfg NumSends WetGain Send i =
      if i < NumSends then
        { UpdateWetStepping cfg { Send i with Gain := { (Send i).Gain with Target := WetGain i } }
            (if (Send i).Moving then 64 else 0) with Moving := true }
      else Send i := by
  unfold updateSendGains
  rw [forLoop_pointwise (fun i (s : SendParams K) =>
    { UpdateWetStepping cfg { s with Gain := { s.Gain with Target := WetGain i } }
        (if s.Moving then 64 else 0) with Moving := true }) _ (fun _ _ => rfl)]

omit [LinearOrderedField K] in
theorem outBufferLoop_apply (n : Nat) (g : Nat → Option Nat) (Send : Nat → SendParams K)
    (i : Nat) :
    forLoop n (fun i Send => Function.update Send i { Send i with OutBuffer := g i }) Send i =
      if i < n then { Send i with OutBuffer := g i } else Send i := by
  rw [forLoop_pointwise (fun i (s : SendParams K) => { s with OutBuffer := g i })
    _ (fun _ _ => rfl)]

theorem CalcSourceParams_Send [FloorRing K] (lm : Libm K) (ext : Externs K)
    (cfg : Consts K) (voice : ALvoice K) (ALSource : ALsource K) (ALContext : ALCcontext K)
    (i : Nat) (hi : i < ALContext.Device.NumAuxSends) :
    ∃ (ob : Option Nat) (W : K),
      ((CalcSourceParams lm ext cfg voice ALSource ALContext).Send i).Gain =
        (UpdateWetStepping cfg
          { voice.Send i with OutBuffer := ob, Gain := { (voice.Send i).Gain with Target := W } }
          (if (voice.Send i).Moving then 64 else 0)).Gain ∧
      ((CalcSourceParams lm ext cfg voice ALSource ALContext).Send i).Counter =
        (UpdateWetStepping cfg
          { voice.Send i with OutBuffer := ob, Gain := { (voice.Send i).Gain with Target := W } }
          (if (voice.Send i).Moving then 64 else 0)).Counter ∧
      ((CalcSourceParams lm ext cfg voice ALSource ALContext).Send i).Moving = true := by
  unfold CalcSourceParams
  simp only []
  rw [forLoop_pointwise (fun i (s : SendParams K) => { s with
      Filters := Function.update s.Filters 0
        (setVoiceFilter (maxf 0.01 ((sourceLocals lm cfg ALSource ALContext).WetGainHF i))
          (maxf 0.01 ((sourceLocals lm cfg ALSource ALContext).WetGainLF i))
          ((ALSource.Send i).HFReference / (ALContext.Device.Frequency : K))
          ((ALSource.Send i).LFReference / (ALContext.Device.Frequency : K))
          (s.Filters 0)) }) _ (fun _ _ => rfl)]
  simp only [hi, if_true]
  cases hH : ALContext.Device.Hrtf <;>
  · simp only [updateSendGains_apply, hi, if_true]
    simp only [outBufferLoop_apply _ (fun i => (roomParams cfg ALContext.Device ALSource i).OutBuffer)]
    simp only [hi, if_true]
    exact ⟨_, _, rfl, rfl, trivial⟩

theorem CalcNonAttnSourceParams_Direct_noHrtf [FloorRing K] (lm : Libm K) (ext : Externs K)
    (cfg : Consts K) (voice : ALvoice K) (ALSource : ALsource K) (ALContext : ALCcontext K)
    (hH : ALContext.Device.Hrtf = none) :
    ∃ D : DirectParams K,
      (CalcNonAttnSourceParams lm ext cfg voice ALSource ALContext).Direct.Gains =
        (UpdateDryStepping cfg D
          (channelSetup cfg ALContext.Device (bufferChannels ALSource)
            ALSource.DirectChannels).num_channels
          (if voice.Direct.Moving then 64 else 0)).Gains ∧
      (CalcNonAttnSourceParams lm ext cfg voice ALSource ALContext).Direct.Counter =
        (UpdateDryStepping cfg D
          (channelSetup cfg ALContext.Device (bufferChannels ALSource)
            ALSource.DirectChannels).num_channels
          (if voice.Direct.Moving then 64 else 0)).Counter ∧
      D.OutChannels = ALContext.Device.NumChannels ∧
      (CalcNonAttnSourceParams lm ext cfg voice ALSource ALContext).Direct.OutChannels =
        ALContext.Device.NumChannels ∧
      (CalcNonAttnSourceParams lm ext cfg voice ALSource ALContext).Direct.Moving = true ∧
      (CalcNonAttnSourceParams lm ext cfg voice ALSource ALContext).IsHrtf = false := by
  unfold CalcNonAttnSourceParams
  simp only []
  by_cases hb : (channelSetup cfg ALContext.Device (bufferChannels ALSource)
      ALSource.DirectChannels).isbformat = true
  · simp only [hb, if_true]
    unfold bformatBranch
    refine ⟨_, rfl, rfl, rfl, ?_⟩
    simp [UpdateDryStepping_OutChannels]
  · simp only [hb, if_false]
    by_cases hd : (channelSetup cfg ALContext.Device (bufferChannels ALSource)
        ALSource.DirectChannels).DirectChannels ≠ false
    · simp only [hd, if_true]
      unfold directChannelsBranch
      simp only [hH]
      refine ⟨_, rfl, rfl, rfl, ?_⟩
      simp [UpdateDryStepping_OutChannels]
    · simp only [hd, if_false, hH]
      unfold panningBranch
      refine ⟨_, rfl, rfl, rfl, ?_⟩
      simp [UpdateDryStepping_OutChannels]

theorem CalcNonAttnSourceParams_Send [FloorRing K] (lm : Libm K) (ext : Externs K)
    (cfg : Consts K) (voice : ALvoice K) (ALSource : ALsource K) (ALContext : ALCcontext K)
    (i : Nat) (hi : i < ALContext.Device.NumAuxSends) :
    ∃ (ob : Option Nat) (W : K),
      ((CalcNonAttnSourceParams lm ext cfg voice ALSource ALContext).Send i).Gain =
        (UpdateWetStepping cfg
          { voice.Send i with OutBuffer := ob, Gain := { (voice.Send i).Gain with Target := W } }
          (if (voice.Send i).Moving then 64 else 0)).Gain ∧
      ((CalcNonAttnSourceParams lm ext cfg voice ALSource ALContext).Send i).Counter =
        (UpdateWetStepping cfg
          { voice.Send i with OutBuffer := ob, Gain := { (voice.Send i).Gain with Target := W } }
          (if (voice.Send i).Moving then 64 else 0)).Counter ∧
      ((CalcNonAttnSourceParams lm ext cfg voice ALSource ALContext).Send i).Moving = true := by
  unfold CalcNonAttnSourceParams
  simp only []
  rw [forLoop_pointwise (fun i (s : SendParams K) => { s with
      Filters := forLoop (channelSetup cfg ALContext.Device (bufferChannels ALSource)
          ALSource.DirectChannels).num_channels (fun c Filters =>
        Function.update Filters c (setVoiceFilter (maxf 0.01 (ALSource.Send i).GainHF)
          (maxf 0.01 (ALSource.Send i).GainLF)
          ((ALSource.Send i).HFReference / (ALContext.Device.Frequency : K))
          ((ALSource.Send i).LFReference / (ALContext.Device.Frequency : K)) (Filters c)))
        s.Filters }) _ (fun _ _ => rfl)]
  simp only [hi, if_true, updateSendGains_apply]
  by_cases hb : (channelSetup cfg ALContext.Device (bufferChannels ALSource)
      ALSource.DirectChannels).isbformat = true
  · simp only [hb, if_true, if_false, Bool.false_eq_true]
    unfold bformatBranch
    simp only []
    simp only [outBufferLoop_apply _ (fun i => sendOutBuffer ALContext.Device ALSource i)]
    simp only [hi, if_true]
    exact ⟨_, _, rfl, rfl, trivial⟩
  · simp only [hb, if_true, if_false, Bool.false_eq_true]
    by_cases hd : (channelSetup cfg ALContext.Device (bufferChannels ALSource)
        ALSource.DirectChannels).DirectChannels ≠ false
    · simp only [hd, if_true, if_false, ne_eq, not_false_eq_true, not_true_eq_false,
        Bool.false_eq_true, Bool.true_eq_false]
      unfold directChannelsBranch
      simp only []
      simp only [outBufferLoop_apply _ (fun i => sendOutBuffer ALContext.Device ALSource i)]
      simp only [hi, if_true]
      exact ⟨_, _, rfl, rfl, trivial⟩
    · simp only [hd, if_true, if_false, ne_eq, not_false_eq_true, not_true_eq_false,
        Bool.false_eq_true, Bool.true_eq_false]
      cases hH : ALContext.Device.Hrtf with
      | none =>
        simp only []
        unfold panningBranch
        simp only []
        simp only [outBufferLoop_apply _ (fun i => sendOutBuffer ALContext.Device ALSource i)]
        simp only [hi, if_true]
        exact ⟨_, _, rfl, rfl, trivial⟩
      | some H =>
        simp only []
        unfold hrtfChannelsBranch
        simp only []
        simp only [outBufferLoop_apply _ (fun i => sendOutBuffer ALContext.Device ALSource i)]
        simp only [hi, if_true]
        exact ⟨_, _, rfl, rfl, trivial⟩

theorem UpdateDryStepping_Counter_moving (cfg : Consts K) (params : DirectParams K)
    (num_chans : Nat) (b : Bool) :
    (UpdateDryStepping cfg params num_chans (if b = true then 64 else 0)).Counter =
      if b = true then 64 else 0 := by
  rw [UpdateDryStepping_Counter]
  cases b <;> simp

theorem CalcNonAttnSourceParams_Counter [FloorRing K] (lm : Libm K) (ext : Externs K)
    (cfg : Consts K) (voice : ALvoice K) (ALSource : ALsource K) (ALContext : ALCcontext K) :
    ((CalcNonAttnSourceParams lm ext cfg voice ALSource ALContext).Direct.Counter = 0 ∨
      (CalcNonAttnSourceParams lm ext cfg voice ALSource ALContext).Direct.Counter = 64) ∧
    (voice.Direct.Moving = true →
      (CalcNonAttnSourceParams lm ext cfg voice ALSource ALContext).Direct.Gains =
          voice.Direct.Gains ∨
        (CalcNonAttnSourceParams lm ext cfg voice ALSource ALContext).Direct.Counter = 64) := by
  unfold CalcNonAttnSourceParams
  simp only []
  by_cases hb : (channelSetup cfg ALContext.Device (bufferChannels ALSource)
      ALSource.DirectChannels).isbformat = true
  · simp only [hb, if_true, if_false, Bool.false_eq_true]
    unfold bformatBranch
    simp only [UpdateDryStepping_Counter_moving]
    cases voice.Direct.Moving <;> simp
  · simp only [hb, if_true, if_false, Bool.false_eq_true]
    by_cases hd : (channelSetup cfg ALContext.Device (bufferChannels ALSource)
        ALSource.DirectChannels).DirectChannels ≠ false
    · simp only [hd, if_true, if_false, ne_eq, not_false_eq_true, not_true_eq_false,
        Bool.false_eq_true, Bool.true_eq_false]
      unfold directChannelsBranch
      simp only [UpdateDryStepping_Counter]
      cases hH : ALContext.Device.Hrtf <;> cases hM : voice.Direct.Moving <;> simp
    · simp only [hd, if_true, if_false, ne_eq, not_false_eq_true, not_true_eq_false,
        Bool.false_eq_true, Bool.true_eq_false]
      cases hH : ALContext.Device.Hrtf with
      | none =>
        simp only []
        unfold panningBranch
        simp only [UpdateDryStepping_Counter_moving]
        cases voice.Direct.Moving <;> simp
      | some H =>
        simp only []
        unfold hrtfChannelsBranch
        simp

theorem CalcSourceParams_Hrtf_Gains [FloorRing K] (lm : Libm K) (ext : Externs K)
    (cfg : Consts K) (voice : ALvoice K) (ALSource : ALsource K) (ALContext : ALCcontext K)
    (H : Hrtf) (hH : ALContext.Device.Hrtf = some H) :
    (CalcSourceParams lm ext cfg voice ALSource ALContext).Direct.Gains = voice.Direct.Gains := by
  unfold CalcSourceParams
  simp only [hH]
  cases hM : voice.Direct.Moving
  · simp
  · simp only [if_true]
    split_ifs <;> rfl

end VoiceUpdate

section SteppingThreshold

variable {K : Type} [LinearOrderedField K]

theorem UpdateWetStepping_Gain (cfg : Consts K) (params : SendParams K) (steps : Nat) :
    (UpdateWetStepping cfg params steps).Gain =
      if steps < 2 then
        { Current := params.Gain.Target, Step := 0, Target := params.Gain.Target }
      else if |params.Gain.Target - params.Gain.Current| ≥ cfg.GAIN_SILENCE_THRESHOLD then
        { params.Gain with
          Step := (params.Gain.Target - params.Gain.Current) * (1 / (steps : K)) }
      else { params.Gain with Step := 0 } := by
  unfold UpdateWetStepping
  by_cases hs : steps < 2
  · simp only [hs, if_true]
  · simp only [hs, if_false]

theorem UpdateWetStepping_Counter (cfg : Consts K) (params : SendParams K) (steps : Nat) :
    (UpdateWetStepping cfg params steps).Counter = if steps < 2 then 0 else steps := by
  unfold UpdateWetStepping
  split_ifs <;> rfl

/-- C1 (instance): on a direct block with two output channels whose gains are at 0 with target
1, `UpdateDryStepping` with horizon 64 meets the conservation property of slot (0, 0). -/
theorem UpdateDryStepping_conservation_witness :
    (0 : ℚ) < Sample.consts.GAIN_SILENCE_THRESHOLD ∧ 2 ≤ 64 ∧
    (0 : Nat) < 1 ∧ 0 < Sample.pendingDirect.OutChannels ∧
    |((UpdateDryStepping Sample.consts Sample.pendingDirect 1 64).Gains 0 0).Target -
        (((UpdateDryStepping Sample.consts Sample.pendingDirect 1 64).Gains 0 0).Current +
          ((UpdateDryStepping Sample.consts Sample.pendingDirect 1 64).Gains 0 0).Step *
            ((64 : Nat) : ℚ))|
      < Sample.consts.GAIN_SILENCE_THRESHOLD :=
  ⟨by norm_num [Sample.consts], by norm_num, by norm_num, by norm_num [Sample.pendingDirect],
    (UpdateDryStepping_conservation Sample.consts (by norm_num [Sample.consts])
      Sample.pendingDirect 1 64 (by norm_num) 0 0 (by norm_num)
      (by norm_num [Sample.pendingDirect])).1⟩

/-- C3 (counterexample): with horizon 64 and a gain at 0 whose target 0.000005 is below the
silence threshold 0.00001, `UpdateDryStepping` sets `Step = 0` but leaves `Current` at 0: it
does not set `Current` to `Target`. -/
theorem UpdateDryStepping_no_snap_counterexample :
    |(Sample.nearDirect.Gains 0 0).Target - (Sample.nearDirect.Gains 0 0).Current|
        < Sample.consts.GAIN_SILENCE_THRESHOLD ∧
    ((UpdateDryStepping Sample.consts Sample.nearDirect 1 64).Gains 0 0).Step = 0 ∧
    ((UpdateDryStepping Sample.consts Sample.nearDirect 1 64).Gains 0 0).Current ≠
      ((UpdateDryStepping Sample.consts Sample.nearDirect 1 64).Gains 0 0).Target := by
  have habs : |(1 / 200000 : ℚ)| = 1 / 200000 := abs_of_pos (by norm_num)
  rw [UpdateDryStepping_Gains]
  norm_num [Sample.nearDirect, Sample.consts, Sample.voice, habs]

/-- C3 (amended): for every horizon `k ≥ 2`, after `UpdateDryStepping` each processed gain slot,
and after `UpdateWetStepping` the send gain, has `Step = 0` if and only if `|Target - Current|`
on entry is below `GAIN_SILENCE_THRESHOLD`; the call leaves `Current` and `Target` unchanged
(it does not set `Current` to `Target`). -/
theorem stepping_zero_iff_below_threshold (cfg : Consts K)
    (hthr : 0 < cfg.GAIN_SILENCE_THRESHOLD) (params : DirectParams K) (send : SendParams K)
    (numInChans k : Nat) (hk : 2 ≤ k) (i j : Nat) (hi : i < numInChans)
    (hj : j < params.OutChannels) :
    (((UpdateDryStepping cfg params numInChans k).Gains i j).Step = 0 ↔
      |(params.Gains i j).Target - (params.Gains i j).Current| < cfg.GAIN_SILENCE_THRESHOLD) ∧
    ((UpdateDryStepping cfg params numInChans k).Gains i j).Current =
      (params.Gains i j).Current ∧
    ((UpdateDryStepping cfg params numInChans k).Gains i j).Target =
      (params.Gains i j).Target ∧
    ((UpdateWetStepping cfg send k).Gain.Step = 0 ↔
      |send.Gain.Target - send.Gain.Current| < cfg.GAIN_SILENCE_THRESHOLD) ∧
    (UpdateWetStepping cfg send k).Gain.Current = send.Gain.Current ∧
    (UpdateWetStepping cfg send k).Gain.Target = send.Gain.Target := by
  have hk2 : ¬ k < 2 := by omega
  have hk0 : (1 / (k : K)) ≠ 0 := by
    have : 0 < k := by omega
    exact one_div_ne_zero (by exact_mod_cast this.ne')
  have key : ∀ d : K, ¬ |d| < cfg.GAIN_SILENCE_THRESHOLD → d * (1 / (k : K)) ≠ 0 := by
    intro d hd h0
    rcases mul_eq_zero.mp h0 with h | h
    · exact hd (by rw [h, abs_zero]; exact hthr)
    · exact hk0 h
  rw [UpdateDryStepping_Gains, UpdateWetStepping_Gain]
  simp only [hi, hj, and_self, if_true, hk2, if_false, ge_iff_le]
  refine ⟨?_, ?_, ?_, ?_, ?_, ?_⟩
  · by_cases hd : |(params.Gains i j).Target - (params.Gains i j).Current|
        < cfg.GAIN_SILENCE_THRESHOLD
    · simp [not_le.mpr hd, hd]
    · simp only [not_lt.mp hd, if_true, hd, iff_false]
      exact key _ hd
  · split_ifs <;> rfl
  · split_ifs <;> rfl
  · by_cases hd : |send.Gain.Target - send.Gain.Current| < cfg.GAIN_SILENCE_THRESHOLD
    · simp [not_le.mpr hd, hd]
    · simp only [not_lt.mp hd, if_true, hd, iff_false]
      exact key _ hd
  · split_ifs <;> rfl
  · split_ifs <;> rfl

/-- C3 (instance): the amended property on a direct block whose gains are at 0 with target 1:
the call leaves `Current` of slot (0, 0) unchanged. -/
theorem stepping_zero_iff_below_threshold_witness :
    (0 : ℚ) < Sample.consts.GAIN_SILENCE_THRESHOLD ∧
    ((UpdateDryStepping Sample.consts Sample.pendingDirect 1 64).Gains 0 0).Current =
      (Sample.pendingDirect.Gains 0 0).Current :=
  ⟨by norm_num [Sample.consts],
    (stepping_zero_iff_below_threshold Sample.consts (by norm_num [Sample.consts])
      Sample.pendingDirect (Sample.voice.Send 0) 1 64 (by norm_num) 0 0 (by norm_num)
      (by norm_num [Sample.pendingDirect])).2.1⟩

end SteppingThreshold

section FirstUpdate

variable {K : Type} [LinearOrderedField K] [FloorRing K]

/-- C2: first-update snap.  On a device without HRTF, for a voice whose `Direct.Moving` flag is
false, one call of `CalcSourceParams` (input channel 0) or of `CalcNonAttnSourceParams` (input
channels `c < num_channels`) leaves every direct gain slot of the `OutChannels` output channels
with `Current = Target` and `Step = 0`, sets `Direct.Counter = 0` and `Direct.Moving = true`;
every send `i < NumSends` whose `Moving` flag was false ends with `Gain.Current = Gain.Target`,
`Gain.Step = 0`, `Counter = 0` and `Moving = true`. -/
theorem first_update_snap (lm : Libm K) (ext : Externs K) (cfg : Consts K) (voice : ALvoice K)
    (ALSource : ALsource K) (ALContext : ALCcontext K)
    (hH : ALContext.Device.Hrtf = none) (hM : voice.Direct.Moving = false) :
    ((∀ j, j < (CalcSourceParams lm ext cfg voice ALSource ALContext).Direct.OutChannels →
        ((CalcSourceParams lm ext cfg voice ALSource ALContext).Direct.Gains 0 j).Current =
          ((CalcSourceParams lm ext cfg voice ALSource ALContext).Direct.Gains 0 j).Target ∧
        ((CalcSourceParams lm ext cfg voice ALSource ALContext).Direct.Gains 0 j).Step = 0) ∧
      (CalcSourceParams lm ext cfg voice ALSource ALContext).Direct.Counter = 0 ∧
      (CalcSourceParams lm ext cfg voice ALSource ALContext).Direct.Moving = true ∧
      (∀ i, i < ALContext.Device.NumAuxSends → (voice.Send i).Moving = false →
        ((CalcSourceParams lm ext cfg voice ALSource ALContext).Send i).Gain.Current =
          ((CalcSourceParams lm ext cfg voice ALSource ALContext).Send i).Gain.Target ∧
        ((CalcSourceParams lm ext cfg voice ALSource ALContext).Send i).Gain.Step = 0 ∧
        ((CalcSourceParams lm ext cfg voice ALSource ALContext).Send i).Counter = 0 ∧
        ((CalcSourceParams lm ext cfg voice ALSource ALContext).Send i).Moving = true)) ∧
    ((∀ c j,
        c < (channelSetup cfg ALContext.Device (bufferChannels ALSource)
          ALSource.DirectChannels).num_channels →
        j < (CalcNonAttnSourceParams lm ext cfg voice ALSource ALContext).Direct.OutChannels →
        ((CalcNonAttnSourceParams lm ext cfg voice ALSource ALContext).Direct.Gains c j).Current =
          ((CalcNonAttnSourceParams lm ext cfg voice ALSource ALContext).Direct.Gains c j).Target ∧
        ((CalcNonAttnSourceParams lm ext cfg voice ALSource ALContext).Direct.Gains c j).Step
          = 0) ∧
      (CalcNonAttnSourceParams lm ext cfg voice ALSource ALContext).Direct.Counter = 0 ∧
      (CalcNonAttnSourceParams lm ext cfg voice ALSource ALContext).Direct.Moving = true ∧
      (∀ i, i < ALContext.Device.NumAuxSends → (voice.Send i).Moving = false →
        ((CalcNonAttnSourceParams lm ext cfg voice ALSource ALContext).Send i).Gain.Current =
          ((CalcNonAttnSourceParams lm ext cfg voice ALSource ALContext).Send i).Gain.Target ∧
        ((CalcNonAttnSourceParams lm ext cfg voice ALSource ALContext).Send i).Gain.Step = 0 ∧
        ((CalcNonAttnSourceParams lm ext cfg voice ALSource ALContext).Send i).Counter = 0 ∧
        ((CalcNonAttnSourceParams lm ext cfg voice ALSource ALContext).Send i).Moving = true)) := by
  obtain ⟨D, hG, hC, hDO, hO, hMv, -⟩ :=
    CalcSourceParams_Direct_noHrtf lm ext cfg voice ALSource ALContext hH
  obtain ⟨D', hG', hC', hDO', hO', hMv', -⟩ :=
    CalcNonAttnSourceParams_Direct_noHrtf lm ext cfg voice ALSource ALContext hH
  simp only [hM, Bool.false_eq_true, if_false] at hG hC hG' hC'
  refine ⟨⟨?_, ?_, hMv, ?_⟩, ⟨?_, ?_, hMv', ?_⟩⟩
  · intro j hj
    rw [hO] at hj
    rw [hG, UpdateDryStepping_Gains]
    simp [hDO, hj]
  · rw [hC, UpdateDryStepping_Counter]
    simp
  · intro i hi hSM
    obtain ⟨ob, W, hg, hc, hm⟩ := CalcSourceParams_Send lm ext cfg voice ALSource ALContext i hi
    simp only [hSM, Bool.false_eq_true, if_false] at hg hc
    rw [hg, hc, UpdateWetStepping_Gain, UpdateWetStepping_Counter]
    simp [hm]
  · intro c j hc hj
    rw [hO'] at hj
    rw [hG', UpdateDryStepping_Gains]
    simp [hDO', hj, hc]
  · rw [hC', UpdateDryStepping_Counter]
    simp
  · intro i hi hSM
    obtain ⟨ob, W, hg, hc, hm⟩ :=
      CalcNonAttnSourceParams_Send lm ext cfg voice ALSource ALContext i hi
    simp only [hSM, Bool.false_eq_true, if_false] at hg hc
    rw [hg, hc, UpdateWetStepping_Gain, UpdateWetStepping_Counter]
    simp [hm]

/-- C2 (instance): the first update of the sample voice on the sample stereo device snaps the
direct gains and resets the counter. -/
theorem first_update_snap_witness :
    Sample.context.Device.Hrtf = none ∧ Sample.voice.Direct.Moving = false ∧
    (CalcSourceParams Sample.libm Sample.externs Sample.consts Sample.voice Sample.source
      Sample.context).Direct.Counter = 0 ∧
    (CalcNonAttnSourceParams Sample.libm Sample.externs Sample.consts Sample.voice Sample.source
      Sample.context).Direct.Counter = 0 :=
  ⟨rfl, rfl,
    (first_update_snap Sample.libm Sample.externs Sample.consts Sample.voice Sample.source
      Sample.context rfl rfl).1.2.1,
    (first_update_snap Sample.libm Sample.externs Sample.consts Sample.voice Sample.source
      Sample.context rfl rfl).2.2.1⟩

end FirstUpdate

section CounterInvariant

theorem sample_DryGain : (sourceLocals Sample.libm Sample.consts Sample.source
    Sample.hrtfContext).DryGain = 1 := by
  norm_num [sourceLocals, Sample.libm, Sample.consts, Sample.source, Sample.hrtfContext,
    Sample.context, Sample.listener, Sample.hrtfDevice, Sample.device, distanceAttenuation,
    caseInverseDistance, clampf, maxf, minf, lerp, aluDotproduct, aluVector.normalize,
    aluNormalize, coneGains, RAD2DEG, roomParams, sendSlot]

theorem sample_Distance : (sourceLocals Sample.libm Sample.consts Sample.source
    Sample.hrtfContext).Distance = 0 := by
  norm_num [sourceLocals, Sample.libm, Sample.consts, Sample.source, Sample.hrtfContext,
    Sample.context, Sample.listener, Sample.hrtfDevice, Sample.device, aluDotproduct]

/-- C4 (counterexample): on the sample HRTF device (44100 Hz), the update by `CalcSourceParams`
of a moving voice whose last HRTF gain was 0 and whose source now has dry gain 1 computes the
fade time 0.015 s and installs the counter returned by `GetMovingHrtfCoeffs`, 662 samples, which
exceeds 64. -/
theorem CalcSourceParams_hrtf_counter_counterexample :
    (CalcSourceParams Sample.libm Sample.externs Sample.consts Sample.movingVoice
      Sample.source Sample.hrtfContext).Direct.Counter = 662 ∧
    ¬ (CalcSourceParams Sample.libm Sample.externs Sample.consts Sample.movingVoice
      Sample.source Sample.hrtfContext).Direct.Counter ≤ 64 := by
  have h : (CalcSourceParams Sample.libm Sample.externs Sample.consts Sample.movingVoice
      Sample.source Sample.hrtfContext).Direct.Counter = 662 := by
    unfold CalcSourceParams
    simp only [sample_DryGain, sample_Distance]
    norm_num [Sample.hrtfContext, Sample.hrtfDevice, Sample.device, Sample.movingVoice,
      Sample.voice, Sample.source, Sample.consts, CalcFadeTime, maxf, minf, clampf,
      Sample.libm, Sample.externs, Sample.GetMovingHrtfCoeffs, aluDotproduct]
    rfl
  rw [h]
  exact ⟨rfl, by norm_num⟩

variable {K : Type} [LinearOrderedField K] [FloorRing K]

/-- C4 (amended): stepping-counter invariant.  After any call of `CalcNonAttnSourceParams`, and
after any call of `CalcSourceParams` on a device without HRTF, `Direct.Counter` is at most 64;
after any call of either function every `Send[i].Counter` (`i < NumSends`) is at most 64; after
an update of a voice whose `Direct.Moving` flag was already true, `Direct.Counter` is `> 0`
whenever the target of some direct gain slot changed by at least `GAIN_SILENCE_THRESHOLD`; and
after an update of a voice whose `Send[i].Moving` flag was already true, `Send[i].Counter` is
64. -/
theorem stepping_counter_bound (lm : Libm K) (ext : Externs K) (cfg : Consts K)
    (voice : ALvoice K) (ALSource : ALsource K) (ALContext : ALCcontext K)
    (hthr : 0 < cfg.GAIN_SILENCE_THRESHOLD) :
    (CalcNonAttnSourceParams lm ext cfg voice ALSource ALContext).Direct.Counter ≤ 64 ∧
    (ALContext.Device.Hrtf = none →
      (CalcSourceParams lm ext cfg voice ALSource ALContext).Direct.Counter ≤ 64) ∧
    (∀ i, i < ALContext.Device.NumAuxSends →
      ((CalcSourceParams lm ext cfg voice ALSource ALContext).Send i).Counter ≤ 64 ∧
      ((CalcNonAttnSourceParams lm ext cfg voice ALSource ALContext).Send i).Counter ≤ 64) ∧
    (voice.Direct.Moving = true →
      ((∃ c j, |((CalcSourceParams lm ext cfg voice ALSource ALContext).Direct.Gains c j).Target
            - (voice.Direct.Gains c j).Target| ≥ cfg.GAIN_SILENCE_THRESHOLD) →
        0 < (CalcSourceParams lm ext cfg voice ALSource ALContext).Direct.Counter) ∧
      ((∃ c j,
          |((CalcNonAttnSourceParams lm ext cfg voice ALSource ALContext).Direct.Gains c j).Target
            - (voice.Direct.Gains c j).Target| ≥ cfg.GAIN_SILENCE_THRESHOLD) →
        0 < (CalcNonAttnSourceParams lm ext cfg voice ALSource ALContext).Direct.Counter)) ∧
    (∀ i, i < ALContext.Device.NumAuxSends → (voice.Send i).Moving = true →
      ((CalcSourceParams lm ext cfg voice ALSource ALContext).Send i).Counter = 64 ∧
      ((CalcNonAttnSourceParams lm ext cfg voice ALSource ALContext).Send i).Counter = 64) := by
  have hN := CalcNonAttnSourceParams_Counter lm ext cfg voice ALSource ALContext
  have hsend : ∀ i, i < ALContext.Device.NumAuxSends →
      (((CalcSourceParams lm ext cfg voice ALSource ALContext).Send i).Counter =
          if (voice.Send i).Moving = true then 64 else 0) ∧
      (((CalcNonAttnSourceParams lm ext cfg voice ALSource ALContext).Send i).Counter =
          if (voice.Send i).Moving = true then 64 else 0) := by
    intro i hi
    obtain ⟨ob, W, -, hc, -⟩ := CalcSourceParams_Send lm ext cfg voice ALSource ALContext i hi
    obtain ⟨ob', W', -, hc', -⟩ :=
      CalcNonAttnSourceParams_Send lm ext cfg voice ALSource ALContext i hi
    rw [hc, hc', UpdateWetStepping_Counter, UpdateWetStepping_Counter]
    cases (voice.Send i).Moving <;> simp
  have hunchanged : ∀ G : Nat → Nat → MixGains K, G = voice.Direct.Gains →
      ¬ ∃ c j, |(G c j).Target - (voice.Direct.Gains c j).Target|
        ≥ cfg.GAIN_SILENCE_THRESHOLD := by
    rintro G rfl ⟨c, j, h⟩
    rw [sub_self, abs_zero] at h
    exact absurd hthr (not_lt.mpr h)
  refine ⟨?_, ?_, ?_, ?_, ?_⟩
  · rcases hN.1 with h | h <;> omega
  · intro hH
    obtain ⟨D, -, hC, -⟩ := CalcSourceParams_Direct_noHrtf lm ext cfg voice ALSource ALContext hH
    rw [hC, UpdateDryStepping_Counter_moving]
    split_ifs <;> norm_num
  · intro i hi
    obtain ⟨h1, h2⟩ := hsend i hi
    rw [h1, h2]
    split_ifs <;> norm_num
  · intro hM
    constructor
    · intro hex
      cases hH : ALContext.Device.Hrtf with
      | none =>
        obtain ⟨D, -, hC, -⟩ :=
          CalcSourceParams_Direct_noHrtf lm ext cfg voice ALSource ALContext hH
        rw [hC, UpdateDryStepping_Counter_moving, hM]
        norm_num
      | some H =>
        exact absurd hex (hunchanged _
          (CalcSourceParams_Hrtf_Gains lm ext cfg voice ALSource ALContext H hH))
    · intro hex
      rcases hN.2 hM with h | h
      · exact absurd hex (hunchanged _ h)
      · rw [h]; norm_num
  · intro i hi hSM
    obtain ⟨h1, h2⟩ := hsend i hi
    rw [h1, h2, hSM]
    simp

/-- C4 (instance): the amended invariant on the sample voice, source and (HRTF-less) context. -/
theorem stepping_counter_bound_witness :
    (0 : ℚ) < Sample.consts.GAIN_SILENCE_THRESHOLD ∧
    (CalcNonAttnSourceParams Sample.libm Sample.externs Sample.consts Sample.movingVoice
      Sample.source Sample.context).Direct.Counter ≤ 64 :=
  ⟨by norm_num [Sample.consts],
    (stepping_counter_bound Sample.libm Sample.externs Sample.consts Sample.movingVoice
      Sample.source Sample.context (by norm_num [Sample.consts])).1⟩

end CounterInvariant

section PitchStepping

variable {K : Type} [LinearOrderedField K] [FloorRing K]

theorem round_le_round_of_le {x y : K} (h : x ≤ y) : round x ≤ round y := by
  rw [round_eq, round_eq]
  exact Int.floor_mono (by linarith)

omit [FloorRing K] in
theorem Consts_maxStep_cast (cfg : Consts K) :
    (((cfg.MAX_PITCH <<< cfg.FRACTIONBITS : Nat) : Int) : K) =
      (cfg.MAX_PITCH : K) * (cfg.FRACTIONONE : K) := by
  simp [Consts.FRACTIONONE, Nat.shiftLeft_eq]

theorem pitchStep_clamp (cfg : Consts K) (hMP : 1 ≤ cfg.MAX_PITCH) (Pitch : K)
    (hP : 0 ≤ Pitch) :
    pitchStep cfg Pitch =
        min ((cfg.MAX_PITCH <<< cfg.FRACTIONBITS : Nat) : Int)
          (max 1 (round (Pitch * (cfg.FRACTIONONE : K)))) ∧
      1 ≤ pitchStep cfg Pitch ∧
      pitchStep cfg Pitch ≤ ((cfg.MAX_PITCH <<< cfg.FRACTIONBITS : Nat) : Int) := by
  have hone : (0 : K) < (cfg.FRACTIONONE : K) := by
    have : 0 < cfg.FRACTIONONE := by
      simp [Consts.FRACTIONONE, Nat.shiftLeft_eq]
    exact_mod_cast this
  have hmax1 : (1 : Int) ≤ ((cfg.MAX_PITCH <<< cfg.FRACTIONBITS : Nat) : Int) := by
    have : 1 ≤ cfg.MAX_PITCH <<< cfg.FRACTIONBITS := by
      rw [Nat.shiftLeft_eq]
      exact Nat.one_le_iff_ne_zero.mpr (Nat.mul_ne_zero (by omega) (by positivity))
    exact_mod_cast this
  have hroundmax : round ((cfg.MAX_PITCH : K) * (cfg.FRACTIONONE : K)) =
      ((cfg.MAX_PITCH <<< cfg.FRACTIONBITS : Nat) : Int) := by
    rw [← Consts_maxStep_cast, round_intCast]
  have hr0 : 0 ≤ round (Pitch * (cfg.FRACTIONONE : K)) := by
    have := round_le_round_of_le (mul_nonneg hP hone.le)
    rwa [round_zero] at this
  unfold pitchStep fastf2i
  by_cases hgt : Pitch > (cfg.MAX_PITCH : K)
  · simp only [hgt, if_true]
    have hge : ((cfg.MAX_PITCH <<< cfg.FRACTIONBITS : Nat) : Int) ≤
        round (Pitch * (cfg.FRACTIONONE : K)) := by
      rw [← hroundmax]
      exact round_le_round_of_le (mul_le_mul_of_nonneg_right hgt.le hone.le)
    refine ⟨?_, hmax1, le_refl _⟩
    rw [max_eq_right (le_trans hmax1 hge), min_eq_left hge]
  · simp only [hgt, if_false]
    have hle : round (Pitch * (cfg.FRACTIONONE : K)) ≤
        ((cfg.MAX_PITCH <<< cfg.FRACTIONBITS : Nat) : Int) := by
      rw [← hroundmax]
      exact round_le_round_of_le (mul_le_mul_of_nonneg_right (not_lt.mp hgt) hone.le)
    by_cases h0 : round (Pitch * (cfg.FRACTIONONE : K)) = 0
    · simp only [h0, if_true]
      refine ⟨?_, le_refl _, hmax1⟩
      rw [max_eq_left (by norm_num), min_eq_right hmax1]
    · simp only [h0, if_false]
      have h1 : 1 ≤ round (Pitch * (cfg.FRACTIONONE : K)) := by omega
      refine ⟨?_, h1, hle⟩
      rw [max_eq_right h1, min_eq_right hle]

omit [FloorRing K] in
theorem clampf_one_pos (x hi : K) (hhi : 1 ≤ hi) : 0 < clampf x 1 hi := by
  unfold clampf minf maxf
  split_ifs <;> linarith

omit [FloorRing K] in
theorem dopplerPitch_nonneg (Pitch DopplerFactor SpeedOfSound : K)
    (Velocity lvelocity SourceToListener : aluVector K) (hP : 0 ≤ Pitch) :
    0 ≤ dopplerPitch Pitch DopplerFactor SpeedOfSound Velocity lvelocity SourceToListener := by
  unfold dopplerPitch
  by_cases hD : DopplerFactor > 0
  · simp only [hD, if_true]
    have hc : (1 : K) ≤ (if SpeedOfSound < 1 then 1 else SpeedOfSound) * 2 - 1 := by
      split_ifs with h
      · norm_num
      · linarith [not_lt.mp h]
    exact mul_nonneg hP (div_nonneg (clampf_one_pos _ _ hc).le (clampf_one_pos _ _ hc).le)
  · simp only [hD, if_false]
    exact hP

theorem CalcSourceParams_Step (lm : Libm K) (ext : Externs K) (cfg : Consts K)
    (voice : ALvoice K) (ALSource : ALsource K) (ALContext : ALCcontext K)
    (ALBuffer : ALbuffer) (hq : firstBuffer ALSource.queue = some ALBuffer) :
    (CalcSourceParams lm ext cfg voice ALSource ALContext).Step =
      pitchStep cfg ((sourceLocals lm cfg ALSource ALContext).Pitch *
        (ALBuffer.Frequency : K) / (ALContext.Device.Frequency : K)) := by
  unfold CalcSourceParams
  simp only [hq]
  cases ALContext.Device.Hrtf <;> rfl

theorem CalcNonAttnSourceParams_Step (lm : Libm K) (ext : Externs K) (cfg : Consts K)
    (voice : ALvoice K) (ALSource : ALsource K) (ALContext : ALCcontext K)
    (ALBuffer : ALbuffer) (hq : firstBuffer ALSource.queue = some ALBuffer) :
    (CalcNonAttnSourceParams lm ext cfg voice ALSource ALContext).Step =
      pitchStep cfg (ALSource.Pitch *
        (ALBuffer.Frequency : K) / (ALContext.Device.Frequency : K)) := by
  unfold CalcNonAttnSourceParams
  simp only [hq]
  by_cases hb : (channelSetup cfg ALContext.Device (bufferChannels ALSource)
      ALSource.DirectChannels).isbformat = true
  · simp only [hb, if_true, if_false, Bool.false_eq_true]
    rfl
  · simp only [hb, if_true, if_false, Bool.false_eq_true]
    by_cases hd : (channelSetup cfg ALContext.Device (bufferChannels ALSource)
        ALSource.DirectChannels).DirectChannels ≠ false
    · simp only [hd, if_true, if_false, ne_eq, not_false_eq_true, not_true_eq_false,
        Bool.false_eq_true, Bool.true_eq_false]
      rfl
    · simp only [hd, if_true, if_false, ne_eq, not_false_eq_true, not_true_eq_false,
        Bool.false_eq_true, Bool.true_eq_false]
      cases ALContext.Device.Hrtf <;> rfl

/-- C5 (counterexample): for the sample source with pitch -1 (44100 Hz buffer, 44100 Hz device,
`FRACTIONBITS = 14`), `CalcNonAttnSourceParams` stores `fastf2i(-1 * 16384) = -16384` in
`voice->Step`, which is below 1. -/
theorem negative_pitch_step_counterexample :
    (CalcNonAttnSourceParams Sample.libm Sample.externs Sample.consts Sample.voice
      Sample.negativePitchSource Sample.context).Step = -16384 ∧
    ¬ (1 ≤ (CalcNonAttnSourceParams Sample.libm Sample.externs Sample.consts Sample.voice
      Sample.negativePitchSource Sample.context).Step) := by
  have h : (CalcNonAttnSourceParams Sample.libm Sample.externs Sample.consts Sample.voice
      Sample.negativePitchSource Sample.context).Step = -16384 := by
    rw [CalcNonAttnSourceParams_Step Sample.libm Sample.externs Sample.consts Sample.voice
      Sample.negativePitchSource Sample.context ⟨44100, FmtChannels.FmtMono⟩ rfl]
    have hval : (Sample.negativePitchSource.Pitch * ((44100 : Int) : ℚ) /
        ((Sample.context.Device.Frequency : Nat) : ℚ)) = -1 := by
      norm_num [Sample.negativePitchSource, Sample.context, Sample.device]
    have hone : ((Sample.consts.FRACTIONONE : Nat) : ℚ) = 16384 := by
      norm_num [Consts.FRACTIONONE, Sample.consts, Nat.shiftLeft_eq]
    have hr : round (-1 * (16384 : ℚ)) = -16384 := by
      have : (-1 * (16384 : ℚ)) = ((-16384 : Int) : ℚ) := by norm_num
      rw [this, round_intCast]
    unfold pitchStep fastf2i
    rw [hval, hone, hr]
    norm_num [Sample.consts]
  rw [h]
  exact ⟨rfl, by norm_num⟩

/-- C5 (amended): pitch stepping.  For every source whose queue holds a non-null buffer, whose
pitch is non-negative and whose buffer frequency is non-negative, on a device of positive
frequency (and with `MAX_PITCH ≥ 1`), both `CalcSourceParams` and `CalcNonAttnSourceParams` set
`voice.Step = clamp(round(Pitch' * FRACTIONONE), 1, MAX_PITCH<<FRACTIONBITS)` with
`Pitch' = Pitch * BufferFreq / DeviceFreq` (`Pitch` including the Doppler ratio on the spatial
path), so that `1 ≤ Step ≤ MAX_PITCH<<FRACTIONBITS`. -/
theorem pitch_step_clamped (lm : Libm K) (ext : Externs K) (cfg : Consts K)
    (voice : ALvoice K) (ALSource : ALsource K) (ALContext : ALCcontext K)
    (ALBuffer : ALbuffer) (hq : firstBuffer ALSource.queue = some ALBuffer)
    (hMP : 1 ≤ cfg.MAX_PITCH) (hP : 0 ≤ ALSource.Pitch) (hB : 0 ≤ ALBuffer.Frequency)
    (hF : 0 < ALContext.Device.Frequency) :
    ((sourceLocals lm cfg ALSource ALContext).Pitch =
        dopplerPitch ALSource.Pitch (ALContext.DopplerFactor * ALSource.DopplerFactor)
          (ALContext.SpeedOfSound * ALContext.DopplerVelocity)
          (sourceLocals lm cfg ALSource ALContext).Velocity ALContext.Listener.Params.Velocity
          (sourceLocals lm cfg ALSource ALContext).SourceToListener) ∧
    ((CalcSourceParams lm ext cfg voice ALSource ALContext).Step =
        min ((cfg.MAX_PITCH <<< cfg.FRACTIONBITS : Nat) : Int)
          (max 1 (round ((sourceLocals lm cfg ALSource ALContext).Pitch *
            (ALBuffer.Frequency : K) / (ALContext.Device.Frequency : K) *
            (cfg.FRACTIONONE : K)))) ∧
      1 ≤ (CalcSourceParams lm ext cfg voice ALSource ALContext).Step ∧
      (CalcSourceParams lm ext cfg voice ALSource ALContext).Step ≤
        ((cfg.MAX_PITCH <<< cfg.FRACTIONBITS : Nat) : Int)) ∧
    ((CalcNonAttnSourceParams lm ext cfg voice ALSource ALContext).Step =
        min ((cfg.MAX_PITCH <<< cfg.FRACTIONBITS : Nat) : Int)
          (max 1 (round (ALSource.Pitch *
            (ALBuffer.Frequency : K) / (ALContext.Device.Frequency : K) *
            (cfg.FRACTIONONE : K)))) ∧
      1 ≤ (CalcNonAttnSourceParams lm ext cfg voice ALSource ALContext).Step ∧
      (CalcNonAttnSourceParams lm ext cfg voice ALSource ALContext).Step ≤
        ((cfg.MAX_PITCH <<< cfg.FRACTIONBITS : Nat) : Int)) := by
  have hBK : (0 : K) ≤ (ALBuffer.Frequency : K) := by exact_mod_cast hB
  have hFK : (0 : K) < (ALContext.Device.Frequency : K) := by exact_mod_cast hF
  have hLP : (sourceLocals lm cfg ALSource ALContext).Pitch =
        dopplerPitch ALSource.Pitch (ALContext.DopplerFactor * ALSource.DopplerFactor)
          (ALContext.SpeedOfSound * ALContext.DopplerVelocity)
          (sourceLocals lm cfg ALSource ALContext).Velocity ALContext.Listener.Params.Velocity
          (sourceLocals lm cfg ALSource ALContext).SourceToListener := rfl
  have hS : 0 ≤ (sourceLocals lm cfg ALSource ALContext).Pitch *
      (ALBuffer.Frequency : K) / (ALContext.Device.Frequency : K) := by
    rw [hLP]
    exact div_nonneg (mul_nonneg (dopplerPitch_nonneg _ _ _ _ _ _ hP) hBK) hFK.le
  have hN : 0 ≤ ALSource.Pitch *
      (ALBuffer.Frequency : K) / (ALContext.Device.Frequency : K) :=
    div_nonneg (mul_nonneg hP hBK) hFK.le
  refine ⟨hLP, ?_, ?_⟩
  · rw [CalcSourceParams_Step lm ext cfg voice ALSource ALContext ALBuffer hq]
    exact pitchStep_clamp cfg hMP _ hS
  · rw [CalcNonAttnSourceParams_Step lm ext cfg voice ALSource ALContext ALBuffer hq]
    exact pitchStep_clamp cfg hMP _ hN

/-- C5 (instance): the sample source (pitch 1, 44100 Hz buffer) on the sample device. -/
theorem pitch_step_clamped_witness :
    firstBuffer Sample.source.queue = some ⟨44100, FmtChannels.FmtMono⟩ ∧
    1 ≤ Sample.consts.MAX_PITCH ∧ (0 : ℚ) ≤ Sample.source.Pitch ∧ (0 : Int) ≤ 44100 ∧
    0 < Sample.context.Device.Frequency ∧
    1 ≤ (CalcSourceParams Sample.libm Sample.externs Sample.consts Sample.voice Sample.source
      Sample.context).Step :=
  ⟨rfl, by norm_num [Sample.consts], by norm_num [Sample.source], by norm_num,
    by norm_num [Sample.context, Sample.device],
    (pitch_step_clamped Sample.libm Sample.externs Sample.consts Sample.voice Sample.source
      Sample.context ⟨44100, FmtChannels.FmtMono⟩ rfl (by norm_num [Sample.consts])
      (by norm_num [Sample.source]) (by norm_num)
      (by norm_num [Sample.context, Sample.device])).2.1.2.1⟩

end PitchStepping

section InverseModel

variable {K : Type} [LinearOrderedField K]

theorem maxf_eq_max (a b : K) : maxf a b = max a b := by
  unfold maxf
  split_ifs with h
  · exact (max_eq_left h.le).symm
  · exact (max_eq_right (not_lt.mp h)).symm

theorem minf_eq_min (a b : K) : minf a b = min a b := by
  unfold minf
  split_ifs with h
  · exact (min_eq_right h.le).symm
  · exact (min_eq_left (not_lt.mp h)).symm

theorem sourceLocals_distance (lm : Libm K) (cfg : Consts K) (ALSource : ALsource K)
    (ALContext : ALCcontext K) :
    (sourceLocals lm cfg ALSource ALContext).Attenuation =
        (distanceAttenuation lm
          (if ALContext.SourceDistanceModel then ALSource.DistanceModel
            else ALContext.DistanceModel)
          (sourceLocals lm cfg ALSource ALContext).Distance ALSource.RefDistance
          ALSource.MaxDistance ALSource.RollOffFactor
          (fun i => (roomParams cfg ALContext.Device ALSource i).RoomRolloff)).Attenuation ∧
    (sourceLocals lm cfg ALSource ALContext).RoomAttenuation =
        (distanceAttenuation lm
          (if ALContext.SourceDistanceModel then ALSource.DistanceModel
            else ALContext.DistanceModel)
          (sourceLocals lm cfg ALSource ALContext).Distance ALSource.RefDistance
          ALSource.MaxDistance ALSource.RollOffFactor
          (fun i => (roomParams cfg ALContext.Device ALSource i).RoomRolloff)).RoomAttenuation ∧
    (sourceLocals lm cfg ALSource ALContext).ClampedDist =
        (distanceAttenuation lm
          (if ALContext.SourceDistanceModel then ALSource.DistanceModel
            else ALContext.DistanceModel)
          (sourceLocals lm cfg ALSource ALContext).Distance ALSource.RefDistance
          ALSource.MaxDistance ALSource.RollOffFactor
          (fun i => (roomParams cfg ALContext.Device ALSource i).RoomRolloff)).ClampedDist :=
  ⟨rfl, rfl, rfl⟩

/-- C6: inverse distance model.  The dry attenuation that `CalcSourceParams` computes is the
`Attenuation` of the distance-model switch; under `InverseDistance` (with
`ClampedDist = Distance`) and under `InverseDistanceClamped` with `MinDist ≤ MaxDist` (with
`ClampedDist = clamp(Distance, MinDist, MaxDist)`) it is
`MinDist / lerp(MinDist, ClampedDist, Rolloff)` when `MinDist > 0` and the divisor is `> 0`, and
1 otherwise, so the quotient is only taken with a positive divisor; `InverseDistanceClamped`
with `Rolloff = 1`, `MinDist = 1`, `MaxDist = 10` gives 1 at distance 0.5, 1 at 1, 0.5 at 2 and
0.1 at 20 (the value at 10). -/
theorem inverse_distance_attenuation (lm : Libm K) (cfg : Consts K) (ALSource : ALsource K)
    (ALContext : ALCcontext K) (Distance MinDist MaxDist Rolloff : K) (RoomRolloff : Nat → K) :
    (sourceLocals lm cfg ALSource ALContext).Attenuation =
      (distanceAttenuation lm
        (if ALContext.SourceDistanceModel then ALSource.DistanceModel
          else ALContext.DistanceModel)
        (sourceLocals lm cfg ALSource ALContext).Distance ALSource.RefDistance
        ALSource.MaxDistance ALSource.RollOffFactor
        (fun i => (roomParams cfg ALContext.Device ALSource i).RoomRolloff)).Attenuation ∧
    ((distanceAttenuation lm DistanceModel.InverseDistance Distance MinDist MaxDist Rolloff
        RoomRolloff).ClampedDist = Distance ∧
      (distanceAttenuation lm DistanceModel.InverseDistance Distance MinDist MaxDist Rolloff
        RoomRolloff).Attenuation =
        if MinDist > 0 ∧ lerp MinDist Distance Rolloff > 0 then
          MinDist / lerp MinDist Distance Rolloff
        else 1) ∧
    (MinDist ≤ MaxDist →
      (distanceAttenuation lm DistanceModel.InverseDistanceClamped Distance MinDist MaxDist
        Rolloff RoomRolloff).ClampedDist = clampf Distance MinDist MaxDist ∧
      (distanceAttenuation lm DistanceModel.InverseDistanceClamped Distance MinDist MaxDist
        Rolloff RoomRolloff).Attenuation =
        if MinDist > 0 ∧ lerp MinDist (clampf Distance MinDist MaxDist) Rolloff > 0 then
          MinDist / lerp MinDist (clampf Distance MinDist MaxDist) Rolloff
        else 1) ∧
    ((distanceAttenuation lm DistanceModel.InverseDistanceClamped (1 / 2) 1 10 1
        RoomRolloff).Attenuation = 1 ∧
      (distanceAttenuation lm DistanceModel.InverseDistanceClamped 1 1 10 1
        RoomRolloff).Attenuation = 1 ∧
      (distanceAttenuation lm DistanceModel.InverseDistanceClamped 2 1 10 1
        RoomRolloff).Attenuation = 1 / 2 ∧
      (distanceAttenuation lm DistanceModel.InverseDistanceClamped 20 1 10 1
        RoomRolloff).Attenuation = 1 / 10 ∧
      (distanceAttenuation lm DistanceModel.InverseDistanceClamped 10 1 10 1
        RoomRolloff).Attenuation = 1 / 10) := by
  have hinv : ∀ cd : K, (caseInverseDistance MinDist cd Rolloff RoomRolloff).Attenuation =
      if MinDist > 0 ∧ lerp MinDist cd Rolloff > 0 then MinDist / lerp MinDist cd Rolloff
      else 1 := by
    intro cd
    unfold caseInverseDistance
    by_cases h1 : MinDist > 0
    · by_cases h2 : lerp MinDist cd Rolloff > 0 <;> simp [h1, h2]
    · simp [h1]
  refine ⟨rfl, ⟨?_, ?_⟩, ?_, ?_⟩
  · unfold distanceAttenuation caseInverseDistance
    simp only []
    split_ifs <;> rfl
  · unfold distanceAttenuation
    exact hinv Distance
  · intro hle
    unfold distanceAttenuation
    simp only [not_lt.mpr hle, if_false]
    refine ⟨?_, hinv _⟩
    unfold caseInverseDistance
    split_ifs <;> rfl
  · refine ⟨?_, ?_, ?_, ?_, ?_⟩ <;>
      norm_num [distanceAttenuation, caseInverseDistance, clampf, minf, maxf, lerp]

end InverseModel

section DistanceModels

variable {K : Type} [LinearOrderedField K]

/-- C7: linear distance model.  Under `LinearDistance` (with `ClampedDist = Distance`) and under
`LinearDistanceClamped` with `MinDist ≤ MaxDist` (with
`ClampedDist = clamp(Distance, MinDist, MaxDist)`), the dry attenuation that `CalcSourceParams`
computes is `max(0, 1 - Rolloff*(ClampedDist-MinDist)/(MaxDist-MinDist))` when
`MaxDist ≠ MinDist` and 1 when they are equal; `LinearDistanceClamped` with `Rolloff = 1`,
`MinDist = 1`, `MaxDist = 3` gives 0.5 at distance 2, 1 at 0.5 and 0 at 4. -/
theorem linear_distance_attenuation (lm : Libm K) (cfg : Consts K) (ALSource : ALsource K)
    (ALContext : ALCcontext K) (Distance MinDist MaxDist Rolloff : K) (RoomRolloff : Nat → K) :
    (sourceLocals lm cfg ALSource ALContext).Attenuation =
      (distanceAttenuation lm
        (if ALContext.SourceDistanceModel then ALSource.DistanceModel
          else ALContext.DistanceModel)
        (sourceLocals lm cfg ALSource ALContext).Distance ALSource.RefDistance
        ALSource.MaxDistance ALSource.RollOffFactor
        (fun i => (roomParams cfg ALContext.Device ALSource i).RoomRolloff)).Attenuation ∧
    ((distanceAttenuation lm DistanceModel.LinearDistance Distance MinDist MaxDist Rolloff
        RoomRolloff).ClampedDist = Distance ∧
      (distanceAttenuation lm DistanceModel.LinearDistance Distance MinDist MaxDist Rolloff
        RoomRolloff).Attenuation =
        if MaxDist ≠ MinDist then
          max 0 (1 - Rolloff * (Distance - MinDist) / (MaxDist - MinDist))
        else 1) ∧
    (MinDist ≤ MaxDist →
      (distanceAttenuation lm DistanceModel.LinearDistanceClamped Distance MinDist MaxDist
        Rolloff RoomRolloff).ClampedDist = clampf Distance MinDist MaxDist ∧
      (distanceAttenuation lm DistanceModel.LinearDistanceClamped Distance MinDist MaxDist
        Rolloff RoomRolloff).Attenuation =
        if MaxDist ≠ MinDist then
          max 0 (1 - Rolloff * (clampf Distance MinDist MaxDist - MinDist) / (MaxDist - MinDist))
        else 1) ∧
    ((distanceAttenuation lm DistanceModel.LinearDistanceClamped 2 1 3 1
        RoomRolloff).Attenuation = 1 / 2 ∧
      (distanceAttenuation lm DistanceModel.LinearDistanceClamped (1 / 2) 1 3 1
        RoomRolloff).Attenuation = 1 ∧
      (distanceAttenuation lm DistanceModel.LinearDistanceClamped 4 1 3 1
        RoomRolloff).Attenuation = 0) := by
  have hlin : ∀ cd : K, (caseLinearDistance MinDist MaxDist cd Rolloff RoomRolloff).Attenuation =
      if MaxDist ≠ MinDist then max 0 (1 - Rolloff * (cd - MinDist) / (MaxDist - MinDist))
      else 1 := by
    intro cd
    unfold caseLinearDistance
    by_cases h1 : MaxDist ≠ MinDist
    · rw [if_pos h1, if_pos h1]
      simp only [maxf_eq_max, max_comm]
    · rw [if_neg h1, if_neg h1]
  refine ⟨rfl, ⟨?_, ?_⟩, ?_, ?_⟩
  · unfold distanceAttenuation caseLinearDistance
    simp only []
    split_ifs <;> rfl
  · unfold distanceAttenuation
    exact hlin Distance
  · intro hle
    unfold distanceAttenuation
    simp only [not_lt.mpr hle, if_false]
    refine ⟨?_, hlin _⟩
    unfold caseLinearDistance
    split_ifs <;> rfl
  · refine ⟨?_, ?_, ?_⟩ <;>
      norm_num [distanceAttenuation, caseLinearDistance, clampf, minf, maxf]

/-- C8: exponent distance model.  Under `ExponentDistance` (with `ClampedDist = Distance`) and
under `ExponentDistanceClamped` with `MinDist ≤ MaxDist` (with
`ClampedDist = clamp(Distance, MinDist, MaxDist)`), the dry attenuation that `CalcSourceParams`
computes is `powf(ClampedDist/MinDist, -Rolloff)` when `ClampedDist > 0` and `MinDist > 0`, and
1 otherwise; with the real power function for `powf`, `ExponentDistance` with `MinDist = 1`,
`Rolloff = 2` gives 0.25 at distance 2. -/
theorem exponent_distance_attenuation (lm : Libm K) (cfg : Consts K) (ALSource : ALsource K)
    (ALContext : ALCcontext K) (Distance MinDist MaxDist Rolloff : K) (RoomRolloff : Nat → K) :
    (sourceLocals lm cfg ALSource ALContext).Attenuation =
      (distanceAttenuation lm
        (if ALContext.SourceDistanceModel then ALSource.DistanceModel
          else ALContext.DistanceModel)
        (sourceLocals lm cfg ALSource ALContext).Distance ALSource.RefDistance
        ALSource.MaxDistance ALSource.RollOffFactor
        (fun i => (roomParams cfg ALContext.Device ALSource i).RoomRolloff)).Attenuation ∧
    ((distanceAttenuation lm DistanceModel.ExponentDistance Distance MinDist MaxDist Rolloff
        RoomRolloff).ClampedDist = Distance ∧
      (distanceAttenuation lm DistanceModel.ExponentDistance Distance MinDist MaxDist Rolloff
        RoomRolloff).Attenuation =
        if Distance > 0 ∧ MinDist > 0 then lm.powf (Distance / MinDist) (-Rolloff) else 1) ∧
    (MinDist ≤ MaxDist →
      (distanceAttenuation lm DistanceModel.ExponentDistanceClamped Distance MinDist MaxDist
        Rolloff RoomRolloff).ClampedDist = clampf Distance MinDist MaxDist ∧
      (distanceAttenuation lm DistanceModel.ExponentDistanceClamped Distance MinDist MaxDist
        Rolloff RoomRolloff).Attenuation =
        if clampf Distance MinDist MaxDist > 0 ∧ MinDist > 0 then
          lm.powf (clampf Distance MinDist MaxDist / MinDist) (-Rolloff)
        else 1) ∧
    (∀ (lmR : Libm ℝ) (MaxDistR : ℝ) (RoomRolloffR : Nat → ℝ),
      (∀ x y : ℝ, 0 < x → lmR.powf x y = x ^ y) →
      (distanceAttenuation lmR DistanceModel.ExponentDistance 2 1 MaxDistR 2
        RoomRolloffR).Attenuation = 1 / 4) := by
  have hexp : ∀ cd : K, (caseExponentDistance lm MinDist cd Rolloff RoomRolloff).Attenuation =
      if cd > 0 ∧ MinDist > 0 then lm.powf (cd / MinDist) (-Rolloff) else 1 := by
    intro cd
    unfold caseExponentDistance
    split_ifs <;> rfl
  refine ⟨rfl, ⟨?_, ?_⟩, ?_, ?_⟩
  · unfold distanceAttenuation caseExponentDistance
    simp only []
    split_ifs <;> rfl
  · unfold distanceAttenuation
    exact hexp Distance
  · intro hle
    unfold distanceAttenuation
    simp only [not_lt.mpr hle, if_false]
    refine ⟨?_, hexp _⟩
    unfold caseExponentDistance
    split_ifs <;> rfl
  · intro lmR MaxDistR RoomRolloffR hpow
    have h2 : ((2 : ℝ) ^ (-2 : ℝ)) = 1 / 4 := by
      rw [Real.rpow_neg (by norm_num), show (2 : ℝ) = ((2 : ℕ) : ℝ) by norm_num,
        Real.rpow_natCast]
      norm_num
    unfold distanceAttenuation caseExponentDistance
    simp only []
    rw [if_pos (by norm_num)]
    simp only [div_one]
    rw [hpow 2 (-2) (by norm_num), h2]

/-- C9: clamped models are "clamp then unclamped".  For each of `InverseDistanceClamped`,
`LinearDistanceClamped` and `ExponentDistanceClamped` and for every distance, rolloff, `MinDist`
and `MaxDist`, the dry attenuation and every send's room attenuation computed by the switch of
`CalcSourceParams` are those of the spec's reading `clampThenUnclamped`: 1 if
`MaxDist < MinDist`, otherwise the attenuations of the corresponding unclamped model at the
distance `clamp(Distance, MinDist, MaxDist)`. -/
theorem clamped_is_clamp_then_unclamped (lm : Libm K) (Distance MinDist MaxDist Rolloff : K)
    (RoomRolloff : Nat → K) :
    ((distanceAttenuation lm DistanceModel.InverseDistanceClamped Distance MinDist MaxDist
        Rolloff RoomRolloff).Attenuation =
      (clampThenUnclamped lm DistanceModel.InverseDistance Distance MinDist MaxDist Rolloff
        RoomRolloff).Attenuation ∧
     (distanceAttenuation lm DistanceModel.InverseDistanceClamped Distance MinDist MaxDist
        Rolloff RoomRolloff).RoomAttenuation =
      (clampThenUnclamped lm DistanceModel.InverseDistance Distance MinDist MaxDist Rolloff
        RoomRolloff).RoomAttenuation) ∧
    ((distanceAttenuation lm DistanceModel.LinearDistanceClamped Distance MinDist MaxDist
        Rolloff RoomRolloff).Attenuation =
      (clampThenUnclamped lm DistanceModel.LinearDistance Distance MinDist MaxDist Rolloff
        RoomRolloff).Attenuation ∧
     (distanceAttenuation lm DistanceModel.LinearDistanceClamped Distance MinDist MaxDist
        Rolloff RoomRolloff).RoomAttenuation =
      (clampThenUnclamped lm DistanceModel.LinearDistance Distance MinDist MaxDist Rolloff
        RoomRolloff).RoomAttenuation) ∧
    ((distanceAttenuation lm DistanceModel.ExponentDistanceClamped Distance MinDist MaxDist
        Rolloff RoomRolloff).Attenuation =
      (clampThenUnclamped lm DistanceModel.ExponentDistance Distance MinDist MaxDist Rolloff
        RoomRolloff).Attenuation ∧
     (distanceAttenuation lm DistanceModel.ExponentDistanceClamped Distance MinDist MaxDist
        Rolloff RoomRolloff).RoomAttenuation =
      (clampThenUnclamped lm DistanceModel.ExponentDistance Distance MinDist MaxDist Rolloff
        RoomRolloff).RoomAttenuation) ∧
    (MaxDist < MinDist → ∀ model,
      model = DistanceModel.InverseDistanceClamped ∨
        model = DistanceModel.LinearDistanceClamped ∨
        model = DistanceModel.ExponentDistanceClamped →
      (distanceAttenuation lm model Distance MinDist MaxDist Rolloff RoomRolloff).Attenuation
          = 1 ∧
      ∀ i, (distanceAttenuation lm model Distance MinDist MaxDist Rolloff
        RoomRolloff).RoomAttenuation i = 1) := by
  refine ⟨⟨?_, ?_⟩, ⟨?_, ?_⟩, ⟨?_, ?_⟩, ?_⟩
  · unfold clampThenUnclamped distanceAttenuation
    by_cases h : MaxDist < MinDist <;> simp [h]
  · unfold clampThenUnclamped distanceAttenuation
    by_cases h : MaxDist < MinDist <;> simp [h]
  · unfold clampThenUnclamped distanceAttenuation
    by_cases h : MaxDist < MinDist <;> simp [h]
  · unfold clampThenUnclamped distanceAttenuation
    by_cases h : MaxDist < MinDist <;> simp [h]
  · unfold clampThenUnclamped distanceAttenuation
    by_cases h : MaxDist < MinDist <;> simp [h]
  · unfold clampThenUnclamped distanceAttenuation
    by_cases h : MaxDist < MinDist <;> simp [h]
  · intro hlt model hmodel
    rcases hmodel with h | h | h <;> subst h <;>
      simp [distanceAttenuation, hlt]

end DistanceModels

section ListenerTransform

variable {K : Type} [LinearOrderedField K]

theorem aluNormalize_unit (lm : Libm K) (hsqrt : lm.sqrtf 1 = 1) (vec : Float3 K)
    (h : vec.e0 * vec.e0 + vec.e1 * vec.e1 + vec.e2 * vec.e2 = 1) :
    aluNormalize lm vec = vec := by
  unfold aluNormalize
  simp only [h, hsqrt]
  norm_num

theorem aluCrossproduct_unit (N V : Float3 K)
    (hN : N.e0 * N.e0 + N.e1 * N.e1 + N.e2 * N.e2 = 1)
    (hV : V.e0 * V.e0 + V.e1 * V.e1 + V.e2 * V.e2 = 1)
    (hNV : N.e0 * V.e0 + N.e1 * V.e1 + N.e2 * V.e2 = 0) :
    (aluCrossproduct N V).e0 * (aluCrossproduct N V).e0 +
      (aluCrossproduct N V).e1 * (aluCrossproduct N V).e1 +
      (aluCrossproduct N V).e2 * (aluCrossproduct N V).e2 = 1 := by
  unfold aluCrossproduct
  simp only []
  linear_combination
    (V.e0 * V.e0 + V.e1 * V.e1 + V.e2 * V.e2) * hN + hV -
      (N.e0 * V.e0 + N.e1 * V.e1 + N.e2 * V.e2) * hNV

theorem CalcListenerParams_Matrix (lm : Libm K) (hsqrt : lm.sqrtf 1 = 1)
    (Listener : ALlistener K)
    (hN : Listener.Forward.e0 * Listener.Forward.e0 + Listener.Forward.e1 * Listener.Forward.e1 +
      Listener.Forward.e2 * Listener.Forward.e2 = 1)
    (hV : Listener.Up.e0 * Listener.Up.e0 + Listener.Up.e1 * Listener.Up.e1 +
      Listener.Up.e2 * Listener.Up.e2 = 1)
    (hNV : Listener.Forward.e0 * Listener.Up.e0 + Listener.Forward.e1 * Listener.Up.e1 +
      Listener.Forward.e2 * Listener.Up.e2 = 0) :
    (CalcListenerParams lm Listener).Params.Matrix =
      aluMatrixSetRow
        (aluMatrixSet
          (aluCrossproduct Listener.Forward Listener.Up).e0 Listener.Up.e0
            (-Listener.Forward.e0) 0
          (aluCrossproduct Listener.Forward Listener.Up).e1 Listener.Up.e1
            (-Listener.Forward.e1) 0
          (aluCrossproduct Listener.Forward Listener.Up).e2 Listener.Up.e2
            (-Listener.Forward.e2) 0
          0 0 0 1) 3
        (-(aluMatrixVector Listener.Position (aluMatrixSet
          (aluCrossproduct Listener.Forward Listener.Up).e0 Listener.Up.e0
            (-Listener.Forward.e0) 0
          (aluCrossproduct Listener.Forward Listener.Up).e1 Listener.Up.e1
            (-Listener.Forward.e1) 0
          (aluCrossproduct Listener.Forward Listener.Up).e2 Listener.Up.e2
            (-Listener.Forward.e2) 0
          0 0 0 1)).v0)
        (-(aluMatrixVector Listener.Position (aluMatrixSet
          (aluCrossproduct Listener.Forward Listener.Up).e0 Listener.Up.e0
            (-Listener.Forward.e0) 0
          (aluCrossproduct Listener.Forward Listener.Up).e1 Listener.Up.e1
            (-Listener.Forward.e1) 0
          (aluCrossproduct Listener.Forward Listener.Up).e2 Listener.Up.e2
            (-Listener.Forward.e2) 0
          0 0 0 1)).v1)
        (-(aluMatrixVector Listener.Position (aluMatrixSet
          (aluCrossproduct Listener.Forward Listener.Up).e0 Listener.Up.e0
            (-Listener.Forward.e0) 0
          (aluCrossproduct Listener.Forward Listener.Up).e1 Listener.Up.e1
            (-Listener.Forward.e1) 0
          (aluCrossproduct Listener.Forward Listener.Up).e2 Listener.Up.e2
            (-Listener.Forward.e2) 0
          0 0 0 1)).v2) 1 := by
  unfold CalcListenerParams
  simp only [aluNormalize_unit lm hsqrt _ hN, aluNormalize_unit lm hsqrt _ hV,
    aluNormalize_unit lm hsqrt _ (aluCrossproduct_unit _ _ hN hV hNV)]

/-- C10: listener transform.  For every listener position `P` and every orthonormal pair `AT`,
`UP` (and a `sqrtf` with `sqrtf(1) = 1`), the matrix built by `CalcListenerParams` maps, through
`aluMatrixVector` with `w = 1`, the world point `P` to the head-space origin, `P + AT` to
`(0,0,-1)` and `P + UP` to `(0,1,0)`; in particular, with `UP = (0,1,0)`: for the listener at
the origin with `AT = (0,0,-1)` the point `(1,2,3)` maps to `(1,2,3)`; with `AT = (1,0,0)` the
point `(1,0,0)` maps to `(0,0,-1)`; and for the listener at `(10,0,0)` with `AT = (1,0,0)` the
point `(11,0,0)` maps to `(0,0,-1)`. -/
theorem listener_transform (lm : Libm K) (hsqrt : lm.sqrtf 1 = 1) (Listener : ALlistener K)
    (hN : Listener.Forward.e0 * Listener.Forward.e0 + Listener.Forward.e1 * Listener.Forward.e1 +
      Listener.Forward.e2 * Listener.Forward.e2 = 1)
    (hV : Listener.Up.e0 * Listener.Up.e0 + Listener.Up.e1 * Listener.Up.e1 +
      Listener.Up.e2 * Listener.Up.e2 = 1)
    (hNV : Listener.Forward.e0 * Listener.Up.e0 + Listener.Forward.e1 * Listener.Up.e1 +
      Listener.Forward.e2 * Listener.Up.e2 = 0) :
    aluMatrixVector
        { v0 := Listener.Position.v0, v1 := Listener.Position.v1, v2 := Listener.Position.v2
          v3 := 1 }
        (CalcListenerParams lm Listener).Params.Matrix =
      { v0 := 0, v1 := 0, v2 := 0, v3 := 1 } ∧
    aluMatrixVector
        { v0 := Listener.Position.v0 + Listener.Forward.e0
          v1 := Listener.Position.v1 + Listener.Forward.e1
          v2 := Listener.Position.v2 + Listener.Forward.e2, v3 := 1 }
        (CalcListenerParams lm Listener).Params.Matrix =
      { v0 := 0, v1 := 0, v2 := -1, v3 := 1 } ∧
    aluMatrixVector
        { v0 := Listener.Position.v0 + Listener.Up.e0
          v1 := Listener.Position.v1 + Listener.Up.e1
          v2 := Listener.Position.v2 + Listener.Up.e2, v3 := 1 }
        (CalcListenerParams lm Listener).Params.Matrix =
      { v0 := 0, v1 := 1, v2 := 0, v3 := 1 } ∧
    aluMatrixVector ({ v0 := 1, v1 := 2, v2 := 3, v3 := 1 } : aluVector K)
        (CalcListenerParams lm { Listener with
          Position := { v0 := 0, v1 := 0, v2 := 0, v3 := 1 }
          Forward := { e0 := 0, e1 := 0, e2 := -1 }
          Up := { e0 := 0, e1 := 1, e2 := 0 } }).Params.Matrix =
      { v0 := 1, v1 := 2, v2 := 3, v3 := 1 } ∧
    aluMatrixVector ({ v0 := 1, v1 := 0, v2 := 0, v3 := 1 } : aluVector K)
        (CalcListenerParams lm { Listener with
          Position := { v0 := 0, v1 := 0, v2 := 0, v3 := 1 }
          Forward := { e0 := 1, e1 := 0, e2 := 0 }
          Up := { e0 := 0, e1 := 1, e2 := 0 } }).Params.Matrix =
      { v0 := 0, v1 := 0, v2 := -1, v3 := 1 } ∧
    aluMatrixVector ({ v0 := 11, v1 := 0, v2 := 0, v3 := 1 } : aluVector K)
        (CalcListenerParams lm { Listener with
          Position := { v0 := 10, v1 := 0, v2 := 0, v3 := 1 }
          Forward := { e0 := 1, e1 := 0, e2 := 0 }
          Up := { e0 := 0, e1 := 1, e2 := 0 } }).Params.Matrix =
      { v0 := 0, v1 := 0, v2 := -1, v3 := 1 } := by
  refine ⟨?_, ?_, ?_, ?_, ?_, ?_⟩
  · rw [CalcListenerParams_Matrix lm hsqrt Listener hN hV hNV]
    simp only [aluMatrixVector, aluMatrixSetRow, aluMatrixSet, aluVectorSet, aluCrossproduct,
      aluVector.mk.injEq]
    refine ⟨?_, ?_, ?_, ?_⟩
    all_goals ring1
  · rw [CalcListenerParams_Matrix lm hsqrt Listener hN hV hNV]
    simp only [aluMatrixVector, aluMatrixSetRow, aluMatrixSet, aluVectorSet, aluCrossproduct,
      aluVector.mk.injEq]
    refine ⟨?_, ?_, ?_, ?_⟩
    all_goals first
      | ring1
      | linear_combination hNV
      | linear_combination -hN
  · rw [CalcListenerParams_Matrix lm hsqrt Listener hN hV hNV]
    simp only [aluMatrixVector, aluMatrixSetRow, aluMatrixSet, aluVectorSet, aluCrossproduct,
      aluVector.mk.injEq]
    refine ⟨?_, ?_, ?_, ?_⟩
    all_goals first
      | ring1
      | linear_combination hV
      | linear_combination -hNV
  · rw [CalcListenerParams_Matrix lm hsqrt _ (by norm_num) (by norm_num) (by norm_num)]
    norm_num [aluMatrixVector, aluMatrixSetRow, aluMatrixSet, aluVectorSet, aluCrossproduct]
  · rw [CalcListenerParams_Matrix lm hsqrt _ (by norm_num) (by norm_num) (by norm_num)]
    norm_num [aluMatrixVector, aluMatrixSetRow, aluMatrixSet, aluVectorSet, aluCrossproduct]
  · rw [CalcListenerParams_Matrix lm hsqrt _ (by norm_num) (by norm_num) (by norm_num)]
    norm_num [aluMatrixVector, aluMatrixSetRow, aluMatrixSet, aluVectorSet, aluCrossproduct]

/-- C10 (instance): the sample listener (at the origin, facing -Z, +Y up) satisfies the
hypotheses, and its matrix maps `P + AT = (0,0,-1)` to `(0,0,-1)`. -/
theorem listener_transform_witness :
    Sample.libm.sqrtf 1 = 1 ∧
    aluMatrixVector ({ v0 := 0 + 0, v1 := 0 + 0, v2 := 0 + -1, v3 := 1 } : aluVector ℚ)
        (CalcListenerParams Sample.libm Sample.listener).Params.Matrix =
      { v0 := 0, v1 := 0, v2 := -1, v3 := 1 } :=
  ⟨by norm_num [Sample.libm],
    (listener_transform Sample.libm (by norm_num [Sample.libm]) Sample.listener
      (by norm_num [Sample.listener]) (by norm_num [Sample.listener])
      (by norm_num [Sample.listener])).2.1⟩

end ListenerTransform

section Doppler

variable {K : Type} [LinearOrderedField K] [FloorRing K]

omit [FloorRing K] in
/-- When the source and listener velocities have the same projection on the source-to-listener
direction, the doppler shift leaves the pitch unchanged. -/
theorem dopplerPitch_of_dot_eq (Pitch DopplerFactor SpeedOfSound : K)
    (Velocity lvelocity SourceToListener : aluVector K)
    (h : aluDotproduct Velocity SourceToListener = aluDotproduct lvelocity SourceToListener) :
    dopplerPitch Pitch DopplerFactor SpeedOfSound Velocity lvelocity SourceToListener = Pitch := by
  unfold dopplerPitch
  by_cases hD : DopplerFactor > 0
  · simp only [hD, if_true]
    have hc : (1 : K) ≤ (if SpeedOfSound < 1 then 1 else SpeedOfSound) * 2 - 1 := by
      split_ifs with h1
      · norm_num
      · linarith [not_lt.mp h1]
    rw [h, div_self (clampf_one_pos _ _ hc).ne', mul_one]
  · simp only [hD, if_false]

omit [FloorRing K] in
theorem dopplerPitch_of_factor_le (Pitch DopplerFactor SpeedOfSound : K)
    (Velocity lvelocity SourceToListener : aluVector K) (h : DopplerFactor ≤ 0) :
    dopplerPitch Pitch DopplerFactor SpeedOfSound Velocity lvelocity SourceToListener = Pitch := by
  unfold dopplerPitch
  rw [if_neg (not_lt.mpr h)]

/-- C11: Doppler neutrality in `CalcSourceParams`.  (1) When the effective doppler factor
(context factor times source factor) is 0, the pitch after the doppler stage is the source
pitch whatever the velocities, and it is the pitch the step is computed from.  (2) When the
source velocity in listener space equals the listener velocity `Params.Velocity` (in the three
components the dot product reads), `VSS = VLS` for every scale factor and the pitch is
unchanged.  (3) This is the case for a world-space source whose velocity is the listener's
velocity, once the listener parameters are up to date, and (4) for a head-relative source whose
velocity relative to the listener is zero. -/
theorem doppler_neutrality (lm : Libm K) (ext : Externs K) (cfg : Consts K)
    (voice : ALvoice K) (ALSource : ALsource K) (ALContext : ALCcontext K) :
    (ALContext.DopplerFactor * ALSource.DopplerFactor = 0 →
      (sourceLocals lm cfg ALSource ALContext).Pitch = ALSource.Pitch ∧
      ∀ ALBuffer : ALbuffer, firstBuffer ALSource.queue = some ALBuffer →
        (CalcSourceParams lm ext cfg voice ALSource ALContext).Step =
          pitchStep cfg (ALSource.Pitch * (ALBuffer.Frequency : K) /
            (ALContext.Device.Frequency : K))) ∧
    ((sourceLocals lm cfg ALSource ALContext).Velocity.v0 = ALContext.Listener.Params.Velocity.v0 ∧
      (sourceLocals lm cfg ALSource ALContext).Velocity.v1 =
        ALContext.Listener.Params.Velocity.v1 ∧
      (sourceLocals lm cfg ALSource ALContext).Velocity.v2 =
        ALContext.Listener.Params.Velocity.v2 →
      (∀ DopplerFactor : K,
        aluDotproduct (sourceLocals lm cfg ALSource ALContext).Velocity
            (sourceLocals lm cfg ALSource ALContext).SourceToListener * DopplerFactor =
          aluDotproduct ALContext.Listener.Params.Velocity
            (sourceLocals lm cfg ALSource ALContext).SourceToListener * DopplerFactor) ∧
      (sourceLocals lm cfg ALSource ALContext).Pitch = ALSource.Pitch) ∧
    (ALSource.HeadRelative = false → ALSource.Velocity = ALContext.Listener.Velocity →
      ALContext.Listener.Params = (CalcListenerParams lm ALContext.Listener).Params →
      (sourceLocals lm cfg ALSource ALContext).Velocity = ALContext.Listener.Params.Velocity ∧
      (sourceLocals lm cfg ALSource ALContext).Pitch = ALSource.Pitch) ∧
    (ALSource.HeadRelative = true →
      ALSource.Velocity.v0 = 0 ∧ ALSource.Velocity.v1 = 0 ∧ ALSource.Velocity.v2 = 0 →
      (sourceLocals lm cfg ALSource ALContext).Pitch = ALSource.Pitch) := by
  have hLP : (sourceLocals lm cfg ALSource ALContext).Pitch =
        dopplerPitch ALSource.Pitch (ALContext.DopplerFactor * ALSource.DopplerFactor)
          (ALContext.SpeedOfSound * ALContext.DopplerVelocity)
          (sourceLocals lm cfg ALSource ALContext).Velocity ALContext.Listener.Params.Velocity
          (sourceLocals lm cfg ALSource ALContext).SourceToListener := rfl
  have hdot : (sourceLocals lm cfg ALSource ALContext).Velocity.v0 =
        ALContext.Listener.Params.Velocity.v0 ∧
      (sourceLocals lm cfg ALSource ALContext).Velocity.v1 =
        ALContext.Listener.Params.Velocity.v1 ∧
      (sourceLocals lm cfg ALSource ALContext).Velocity.v2 =
        ALContext.Listener.Params.Velocity.v2 →
      aluDotproduct (sourceLocals lm cfg ALSource ALContext).Velocity
            (sourceLocals lm cfg ALSource ALContext).SourceToListener =
          aluDotproduct ALContext.Listener.Params.Velocity
            (sourceLocals lm cfg ALSource ALContext).SourceToListener := by
    rintro ⟨h0, h1, h2⟩
    unfold aluDotproduct
    rw [h0, h1, h2]
  refine ⟨?_, ?_, ?_, ?_⟩
  · intro h0
    have hP : (sourceLocals lm cfg ALSource ALContext).Pitch = ALSource.Pitch := by
      rw [hLP]
      exact dopplerPitch_of_factor_le _ _ _ _ _ _ h0.le
    refine ⟨hP, ?_⟩
    intro ALBuffer hq
    rw [CalcSourceParams_Step lm ext cfg voice ALSource ALContext ALBuffer hq, hP]
  · intro h
    refine ⟨fun DopplerFactor => by rw [hdot h], ?_⟩
    rw [hLP]
    exact dopplerPitch_of_dot_eq _ _ _ _ _ _ (hdot h)
  · intro hH hV hL
    have hVel : (sourceLocals lm cfg ALSource ALContext).Velocity =
        ALContext.Listener.Params.Velocity := by
      have h1 : (sourceLocals lm cfg ALSource ALContext).Velocity =
          aluMatrixVector ALSource.Velocity ALContext.Listener.Params.Matrix := by
        unfold sourceLocals
        simp only [hH, if_true]
      rw [h1, hV, hL]
      rfl
    refine ⟨hVel, ?_⟩
    rw [hLP]
    exact dopplerPitch_of_dot_eq _ _ _ _ _ _ (hdot (by rw [hVel]; exact ⟨rfl, rfl, rfl⟩))
  · rintro hH ⟨h0, h1, h2⟩
    have hv : (sourceLocals lm cfg ALSource ALContext).Velocity.v0 =
          ALContext.Listener.Params.Velocity.v0 ∧
        (sourceLocals lm cfg ALSource ALContext).Velocity.v1 =
          ALContext.Listener.Params.Velocity.v1 ∧
        (sourceLocals lm cfg ALSource ALContext).Velocity.v2 =
          ALContext.Listener.Params.Velocity.v2 := by
      unfold sourceLocals
      simp only [hH, Bool.true_eq_false, if_false, h0, h1, h2, zero_add, and_self]
    rw [hLP]
    exact dopplerPitch_of_dot_eq _ _ _ _ _ _ (hdot hv)

end Doppler

section DopplerInstance

/-- C11 (instance): a world-space source moving with the velocity (3,0,4) of the listener keeps
its pitch 1, while the same source at rest is shifted to 3393/3433. -/
theorem doppler_neutrality_witness :
    Sample.movingSource.HeadRelative = false ∧
    Sample.movingSource.Velocity = Sample.movingContext.Listener.Velocity ∧
    (sourceLocals Sample.libm Sample.consts Sample.movingSource Sample.movingContext).Pitch = 1 ∧
    (sourceLocals Sample.libm Sample.consts Sample.worldSource Sample.movingContext).Pitch =
      3393 / 3433 :=
  ⟨rfl, rfl,
    ((doppler_neutrality Sample.libm Sample.externs Sample.consts Sample.voice
      Sample.movingSource Sample.movingContext).2.2.1 rfl rfl rfl).2,
    by
      norm_num [sourceLocals, dopplerPitch, Sample.worldSource, Sample.source,
        Sample.movingContext, Sample.inverseContext, Sample.context, Sample.movingListener,
        Sample.listener, CalcListenerParams, aluNormalize, aluCrossproduct, aluMatrixSet,
        aluMatrixSetRow, aluVectorSet, aluMatrixVector, aluDotproduct, aluVector.normalize,
        Sample.libm, clampf, minf, maxf]⟩

end DopplerInstance

section Cone

variable {K : Type} [LinearOrderedField K]

/-- C12 (counterexample): the default cone has `InnerAngle = OuterAngle = 360`.  At the cone
angle 360, which is `≥ OuterAngle`, the cone gain is 1 and not `OuterGain = 0`; and with the
angles swapped (inner 90, outer 30) the cone angle 60, which is `≤ InnerAngle`, gets the gain
`OuterGain = 0` and not 1. -/
theorem cone_outer_angle_counterexample :
    (360 : ℚ) ≥ Sample.source.OuterAngle ∧
    (coneGains (360 : ℚ) Sample.source.InnerAngle Sample.source.OuterAngle
      Sample.source.OuterGain Sample.source.OuterGainHF).ConeVolume = 1 ∧
    (coneGains (360 : ℚ) Sample.source.InnerAngle Sample.source.OuterAngle
      Sample.source.OuterGain Sample.source.OuterGainHF).ConeVolume ≠ Sample.source.OuterGain ∧
    (60 : ℚ) ≤ 90 ∧ (coneGains (60 : ℚ) 90 30 0 0).ConeVolume = 0 := by
  norm_num [coneGains, Sample.source]

/-- C12 (amended): cone attenuation as a function of the cone angle, for every
`InnerAngle ≤ OuterAngle`, `OuterGain`, `OuterGainHF`.  The cone gains of `CalcSourceParams` are
`coneGains` of the angle; the gain is 1 if `theta ≤ InnerAngle`; it is `OuterGain` (and the
cone HF gain `OuterGainHF`) if `theta > OuterAngle`; for `InnerAngle < theta ≤ OuterAngle` it is
the linear interpolation by `(theta - Inner) / (Outer - Inner)`; and for
`InnerAngle < OuterAngle` the gain is `OuterGain` for every `theta ≥ OuterAngle`, 1 at
`theta = InnerAngle`, `OuterGain` at `theta = OuterAngle` and `(1 + OuterGain) / 2` midway. -/
theorem cone_attenuation (lm : Libm K) (cfg : Consts K) (ALSource : ALsource K)
    (ALContext : ALCcontext K) (theta InnerAngle OuterAngle OuterGain OuterGainHF : K)
    (hInOut : InnerAngle ≤ OuterAngle) :
    ((sourceLocals lm cfg ALSource ALContext).ConeVolume =
        (coneGains (sourceLocals lm cfg ALSource ALContext).Angle ALSource.InnerAngle
          ALSource.OuterAngle ALSource.OuterGain ALSource.OuterGainHF).ConeVolume ∧
      (sourceLocals lm cfg ALSource ALContext).ConeHF =
        (coneGains (sourceLocals lm cfg ALSource ALContext).Angle ALSource.InnerAngle
          ALSource.OuterAngle ALSource.OuterGain ALSource.OuterGainHF).ConeHF) ∧
    (theta ≤ InnerAngle →
      coneGains theta InnerAngle OuterAngle OuterGain OuterGainHF =
        { ConeVolume := 1, ConeHF := 1 }) ∧
    (theta > OuterAngle →
      coneGains theta InnerAngle OuterAngle OuterGain OuterGainHF =
        { ConeVolume := OuterGain, ConeHF := OuterGainHF }) ∧
    (InnerAngle < theta → theta ≤ OuterAngle →
      coneGains theta InnerAngle OuterAngle OuterGain OuterGainHF =
        { ConeVolume := 1 + (OuterGain - 1) * ((theta - InnerAngle) / (OuterAngle - InnerAngle))
          ConeHF := 1 + (OuterGainHF - 1) *
            ((theta - InnerAngle) / (OuterAngle - InnerAngle)) }) ∧
    (InnerAngle < OuterAngle →
      (theta ≥ OuterAngle →
        coneGains theta InnerAngle OuterAngle OuterGain OuterGainHF =
          { ConeVolume := OuterGain, ConeHF := OuterGainHF }) ∧
      (coneGains InnerAngle InnerAngle OuterAngle OuterGain OuterGainHF).ConeVolume = 1 ∧
      (coneGains OuterAngle InnerAngle OuterAngle OuterGain OuterGainHF).ConeVolume =
        OuterGain ∧
      (coneGains ((InnerAngle + OuterAngle) / 2) InnerAngle OuterAngle OuterGain
        OuterGainHF).ConeVolume = (1 + OuterGain) / 2) := by
  have hin : theta ≤ InnerAngle →
      coneGains theta InnerAngle OuterAngle OuterGain OuterGainHF =
        { ConeVolume := 1, ConeHF := 1 } := by
    intro h
    unfold coneGains
    rw [if_neg (fun hc => absurd hc.1 (not_lt.mpr h)), if_neg (not_lt.mpr (h.trans hInOut))]
  have hout : theta > OuterAngle →
      coneGains theta InnerAngle OuterAngle OuterGain OuterGainHF =
        { ConeVolume := OuterGain, ConeHF := OuterGainHF } := by
    intro h
    unfold coneGains
    rw [if_neg (fun hc => absurd hc.2 (not_le.mpr h)), if_pos h]
  have hmid : ∀ t : K, InnerAngle < t → t ≤ OuterAngle →
      coneGains t InnerAngle OuterAngle OuterGain OuterGainHF =
        { ConeVolume := 1 + (OuterGain - 1) * ((t - InnerAngle) / (OuterAngle - InnerAngle))
          ConeHF := 1 + (OuterGainHF - 1) * ((t - InnerAngle) / (OuterAngle - InnerAngle)) } := by
    intro t h1 h2
    unfold coneGains lerp
    rw [if_pos ⟨h1, h2⟩]
  refine ⟨⟨rfl, rfl⟩, hin, hout, hmid theta, ?_⟩
  intro hlt
  have hne : OuterAngle - InnerAngle ≠ 0 := (sub_pos.mpr hlt).ne'
  refine ⟨?_, ?_, ?_, ?_⟩
  · intro h
    rcases h.lt_or_eq with h1 | h1
    · exact hout h1
    · rw [← h1, hmid OuterAngle hlt le_rfl, div_self hne, mul_one, mul_one]
      congr 1 <;> ring
  · unfold coneGains
    rw [if_neg (fun hc => absurd hc.1 (lt_irrefl _)), if_neg (not_lt.mpr hInOut)]
  · rw [hmid OuterAngle hlt le_rfl, div_self hne, mul_one]
    ring
  · have h1 : InnerAngle < (InnerAngle + OuterAngle) / 2 := by linarith
    have h2 : (InnerAngle + OuterAngle) / 2 ≤ OuterAngle := by linarith
    rw [hmid _ h1 h2]
    show 1 + (OuterGain - 1) * (((InnerAngle + OuterAngle) / 2 - InnerAngle) /
      (OuterAngle - InnerAngle)) = (1 + OuterGain) / 2
    have h3 : ((InnerAngle + OuterAngle) / 2 - InnerAngle) / (OuterAngle - InnerAngle) =
        1 / 2 := by
      field_simp
      ring
    rw [h3]
    ring

/-- C12 (instance): a cone with inner angle 30, outer angle 90 and outer gain 0 has the gain
1/2 at 60 degrees, and the world-space sample source, whose cone angle is 180 with the default
angles 360/360, has the cone gain 1. -/
theorem cone_attenuation_witness :
    (30 : ℚ) ≤ 90 ∧ (coneGains (60 : ℚ) 30 90 0 0).ConeVolume = 1 / 2 ∧
    (sourceLocals Sample.libm Sample.consts Sample.worldSource Sample.inverseContext).ConeVolume
      = 1 :=
  ⟨by norm_num,
    by
      have h := (cone_attenuation Sample.libm Sample.consts Sample.worldSource
        Sample.inverseContext (60 : ℚ) 30 90 0 0 (by norm_num)).2.2.2.2 (by norm_num)
      have h2 := h.2.2.2
      norm_num at h2
      exact h2,
    by
      norm_num [sourceLocals, coneGains, RAD2DEG, Sample.worldSource, Sample.source,
        Sample.inverseContext, Sample.context, Sample.listener, CalcListenerParams,
        aluNormalize, aluCrossproduct, aluMatrixSet, aluMatrixSetRow, aluVectorSet,
        aluMatrixVector, aluDotproduct, aluVector.normalize, Sample.libm, Sample.consts]⟩

end Cone

section GainComposition

variable {K : Type} [LinearOrderedField K]

theorem UpdateWetStepping_Target (cfg : Consts K) (params : SendParams K) (steps : Nat) :
    (UpdateWetStepping cfg params steps).Gain.Target = params.Gain.Target := by
  unfold UpdateWetStepping
  by_cases h : steps < 2
  · simp only [h, if_true]
  · simp only [h, if_false]
    split_ifs <;> rfl

theorem CalcSourceParams_Send_Target [FloorRing K] (lm : Libm K) (ext : Externs K)
    (cfg : Consts K) (voice : ALvoice K) (ALSource : ALsource K) (ALContext : ALCcontext K)
    (i : Nat) (hi : i < ALContext.Device.NumAuxSends) :
    ((CalcSourceParams lm ext cfg voice ALSource ALContext).Send i).Gain.Target =
      (sourceLocals lm cfg ALSource ALContext).WetGain i := by
  unfold CalcSourceParams
  simp only []
  rw [forLoop_pointwise (fun i (s : SendParams K) => { s with
      Filters := Function.update s.Filters 0
        (setVoiceFilter (maxf 0.01 ((sourceLocals lm cfg ALSource ALContext).WetGainHF i))
          (maxf 0.01 ((sourceLocals lm cfg ALSource ALContext).WetGainLF i))
          ((ALSource.Send i).HFReference / (ALContext.Device.Frequency : K))
          ((ALSource.Send i).LFReference / (ALContext.Device.Frequency : K))
          (s.Filters 0)) }) _ (fun _ _ => rfl)]
  simp only [hi, if_true]
  cases hH : ALContext.Device.Hrtf <;>
  · simp only [updateSendGains_apply, hi, if_true]
    exact UpdateWetStepping_Target _ _ _

/-- C13: dry/wet gain composition in `CalcSourceParams`.  The final dry gain is
`clamp(SourceGain * Attenuation * ConeGain, MinGain, MaxGain) * Direct.Gain * ListenerGain`; the
wet gain of each send is the clamp to `[MinGain, MaxGain]` of `SourceGain * RoomAttenuation[i]`,
times the decay factor (when `WetGainAuto` and the send has a decay distance) and the cone gain
(when `WetGainAuto`), multiplied by `Send[i].Gain * ListenerGain`, and for `i < NumSends` it is
the target the voice's send gets.  For a source at world (0,0,-2) with gain 1, a listener at the
origin facing -Z with up (0,1,0), reference distance 1, rolloff 1 and the inverse model, the
attenuation is 1/2 and the dry gain is 1/2 times the multipliers `Direct.Gain * ListenerGain`. -/
theorem gain_composition [FloorRing K] (lm : Libm K) (ext : Externs K) (cfg : Consts K)
    (voice : ALvoice K) (ALSource : ALsource K) (ALContext : ALCcontext K) :
    (sourceLocals lm cfg ALSource ALContext).DryGain =
      clampf (ALSource.Gain * (sourceLocals lm cfg ALSource ALContext).Attenuation *
          (sourceLocals lm cfg ALSource ALContext).ConeVolume) ALSource.MinGain ALSource.MaxGain *
        ALSource.Direct.Gain * ALContext.Listener.Gain ∧
    (∀ i : Nat,
      (sourceLocals lm cfg ALSource ALContext).WetGain i =
        clampf (ALSource.Gain * (sourceLocals lm cfg ALSource ALContext).RoomAttenuation i *
            (if ALSource.WetGainAuto = true ∧
                (roomParams cfg ALContext.Device ALSource i).DecayDistance > 0 then
              lm.powf 0.001
                ((1 / maxf (sourceLocals lm cfg ALSource ALContext).Attenuation 0.00001 - 1) /
                  (roomParams cfg ALContext.Device ALSource i).DecayDistance)
             else 1) *
            (if ALSource.WetGainAuto = true then
              (sourceLocals lm cfg ALSource ALContext).ConeVolume else 1))
          ALSource.MinGain ALSource.MaxGain *
        (ALSource.Send i).Gain * ALContext.Listener.Gain) ∧
    (∀ i : Nat, i < ALContext.Device.NumAuxSends →
      ((CalcSourceParams lm ext cfg voice ALSource ALContext).Send i).Gain.Target =
        (sourceLocals lm cfg ALSource ALContext).WetGain i) ∧
    (∀ directGain listenerGain : ℚ,
      (sourceLocals Sample.libm Sample.consts
        { Sample.worldSource with Direct := { Sample.worldSource.Direct with Gain := directGain } }
        { Sample.inverseContext with
          Listener := CalcListenerParams Sample.libm
            { Sample.listener with Gain := listenerGain } }).Attenuation = 1 / 2 ∧
      (sourceLocals Sample.libm Sample.consts
        { Sample.worldSource with Direct := { Sample.worldSource.Direct with Gain := directGain } }
        { Sample.inverseContext with
          Listener := CalcListenerParams Sample.libm
            { Sample.listener with Gain := listenerGain } }).DryGain =
        1 / 2 * (directGain * listenerGain)) := by
  refine ⟨?_, ?_, ?_, ?_⟩
  · exact (mul_assoc (clampf (ALSource.Gain * (sourceLocals lm cfg ALSource ALContext).Attenuation *
      (sourceLocals lm cfg ALSource ALContext).ConeVolume) ALSource.MinGain ALSource.MaxGain)
      ALSource.Direct.Gain ALContext.Listener.Gain).symm
  · intro i
    rw [mul_assoc]
    show clampf _ _ _ * (_ * _) = _
    congr 2
    by_cases hW : ALSource.WetGainAuto = true
    · by_cases hD : (roomParams cfg ALContext.Device ALSource i).DecayDistance > 0
      · simp only [hW, hD, and_self, if_true]
        rfl
      · simp only [hW, hD, and_false, if_false, if_true, mul_one]
        rfl
    · simp only [hW, false_and, if_false, mul_one, Bool.false_eq_true]
      rfl
  · intro i hi
    exact CalcSourceParams_Send_Target lm ext cfg voice ALSource ALContext i hi
  · intro directGain listenerGain
    constructor <;>
    norm_num [sourceLocals, coneGains, RAD2DEG, Sample.worldSource, Sample.source,
        Sample.inverseContext, Sample.context, Sample.listener, CalcListenerParams,
        aluNormalize, aluCrossproduct, aluMatrixSet, aluMatrixSetRow, aluVectorSet,
        aluMatrixVector, aluDotproduct, aluVector.normalize, Sample.libm, Sample.consts,
        distanceAttenuation, caseInverseDistance, lerp, clampf, minf, maxf]

end GainComposition

section FadeTime

variable {K : Type} [LinearOrderedField K]

theorem maxf_ge_right (a b : K) : b ≤ maxf a b := by
  unfold maxf
  split_ifs with h
  · exact h.le
  · exact le_rfl

theorem minf_one_range (c : K) (hc : 0 ≤ c) : 0 ≤ minf c 1 ∧ minf c 1 ≤ 1 := by
  unfold minf
  split_ifs with h
  · exact ⟨zero_le_one, le_rfl⟩
  · exact ⟨hc, not_lt.mp h⟩

theorem minf_one_of_ge (c : K) (hc : 1 ≤ c) : minf c 1 = 1 := by
  unfold minf
  split_ifs with h
  · rfl
  · exact le_antisymm (not_lt.mp h) hc

/-- The fade time is 0 when the two gains are equal and the two directions agree in their
three components, provided `log10f(1) = 0`. -/
theorem CalcFadeTime_same (lm : Libm K) (cfg : Consts K) (hlog : lm.log10f 1 = 0)
    (gain : K) (olddir newdir : aluVector K) (h0 : newdir.v0 = olddir.v0)
    (h1 : newdir.v1 = olddir.v1) (h2 : newdir.v2 = olddir.v2) :
    CalcFadeTime lm cfg gain gain olddir newdir = 0 := by
  have hg : maxf gain 0.0001 ≠ 0 := by
    have := maxf_ge_right gain (0.0001 : K)
    have h4 : (0 : K) < 0.0001 := by norm_num
    exact (lt_of_lt_of_le h4 this).ne'
  unfold CalcFadeTime
  simp only [div_self hg, hlog, zero_div, abs_zero, h0, h1, h2, ne_eq, not_true_eq_false,
    or_self, if_false, ite_self, zero_mul]
  norm_num [maxf, minf]

/-- C14: fade-time range.  For all old and new gains and all old and new directions (and
whatever `log10f`, `acosf` and `F_PI` are) `CalcFadeTime` returns a value in `[0, 0.015]`; and,
`log10f(1)` being 0, it returns 0 whenever the old and the new gain are equal and the old and
the new direction are equal (in the three components the code compares). -/
theorem fade_time_range (lm : Libm K) (cfg : Consts K) (oldGain newGain : K)
    (olddir newdir : aluVector K) :
    0 ≤ CalcFadeTime lm cfg oldGain newGain olddir newdir ∧
    CalcFadeTime lm cfg oldGain newGain olddir newdir ≤ 0.015 ∧
    (lm.log10f 1 = 0 → oldGain = newGain →
      newdir.v0 = olddir.v0 ∧ newdir.v1 = olddir.v1 ∧ newdir.v2 = olddir.v2 →
      CalcFadeTime lm cfg oldGain newGain olddir newdir = 0) := by
  have hr : ∀ c : K, 0 ≤ c → 0 ≤ minf c 1 * 0.015 ∧ minf c 1 * 0.015 ≤ 0.015 := by
    intro c hc
    obtain ⟨h1, h2⟩ := minf_one_range c hc
    constructor
    · exact mul_nonneg h1 (by norm_num)
    · calc minf c 1 * 0.015 ≤ 1 * 0.015 := mul_le_mul_of_nonneg_right h2 (by norm_num)
        _ = 0.015 := one_mul _
  have hc : ∀ a g : K, 0 ≤ g → 0 ≤ maxf a g * 2 := fun a g hg =>
    mul_nonneg (hg.trans (maxf_ge_right a g)) (by norm_num)
  refine ⟨?_, ?_, ?_⟩
  · unfold CalcFadeTime
    exact (hr _ (hc _ _ (abs_nonneg _))).1
  · unfold CalcFadeTime
    exact (hr _ (hc _ _ (abs_nonneg _))).2
  · intro hlog hg hd
    subst hg
    exact CalcFadeTime_same lm cfg hlog _ _ _ hd.1 hd.2.1 hd.2.2

/-- C14 (instance): with the sample `libm` the fade time from gain 1/2 to gain 1/2 in the same
direction is 0, and the one from silence to full gain is `0.015`. -/
theorem fade_time_range_witness :
    Sample.libm.log10f 1 = 0 ∧
    CalcFadeTime Sample.libm Sample.consts (1 / 2) (1 / 2) ⟨0, 0, -1, 0⟩ ⟨0, 0, -1, 0⟩ = 0 ∧
    CalcFadeTime Sample.libm Sample.consts 0 1 ⟨0, 0, -1, 0⟩ ⟨0, 0, -1, 0⟩ ≤ 0.015 :=
  ⟨by norm_num [Sample.libm],
    (fade_time_range Sample.libm Sample.consts (1 / 2) (1 / 2) ⟨0, 0, -1, 0⟩ ⟨0, 0, -1, 0⟩).2.2
      (by norm_num [Sample.libm]) rfl ⟨rfl, rfl, rfl⟩,
    (fade_time_range Sample.libm Sample.consts 0 1 ⟨0, 0, -1, 0⟩ ⟨0, 0, -1, 0⟩).2.1⟩

end FadeTime

section FadeTimeMaximum

variable {K : Type} [LinearOrderedField K]

theorem maxf_ge_left (a b : K) : a ≤ maxf a b := by
  unfold maxf
  split_ifs with h
  · exact le_rfl
  · exact not_lt.mp h

/-- C15 (counterexample): between two silent gains (both 0) the fade time is 0 although the new
direction (0,0,1) is the reverse of the old unit direction (0,0,-1). -/
theorem fade_time_silent_reverse_counterexample :
    aluDotproduct (⟨0, 0, -1, 0⟩ : aluVector ℚ) ⟨0, 0, -1, 0⟩ = 1 ∧
    CalcFadeTime Sample.libm Sample.consts 0 0 ⟨0, 0, -1, 0⟩ ⟨0, 0, 1, 0⟩ = 0 ∧
    CalcFadeTime Sample.libm Sample.consts 0 0 ⟨0, 0, -1, 0⟩ ⟨0, 0, 1, 0⟩ ≠ 0.015 := by
  have h : CalcFadeTime Sample.libm Sample.consts 0 0 ⟨0, 0, -1, 0⟩ ⟨0, 0, 1, 0⟩ = 0 := by
    norm_num [CalcFadeTime, Sample.libm, Sample.consts, maxf, minf, clampf, aluDotproduct]
  refine ⟨by norm_num [aluDotproduct], h, ?_⟩
  rw [h]
  norm_num

/-- C15 (amended): the fade time reaches its maximum `0.015` when the gain crosses from 0.0001
to 1, whatever the directions; and when the new direction is the reverse of the old unit
direction, for every pair of gains of which the new gain exceeds 0.0001 or whose normalized
gain change exceeds 0.0001.  When both gains are at most 0.0001 the angle is not looked at and
the fade time is 0.  (`log10f` is exact at 10000, 0.0001 and 1, and `acosf(-1) = F_PI > 0`.) -/
theorem fade_time_maximum (lm : Libm K) (cfg : Consts K) (hlog4 : lm.log10f 10000 = 4)
    (hlogm : lm.log10f 0.0001 = -4) (hacos : lm.acosf (-1) = cfg.F_PI) (hpi : 0 < cfg.F_PI) :
    (∀ olddir newdir : aluVector K, CalcFadeTime lm cfg 0.0001 1 olddir newdir = 0.015) ∧
    (∀ (oldGain newGain : K) (olddir newdir : aluVector K),
      aluDotproduct olddir olddir = 1 →
      newdir.v0 = -olddir.v0 ∧ newdir.v1 = -olddir.v1 ∧ newdir.v2 = -olddir.v2 →
      (newGain > 0.0001 ∨
        |lm.log10f (maxf newGain 0.0001 / maxf oldGain 0.0001) / lm.log10f 0.0001| > 0.0001) →
      CalcFadeTime lm cfg oldGain newGain olddir newdir = 0.015) ∧
    (lm.log10f 1 = 0 → ∀ (oldGain newGain : K) (olddir newdir : aluVector K),
      oldGain ≤ 0.0001 → newGain ≤ 0.0001 →
      CalcFadeTime lm cfg oldGain newGain olddir newdir = 0) := by
  have hfin : ∀ c : K, 1 ≤ c → minf c 1 * 0.015 = 0.015 := by
    intro c hc
    rw [minf_one_of_ge c hc, one_mul]
  refine ⟨?_, ?_, ?_⟩
  · intro olddir newdir
    unfold CalcFadeTime
    apply hfin
    have h1 : maxf (1 : K) 0.0001 = 1 := by norm_num [maxf]
    have h2 : maxf (0.0001 : K) 0.0001 = 0.0001 := by norm_num [maxf]
    have h3 : (1 : K) / 0.0001 = 10000 := by norm_num
    simp only [h1, h2, h3, hlog4, hlogm]
    have h4 : |(4 : K) / -4| = 1 := by norm_num
    rw [h4]
    have := maxf_ge_right ((if (1 : K) > 0.0001 ∨ (1 : K) > 0.0001 then
        if newdir.v0 ≠ olddir.v0 ∨ newdir.v1 ≠ olddir.v1 ∨ newdir.v2 ≠ olddir.v2 then
          lm.acosf (clampf (aluDotproduct olddir newdir) (-1) 1) / cfg.F_PI
        else 0
      else 0) * 25) (1 : K)
    linarith
  · intro oldGain newGain olddir newdir hunit hrev hgate
    obtain ⟨h0, h1, h2⟩ := hrev
    have hdot : aluDotproduct olddir newdir = -1 := by
      unfold aluDotproduct at hunit ⊢
      rw [h0, h1, h2]
      linarith
    have hne : newdir.v0 ≠ olddir.v0 ∨ newdir.v1 ≠ olddir.v1 ∨ newdir.v2 ≠ olddir.v2 := by
      by_contra hcon
      push_neg at hcon
      obtain ⟨e0, e1, e2⟩ := hcon
      have z0 : olddir.v0 = 0 := by linarith
      have z1 : olddir.v1 = 0 := by linarith
      have z2 : olddir.v2 = 0 := by linarith
      unfold aluDotproduct at hunit
      rw [z0, z1, z2] at hunit
      norm_num at hunit
    have hgate2 : |lm.log10f (maxf newGain 0.0001 / maxf oldGain 0.0001) / lm.log10f 0.0001| >
        0.0001 ∨ maxf newGain 0.0001 > 0.0001 := by
      rcases hgate with h | h
      · right
        exact lt_of_lt_of_le h (maxf_ge_left _ _)
      · left
        exact h
    have hcl : clampf (-1 : K) (-1) 1 = -1 := by norm_num [clampf, minf, maxf]
    unfold CalcFadeTime
    apply hfin
    simp only [hgate2, hne, if_true, hdot, hcl, hacos, div_self hpi.ne', one_mul]
    have := maxf_ge_left (25 : K)
      |lm.log10f (maxf newGain 0.0001 / maxf oldGain 0.0001) / lm.log10f 0.0001|
    linarith
  · intro hlog oldGain newGain olddir newdir ho hn
    have h1 : maxf oldGain 0.0001 = 0.0001 := by
      unfold maxf
      rw [if_neg (not_lt.mpr ho)]
    have h2 : maxf newGain 0.0001 = 0.0001 := by
      unfold maxf
      rw [if_neg (not_lt.mpr hn)]
    have h3 : (0.0001 : K) / 0.0001 = 1 := by norm_num
    unfold CalcFadeTime
    simp only [h1, h2, h3, hlog, zero_div, abs_zero]
    norm_num [maxf, minf]

/-- C15 (instance): with the sample `libm`, reversing the direction at gain 1 takes the full
`0.015`. -/
theorem fade_time_maximum_witness :
    Sample.libm.log10f 10000 = 4 ∧ Sample.libm.log10f 0.0001 = -4 ∧
    Sample.libm.acosf (-1) = Sample.consts.F_PI ∧ 0 < Sample.consts.F_PI ∧
    CalcFadeTime Sample.libm Sample.consts 1 1 ⟨0, 0, -1, 0⟩ ⟨0, 0, 1, 0⟩ = 0.015 :=
  ⟨by norm_num [Sample.libm], by norm_num [Sample.libm],
    by norm_num [Sample.libm, Sample.consts], by norm_num [Sample.consts],
    (fade_time_maximum Sample.libm Sample.consts (by norm_num [Sample.libm])
      (by norm_num [Sample.libm]) (by norm_num [Sample.libm, Sample.consts])
      (by norm_num [Sample.consts])).2.1 1 1 ⟨0, 0, -1, 0⟩ ⟨0, 0, 1, 0⟩
      (by norm_num [aluDotproduct]) ⟨by norm_num, by norm_num, by norm_num⟩
      (Or.inl (by norm_num))⟩

end FadeTimeMaximum

section HrtfUpdate

variable {K : Type} [LinearOrderedField K] [FloorRing K]

/-- The direct block a first update (`Moving` false) leaves on an HRTF device, up to the filter
update: the lerped coefficients and delays, counter 0, moving, the last gain and direction. -/
theorem CalcSourceParams_Hrtf_first (lm : Libm K) (ext : Externs K) (cfg : Consts K)
    (voice : ALvoice K) (ALSource : ALsource K) (ALContext : ALCcontext K) (Hrtf : Hrtf)
    (hH : ALContext.Device.Hrtf = some Hrtf) (hM : voice.Direct.Moving = false) :
    ((CalcSourceParams lm ext cfg voice ALSource ALContext).Direct.Hrtf 0).Coeffs =
      (ext.GetLerpedHrtfCoeffs Hrtf
        (hrtfDirection lm cfg (sourceLocals lm cfg ALSource ALContext).Position
          (sourceLocals lm cfg ALSource ALContext).Distance ALSource.Radius).ev
        (hrtfDirection lm cfg (sourceLocals lm cfg ALSource ALContext).Position
          (sourceLocals lm cfg ALSource ALContext).Distance ALSource.Radius).az
        (hrtfDirection lm cfg (sourceLocals lm cfg ALSource ALContext).Position
          (sourceLocals lm cfg ALSource ALContext).Distance ALSource.Radius).dirfact
        (sourceLocals lm cfg ALSource ALContext).DryGain).1 ∧
    ((CalcSourceParams lm ext cfg voice ALSource ALContext).Direct.Hrtf 0).Delay =
      (ext.GetLerpedHrtfCoeffs Hrtf
        (hrtfDirection lm cfg (sourceLocals lm cfg ALSource ALContext).Position
          (sourceLocals lm cfg ALSource ALContext).Distance ALSource.Radius).ev
        (hrtfDirection lm cfg (sourceLocals lm cfg ALSource ALContext).Position
          (sourceLocals lm cfg ALSource ALContext).Distance ALSource.Radius).az
        (hrtfDirection lm cfg (sourceLocals lm cfg ALSource ALContext).Position
          (sourceLocals lm cfg ALSource ALContext).Distance ALSource.Radius).dirfact
        (sourceLocals lm cfg ALSource ALContext).DryGain).2 ∧
    (CalcSourceParams lm ext cfg voice ALSource ALContext).Direct.Counter = 0 ∧
    (CalcSourceParams lm ext cfg voice ALSource ALContext).Direct.Moving = true ∧
    (CalcSourceParams lm ext cfg voice ALSource ALContext).Direct.LastGain =
      (sourceLocals lm cfg ALSource ALContext).DryGain ∧
    (CalcSourceParams lm ext cfg voice ALSource ALContext).Direct.LastDir =
      (hrtfDirection lm cfg (sourceLocals lm cfg ALSource ALContext).Position
        (sourceLocals lm cfg ALSource ALContext).Distance ALSource.Radius).dir ∧
    (CalcSourceParams lm ext cfg voice ALSource ALContext).IsHrtf = true := by
  unfold CalcSourceParams
  simp only [hH, hM, Bool.false_eq_true, if_false, Function.update_same]
  refine ⟨?_, ?_, ?_, ?_, ?_, ?_, ?_⟩ <;> first | rfl | trivial

/-- The direct block an update of a moving voice leaves on an HRTF device when the fade time
is 0: the HRTF parameters, the counter, the last gain and direction are the ones it had. -/
theorem CalcSourceParams_Hrtf_still (lm : Libm K) (ext : Externs K) (cfg : Consts K)
    (voice : ALvoice K) (ALSource : ALsource K) (ALContext : ALCcontext K) (Hrtf : Hrtf)
    (hH : ALContext.Device.Hrtf = some Hrtf) (hM : voice.Direct.Moving = true)
    (hF : CalcFadeTime lm cfg voice.Direct.LastGain (sourceLocals lm cfg ALSource ALContext).DryGain
      voice.Direct.LastDir
      (hrtfDirection lm cfg (sourceLocals lm cfg ALSource ALContext).Position
        (sourceLocals lm cfg ALSource ALContext).Distance ALSource.Radius).dir = 0) :
    (CalcSourceParams lm ext cfg voice ALSource ALContext).Direct.Hrtf = voice.Direct.Hrtf ∧
    (CalcSourceParams lm ext cfg voice ALSource ALContext).Direct.Counter =
      voice.Direct.Counter ∧
    (CalcSourceParams lm ext cfg voice ALSource ALContext).Direct.Moving = true ∧
    (CalcSourceParams lm ext cfg voice ALSource ALContext).Direct.LastGain =
      voice.Direct.LastGain ∧
    (CalcSourceParams lm ext cfg voice ALSource ALContext).Direct.LastDir =
      voice.Direct.LastDir := by
  have hF' : ¬ CalcFadeTime lm cfg voice.Direct.LastGain
      (sourceLocals lm cfg ALSource ALContext).DryGain voice.Direct.LastDir
      (hrtfDirection lm cfg (sourceLocals lm cfg ALSource ALContext).Position
        (sourceLocals lm cfg ALSource ALContext).Distance ALSource.Radius).dir > 0.000015 := by
    rw [hF]
    norm_num
  unfold hrtfDirection at hF'
  unfold CalcSourceParams
  simp only [hH, hM, if_true]
  simp only [hF', if_false]
  refine ⟨?_, ?_, ?_, ?_, ?_⟩ <;> first | rfl | trivial

/-- C16: HRTF update idempotence.  On a device with HRTF, the first `CalcSourceParams` update
of a voice that is not moving installs the lerped coefficients and delays, sets
`Direct.Counter = 0` and `Moving = true` (and records the gain and direction); a second update
with the same source, listener and device state computes the fade time 0 (`log10f(1)` being 0)
and leaves the voice's HRTF coefficients, delays and steps, `Direct.Counter`, `LastGain` and
`LastDir` unchanged. -/
theorem hrtf_update_idempotent (lm : Libm K) (ext : Externs K) (cfg : Consts K)
    (voice : ALvoice K) (ALSource : ALsource K) (ALContext : ALCcontext K) (Hrtf : Hrtf)
    (hH : ALContext.Device.Hrtf = some Hrtf) (hM : voice.Direct.Moving = false)
    (hlog : lm.log10f 1 = 0) :
    (((CalcSourceParams lm ext cfg voice ALSource ALContext).Direct.Hrtf 0).Coeffs =
        (ext.GetLerpedHrtfCoeffs Hrtf
          (hrtfDirection lm cfg (sourceLocals lm cfg ALSource ALContext).Position
            (sourceLocals lm cfg ALSource ALContext).Distance ALSource.Radius).ev
          (hrtfDirection lm cfg (sourceLocals lm cfg ALSource ALContext).Position
            (sourceLocals lm cfg ALSource ALContext).Distance ALSource.Radius).az
          (hrtfDirection lm cfg (sourceLocals lm cfg ALSource ALContext).Position
            (sourceLocals lm cfg ALSource ALContext).Distance ALSource.Radius).dirfact
          (sourceLocals lm cfg ALSource ALContext).DryGain).1 ∧
      ((CalcSourceParams lm ext cfg voice ALSource ALContext).Direct.Hrtf 0).Delay =
        (ext.GetLerpedHrtfCoeffs Hrtf
          (hrtfDirection lm cfg (sourceLocals lm cfg ALSource ALContext).Position
            (sourceLocals lm cfg ALSource ALContext).Distance ALSource.Radius).ev
          (hrtfDirection lm cfg (sourceLocals lm cfg ALSource ALContext).Position
            (sourceLocals lm cfg ALSource ALContext).Distance ALSource.Radius).az
          (hrtfDirection lm cfg (sourceLocals lm cfg ALSource ALContext).Position
            (sourceLocals lm cfg ALSource ALContext).Distance ALSource.Radius).dirfact
          (sourceLocals lm cfg ALSource ALContext).DryGain).2 ∧
      (CalcSourceParams lm ext cfg voice ALSource ALContext).Direct.Counter = 0 ∧
      (CalcSourceParams lm ext cfg voice ALSource ALContext).Direct.Moving = true) ∧
    CalcFadeTime lm cfg (CalcSourceParams lm ext cfg voice ALSource ALContext).Direct.LastGain
      (sourceLocals lm cfg ALSource ALContext).DryGain
      (CalcSourceParams lm ext cfg voice ALSource ALContext).Direct.LastDir
      (hrtfDirection lm cfg (sourceLocals lm cfg ALSource ALContext).Position
        (sourceLocals lm cfg ALSource ALContext).Distance ALSource.Radius).dir = 0 ∧
    ((CalcSourceParams lm ext cfg (CalcSourceParams lm ext cfg voice ALSource ALContext)
        ALSource ALContext).Direct.Hrtf =
        (CalcSourceParams lm ext cfg voice ALSource ALContext).Direct.Hrtf ∧
      (CalcSourceParams lm ext cfg (CalcSourceParams lm ext cfg voice ALSource ALContext)
        ALSource ALContext).Direct.Counter =
        (CalcSourceParams lm ext cfg voice ALSource ALContext).Direct.Counter ∧
      (CalcSourceParams lm ext cfg (CalcSourceParams lm ext cfg voice ALSource ALContext)
        ALSource ALContext).Direct.LastGain =
        (CalcSourceParams lm ext cfg voice ALSource ALContext).Direct.LastGain ∧
      (CalcSourceParams lm ext cfg (CalcSourceParams lm ext cfg voice ALSource ALContext)
        ALSource ALContext).Direct.LastDir =
        (CalcSourceParams lm ext cfg voice ALSource ALContext).Direct.LastDir) := by
  obtain ⟨h1, h2, h3, h4, h5, h6, _⟩ :=
    CalcSourceParams_Hrtf_first lm ext cfg voice ALSource ALContext Hrtf hH hM
  have hF : CalcFadeTime lm cfg
      (CalcSourceParams lm ext cfg voice ALSource ALContext).Direct.LastGain
      (sourceLocals lm cfg ALSource ALContext).DryGain
      (CalcSourceParams lm ext cfg voice ALSource ALContext).Direct.LastDir
      (hrtfDirection lm cfg (sourceLocals lm cfg ALSource ALContext).Position
        (sourceLocals lm cfg ALSource ALContext).Distance ALSource.Radius).dir = 0 := by
    rw [h5, h6]
    exact CalcFadeTime_same lm cfg hlog _ _ _ rfl rfl rfl
  obtain ⟨g1, g2, _, g4, g5⟩ := CalcSourceParams_Hrtf_still lm ext cfg
    (CalcSourceParams lm ext cfg voice ALSource ALContext) ALSource ALContext Hrtf hH h4 hF
  exact ⟨⟨h1, h2, h3, h4⟩, hF, g1, g2, g4, g5⟩

/-- C16 (instance): the sample voice and source on the sample HRTF device; after the first
update the counter is 0 and a second update leaves it at 0. -/
theorem hrtf_update_idempotent_witness :
    Sample.hrtfContext.Device.Hrtf = some ⟨44100, 32⟩ ∧ Sample.voice.Direct.Moving = false ∧
    Sample.libm.log10f 1 = 0 ∧
    (CalcSourceParams Sample.libm Sample.externs Sample.consts
      (CalcSourceParams Sample.libm Sample.externs Sample.consts Sample.voice Sample.source
        Sample.hrtfContext) Sample.source Sample.hrtfContext).Direct.Counter = 0 :=
  ⟨rfl, rfl, by norm_num [Sample.libm],
    ((hrtf_update_idempotent Sample.libm Sample.externs Sample.consts Sample.voice Sample.source
      Sample.hrtfContext ⟨44100, 32⟩ rfl rfl (by norm_num [Sample.libm])).2.2.2.1).trans
    (hrtf_update_idempotent Sample.libm Sample.externs Sample.consts Sample.voice Sample.source
      Sample.hrtfContext ⟨44100, 32⟩ rfl rfl (by norm_num [Sample.libm])).1.2.2.1⟩

end HrtfUpdate

section SampleConversion

variable {K : Type} [LinearOrderedField K] [FloorRing K]

theorem aluF2I25_eq (v : K) : aluF2I25 v = round (clampf v (-1) 1 * 16777215) := by
  unfold aluF2I25 fastf2i clampf minf maxf
  by_cases h : |v| > 1
  · rcases lt_abs.mp h with h1 | h1
    · have h2 : (0 : K) < v := by linarith
      have h3 : ¬ v < 0 := by linarith
      have h4 : ¬ (-1 : K) > v := by linarith
      have h5 : ¬ (1 : K) > v := by linarith
      simp only [h, h2, h3, h4, h5, if_true, if_false]
      norm_num
    · have h2 : ¬ (0 : K) < v := by linarith
      have h3 : v < 0 := by linarith
      have h4 : (-1 : K) > v := by linarith
      have h5 : (1 : K) > (-1 : K) := by norm_num
      simp only [h, h2, h3, h4, h5, if_true, if_false]
      norm_num
  · have h1 := abs_le.mp (not_lt.mp h)
    have h4 : ¬ (-1 : K) > v := by linarith [h1.1]
    have h5 : ¬ (1 : K) > v → v = 1 := fun h6 => le_antisymm h1.2 (not_lt.mp h6)
    simp only [h, h4, if_false]
    split_ifs with h6
    · rfl
    · rw [h5 h6]

theorem aluF2I25_range (v : K) : -16777215 ≤ aluF2I25 v ∧ aluF2I25 v ≤ 16777215 := by
  rw [aluF2I25_eq]
  have hc : (-1 : K) ≤ clampf v (-1) 1 ∧ clampf v (-1) 1 ≤ 1 := by
    unfold clampf minf maxf
    split_ifs <;> constructor <;> linarith
  have hlo : round (((-16777215 : Int) : K)) ≤ round (clampf v (-1) 1 * 16777215) := by
    apply round_le_round_of_le
    push_cast
    linarith [hc.1]
  have hhi : round (clampf v (-1) 1 * 16777215) ≤ round (((16777215 : Int) : K)) := by
    apply round_le_round_of_le
    push_cast
    linarith [hc.2]
  rw [round_intCast] at hlo hhi
  exact ⟨hlo, hhi⟩

theorem aluF2I25_of_int (n : Int) (hn : -1 ≤ n) (hn1 : n ≤ 1) :
    aluF2I25 (n : K) = n * 16777215 := by
  rw [aluF2I25_eq]
  have hc : clampf (n : K) (-1) 1 = n := by
    have h1 : (-1 : K) ≤ n := by exact_mod_cast hn
    have h2 : (n : K) ≤ 1 := by exact_mod_cast hn1
    unfold clampf minf maxf
    split_ifs <;> linarith
  rw [hc]
  have : (n : K) * 16777215 = ((n * 16777215 : Int) : K) := by push_cast; ring
  rw [this, round_intCast]

theorem aluF2I25_of_gt (v : K) (h : 1 < v) : aluF2I25 v = 16777215 := by
  rw [aluF2I25_eq]
  have hc : clampf v (-1) 1 = 1 := by
    unfold clampf minf maxf
    split_ifs <;> linarith
  rw [hc]
  have : (1 : K) * 16777215 = ((16777215 : Int) : K) := by push_cast; ring
  rw [this, round_intCast]

theorem aluF2I25_of_lt (v : K) (h : v < -1) : aluF2I25 v = -16777215 := by
  rw [aluF2I25_eq]
  have hc : clampf v (-1) 1 = -1 := by
    unfold clampf minf maxf
    split_ifs <;> linarith
  rw [hc]
  have : (-1 : K) * 16777215 = ((-16777215 : Int) : K) := by push_cast; ring
  rw [this, round_intCast]

theorem toSigned_of_range (w : Nat) (x : Int) (hw : 0 < w) (h1 : -2 ^ (w - 1) ≤ x)
    (h2 : x < 2 ^ (w - 1)) : toSigned w x = x := by
  unfold toSigned
  have hp : (2 : Int) ^ w = 2 * 2 ^ (w - 1) := by
    obtain ⟨k, rfl⟩ := Nat.exists_eq_succ_of_ne_zero hw.ne'
    rw [pow_succ]
    simp [mul_comm]
  rw [hp, Int.emod_eq_of_lt (by linarith) (by linarith)]
  ring

theorem aluF2I_eq (v : K) : aluF2I v = aluF2I25 v * 128 ∧
    -2 ^ 31 ≤ aluF2I v ∧ aluF2I v < 2 ^ 31 := by
  have h := aluF2I25_range v
  have hs : aluF2I25 v <<< (7 : Int) = aluF2I25 v * 128 := by
    have := Int.shiftLeft_eq_mul_pow (aluF2I25 v) 7
    simpa using this
  have he : aluF2I v = aluF2I25 v * 128 := by
    unfold aluF2I
    rw [hs]
    apply toSigned_of_range _ _ (by norm_num) <;> norm_num <;> omega
  rw [he]
  refine ⟨rfl, ?_, ?_⟩ <;> norm_num <;> omega

theorem aluF2S_eq (v : K) : aluF2S v = aluF2I25 v / 512 ∧
    -2 ^ 15 ≤ aluF2S v ∧ aluF2S v < 2 ^ 15 := by
  have h := aluF2I25_range v
  have hs : aluF2I25 v >>> (9 : Nat) = aluF2I25 v / 512 := by
    rw [Int.shiftRight_eq_div_pow]
    norm_num
  have he : aluF2S v = aluF2I25 v / 512 := by
    unfold aluF2S
    rw [hs]
    apply toSigned_of_range _ _ (by norm_num) <;> norm_num <;> omega
  rw [he]
  refine ⟨rfl, ?_, ?_⟩ <;> norm_num <;> omega

theorem aluF2B_eq (v : K) : aluF2B v = aluF2I25 v / 131072 ∧
    -2 ^ 7 ≤ aluF2B v ∧ aluF2B v < 2 ^ 7 := by
  have h := aluF2I25_range v
  have hs : aluF2I25 v >>> (17 : Nat) = aluF2I25 v / 131072 := by
    rw [Int.shiftRight_eq_div_pow]
    norm_num
  have he : aluF2B v = aluF2I25 v / 131072 := by
    unfold aluF2B
    rw [hs]
    apply toSigned_of_range _ _ (by norm_num) <;> norm_num <;> omega
  rw [he]
  refine ⟨rfl, ?_, ?_⟩ <;> norm_num <;> omega

/-- C17: sample conversion.  For every sample `v`, `aluF2I25 v` is
`round(clamp(v,-1,1) * 16777215)` and lies in `[-16777215, 16777215]` (with the values at 1, 2,
-1, -2 and 0); the signed formats are `aluF2I25 v` shifted left by 7 and (arithmetically) right
by 9 and 17, that is multiplied by 128 and floor-divided by 512 and 131072, and they fit in 32,
16 and 8 signed bits, so that the conversion to the result type changes nothing; each unsigned
format is the signed value plus `2^31`, 32768 or 128 and lies in `[0, 2^w - 1]`; and
`aluF2S(1.0) = 32767`, `aluF2UB(0.0) = 128`. -/
theorem sample_conversion (v : K) :
    aluF2I25 v = round (clampf v (-1) 1 * 16777215) ∧
    (-16777215 ≤ aluF2I25 v ∧ aluF2I25 v ≤ 16777215) ∧
    (aluF2I25 (1 : K) = 16777215 ∧ aluF2I25 (2 : K) = 16777215 ∧
      aluF2I25 (-1 : K) = -16777215 ∧ aluF2I25 (-2 : K) = -16777215 ∧ aluF2I25 (0 : K) = 0) ∧
    (aluF2I v = aluF2I25 v <<< 7 ∧ aluF2I v = aluF2I25 v * 128 ∧
      -2 ^ 31 ≤ aluF2I v ∧ aluF2I v ≤ 2 ^ 31 - 1) ∧
    (aluF2S v = aluF2I25 v >>> (9 : Nat) ∧ aluF2S v = aluF2I25 v / 512 ∧
      -2 ^ 15 ≤ aluF2S v ∧ aluF2S v ≤ 2 ^ 15 - 1) ∧
    (aluF2B v = aluF2I25 v >>> (17 : Nat) ∧ aluF2B v = aluF2I25 v / 131072 ∧
      -2 ^ 7 ≤ aluF2B v ∧ aluF2B v ≤ 2 ^ 7 - 1) ∧
    (aluF2UI v = aluF2I v + 2 ^ 31 ∧ 0 ≤ aluF2UI v ∧ aluF2UI v ≤ 2 ^ 32 - 1) ∧
    (aluF2US v = aluF2S v + 32768 ∧ 0 ≤ aluF2US v ∧ aluF2US v ≤ 2 ^ 16 - 1) ∧
    (aluF2UB v = aluF2B v + 128 ∧ 0 ≤ aluF2UB v ∧ aluF2UB v ≤ 2 ^ 8 - 1) ∧
    aluF2S (1 : K) = 32767 ∧ aluF2UB (0 : K) = 128 := by
  obtain ⟨hI, hI1, hI2⟩ := aluF2I_eq v
  obtain ⟨hS, hS1, hS2⟩ := aluF2S_eq v
  obtain ⟨hB, hB1, hB2⟩ := aluF2B_eq v
  have h1 : aluF2I25 (1 : K) = 16777215 := by
    have := aluF2I25_of_int (K := K) 1 (by norm_num) (by norm_num)
    simpa using this
  have h0 : aluF2I25 (0 : K) = 0 := by
    have := aluF2I25_of_int (K := K) 0 (by norm_num) (by norm_num)
    simpa using this
  have hm1 : aluF2I25 (-1 : K) = -16777215 := by
    have := aluF2I25_of_int (K := K) (-1) (by norm_num) (by norm_num)
    simpa using this
  have hUI : aluF2UI v = aluF2I v + 2 ^ 31 := by
    unfold aluF2UI toUnsigned
    rw [Int.emod_eq_of_lt] <;> norm_num at hI1 hI2 ⊢ <;> omega
  have hUS : aluF2US v = aluF2S v + 32768 := by
    unfold aluF2US toUnsigned
    rw [Int.emod_eq_of_lt] <;> norm_num at hS1 hS2 ⊢ <;> omega
  have hUB : aluF2UB v = aluF2B v + 128 := by
    unfold aluF2UB toUnsigned
    rw [Int.emod_eq_of_lt] <;> norm_num at hB1 hB2 ⊢ <;> omega
  refine ⟨aluF2I25_eq v, aluF2I25_range v,
    ⟨h1, aluF2I25_of_gt 2 (by norm_num), hm1, aluF2I25_of_lt (-2) (by norm_num), h0⟩,
    ⟨?_, hI, hI1, by omega⟩, ⟨?_, hS, hS1, by omega⟩, ⟨?_, hB, hB1, by omega⟩,
    ⟨hUI, ?_, ?_⟩, ⟨hUS, ?_, ?_⟩, ⟨hUB, ?_, ?_⟩, ?_, ?_⟩
  · rw [hI]
    have := Int.shiftLeft_eq_mul_pow (aluF2I25 v) 7
    simpa using this.symm
  · rw [hS, Int.shiftRight_eq_div_pow]
    norm_num
  · rw [hB, Int.shiftRight_eq_div_pow]
    norm_num
  · rw [hUI]; norm_num at hI1 hI2 ⊢; omega
  · rw [hUI]; norm_num at hI1 hI2 ⊢; omega
  · rw [hUS]; norm_num at hS1 hS2 ⊢; omega
  · rw [hUS]; norm_num at hS1 hS2 ⊢; omega
  · rw [hUB]; norm_num at hB1 hB2 ⊢; omega
  · rw [hUB]; norm_num at hB1 hB2 ⊢; omega
  · rw [(aluF2S_eq (1 : K)).1, h1]
    norm_num
  · have hb : aluF2B (0 : K) = 0 := by
      rw [(aluF2B_eq (0 : K)).1, h0]
      norm_num
    unfold aluF2UB toUnsigned
    rw [hb]
    norm_num

end SampleConversion

section Interleaving

variable {K : Type}

/-- The inner loop of `Write_##T` for channel `j < c`: it writes sample `i` at `j + i * c`. -/
theorem writeChannel_apply {T : Type} (g : Nat → T) (j c n : Nat) (hj : j < c)
    (out0 : Nat → T) (k : Nat) :
    forLoop n (fun i out => Function.update out (j + i * c) (g i)) out0 k =
      if k % c = j ∧ k / c < n then g (k / c) else out0 k := by
  have hc : 0 < c := by omega
  induction n with
  | zero => simp [forLoop]
  | succ n ih =>
    rw [forLoop_succ]
    by_cases hk : k = j + n * c
    · subst hk
      have h1 : (j + n * c) % c = j := by
        rw [Nat.add_mul_mod_self_right, Nat.mod_eq_of_lt hj]
      have h2 : (j + n * c) / c = n := by
        rw [Nat.add_mul_div_right _ _ hc, Nat.div_eq_of_lt hj, zero_add]
      simp [h1, h2]
    · rw [Function.update_noteq hk, ih]
      have hd := Nat.mod_add_div k c
      by_cases h1 : k % c = j
      · have hne : k / c ≠ n := by
          intro h
          apply hk
          rw [← hd, h1, h, mul_comm]
        by_cases h2 : k / c < n
        · simp [h1, h2, Nat.lt_succ_of_lt h2]
        · have : ¬ k / c < n + 1 := by omega
          simp [h1, h2, this]
      · simp [h1]

/-- The loops of `Write_##T` over the first `m ≤ numchans` channels. -/
theorem writeChannels_apply {T : Type} (func : K → T) (InBuffer : Nat → Nat → K)
    (OutBuffer : Nat → T) (n c m : Nat) (hm : m ≤ c) (k : Nat) :
    forLoop m (fun j OutBuffer =>
      forLoop n (fun i OutBuffer =>
        Function.update OutBuffer (j + i * c) (func (InBuffer j i))) OutBuffer) OutBuffer k =
      if k % c < m ∧ k / c < n then func (InBuffer (k % c) (k / c)) else OutBuffer k := by
  induction m with
  | zero => simp [forLoop]
  | succ m ih =>
    rw [forLoop_succ]
    rw [writeChannel_apply (fun i => func (InBuffer m i)) m c n (by omega), ih (by omega)]
    by_cases h1 : k % c = m
    · by_cases h2 : k / c < n
      · simp [h1, h2]
      · simp [h1, h2]
    · by_cases h3 : k % c < m
      · simp [h1, h3, Nat.lt_succ_of_lt h3]
      · have : ¬ k % c < m + 1 := by omega
        simp [h1, h3, this]

/-- C18: interleaving.  For every conversion `func` (every format `T`), every channel count
`numchans` and sample count `n`, `Write_T` leaves `out[i*numchans + j] = func(InBuffer[j][i])`
for every sample `i < n` and channel `j < numchans`; the elements it writes are exactly the
first `n * numchans` ones, element `k` holding the sample `k / numchans` of channel
`k % numchans`; and every other element of the output is left as it was.  The seven `Write_T`
are this template with their conversion. -/
theorem write_interleaves [LinearOrderedField K] [FloorRing K] {T : Type} (func : K → T) (InBuffer : Nat → Nat → K)
    (OutBuffer : Nat → T) (n numchans : Nat) :
    (∀ i j : Nat, i < n → j < numchans →
      Write func InBuffer OutBuffer n numchans (i * numchans + j) = func (InBuffer j i)) ∧
    (∀ k : Nat, k < n * numchans →
      Write func InBuffer OutBuffer n numchans k =
        func (InBuffer (k % numchans) (k / numchans)) ∧
      k = k / numchans * numchans + k % numchans ∧ k / numchans < n ∧ k % numchans < numchans) ∧
    (∀ k : Nat, n * numchans ≤ k → Write func InBuffer OutBuffer n numchans k = OutBuffer k) ∧
    (∀ (In : Nat → Nat → K) (Out : Nat → PCM K) (i j : Nat), i < n → j < numchans →
      Write_ALfloat In Out n numchans (i * numchans + j) = PCM.float (In j i) ∧
      Write_ALuint In Out n numchans (i * numchans + j) = PCM.int (aluF2UI (In j i)) ∧
      Write_ALint In Out n numchans (i * numchans + j) = PCM.int (aluF2I (In j i)) ∧
      Write_ALushort In Out n numchans (i * numchans + j) = PCM.int (aluF2US (In j i)) ∧
      Write_ALshort In Out n numchans (i * numchans + j) = PCM.int (aluF2S (In j i)) ∧
      Write_ALubyte In Out n numchans (i * numchans + j) = PCM.int (aluF2UB (In j i)) ∧
      Write_ALbyte In Out n numchans (i * numchans + j) = PCM.int (aluF2B (In j i))) := by
  have key : ∀ {T : Type} (func : K → T) (InBuffer : Nat → Nat → K) (OutBuffer : Nat → T)
      (k : Nat), Write func InBuffer OutBuffer n numchans k =
        if k % numchans < numchans ∧ k / numchans < n then
          func (InBuffer (k % numchans) (k / numchans))
        else OutBuffer k := by
    intro T func InBuffer OutBuffer k
    unfold Write
    exact writeChannels_apply func InBuffer OutBuffer n numchans numchans le_rfl k
  have hidx : ∀ {T : Type} (func : K → T) (InBuffer : Nat → Nat → K) (OutBuffer : Nat → T)
      (i j : Nat), i < n → j < numchans →
      Write func InBuffer OutBuffer n numchans (i * numchans + j) = func (InBuffer j i) := by
    intro T func InBuffer OutBuffer i j hi hj
    have hc : 0 < numchans := by omega
    have h1 : (i * numchans + j) % numchans = j := by
      rw [Nat.add_comm, Nat.add_mul_mod_self_right, Nat.mod_eq_of_lt hj]
    have h2 : (i * numchans + j) / numchans = i := by
      rw [Nat.add_comm, Nat.add_mul_div_right _ _ hc, Nat.div_eq_of_lt hj, zero_add]
    rw [key, h1, h2, if_pos ⟨hj, hi⟩]
  refine ⟨hidx func InBuffer OutBuffer, ?_, ?_, ?_⟩
  · intro k hk
    have hc : 0 < numchans := by
      rcases Nat.eq_zero_or_pos numchans with h | h
      · rw [h] at hk
        omega
      · exact h
    have h1 : k % numchans < numchans := Nat.mod_lt k hc
    have h2 : k / numchans < n := by
      rw [Nat.div_lt_iff_lt_mul hc]
      exact hk
    refine ⟨?_, ?_, h2, h1⟩
    · rw [key, if_pos ⟨h1, h2⟩]
    · have := Nat.div_add_mod k numchans
      rw [mul_comm] at this
      exact this.symm
  · intro k hk
    rw [key, if_neg]
    rintro ⟨h1, h2⟩
    have hc : 0 < numchans := by omega
    rw [Nat.div_lt_iff_lt_mul hc] at h2
    omega
  · intro In Out i j hi hj
    unfold Write_ALfloat Write_ALuint Write_ALint Write_ALushort Write_ALshort Write_ALubyte
      Write_ALbyte
    refine ⟨?_, ?_, ?_, ?_, ?_, ?_, ?_⟩ <;> rw [hidx _ _ _ i j hi hj]
    rfl

end Interleaving

section Disconnect

variable {K : Type}

/-- One step of the voice loop of `aluHandleDisconnect`, seen from the source at `p`: it is
left as it was, or it was playing and is now drained. -/
theorem disconnectVoice_source (v : Nat) (V : Nat → VoiceObject K) (S : Nat → SourceObject K)
    (p : Nat) :
    (disconnectVoice v (V, S)).2 p = S p ∨
      ((V v).Source = some p ∧ (S p).state = SourceState.AL_PLAYING ∧
        ((disconnectVoice v (V, S)).2 p).Drained) := by
  unfold disconnectVoice
  simp only []
  cases hs : (V v).Source with
  | none => left; rfl
  | some q =>
    simp only []
    by_cases hq : (S q).state = SourceState.AL_PLAYING
    · simp only [hq, if_true]
      by_cases hpq : p = q
      · subst hpq
        right
        refine ⟨rfl, hq, ?_⟩
        rw [Function.update_same]
        exact ⟨rfl, rfl, rfl, rfl⟩
      · left
        rw [Function.update_noteq hpq]
    · simp only [hq, if_false]
      left; trivial

/-- One step of the voice loop of `aluHandleDisconnect`, seen from the voice at `w`. -/
theorem disconnectVoice_voice (v : Nat) (V : Nat → VoiceObject K) (S : Nat → SourceObject K)
    (w : Nat) :
    (disconnectVoice v (V, S)).1 w = if w = v then { V v with Source := none } else V w := by
  have h : (disconnectVoice v (V, S)).1 =
      Function.update V v { V v with Source := none } := by
    unfold disconnectVoice
    simp only []
    cases (V v).Source with
    | none => rfl
    | some q =>
      simp only []
      split_ifs <;> rfl
  rw [h]
  by_cases hw : w = v
  · subst hw
    simp
  · simp [hw]

/-- A source that is playing when the voice `v` that plays it is visited is drained by the
visit. -/
theorem disconnectVoice_hit (v : Nat) (V : Nat → VoiceObject K) (S : Nat → SourceObject K)
    (p : Nat) (hv : (V v).Source = some p) (hp : (S p).state = SourceState.AL_PLAYING) :
    ((disconnectVoice v (V, S)).2 p).Drained := by
  unfold disconnectVoice
  simp only [hv, hp, if_true, Function.update_same]
  exact ⟨rfl, rfl, rfl, rfl⟩

/-- The voice loop of `aluHandleDisconnect` over the first `n` voices. -/
theorem disconnectVoices_spec (n : Nat) (V : Nat → VoiceObject K) (S : Nat → SourceObject K) :
    (∀ w, (forLoop n disconnectVoice (V, S)).1 w =
      if w < n then { V w with Source := none } else V w) ∧
    (∀ p, (forLoop n disconnectVoice (V, S)).2 p = S p ∨
      ((S p).state = SourceState.AL_PLAYING ∧
        ((forLoop n disconnectVoice (V, S)).2 p).Drained)) ∧
    (∀ v p, v < n → (V v).Source = some p → (S p).state = SourceState.AL_PLAYING →
      ((forLoop n disconnectVoice (V, S)).2 p).Drained) := by
  induction n with
  | zero =>
    refine ⟨fun w => by simp [forLoop], fun p => Or.inl rfl, fun v p hv => by omega⟩
  | succ n ih =>
    obtain ⟨ihV, ihS, ihH⟩ := ih
    rw [forLoop_succ]
    have hpair : forLoop n disconnectVoice (V, S) =
        ((forLoop n disconnectVoice (V, S)).1, (forLoop n disconnectVoice (V, S)).2) := rfl
    rw [hpair]
    have hVn : (forLoop n disconnectVoice (V, S)).1 n = V n := by
      rw [ihV, if_neg (lt_irrefl n)]
    have keep : ∀ p, ((forLoop n disconnectVoice (V, S)).2 p).Drained →
        ((disconnectVoice n ((forLoop n disconnectVoice (V, S)).1,
          (forLoop n disconnectVoice (V, S)).2)).2 p).Drained := by
      intro p hd
      rcases disconnectVoice_source n (forLoop n disconnectVoice (V, S)).1
        (forLoop n disconnectVoice (V, S)).2 p with h | h
      · rw [h]
        exact hd
      · exact h.2.2
    refine ⟨?_, ?_, ?_⟩
    · intro w
      rw [disconnectVoice_voice, hVn]
      by_cases hw : w = n
      · subst hw
        simp
      · rw [if_neg hw, ihV]
        by_cases hlt : w < n
        · simp [hlt, Nat.lt_succ_of_lt hlt]
        · have : ¬ w < n + 1 := by omega
          simp [hlt, this]
    · intro p
      rcases ihS p with h | h
      · rcases disconnectVoice_source n (forLoop n disconnectVoice (V, S)).1
          (forLoop n disconnectVoice (V, S)).2 p with h2 | h2
        · left
          rw [h2, h]
        · right
          refine ⟨?_, h2.2.2⟩
          rw [← h]
          exact h2.2.1
      · right
        exact ⟨h.1, keep p h.2⟩
    · intro v p hv hs hp
      by_cases hvn : v = n
      · subst hvn
        rcases ihS p with h | h
        · apply disconnectVoice_hit
          · rw [hVn]
            exact hs
          · rw [h]
            exact hp
        · exact keep p h.2
      · exact keep p (ihH v p (by omega) hs hp)

/-- The context loop of `aluHandleDisconnect`. -/
theorem disconnectContexts_spec (l : List (ContextObject K)) (S : Nat → SourceObject K) :
    (disconnectContexts l S).1.length = l.length ∧
    (∀ Context ∈ (disconnectContexts l S).1, Context.VoiceCount = 0) ∧
    (∀ (i : Nat) (Context Context' : ContextObject K), l[i]? = some Context →
      (disconnectContexts l S).1[i]? = some Context' →
      ∀ v, v < Context.VoiceCount → (Context'.Voices v).Source = none) ∧
    (∀ p, (disconnectContexts l S).2 p = S p ∨
      ((S p).state = SourceState.AL_PLAYING ∧ ((disconnectContexts l S).2 p).Drained)) ∧
    (∀ Context ∈ l, ∀ v p, v < Context.VoiceCount → (Context.Voices v).Source = some p →
      (S p).state = SourceState.AL_PLAYING → ((disconnectContexts l S).2 p).Drained) := by
  induction l generalizing S with
  | nil =>
    refine ⟨rfl, ?_, ?_, fun p => Or.inl rfl, ?_⟩
    · intro c hc
      simp [disconnectContexts] at hc
    · intro i c c' h
      simp at h
    · intro c hc
      simp at hc
  | cons c next ih =>
    obtain ⟨hV, hS, hH⟩ := disconnectVoices_spec c.VoiceCount c.Voices S
    obtain ⟨ih1, ih2, ih3, ih4, ih5⟩ :=
      ih (forLoop c.VoiceCount disconnectVoice (c.Voices, S)).2
    have keep : ∀ p, ((forLoop c.VoiceCount disconnectVoice (c.Voices, S)).2 p).Drained →
        ((disconnectContexts next
          (forLoop c.VoiceCount disconnectVoice (c.Voices, S)).2).2 p).Drained := by
      intro p hd
      rcases ih4 p with h | h
      · rw [h]
        exact hd
      · exact h.2
    have hdef : disconnectContexts (c :: next) S =
        ({ c with Voices := (forLoop c.VoiceCount disconnectVoice (c.Voices, S)).1
                  VoiceCount := 0 } ::
          (disconnectContexts next (forLoop c.VoiceCount disconnectVoice (c.Voices, S)).2).1,
        (disconnectContexts next (forLoop c.VoiceCount disconnectVoice (c.Voices, S)).2).2) :=
      rfl
    rw [hdef]
    refine ⟨?_, ?_, ?_, ?_, ?_⟩
    · simp [ih1]
    · intro c' hc'
      rcases List.mem_cons.mp hc' with h | h
      · rw [h]
      · exact ih2 c' h
    · intro i c1 c1' h1 h1' v hv
      cases i with
      | zero =>
        simp only [List.getElem?_cons_zero, Option.some.injEq] at h1 h1'
        subst h1 h1'
        show ((forLoop c.VoiceCount disconnectVoice (c.Voices, S)).1 v).Source = none
        rw [hV, if_pos hv]
      | succ i =>
        simp only [List.getElem?_cons_succ] at h1 h1'
        exact ih3 i c1 c1' h1 h1' v hv
    · intro p
      show (disconnectContexts next _).2 p = S p ∨ _
      rcases hS p with h | h
      · rcases ih4 p with h2 | h2
        · left
          rw [h2, h]
        · right
          refine ⟨?_, h2.2⟩
          rw [← h]
          exact h2.1
      · right
        exact ⟨h.1, keep p h.2⟩
    · intro c1 hc1 v p hv hs hp
      show ((disconnectContexts next _).2 p).Drained
      rcases List.mem_cons.mp hc1 with h | h
      · subst h
        exact keep p (hH v p hv hs hp)
      · rcases hS p with h2 | h2
        · exact ih5 c1 h v p hv hs (by rw [h2]; exact hp)
        · exact keep p h2.2

/-- C19: disconnect drains.  After `aluHandleDisconnect`, `device.Connected` is false; the
device has the same contexts, each with `VoiceCount = 0`; every voice that was in use (index
below the old `VoiceCount`) has `Source = NULL`; and every source that was bound to such a voice
and was playing is stopped, with no current buffer, `position = 0` and
`position_fraction = 0`.  Every source is either left as it was or was playing and is now
drained. -/
theorem disconnect_drains (device : DeviceObject K) (Sources : Nat → SourceObject K) :
    (aluHandleDisconnect device Sources).1.Connected = false ∧
    (aluHandleDisconnect device Sources).1.ContextList.length = device.ContextList.length ∧
    (∀ Context ∈ (aluHandleDisconnect device Sources).1.ContextList, Context.VoiceCount = 0) ∧
    (∀ (i : Nat) (Context Context' : ContextObject K), device.ContextList[i]? = some Context →
      (aluHandleDisconnect device Sources).1.ContextList[i]? = some Context' →
      ∀ v, v < Context.VoiceCount → (Context'.Voices v).Source = none) ∧
    (∀ Context ∈ device.ContextList, ∀ v p, v < Context.VoiceCount →
      (Context.Voices v).Source = some p → (Sources p).state = SourceState.AL_PLAYING →
      ((aluHandleDisconnect device Sources).2 p).state = SourceState.AL_STOPPED ∧
      ((aluHandleDisconnect device Sources).2 p).current_buffer = none ∧
      ((aluHandleDisconnect device Sources).2 p).position = 0 ∧
      ((aluHandleDisconnect device Sources).2 p).position_fraction = 0) ∧
    (∀ p, (aluHandleDisconnect device Sources).2 p = Sources p ∨
      ((Sources p).state = SourceState.AL_PLAYING ∧
        ((aluHandleDisconnect device Sources).2 p).Drained)) := by
  obtain ⟨h1, h2, h3, h4, h5⟩ := disconnectContexts_spec device.ContextList Sources
  exact ⟨rfl, h1, h2, h3, fun c hc v p hv hs hp => h5 c hc v p hv hs hp, h4⟩

end Disconnect

section MixCount

variable {K : Type} [LinearOrderedField K] [FloorRing K] {σ : Type}

omit [LinearOrderedField K] [FloorRing K] in
theorem TraceExtends.refl (P : Nat → Prop) (t : List (Nat × MixEvent K)) :
    TraceExtends P t t :=
  ⟨[], by simp, by simp⟩

omit [LinearOrderedField K] [FloorRing K] in
theorem TraceExtends.trans {P : Nat → Prop} {t1 t2 t3 : List (Nat × MixEvent K)}
    (h1 : TraceExtends P t1 t2) (h2 : TraceExtends P t2 t3) : TraceExtends P t1 t3 := by
  obtain ⟨n1, e1, p1⟩ := h1
  obtain ⟨n2, e2, p2⟩ := h2
  refine ⟨n1 ++ n2, by rw [e2, e1, List.append_assoc], ?_⟩
  intro e he
  rcases List.mem_append.mp he with h | h
  · exact p1 e h
  · exact p2 e h

omit [LinearOrderedField K] [FloorRing K] in
theorem TraceExtends.mono {P Q : Nat → Prop} (hPQ : ∀ n, P n → Q n)
    {t1 t2 : List (Nat × MixEvent K)} (h : TraceExtends P t1 t2) : TraceExtends Q t1 t2 := by
  obtain ⟨n1, e1, p1⟩ := h
  exact ⟨n1, e1, fun e he => hPQ _ (p1 e he)⟩

omit [LinearOrderedField K] [FloorRing K] in
theorem TraceExtends.log {P : Nat → Prop} (mem : MixerMemory K σ) (c : Nat) (hc : P c)
    (e : MixEvent K) : TraceExtends P mem.trace (mem.log c e).trace :=
  ⟨[(c, e)], rfl, by
    intro x hx
    rw [List.mem_singleton] at hx
    rw [hx]
    exact hc⟩

omit [LinearOrderedField K] [FloorRing K] in
/-- A loop whose body only extends the trace only extends the trace. -/
theorem forLoop_trace {α : Type} (P : Nat → Prop) (tr : α → List (Nat × MixEvent K))
    (body : Nat → α → α) (hbody : ∀ i s, TraceExtends P (tr s) (tr (body i s)))
    (n : Nat) (s : α) : TraceExtends P (tr s) (tr (forLoop n body s)) := by
  induction n with
  | zero => exact TraceExtends.refl P _
  | succ n ih =>
    rw [forLoop_succ]
    exact ih.trans (hbody n _)

theorem mixVoice_trace (P : Nat → Prop) (lm : Libm K) (ext : Externs K)
    (mx : MixerExterns K σ) (cfg : Consts K) (device : ALCdevice K)
    (MixCount SamplesToDo ci : Nat) (hP : P MixCount) (DeferUpdates UpdateSources : Bool)
    (v : Nat) (s : ContextObject K × MixerMemory K σ) :
    TraceExtends P s.2.trace
      (mixVoice lm ext mx cfg device MixCount SamplesToDo ci DeferUpdates UpdateSources v
        s).2.trace := by
  unfold mixVoice
  simp only []
  cases (s.1.Voices v).Source with
  | none => exact TraceExtends.refl P _
  | some p =>
    simp only []
    split_ifs
    all_goals first
      | exact TraceExtends.refl P _
      | exact TraceExtends.log _ _ hP _
      | exact (TraceExtends.log _ _ hP _).trans (TraceExtends.log _ _ hP _)

omit [FloorRing K] in
theorem mixSlot_trace (P : Nat → Prop) (mx : MixerExterns K σ) (device : ALCdevice K)
    (MixCount SamplesToDo : Nat) (hP : P MixCount) (DeferUpdates : Bool)
    (mem : MixerMemory K σ) (slot : ALeffectslot K) :
    TraceExtends P mem.trace
      (mixSlot mx device MixCount SamplesToDo DeferUpdates mem slot).trace := by
  unfold mixSlot
  simp only []
  split_ifs
  all_goals first
    | exact TraceExtends.log _ _ hP _
    | exact (TraceExtends.log _ _ hP _).trans (TraceExtends.log _ _ hP _)

omit [FloorRing K] in
theorem mixSlots_trace (P : Nat → Prop) (mx : MixerExterns K σ) (device : ALCdevice K)
    (MixCount SamplesToDo : Nat) (hP : P MixCount) (DeferUpdates : Bool)
    (slots : List (ALeffectslot K)) (mem : MixerMemory K σ) :
    TraceExtends P mem.trace
      (slots.foldl (mixSlot mx device MixCount SamplesToDo DeferUpdates) mem).trace := by
  induction slots generalizing mem with
  | nil => exact TraceExtends.refl P _
  | cons slot rest ih =>
    rw [List.foldl_cons]
    exact (mixSlot_trace P mx device MixCount SamplesToDo hP DeferUpdates mem slot).trans
      (ih _)

theorem mixContexts_trace (P : Nat → Prop) (lm : Libm K) (ext : Externs K)
    (mx : MixerExterns K σ) (cfg : Consts K) (device : ALCdevice K)
    (MixCount SamplesToDo : Nat) (hP : P MixCount) (ci : Nat) (l : List (ContextObject K))
    (mem : MixerMemory K σ) :
    TraceExtends P mem.trace
      (mixContexts lm ext mx cfg device MixCount SamplesToDo ci l mem).2.trace := by
  induction l generalizing ci mem with
  | nil => exact TraceExtends.refl P _
  | cons ctx next ih =>
    unfold mixContexts
    simp only []
    refine TraceExtends.trans ?_ (ih _ _)
    refine TraceExtends.trans ?_ (mixSlots_trace P mx device MixCount SamplesToDo hP _ _ _)
    refine TraceExtends.trans ?_
      (forLoop_trace P (fun s : ContextObject K × MixerMemory K σ => s.2.trace) _
        (fun i s => mixVoice_trace P lm ext mx cfg device MixCount SamplesToDo ci hP _ _ i s)
        _ _)
    split_ifs
    all_goals first
      | exact TraceExtends.log _ _ hP _
      | exact TraceExtends.refl P _

omit [LinearOrderedField K] [FloorRing K] in
theorem hrtfLoop_trace (P : Nat → Prop) (mx : MixerExterns K σ)
    (MixCount NumChannels OutBuffer Offset irsize SamplesToDo : Nat) (hP : P MixCount)
    (mem : MixerMemory K σ) :
    TraceExtends P mem.trace
      (hrtfLoop mx MixCount NumChannels OutBuffer Offset irsize SamplesToDo mem).trace := by
  unfold hrtfLoop
  refine forLoop_trace P (fun m : MixerMemory K σ => m.trace) _ ?_ _ _
  intro i m
  exact TraceExtends.log m MixCount hP _

omit [LinearOrderedField K] [FloorRing K] in
theorem crossFeedLoop_trace (P : Nat → Prop) (mx : MixerExterns K σ)
    (MixCount SamplesToDo : Nat) (hP : P MixCount) (mem : MixerMemory K σ) :
    TraceExtends P mem.trace (crossFeedLoop mx MixCount SamplesToDo mem).trace := by
  unfold crossFeedLoop
  refine forLoop_trace P (fun m : MixerMemory K σ => m.trace) _ ?_ _ _
  intro i m
  exact TraceExtends.log m MixCount hP _

/-- One slice bumps `MixCount` twice. -/
theorem aluMixSlice_MixCount (lm : Libm K) (ext : Externs K) (mx : MixerExterns K σ)
    (cfg : Consts K) (s : MixSlice K σ) :
    (aluMixSlice lm ext mx cfg s).device.MixCount = s.device.MixCount + 2 := by
  unfold aluMixSlice
  simp only []
  cases hH : s.device.Hrtf with
  | some H => rfl
  | none =>
    simp only []
    split_ifs <;> rfl

/-- One slice uses up `min(size, BUFFERSIZE)` samples. -/
theorem aluMixSlice_size (lm : Libm K) (ext : Externs K) (mx : MixerExterns K σ)
    (cfg : Consts K) (s : MixSlice K σ) :
    (aluMixSlice lm ext mx cfg s).size = s.size - (minu s.size.toNat cfg.BUFFERSIZE : Int) :=
  rfl

/-- Every call of one slice is made between the two bumps, while `MixCount` has its value
on entry plus one. -/
theorem aluMixSlice_trace (P : Nat → Prop) (lm : Libm K) (ext : Externs K)
    (mx : MixerExterns K σ) (cfg : Consts K) (s : MixSlice K σ)
    (hP : P (s.device.MixCount + 1)) :
    TraceExtends P s.mem.trace (aluMixSlice lm ext mx cfg s).mem.trace := by
  have hP' : P (IncrementRef s.device.MixCount) := hP
  have hD : ∀ m : MixerMemory K σ, TraceExtends P m.trace
      (match s.device.DefaultSlot with
        | some slot => mixSlot mx s.device.toALCdevice (IncrementRef s.device.MixCount)
            (minu s.size.toNat cfg.BUFFERSIZE) false m slot
        | none => m).trace := by
    intro m
    cases s.device.DefaultSlot with
    | none => exact TraceExtends.refl P _
    | some slot => exact mixSlot_trace P mx _ _ _ hP' _ _ _
  have hL : ∀ (m : MixerMemory K σ) (t : List (Nat × MixEvent K)) (e1 e2 : MixEvent K),
      t = (m.trace ++ [(IncrementRef s.device.MixCount, e1)]) ++
        [(IncrementRef s.device.MixCount, e2)] → TraceExtends P m.trace t := by
    intro m t e1 e2 ht
    refine ⟨[(IncrementRef s.device.MixCount, e1), (IncrementRef s.device.MixCount, e2)],
      by rw [ht]; simp, ?_⟩
    intro e he
    simp only [List.mem_cons, List.mem_singleton, List.not_mem_nil, or_false] at he
    rcases he with h | h <;> (rw [h]; exact hP')
  unfold aluMixSlice
  simp only []
  refine TraceExtends.trans ?_ (TraceExtends.log _ _ hP' _)
  cases hH : s.device.Hrtf with
  | some H =>
    simp only [Option.isSome_some, if_true]
    refine TraceExtends.trans ?_ (hrtfLoop_trace P mx _ _ _ _ _ _ hP' _)
    refine TraceExtends.trans ?_ (TraceExtends.log _ _ hP' _)
    refine TraceExtends.trans ?_ (hD _)
    refine TraceExtends.trans ?_ (mixContexts_trace P lm ext mx cfg _ _ _ hP' _ _ _)
    exact hL _ _ _ _ rfl
  | none =>
    simp only [Option.isSome_none, Bool.false_eq_true, if_false]
    split_ifs
    · refine TraceExtends.trans ?_ (crossFeedLoop_trace P mx _ _ hP' _)
      refine TraceExtends.trans ?_ (TraceExtends.log _ _ hP' _)
      refine TraceExtends.trans ?_ (hD _)
      refine TraceExtends.trans ?_ (mixContexts_trace P lm ext mx cfg _ _ _ hP' _ _ _)
      exact hL _ _ _ _ rfl
    · refine TraceExtends.trans ?_ (TraceExtends.log _ _ hP' _)
      refine TraceExtends.trans ?_ (hD _)
      refine TraceExtends.trans ?_ (mixContexts_trace P lm ext mx cfg _ _ _ hP' _ _ _)
      exact hL _ _ _ _ rfl

omit [LinearOrderedField K] [FloorRing K] in
theorem minu_eq_min (a b : Nat) : minu a b = min a b := by
  unfold minu
  split_ifs with h
  · exact (Nat.min_eq_right (le_of_lt h)).symm
  · exact (Nat.min_eq_left (not_lt.mp h)).symm

/-- The loop of `aluMixData` returns exactly when the fuel covers the
`ceil(size / BUFFERSIZE)` slices, and then it has run that many slices. -/
theorem aluMixLoop_eq (lm : Libm K) (ext : Externs K) (mx : MixerExterns K σ) (cfg : Consts K)
    (hB : 0 < cfg.BUFFERSIZE) (fuel : Nat) (s : MixSlice K σ) :
    aluMixLoop lm ext mx cfg fuel s =
      if (s.size.toNat + cfg.BUFFERSIZE - 1) / cfg.BUFFERSIZE ≤ fuel then
        some ((aluMixSlice lm ext mx cfg)^[(s.size.toNat + cfg.BUFFERSIZE - 1) / cfg.BUFFERSIZE]
          s)
      else none := by
  induction fuel generalizing s with
  | zero =>
    unfold aluMixLoop
    by_cases hs : s.size > 0
    · have h1 : 0 < s.size.toNat := by omega
      have h2 : 0 < (s.size.toNat + cfg.BUFFERSIZE - 1) / cfg.BUFFERSIZE :=
        Nat.div_pos (by omega) hB
      rw [if_pos hs, if_neg (by omega)]
    · have h1 : s.size.toNat = 0 := by omega
      have h2 : (s.size.toNat + cfg.BUFFERSIZE - 1) / cfg.BUFFERSIZE = 0 := by
        rw [h1, zero_add]
        exact Nat.div_eq_of_lt (by omega)
      rw [if_neg hs, h2, if_pos (le_refl 0)]
      rfl
  | succ fuel ih =>
    unfold aluMixLoop
    by_cases hs : s.size > 0
    · rw [if_pos hs]
      simp only []
      rw [ih (aluMixSlice lm ext mx cfg s), aluMixSlice_size, minu_eq_min]
      have h1 : 0 < s.size.toNat := by omega
      have hsz : (s.size - ((min s.size.toNat cfg.BUFFERSIZE : Nat) : Int)).toNat =
          s.size.toNat - min s.size.toNat cfg.BUFFERSIZE := by omega
      have hcnt : (s.size.toNat + cfg.BUFFERSIZE - 1) / cfg.BUFFERSIZE =
          (s.size.toNat - min s.size.toNat cfg.BUFFERSIZE + cfg.BUFFERSIZE - 1) /
            cfg.BUFFERSIZE + 1 := by
        rcases le_total s.size.toNat cfg.BUFFERSIZE with h | h
        · rw [Nat.min_eq_left h, Nat.sub_self, zero_add,
            Nat.div_eq_of_lt (by omega : cfg.BUFFERSIZE - 1 < cfg.BUFFERSIZE)]
          have : s.size.toNat + cfg.BUFFERSIZE - 1 = (s.size.toNat - 1) + cfg.BUFFERSIZE := by
            omega
          rw [this, Nat.add_div_right _ hB,
            Nat.div_eq_of_lt (by omega : s.size.toNat - 1 < cfg.BUFFERSIZE)]
        · rw [Nat.min_eq_right h]
          have : s.size.toNat + cfg.BUFFERSIZE - 1 =
              (s.size.toNat - cfg.BUFFERSIZE + cfg.BUFFERSIZE - 1) + cfg.BUFFERSIZE := by omega
          rw [this, Nat.add_div_right _ hB]
      rw [hsz, hcnt]
      by_cases hf : (s.size.toNat - min s.size.toNat cfg.BUFFERSIZE + cfg.BUFFERSIZE - 1) /
          cfg.BUFFERSIZE ≤ fuel
      · rw [if_pos hf, if_pos (by omega), Function.iterate_succ_apply]
      · rw [if_neg hf, if_neg (by omega)]
    · have h1 : s.size.toNat = 0 := by omega
      have h2 : (s.size.toNat + cfg.BUFFERSIZE - 1) / cfg.BUFFERSIZE = 0 := by
        rw [h1, zero_add]
        exact Nat.div_eq_of_lt (by omega)
      rw [if_neg hs, h2, if_pos (Nat.zero_le _)]
      rfl

/-- After `k` slices `MixCount` has been bumped `2 * k` times. -/
theorem iterate_MixCount (lm : Libm K) (ext : Externs K) (mx : MixerExterns K σ)
    (cfg : Consts K) (k : Nat) (s : MixSlice K σ) :
    ((aluMixSlice lm ext mx cfg)^[k] s).device.MixCount = s.device.MixCount + 2 * k := by
  induction k generalizing s with
  | zero => rfl
  | succ k ih =>
    rw [Function.iterate_succ_apply, ih, aluMixSlice_MixCount]
    ring

/-- The calls of `k` slices are made while `MixCount` is its value on entry plus an odd number
below `2 * k`. -/
theorem iterate_trace (lm : Libm K) (ext : Externs K) (mx : MixerExterns K σ)
    (cfg : Consts K) (k : Nat) (s : MixSlice K σ) :
    TraceExtends (fun c => ∃ j, j < k ∧ c = s.device.MixCount + 2 * j + 1) s.mem.trace
      ((aluMixSlice lm ext mx cfg)^[k] s).mem.trace := by
  induction k generalizing s with
  | zero => exact TraceExtends.refl _ _
  | succ k ih =>
    rw [Function.iterate_succ_apply]
    refine TraceExtends.trans ?_ (TraceExtends.mono ?_ (ih (aluMixSlice lm ext mx cfg s)))
    · exact aluMixSlice_trace _ lm ext mx cfg s ⟨0, Nat.succ_pos k, rfl⟩
    · rintro c ⟨j, hj, hc⟩
      refine ⟨j + 1, by omega, ?_⟩
      rw [hc, aluMixSlice_MixCount]
      ring

/-- When the loop of `aluMixData` returns, `size` is used up. -/
theorem aluMixLoop_size (lm : Libm K) (ext : Externs K) (mx : MixerExterns K σ)
    (cfg : Consts K) (fuel : Nat) (s r : MixSlice K σ)
    (h : aluMixLoop lm ext mx cfg fuel s = some r) : r.size ≤ 0 := by
  induction fuel generalizing s with
  | zero =>
    unfold aluMixLoop at h
    by_cases hs : s.size > 0
    · rw [if_pos hs] at h
      exact absurd h (by simp)
    · rw [if_neg hs] at h
      cases h
      exact not_lt.mp hs
  | succ fuel ih =>
    unfold aluMixLoop at h
    by_cases hs : s.size > 0
    · rw [if_pos hs] at h
      exact ih _ h
    · rw [if_neg hs] at h
      cases h
      exact not_lt.mp hs

/-- C20: mix-count bracketing.  Each slice of `aluMixData` takes `min(size, BUFFERSIZE)`
samples and bumps `device.MixCount` exactly twice, once before and once after everything else
it does: every call of the slice (voice updates and `MixSource` among them) is made while
`MixCount` is its value on entry plus one.  With `BUFFERSIZE > 0`, a call with size `n`
returns after exactly `ceil(n / BUFFERSIZE)` slices (it does not return on less fuel, and it
does on any fuel from there on), with `size` used up and `MixCount` raised by
`2 * ceil(n / BUFFERSIZE)`; after `k` of the slices `MixCount` is raised by `2 * k`.  If
`MixCount` is even on entry, it is odd at every call made by the mixer, and even after each
slice and on return. -/
theorem mix_count_bracketing (lm : Libm K) (ext : Externs K) (mx : MixerExterns K σ)
    (cfg : Consts K) (device : DeviceObject K) (mem : MixerMemory K σ)
    (buffer : Option (OutputPointer K)) (n : Nat) (hB : 0 < cfg.BUFFERSIZE) :
    (∀ s : MixSlice K σ,
      (aluMixSlice lm ext mx cfg s).device.MixCount = s.device.MixCount + 2 ∧
      (aluMixSlice lm ext mx cfg s).size = s.size - (min s.size.toNat cfg.BUFFERSIZE : Nat) ∧
      TraceExtends (fun c => c = s.device.MixCount + 1) s.mem.trace
        (aluMixSlice lm ext mx cfg s).mem.trace) ∧
    (∀ fuel, fuel < (n + cfg.BUFFERSIZE - 1) / cfg.BUFFERSIZE →
      aluMixData lm ext mx cfg fuel device mem buffer n = none) ∧
    (∀ fuel, (n + cfg.BUFFERSIZE - 1) / cfg.BUFFERSIZE ≤ fuel →
      ∃ r : MixSlice K σ,
        aluMixData lm ext mx cfg fuel device mem buffer n = some r ∧
        r = (aluMixSlice lm ext mx cfg)^[(n + cfg.BUFFERSIZE - 1) / cfg.BUFFERSIZE]
          { device := device, mem := mem, buffer := buffer, size := n } ∧
        r.size ≤ 0 ∧
        r.device.MixCount = device.MixCount + 2 * ((n + cfg.BUFFERSIZE - 1) / cfg.BUFFERSIZE) ∧
        TraceExtends
          (fun c => ∃ j, j < (n + cfg.BUFFERSIZE - 1) / cfg.BUFFERSIZE ∧
            c = device.MixCount + 2 * j + 1) mem.trace r.mem.trace ∧
        (Even device.MixCount →
          TraceExtends (fun c => Odd c) mem.trace r.mem.trace ∧ Even r.device.MixCount)) ∧
    (∀ k : Nat,
      ((aluMixSlice lm ext mx cfg)^[k]
        { device := device, mem := mem, buffer := buffer, size := n }).device.MixCount =
        device.MixCount + 2 * k ∧
      (Even device.MixCount →
        Even ((aluMixSlice lm ext mx cfg)^[k]
          { device := device, mem := mem, buffer := buffer, size := n }).device.MixCount)) := by
  have hloop := fun fuel => aluMixLoop_eq lm ext mx cfg hB fuel
    ({ device := device, mem := mem, buffer := buffer, size := n } : MixSlice K σ)
  simp only [Int.toNat_ofNat] at hloop
  have hT := iterate_trace lm ext mx cfg ((n + cfg.BUFFERSIZE - 1) / cfg.BUFFERSIZE)
    ({ device := device, mem := mem, buffer := buffer, size := n } : MixSlice K σ)
  refine ⟨?_, ?_, ?_, ?_⟩
  · intro s
    refine ⟨aluMixSlice_MixCount lm ext mx cfg s, ?_, aluMixSlice_trace _ lm ext mx cfg s rfl⟩
    rw [aluMixSlice_size, minu_eq_min]
  · intro fuel hf
    unfold aluMixData
    rw [hloop, if_neg (by omega)]
  · intro fuel hf
    refine ⟨_, ?_, rfl, ?_, ?_, ?_, ?_⟩
    · unfold aluMixData
      rw [hloop, if_pos hf]
    · have h := hloop ((n + cfg.BUFFERSIZE - 1) / cfg.BUFFERSIZE)
      rw [if_pos le_rfl] at h
      exact aluMixLoop_size lm ext mx cfg _ _ _ h
    · exact iterate_MixCount lm ext mx cfg _ _
    · exact hT
    · intro hE
      refine ⟨TraceExtends.mono ?_ hT, ?_⟩
      · rintro c ⟨j, _, hc⟩
        obtain ⟨m, hm⟩ := hE
        exact ⟨m + j, by rw [hc, hm]; ring⟩
      · rw [iterate_MixCount]
        obtain ⟨m, hm⟩ := hE
        exact ⟨m + (n + cfg.BUFFERSIZE - 1) / cfg.BUFFERSIZE, by
          show device.MixCount + _ = _
          rw [hm]; ring⟩
  · intro k
    refine ⟨iterate_MixCount lm ext mx cfg _ _, ?_⟩
    intro hE
    rw [iterate_MixCount]
    obtain ⟨m, hm⟩ := hE
    exact ⟨m + k, by
      show device.MixCount + _ = _
      rw [hm]; ring⟩

/-- C20 (instance): with slices of 4 samples, a call of the sample mixer for 10 samples does
not return within 2 slices, returns after 3 and leaves `MixCount` at 6. -/
theorem mix_count_bracketing_witness :
    0 < Sample.smallConsts.BUFFERSIZE ∧
    aluMixData Sample.libm Sample.externs Sample.mixerExterns Sample.smallConsts 2
      Sample.mixerDevice Sample.mixerMemory none ((10 : Nat) : Int) = none ∧
    ∃ r, aluMixData Sample.libm Sample.externs Sample.mixerExterns Sample.smallConsts 3
      Sample.mixerDevice Sample.mixerMemory none ((10 : Nat) : Int) = some r ∧
      r.device.MixCount = 6 := by
  have h := mix_count_bracketing Sample.libm Sample.externs Sample.mixerExterns
    Sample.smallConsts Sample.mixerDevice Sample.mixerMemory none 10
    (by norm_num [Sample.smallConsts])
  have hc : (10 + Sample.smallConsts.BUFFERSIZE - 1) / Sample.smallConsts.BUFFERSIZE = 3 := by
    norm_num [Sample.smallConsts]
  rw [hc] at h
  refine ⟨by norm_num [Sample.smallConsts], h.2.1 2 (by norm_num), ?_⟩
  obtain ⟨r, h1, _, _, h4, _⟩ := h.2.2.1 3 le_rfl
  exact ⟨r, h1, by rw [h4]; rfl⟩

end MixCount

section DisconnectInstance

/-- C19 (instance): the sample device has one context with three voices; the playing source
of voice 0 ends up stopped at position 0, the paused source of voice 1 stays paused at
position 100, and all three voices are detached. -/
theorem disconnect_drains_witness :
    Sample.mixerContext ∈ Sample.mixerDevice.ContextList ∧
    (Sample.mixerContext.Voices 0).Source = some 0 ∧
    (Sample.sources 0).state = SourceState.AL_PLAYING ∧
    ((aluHandleDisconnect Sample.mixerDevice Sample.sources).2 0).state =
      SourceState.AL_STOPPED ∧
    ((aluHandleDisconnect Sample.mixerDevice Sample.sources).2 0).position = 0 ∧
    ((aluHandleDisconnect Sample.mixerDevice Sample.sources).2 1).state =
      SourceState.AL_PAUSED ∧
    ((aluHandleDisconnect Sample.mixerDevice Sample.sources).2 1).position = 100 := by
  have h := (disconnect_drains Sample.mixerDevice Sample.sources).2.2.2.2.1
    Sample.mixerContext (List.mem_singleton.mpr rfl) 0 0 (by decide) rfl rfl
  have h1 := (disconnect_drains Sample.mixerDevice Sample.sources).2.2.2.2.2 1
  have hp : (Sample.sources 1).state = SourceState.AL_PAUSED := rfl
  have h2 : (aluHandleDisconnect Sample.mixerDevice Sample.sources).2 1 = Sample.sources 1 := by
    rcases h1 with h1 | h1
    · exact h1
    · rw [hp] at h1
      exact absurd h1.1 (by decide)
  refine ⟨List.mem_singleton.mpr rfl, rfl, rfl, h.1, h.2.2.1, ?_, ?_⟩
  · rw [h2]
    rfl
  · rw [h2]
    rfl

end DisconnectInstance

section DeviceClock

variable {K : Type} [LinearOrderedField K] [FloorRing K] {σ : Type}

/-- The clock fields one slice leaves (ALu.c 1297-1299). -/
theorem aluMixSlice_clock (lm : Libm K) (ext : Externs K) (mx : MixerExterns K σ)
    (cfg : Consts K) (s : MixSlice K σ) :
    (aluMixSlice lm ext mx cfg s).device.Frequency = s.device.Frequency ∧
    (aluMixSlice lm ext mx cfg s).device.SamplesDone =
      (s.device.SamplesDone + minu s.size.toNat cfg.BUFFERSIZE) % s.device.Frequency ∧
    (aluMixSlice lm ext mx cfg s).device.ClockBase =
      s.device.ClockBase +
        (s.device.SamplesDone + minu s.size.toNat cfg.BUFFERSIZE) / s.device.Frequency *
          cfg.DEVICE_CLOCK_RES := by
  unfold aluMixSlice
  simp only []
  cases hH : s.device.Hrtf with
  | some H => exact ⟨rfl, rfl, rfl⟩
  | none =>
    simp only []
    split_ifs <;> exact ⟨rfl, rfl, rfl⟩

/-- The exact clock quantity plus the samples still to be mixed is the same before and after a
slice. -/
theorem aluMixSlice_clock_invariant (lm : Libm K) (ext : Externs K) (mx : MixerExterns K σ)
    (cfg : Consts K) (s : MixSlice K σ) :
    (aluMixSlice lm ext mx cfg s).device.ClockBase * s.device.Frequency +
        (aluMixSlice lm ext mx cfg s).device.SamplesDone * cfg.DEVICE_CLOCK_RES +
        (aluMixSlice lm ext mx cfg s).size.toNat * cfg.DEVICE_CLOCK_RES =
      s.device.ClockBase * s.device.Frequency + s.device.SamplesDone * cfg.DEVICE_CLOCK_RES +
        s.size.toNat * cfg.DEVICE_CLOCK_RES := by
  obtain ⟨_, h2, h3⟩ := aluMixSlice_clock lm ext mx cfg s
  rw [h2, h3, aluMixSlice_size, minu_eq_min]
  have hsz : (s.size - ((min s.size.toNat cfg.BUFFERSIZE : Nat) : Int)).toNat =
      s.size.toNat - min s.size.toNat cfg.BUFFERSIZE := by omega
  rw [hsz]
  have hle : min s.size.toNat cfg.BUFFERSIZE ≤ s.size.toNat := Nat.min_le_left _ _
  have hd := Nat.div_add_mod (s.device.SamplesDone + min s.size.toNat cfg.BUFFERSIZE)
    s.device.Frequency
  generalize (s.device.SamplesDone + min s.size.toNat cfg.BUFFERSIZE) / s.device.Frequency = q
    at hd ⊢
  generalize (s.device.SamplesDone + min s.size.toNat cfg.BUFFERSIZE) % s.device.Frequency = m
    at hd ⊢
  generalize min s.size.toNat cfg.BUFFERSIZE = n at hd hle ⊢
  generalize s.size.toNat = N at hle ⊢
  obtain ⟨d, rfl⟩ := Nat.exists_eq_add_of_le hle
  rw [Nat.add_sub_cancel_left]
  have h4 : (s.device.Frequency * q + m) * cfg.DEVICE_CLOCK_RES =
      (s.device.SamplesDone + n) * cfg.DEVICE_CLOCK_RES := by rw [hd]
  nlinarith [h4]

/-- When the loop of `aluMixData` returns, the device frequency is unchanged and the exact
clock quantity has grown by the clock resolution times the samples mixed. -/
theorem aluMixLoop_clock (lm : Libm K) (ext : Externs K) (mx : MixerExterns K σ)
    (cfg : Consts K) (fuel : Nat) (s r : MixSlice K σ)
    (h : aluMixLoop lm ext mx cfg fuel s = some r) :
    r.device.Frequency = s.device.Frequency ∧
    r.device.ClockBase * s.device.Frequency + r.device.SamplesDone * cfg.DEVICE_CLOCK_RES =
      s.device.ClockBase * s.device.Frequency + s.device.SamplesDone * cfg.DEVICE_CLOCK_RES +
        s.size.toNat * cfg.DEVICE_CLOCK_RES := by
  induction fuel generalizing s with
  | zero =>
    unfold aluMixLoop at h
    by_cases hs : s.size > 0
    · rw [if_pos hs] at h
      exact absurd h (by simp)
    · rw [if_neg hs] at h
      have hz : s.size.toNat = 0 := by omega
      cases h
      rw [hz]
      exact ⟨rfl, by ring⟩
  | succ fuel ih =>
    unfold aluMixLoop at h
    by_cases hs : s.size > 0
    · rw [if_pos hs] at h
      obtain ⟨h1, h2⟩ := ih _ h
      have hf := (aluMixSlice_clock lm ext mx cfg s).1
      rw [hf] at h1 h2
      exact ⟨h1, by rw [h2, aluMixSlice_clock_invariant]⟩
    · rw [if_neg hs] at h
      have hz : s.size.toNat = 0 := by omega
      cases h
      rw [hz]
      exact ⟨rfl, by ring⟩

/-- C26: device clock.  For every device with `Frequency > 0`, each mix slice leaves
`SamplesDone < Frequency` (and the frequency as it was) and increases the exact quantity
`ClockBase * Frequency + SamplesDone * DEVICE_CLOCK_RES` by exactly
`SamplesToDo * DEVICE_CLOCK_RES`, with `SamplesToDo = min(size, BUFFERSIZE)`; so the device time
`ClockBase + SamplesDone * DEVICE_CLOCK_RES / Frequency` does not decrease (with the integer
division) and advances by exactly `SamplesToDo * DEVICE_CLOCK_RES / Frequency` (as a rational
number); and a whole call of `aluMixData` for `n` samples that returns has increased the exact
quantity by `n * DEVICE_CLOCK_RES`.  The counters are natural numbers, without wrap-around. -/
theorem device_clock (lm : Libm K) (ext : Externs K) (mx : MixerExterns K σ) (cfg : Consts K)
    (s : MixSlice K σ) (hF : 0 < s.device.Frequency) :
    (aluMixSlice lm ext mx cfg s).device.Frequency = s.device.Frequency ∧
    (aluMixSlice lm ext mx cfg s).device.SamplesDone < s.device.Frequency ∧
    (aluMixSlice lm ext mx cfg s).device.ClockBase * s.device.Frequency +
        (aluMixSlice lm ext mx cfg s).device.SamplesDone * cfg.DEVICE_CLOCK_RES =
      s.device.ClockBase * s.device.Frequency + s.device.SamplesDone * cfg.DEVICE_CLOCK_RES +
        min s.size.toNat cfg.BUFFERSIZE * cfg.DEVICE_CLOCK_RES ∧
    s.device.ClockBase + s.device.SamplesDone * cfg.DEVICE_CLOCK_RES / s.device.Frequency ≤
      (aluMixSlice lm ext mx cfg s).device.ClockBase +
        (aluMixSlice lm ext mx cfg s).device.SamplesDone * cfg.DEVICE_CLOCK_RES /
          s.device.Frequency ∧
    (((aluMixSlice lm ext mx cfg s).device.ClockBase : ℚ) +
        ((aluMixSlice lm ext mx cfg s).device.SamplesDone : ℚ) * cfg.DEVICE_CLOCK_RES /
          s.device.Frequency =
      (s.device.ClockBase : ℚ) +
        (s.device.SamplesDone : ℚ) * cfg.DEVICE_CLOCK_RES / s.device.Frequency +
        (min s.size.toNat cfg.BUFFERSIZE : ℚ) * cfg.DEVICE_CLOCK_RES / s.device.Frequency) ∧
    (∀ (fuel : Nat) (r : MixSlice K σ),
      aluMixData lm ext mx cfg fuel s.device s.mem s.buffer s.size = some r →
      r.device.ClockBase * s.device.Frequency + r.device.SamplesDone * cfg.DEVICE_CLOCK_RES =
        s.device.ClockBase * s.device.Frequency + s.device.SamplesDone * cfg.DEVICE_CLOCK_RES +
          s.size.toNat * cfg.DEVICE_CLOCK_RES) := by
  obtain ⟨h1, h2, h3⟩ := aluMixSlice_clock lm ext mx cfg s
  have hq : (aluMixSlice lm ext mx cfg s).device.ClockBase * s.device.Frequency +
        (aluMixSlice lm ext mx cfg s).device.SamplesDone * cfg.DEVICE_CLOCK_RES =
      s.device.ClockBase * s.device.Frequency + s.device.SamplesDone * cfg.DEVICE_CLOCK_RES +
        min s.size.toNat cfg.BUFFERSIZE * cfg.DEVICE_CLOCK_RES := by
    have hi := aluMixSlice_clock_invariant lm ext mx cfg s
    rw [aluMixSlice_size, minu_eq_min] at hi
    have hsz : (s.size - ((min s.size.toNat cfg.BUFFERSIZE : Nat) : Int)).toNat =
        s.size.toNat - min s.size.toNat cfg.BUFFERSIZE := by omega
    rw [hsz] at hi
    have hle : min s.size.toNat cfg.BUFFERSIZE ≤ s.size.toNat := Nat.min_le_left _ _
    generalize min s.size.toNat cfg.BUFFERSIZE = n at hi hle ⊢
    generalize s.size.toNat = N at hi hle
    obtain ⟨d, rfl⟩ := Nat.exists_eq_add_of_le hle
    rw [Nat.add_sub_cancel_left] at hi
    nlinarith [hi]
  have hfloor : ∀ a b : Nat, (a * s.device.Frequency + b) / s.device.Frequency =
      a + b / s.device.Frequency := by
    intro a b
    rw [Nat.add_comm, Nat.add_mul_div_right _ _ hF, Nat.add_comm]
  refine ⟨h1, ?_, hq, ?_, ?_, ?_⟩
  · rw [h2]
    exact Nat.mod_lt _ hF
  · rw [← hfloor, ← hfloor, hq]
    exact Nat.div_le_div_right (Nat.le_add_right _ _)
  · have hFq : (s.device.Frequency : ℚ) ≠ 0 := by exact_mod_cast hF.ne'
    have hqq : ((aluMixSlice lm ext mx cfg s).device.ClockBase : ℚ) * s.device.Frequency +
        ((aluMixSlice lm ext mx cfg s).device.SamplesDone : ℚ) * cfg.DEVICE_CLOCK_RES =
        (s.device.ClockBase : ℚ) * s.device.Frequency +
          (s.device.SamplesDone : ℚ) * cfg.DEVICE_CLOCK_RES +
          (min s.size.toNat cfg.BUFFERSIZE : ℚ) * cfg.DEVICE_CLOCK_RES := by
      exact_mod_cast hq
    field_simp
    linarith [hqq]
  · intro fuel r hr
    exact (aluMixLoop_clock lm ext mx cfg fuel s r hr).2

/-- C26 (instance): the sample device (44100 Hz) after one slice of 4 samples. -/
theorem device_clock_witness :
    0 < Sample.mixerDevice.Frequency ∧
    (aluMixSlice Sample.libm Sample.externs Sample.mixerExterns Sample.smallConsts
      { device := Sample.mixerDevice, mem := Sample.mixerMemory, buffer := none,
        size := 10 }).device.SamplesDone < 44100 :=
  ⟨by norm_num [Sample.mixerDevice, Sample.device],
    (device_clock Sample.libm Sample.externs Sample.mixerExterns Sample.smallConsts
      { device := Sample.mixerDevice, mem := Sample.mixerMemory, buffer := none, size := 10 }
      (by norm_num [Sample.mixerDevice, Sample.device])).2.1⟩

end DeviceClock

section SendRouting

variable {K : Type} [LinearOrderedField K] [FloorRing K]

omit [FloorRing K] in
theorem UpdateWetStepping_OutBuffer (cfg : Consts K) (params : SendParams K) (steps : Nat) :
    (UpdateWetStepping cfg params steps).OutBuffer = params.OutBuffer := by
  unfold UpdateWetStepping
  by_cases h : steps < 2
  · simp only [h, if_true]
  · simp only [h, if_false]

omit [FloorRing K] in
/-- The buffer the first send loop of `CalcSourceParams` stores is the one of
`CalcNonAttnSourceParams`. -/
theorem roomParams_OutBuffer (cfg : Consts K) (Device : ALCdevice K) (ALSource : ALsource K)
    (i : Nat) : (roomParams cfg Device ALSource i).OutBuffer = sendOutBuffer Device ALSource i := by
  unfold roomParams sendOutBuffer
  cases sendSlot Device ALSource i with
  | none => rfl
  | some Slot =>
    simp only []
    split_ifs <;> rfl

theorem CalcSourceParams_Send_OutBuffer (lm : Libm K) (ext : Externs K)
    (cfg : Consts K) (voice : ALvoice K) (ALSource : ALsource K) (ALContext : ALCcontext K)
    (i : Nat) (hi : i < ALContext.Device.NumAuxSends) :
    ((CalcSourceParams lm ext cfg voice ALSource ALContext).Send i).OutBuffer =
      sendOutBuffer ALContext.Device ALSource i := by
  rw [← roomParams_OutBuffer cfg]
  unfold CalcSourceParams
  simp only []
  rw [forLoop_pointwise (fun i (s : SendParams K) => { s with
      Filters := Function.update s.Filters 0
        (setVoiceFilter (maxf 0.01 ((sourceLocals lm cfg ALSource ALContext).WetGainHF i))
          (maxf 0.01 ((sourceLocals lm cfg ALSource ALContext).WetGainLF i))
          ((ALSource.Send i).HFReference / (ALContext.Device.Frequency : K))
          ((ALSource.Send i).LFReference / (ALContext.Device.Frequency : K))
          (s.Filters 0)) }) _ (fun _ _ => rfl)]
  simp only [hi, if_true]
  cases hH : ALContext.Device.Hrtf <;>
  · simp only [updateSendGains_apply, hi, if_true]
    simp only [outBufferLoop_apply _
      (fun i => (roomParams cfg ALContext.Device ALSource i).OutBuffer)]
    simp only [hi, if_true]
    exact UpdateWetStepping_OutBuffer _ _ _

theorem CalcNonAttnSourceParams_Send_OutBuffer (lm : Libm K) (ext : Externs K)
    (cfg : Consts K) (voice : ALvoice K) (ALSource : ALsource K) (ALContext : ALCcontext K)
    (i : Nat) (hi : i < ALContext.Device.NumAuxSends) :
    ((CalcNonAttnSourceParams lm ext cfg voice ALSource ALContext).Send i).OutBuffer =
      sendOutBuffer ALContext.Device ALSource i := by
  unfold CalcNonAttnSourceParams
  simp only []
  rw [forLoop_pointwise (fun i (s : SendParams K) => { s with
      Filters := forLoop (channelSetup cfg ALContext.Device (bufferChannels ALSource)
          ALSource.DirectChannels).num_channels (fun c Filters =>
        Function.update Filters c (setVoiceFilter (maxf 0.01 (ALSource.Send i).GainHF)
          (maxf 0.01 (ALSource.Send i).GainLF)
          ((ALSource.Send i).HFReference / (ALContext.Device.Frequency : K))
          ((ALSource.Send i).LFReference / (ALContext.Device.Frequency : K)) (Filters c)))
        s.Filters }) _ (fun _ _ => rfl)]
  simp only [hi, if_true, updateSendGains_apply]
  by_cases hb : (channelSetup cfg ALContext.Device (bufferChannels ALSource)
      ALSource.DirectChannels).isbformat = true
  · simp only [hb, if_true, if_false, Bool.false_eq_true]
    unfold bformatBranch
    simp only []
    simp only [outBufferLoop_apply _ (fun i => sendOutBuffer ALContext.Device ALSource i)]
    simp only [hi, if_true]
    exact UpdateWetStepping_OutBuffer _ _ _
  · simp only [hb, if_true, if_false, Bool.false_eq_true]
    by_cases hd : (channelSetup cfg ALContext.Device (bufferChannels ALSource)
        ALSource.DirectChannels).DirectChannels ≠ false
    · simp only [hd, if_true, if_false, ne_eq, not_false_eq_true, not_true_eq_false,
        Bool.false_eq_true, Bool.true_eq_false]
      unfold directChannelsBranch
      simp only []
      simp only [outBufferLoop_apply _ (fun i => sendOutBuffer ALContext.Device ALSource i)]
      simp only [hi, if_true]
      exact UpdateWetStepping_OutBuffer _ _ _
    · simp only [hd, if_true, if_false, ne_eq, not_false_eq_true, not_true_eq_false,
        Bool.false_eq_true, Bool.true_eq_false]
      cases hH : ALContext.Device.Hrtf with
      | none =>
        simp only []
        unfold panningBranch
        simp only []
        simp only [outBufferLoop_apply _ (fun i => sendOutBuffer ALContext.Device ALSource i)]
        simp only [hi, if_true]
        exact UpdateWetStepping_OutBuffer _ _ _
      | some H =>
        simp only []
        unfold hrtfChannelsBranch
        simp only []
        simp only [outBufferLoop_apply _ (fun i => sendOutBuffer ALContext.Device ALSource i)]
        simp only [hi, if_true]
        exact UpdateWetStepping_OutBuffer _ _ _

omit [LinearOrderedField K] [FloorRing K] in
/-- The buffer a send is routed to, by cases on the source's send slot and the device's default
slot. -/
theorem sendOutBuffer_cases (Device : ALCdevice K) (ALSource : ALsource K) (i : Nat) :
    (∀ Slot : ALeffectslot K, (ALSource.Send i).Slot = some Slot →
      (Slot.EffectType ≠ EffectType.AL_EFFECT_NULL →
        sendOutBuffer Device ALSource i = some Slot.WetBuffer) ∧
      (Slot.EffectType = EffectType.AL_EFFECT_NULL → sendOutBuffer Device ALSource i = none)) ∧
    ((ALSource.Send i).Slot = none → (i ≠ 0 ∨ Device.DefaultSlot = none) →
      sendOutBuffer Device ALSource i = none) ∧
    (∀ Slot : ALeffectslot K, (ALSource.Send i).Slot = none → i = 0 →
      Device.DefaultSlot = some Slot →
      (Slot.EffectType ≠ EffectType.AL_EFFECT_NULL →
        sendOutBuffer Device ALSource i = some Slot.WetBuffer) ∧
      (Slot.EffectType = EffectType.AL_EFFECT_NULL → sendOutBuffer Device ALSource i = none)) := by
  refine ⟨?_, ?_, ?_⟩
  · intro Slot hS
    have h : sendSlot Device ALSource i = some Slot := by
      unfold sendSlot
      simp [hS]
    unfold sendOutBuffer
    rw [h]
    exact ⟨fun hn => by simp [hn], fun hn => by simp [hn]⟩
  · intro hS hd
    have h : sendSlot Device ALSource i = none := by
      unfold sendSlot
      rcases hd with hd | hd
      · simp [hS, hd]
      · simp only [hS, hd]
        split_ifs <;> rfl
    unfold sendOutBuffer
    rw [h]
  · intro Slot hS hi hD
    subst hi
    have h : sendSlot Device ALSource 0 = some Slot := by
      unfold sendSlot
      simp [hS, hD]
    unfold sendOutBuffer
    rw [h]
    exact ⟨fun hn => by simp [hn], fun hn => by simp [hn]⟩

/-- C28 (counterexample): the sample source has no slot on send 0 and the device has a default
slot running a reverb; both calculators route send 0 to the wet buffer (7) of the default slot,
not to `NULL`. -/
theorem send_default_slot_counterexample :
    (Sample.source.Send 0).Slot = none ∧
    0 < Sample.defaultSlotContext.Device.NumAuxSends ∧
    ((CalcSourceParams Sample.libm Sample.externs Sample.consts Sample.voice Sample.source
      Sample.defaultSlotContext).Send 0).OutBuffer = some 7 ∧
    ((CalcNonAttnSourceParams Sample.libm Sample.externs Sample.consts Sample.voice
      Sample.source Sample.defaultSlotContext).Send 0).OutBuffer = some 7 := by
  have hi : 0 < Sample.defaultSlotContext.Device.NumAuxSends := by decide
  refine ⟨rfl, hi, ?_, ?_⟩
  · rw [CalcSourceParams_Send_OutBuffer _ _ _ _ _ _ 0 hi]
    rfl
  · rw [CalcNonAttnSourceParams_Send_OutBuffer _ _ _ _ _ _ 0 hi]
    rfl

/-- C28 (amended): send routing.  After `CalcSourceParams` or `CalcNonAttnSourceParams`, for
every send `i < NumSends`, `Send[i].OutBuffer` is the wet buffer of the slot the send uses when
that slot runs a non-null effect, and `NULL` when the send uses no slot or a slot that runs the
null effect; the slot a send uses is the source's send slot `i`, and for send 0 of a source
without a slot it is the device's default slot. -/
theorem send_routing (lm : Libm K) (ext : Externs K) (cfg : Consts K) (voice : ALvoice K)
    (ALSource : ALsource K) (ALContext : ALCcontext K) (i : Nat)
    (hi : i < ALContext.Device.NumAuxSends) :
    ((CalcSourceParams lm ext cfg voice ALSource ALContext).Send i).OutBuffer =
      ((CalcNonAttnSourceParams lm ext cfg voice ALSource ALContext).Send i).OutBuffer ∧
    (∀ Slot : ALeffectslot K, (ALSource.Send i).Slot = some Slot →
      (Slot.EffectType ≠ EffectType.AL_EFFECT_NULL →
        ((CalcSourceParams lm ext cfg voice ALSource ALContext).Send i).OutBuffer =
          some Slot.WetBuffer) ∧
      (Slot.EffectType = EffectType.AL_EFFECT_NULL →
        ((CalcSourceParams lm ext cfg voice ALSource ALContext).Send i).OutBuffer = none)) ∧
    ((ALSource.Send i).Slot = none → (i ≠ 0 ∨ ALContext.Device.DefaultSlot = none) →
      ((CalcSourceParams lm ext cfg voice ALSource ALContext).Send i).OutBuffer = none) ∧
    (∀ Slot : ALeffectslot K, (ALSource.Send i).Slot = none → i = 0 →
      ALContext.Device.DefaultSlot = some Slot →
      (Slot.EffectType ≠ EffectType.AL_EFFECT_NULL →
        ((CalcSourceParams lm ext cfg voice ALSource ALContext).Send i).OutBuffer =
          some Slot.WetBuffer) ∧
      (Slot.EffectType = EffectType.AL_EFFECT_NULL →
        ((CalcSourceParams lm ext cfg voice ALSource ALContext).Send i).OutBuffer = none)) := by
  rw [CalcSourceParams_Send_OutBuffer lm ext cfg voice ALSource ALContext i hi,
    CalcNonAttnSourceParams_Send_OutBuffer lm ext cfg voice ALSource ALContext i hi]
  exact ⟨rfl, sendOutBuffer_cases ALContext.Device ALSource i⟩

/-- C28 (instance): on the sample device, which has no default slot, send 0 of the sample
source is routed to `NULL`. -/
theorem send_routing_witness :
    0 < Sample.context.Device.NumAuxSends ∧
    ((CalcSourceParams Sample.libm Sample.externs Sample.consts Sample.voice Sample.source
      Sample.context).Send 0).OutBuffer = none :=
  ⟨by decide,
    (send_routing Sample.libm Sample.externs Sample.consts Sample.voice Sample.source
      Sample.context 0 (by decide)).2.2.1 rfl (Or.inr rfl)⟩

end SendRouting

section RoomParameters

variable {K : Type} [LinearOrderedField K]

/-- C29 (counterexample): send 0 of the world-space sample source has no slot (and the device
no default slot).  Its room rolloff is 0, not the dry rolloff factor 1, and its room air
absorption is 1, not `AIRABSORBGAINHF`; so at distance 2 the room attenuation is 1 while the dry
attenuation is 1/2. -/
theorem room_defaults_counterexample :
    sendSlot Sample.inverseContext.Device Sample.worldSource 0 = none ∧
    (roomParams Sample.consts Sample.inverseContext.Device Sample.worldSource 0).RoomRolloff = 0 ∧
    Sample.worldSource.RollOffFactor = 1 ∧
    (roomParams Sample.consts Sample.inverseContext.Device Sample.worldSource 0).RoomAirAbsorption
      = 1 ∧
    Sample.consts.AIRABSORBGAINHF ≠ 1 ∧
    (sourceLocals Sample.libm Sample.consts Sample.worldSource
      Sample.inverseContext).RoomAttenuation 0 = 1 ∧
    (sourceLocals Sample.libm Sample.consts Sample.worldSource
      Sample.inverseContext).Attenuation = 1 / 2 := by
  refine ⟨rfl, rfl, rfl, rfl, by norm_num [Sample.consts], ?_, ?_⟩ <;>
  norm_num [sourceLocals, roomParams, sendSlot, Sample.worldSource, Sample.source,
    Sample.inverseContext, Sample.context, Sample.device, Sample.listener, CalcListenerParams,
    aluNormalize, aluCrossproduct, aluMatrixSet, aluMatrixSetRow, aluVectorSet,
    aluMatrixVector, aluDotproduct, Sample.libm, Sample.consts,
    distanceAttenuation, caseInverseDistance, lerp]

/-- C29 (amended): per-send room parameters in `CalcSourceParams`, by the slot the send uses
(the source's send slot, or for send 0 of a source without one the device's default slot).
With `AuxSendAuto` and a reverb-family effect: `DecayDistance = DecayTime *
SPEEDOFSOUNDMETRESPERSEC`, `RoomRolloff = source RoomRolloffFactor + reverb RoomRolloffFactor`,
`RoomAirAbsorption = reverb AirAbsorptionGainHF`.  With `AuxSendAuto` and another non-null
effect: `RoomRolloff = source RoomRolloffFactor`, `DecayDistance = 0`, `RoomAirAbsorption = 1`.
With a non-null effect and `AuxSendAuto` off: `RoomRolloff` is the dry rolloff factor,
`DecayDistance = 0`, `RoomAirAbsorption = AIRABSORBGAINHF`.  Without a slot, or with the null
effect: `RoomRolloff = 0`, `DecayDistance = 0`, `RoomAirAbsorption = 1`.  These are the values
the distance attenuation of the sends is computed from. -/
theorem room_parameters (lm : Libm K) (cfg : Consts K) (ALSource : ALsource K)
    (ALContext : ALCcontext K) (i : Nat) :
    (∀ Slot : ALeffectslot K, sendSlot ALContext.Device ALSource i = some Slot →
      Slot.EffectType ≠ EffectType.AL_EFFECT_NULL →
      (Slot.AuxSendAuto = true → IsReverbEffect Slot.EffectType = true →
        (roomParams cfg ALContext.Device ALSource i).DecayDistance =
          Slot.Reverb.DecayTime * cfg.SPEEDOFSOUNDMETRESPERSEC ∧
        (roomParams cfg ALContext.Device ALSource i).RoomRolloff =
          ALSource.RoomRolloffFactor + Slot.Reverb.RoomRolloffFactor ∧
        (roomParams cfg ALContext.Device ALSource i).RoomAirAbsorption =
          Slot.Reverb.AirAbsorptionGainHF) ∧
      (Slot.AuxSendAuto = true → IsReverbEffect Slot.EffectType = false →
        (roomParams cfg ALContext.Device ALSource i).DecayDistance = 0 ∧
        (roomParams cfg ALContext.Device ALSource i).RoomRolloff = ALSource.RoomRolloffFactor ∧
        (roomParams cfg ALContext.Device ALSource i).RoomAirAbsorption = 1) ∧
      (Slot.AuxSendAuto = false →
        (roomParams cfg ALContext.Device ALSource i).DecayDistance = 0 ∧
        (roomParams cfg ALContext.Device ALSource i).RoomRolloff = ALSource.RollOffFactor ∧
        (roomParams cfg ALContext.Device ALSource i).RoomAirAbsorption =
          cfg.AIRABSORBGAINHF)) ∧
    ((sendSlot ALContext.Device ALSource i = none ∨
        ∃ Slot : ALeffectslot K, sendSlot ALContext.Device ALSource i = some Slot ∧
          Slot.EffectType = EffectType.AL_EFFECT_NULL) →
      (roomParams cfg ALContext.Device ALSource i).DecayDistance = 0 ∧
      (roomParams cfg ALContext.Device ALSource i).RoomRolloff = 0 ∧
      (roomParams cfg ALContext.Device ALSource i).RoomAirAbsorption = 1) ∧
    (sourceLocals lm cfg ALSource ALContext).RoomAttenuation =
      (distanceAttenuation lm
        (if ALContext.SourceDistanceModel then ALSource.DistanceModel
          else ALContext.DistanceModel)
        (sourceLocals lm cfg ALSource ALContext).Distance ALSource.RefDistance
        ALSource.MaxDistance ALSource.RollOffFactor
        (fun i => (roomParams cfg ALContext.Device ALSource i).RoomRolloff)).RoomAttenuation := by
  refine ⟨?_, ?_, rfl⟩
  · intro Slot hS hN
    unfold roomParams
    rw [hS]
    simp only [hN, if_false]
    refine ⟨?_, ?_, ?_⟩
    · intro hA hR
      simp only [hA, hR, if_true]
      refine ⟨?_, ?_, ?_⟩ <;> first | rfl | trivial
    · intro hA hR
      simp only [hA, hR, if_true, if_false, Bool.false_eq_true]
      refine ⟨?_, ?_, ?_⟩ <;> first | rfl | trivial
    · intro hA
      simp only [hA, if_false, Bool.false_eq_true]
      refine ⟨?_, ?_, ?_⟩ <;> first | rfl | trivial
  · intro h
    unfold roomParams
    rcases h with h | ⟨Slot, h, hN⟩
    · rw [h]
      exact ⟨rfl, rfl, rfl⟩
    · rw [h]
      simp only [hN, if_true]
      refine ⟨?_, ?_, ?_⟩ <;> first | rfl | trivial

/-- C29 (instance): send 0 of the sample source on the device whose default slot runs a reverb
with decay time 1.49 gets that slot's parameters. -/
theorem room_parameters_witness :
    sendSlot Sample.defaultSlotContext.Device Sample.source 0 = some Sample.reverbSlot ∧
    (roomParams Sample.consts Sample.defaultSlotContext.Device Sample.source 0).DecayDistance =
      1.49 * 343.3 ∧
    (roomParams Sample.consts Sample.defaultSlotContext.Device Sample.source 0).RoomAirAbsorption
      = 0.994 :=
  ⟨rfl,
    ((room_parameters Sample.libm Sample.consts Sample.source Sample.defaultSlotContext 0).1
      Sample.reverbSlot rfl (by decide)).1 rfl rfl |>.1,
    ((room_parameters Sample.libm Sample.consts Sample.source Sample.defaultSlotContext 0).1
      Sample.reverbSlot rfl (by decide)).1 rfl rfl |>.2.2⟩

end RoomParameters

section HrtfLast

variable {K : Type} [LinearOrderedField K] [FloorRing K]

/-- The update of a moving voice on an HRTF device: the last gain and direction are replaced
exactly when the fade time exceeds 0.000015. -/
theorem CalcSourceParams_Hrtf_moving (lm : Libm K) (ext : Externs K) (cfg : Consts K)
    (voice : ALvoice K) (ALSource : ALsource K) (ALContext : ALCcontext K) (Hrtf : Hrtf)
    (hH : ALContext.Device.Hrtf = some Hrtf) (hM : voice.Direct.Moving = true) :
    (CalcSourceParams lm ext cfg voice ALSource ALContext).Direct.Moving = true ∧
    (CalcSourceParams lm ext cfg voice ALSource ALContext).Direct.LastGain =
      (if CalcFadeTime lm cfg voice.Direct.LastGain
          (sourceLocals lm cfg ALSource ALContext).DryGain voice.Direct.LastDir
          (hrtfDirection lm cfg (sourceLocals lm cfg ALSource ALContext).Position
            (sourceLocals lm cfg ALSource ALContext).Distance ALSource.Radius).dir > 0.000015
        then (sourceLocals lm cfg ALSource ALContext).DryGain else voice.Direct.LastGain) ∧
    (CalcSourceParams lm ext cfg voice ALSource ALContext).Direct.LastDir =
      (if CalcFadeTime lm cfg voice.Direct.LastGain
          (sourceLocals lm cfg ALSource ALContext).DryGain voice.Direct.LastDir
          (hrtfDirection lm cfg (sourceLocals lm cfg ALSource ALContext).Position
            (sourceLocals lm cfg ALSource ALContext).Distance ALSource.Radius).dir > 0.000015
        then (hrtfDirection lm cfg (sourceLocals lm cfg ALSource ALContext).Position
            (sourceLocals lm cfg ALSource ALContext).Distance ALSource.Radius).dir
        else voice.Direct.LastDir) := by
  unfold hrtfDirection
  unfold CalcSourceParams
  simp only [hH, hM, if_true]
  split_ifs <;> exact ⟨rfl, rfl, rfl⟩

/-- C30 (counterexample): a moving voice on the HRTF device whose last gain is 0 is updated for
a source whose dry gain is 0.00005.  Both gains are below 0.0001, the fade time is 0, and the
update leaves `LastGain` at 0, which is not the dry gain just computed. -/
theorem hrtf_last_gain_counterexample :
    Sample.hrtfContext.Device.Hrtf = some ⟨44100, 32⟩ ∧
    Sample.movingVoice.Direct.Moving = true ∧
    (sourceLocals Sample.libm Sample.consts Sample.quietSource Sample.hrtfContext).DryGain =
      0.00005 ∧
    (CalcSourceParams Sample.libm Sample.externs Sample.consts Sample.movingVoice
      Sample.quietSource Sample.hrtfContext).Direct.LastGain = 0 ∧
    (CalcSourceParams Sample.libm Sample.externs Sample.consts Sample.movingVoice
      Sample.quietSource Sample.hrtfContext).Direct.LastGain ≠
      (sourceLocals Sample.libm Sample.consts Sample.quietSource Sample.hrtfContext).DryGain := by
  have hD : (sourceLocals Sample.libm Sample.consts Sample.quietSource
      Sample.hrtfContext).DryGain = 0.00005 := by
    norm_num [sourceLocals, Sample.libm, Sample.consts, Sample.quietSource, Sample.source,
      Sample.hrtfContext, Sample.context, Sample.listener, Sample.hrtfDevice, Sample.device,
      distanceAttenuation, caseInverseDistance, clampf, maxf, minf, lerp, aluDotproduct,
      aluVector.normalize, aluNormalize, coneGains, RAD2DEG, roomParams, sendSlot]
  have hL : (CalcSourceParams Sample.libm Sample.externs Sample.consts Sample.movingVoice
      Sample.quietSource Sample.hrtfContext).Direct.LastGain = 0 := by
    rw [(CalcSourceParams_Hrtf_moving Sample.libm Sample.externs Sample.consts
      Sample.movingVoice Sample.quietSource Sample.hrtfContext ⟨44100, 32⟩ rfl rfl).2.1, hD]
    norm_num [CalcFadeTime, hrtfDirection, sourceLocals, Sample.movingVoice, Sample.voice,
      Sample.quietSource, Sample.source, Sample.hrtfContext, Sample.context, Sample.listener,
      Sample.hrtfDevice, Sample.device, aluDotproduct, Sample.libm, Sample.consts, clampf, minf,
      maxf]
  refine ⟨rfl, rfl, hD, hL, ?_⟩
  rw [hL, hD]
  norm_num

/-- C30 (amended): on a device with HRTF, after every `CalcSourceParams` update of a mono
voice `Direct.Moving` is true.  After the first update (the voice was not moving), and after
every later update whose fade time exceeds 0.000015, `Direct.LastGain` is the dry gain just
computed and `Direct.LastDir` the direction just computed; after a later update whose fade time
does not exceed 0.000015 both are left as they were. -/
theorem hrtf_last_gain_dir (lm : Libm K) (ext : Externs K) (cfg : Consts K)
    (voice : ALvoice K) (ALSource : ALsource K) (ALContext : ALCcontext K) (Hrtf : Hrtf)
    (hH : ALContext.Device.Hrtf = some Hrtf) :
    (CalcSourceParams lm ext cfg voice ALSource ALContext).Direct.Moving = true ∧
    (voice.Direct.Moving = false ∨
      CalcFadeTime lm cfg voice.Direct.LastGain
        (sourceLocals lm cfg ALSource ALContext).DryGain voice.Direct.LastDir
        (hrtfDirection lm cfg (sourceLocals lm cfg ALSource ALContext).Position
          (sourceLocals lm cfg ALSource ALContext).Distance ALSource.Radius).dir > 0.000015 →
      (CalcSourceParams lm ext cfg voice ALSource ALContext).Direct.LastGain =
        (sourceLocals lm cfg ALSource ALContext).DryGain ∧
      (CalcSourceParams lm ext cfg voice ALSource ALContext).Direct.LastDir =
        (hrtfDirection lm cfg (sourceLocals lm cfg ALSource ALContext).Position
          (sourceLocals lm cfg ALSource ALContext).Distance ALSource.Radius).dir) ∧
    (voice.Direct.Moving = true →
      ¬ CalcFadeTime lm cfg voice.Direct.LastGain
        (sourceLocals lm cfg ALSource ALContext).DryGain voice.Direct.LastDir
        (hrtfDirection lm cfg (sourceLocals lm cfg ALSource ALContext).Position
          (sourceLocals lm cfg ALSource ALContext).Distance ALSource.Radius).dir > 0.000015 →
      (CalcSourceParams lm ext cfg voice ALSource ALContext).Direct.LastGain =
        voice.Direct.LastGain ∧
      (CalcSourceParams lm ext cfg voice ALSource ALContext).Direct.LastDir =
        voice.Direct.LastDir) := by
  cases hM : voice.Direct.Moving with
  | false =>
    obtain ⟨_, _, _, h4, h5, h6, _⟩ :=
      CalcSourceParams_Hrtf_first lm ext cfg voice ALSource ALContext Hrtf hH hM
    exact ⟨h4, fun _ => ⟨h5, h6⟩, fun h => absurd h (by simp)⟩
  | true =>
    obtain ⟨h1, h2, h3⟩ :=
      CalcSourceParams_Hrtf_moving lm ext cfg voice ALSource ALContext Hrtf hH hM
    refine ⟨h1, ?_, ?_⟩
    · intro h
      rcases h with h | h
      · exact absurd h (by simp)
      · rw [h2, h3, if_pos h, if_pos h]
        exact ⟨rfl, rfl⟩
    · intro _ h
      rw [h2, h3, if_neg h, if_neg h]
      exact ⟨rfl, rfl⟩

/-- C30 (instance): the first update of the sample voice on the HRTF device records the dry
gain 1 of the sample source. -/
theorem hrtf_last_gain_dir_witness :
    Sample.hrtfContext.Device.Hrtf = some ⟨44100, 32⟩ ∧ Sample.voice.Direct.Moving = false ∧
    (CalcSourceParams Sample.libm Sample.externs Sample.consts Sample.voice Sample.source
      Sample.hrtfContext).Direct.LastGain =
      (sourceLocals Sample.libm Sample.consts Sample.source Sample.hrtfContext).DryGain :=
  ⟨rfl, rfl,
    ((hrtf_last_gain_dir Sample.libm Sample.externs Sample.consts Sample.voice Sample.source
      Sample.hrtfContext ⟨44100, 32⟩ rfl).2.1 (Or.inl rfl)).1⟩

end HrtfLast

section HrtfBus

variable {K : Type} [LinearOrderedField K] [FloorRing K]

omit [FloorRing K] in
theorem UpdateDryStepping_OutBuffer (cfg : Consts K) (params : DirectParams K)
    (num_chans steps : Nat) :
    (UpdateDryStepping cfg params num_chans steps).OutBuffer = params.OutBuffer := by
  unfold UpdateDryStepping
  split_ifs <;> rfl

/-- The output bus `CalcSourceParams` leaves: HRTF voices exactly on HRTF devices, on the two
channels after the `NumChannels` device channels. -/
theorem CalcSourceParams_bus (lm : Libm K) (ext : Externs K) (cfg : Consts K)
    (voice : ALvoice K) (ALSource : ALsource K) (ALContext : ALCcontext K) :
    (CalcSourceParams lm ext cfg voice ALSource ALContext).IsHrtf =
      ALContext.Device.Hrtf.isSome ∧
    (CalcSourceParams lm ext cfg voice ALSource ALContext).Direct.OutChannels =
      (if ALContext.Device.Hrtf.isSome then 2 else ALContext.Device.NumChannels) ∧
    (CalcSourceParams lm ext cfg voice ALSource ALContext).Direct.OutBuffer =
      (if ALContext.Device.Hrtf.isSome then ALContext.Device.NumChannels else 0) := by
  cases hH : ALContext.Device.Hrtf with
  | none =>
    unfold CalcSourceParams
    simp only [hH, Option.isSome_none, Bool.false_eq_true, if_false]
    refine ⟨?_, ?_, ?_⟩
    · trivial
    · simp [UpdateDryStepping_OutChannels]
    · simp [UpdateDryStepping_OutBuffer]
  | some H =>
    unfold CalcSourceParams
    simp only [hH, Option.isSome_some, if_true]
    refine ⟨?_, ?_, ?_⟩
    · trivial
    · split_ifs <;> rfl
    · split_ifs <;> simp

/-- The output bus `CalcNonAttnSourceParams` leaves, by the branch taken. -/
theorem CalcNonAttnSourceParams_bus (lm : Libm K) (ext : Externs K) (cfg : Consts K)
    (voice : ALvoice K) (ALSource : ALsource K) (ALContext : ALCcontext K) :
    ((channelSetup cfg ALContext.Device (bufferChannels ALSource)
        ALSource.DirectChannels).isbformat = true →
      (CalcNonAttnSourceParams lm ext cfg voice ALSource ALContext).IsHrtf = false ∧
      (CalcNonAttnSourceParams lm ext cfg voice ALSource ALContext).Direct.OutChannels =
        ALContext.Device.NumChannels ∧
      (CalcNonAttnSourceParams lm ext cfg voice ALSource ALContext).Direct.OutBuffer = 0) ∧
    ((CalcNonAttnSourceParams lm ext cfg voice ALSource ALContext).IsHrtf = true →
      (CalcNonAttnSourceParams lm ext cfg voice ALSource ALContext).Direct.OutChannels = 2 ∧
      (CalcNonAttnSourceParams lm ext cfg voice ALSource ALContext).Direct.OutBuffer =
        ALContext.Device.NumChannels ∧
      ALContext.Device.Hrtf.isSome = true ∧
      (channelSetup cfg ALContext.Device (bufferChannels ALSource)
        ALSource.DirectChannels).DirectChannels = false) := by
  unfold CalcNonAttnSourceParams
  simp only []
  by_cases hb : (channelSetup cfg ALContext.Device (bufferChannels ALSource)
      ALSource.DirectChannels).isbformat = true
  · simp only [hb, if_true, if_false, Bool.false_eq_true]
    unfold bformatBranch
    simp only []
    refine ⟨fun _ => ⟨trivial, ?_, ?_⟩, fun h => absurd h (by simp)⟩
    · simp [UpdateDryStepping_OutChannels]
    · simp [UpdateDryStepping_OutBuffer]
  · simp only [hb, if_true, if_false, Bool.false_eq_true]
    refine ⟨fun h => absurd h (by simp), ?_⟩
    by_cases hd : (channelSetup cfg ALContext.Device (bufferChannels ALSource)
        ALSource.DirectChannels).DirectChannels ≠ false
    · simp only [hd, if_true, if_false, ne_eq, not_false_eq_true, not_true_eq_false,
        Bool.false_eq_true, Bool.true_eq_false]
      unfold directChannelsBranch
      simp only []
      intro h
      exact absurd h (by simp)
    · simp only [hd, if_true, if_false, ne_eq, not_false_eq_true, not_true_eq_false,
        Bool.false_eq_true, Bool.true_eq_false]
      have hd' : (channelSetup cfg ALContext.Device (bufferChannels ALSource)
          ALSource.DirectChannels).DirectChannels = false := by
        simpa using hd
      cases hH : ALContext.Device.Hrtf with
      | none =>
        simp only []
        unfold panningBranch
        simp only []
        intro h
        exact absurd h (by simp)
      | some H =>
        simp only []
        unfold hrtfChannelsBranch
        simp only []
        intro _
        refine ⟨trivial, ?_, rfl, hd'⟩
        simp

/-- C23: HRTF bus invariant.  After every call of `CalcSourceParams` or
`CalcNonAttnSourceParams`, a voice with `IsHrtf = true` has `Direct.OutChannels = 2` and
`Direct.OutBuffer` equal to the device dry buffer (row 0) advanced by exactly `NumChannels`
rows, and the device has HRTF; a voice playing a B-Format buffer through
`CalcNonAttnSourceParams` has `IsHrtf = false`, even on an HRTF device, and keeps
`OutChannels = NumChannels` on the dry buffer itself. -/
theorem hrtf_bus_invariant (lm : Libm K) (ext : Externs K) (cfg : Consts K)
    (voice : ALvoice K) (ALSource : ALsource K) (ALContext : ALCcontext K) :
    ((CalcSourceParams lm ext cfg voice ALSource ALContext).IsHrtf = true →
      (CalcSourceParams lm ext cfg voice ALSource ALContext).Direct.OutChannels = 2 ∧
      (CalcSourceParams lm ext cfg voice ALSource ALContext).Direct.OutBuffer =
        0 + ALContext.Device.NumChannels ∧
      ALContext.Device.Hrtf.isSome = true) ∧
    ((CalcNonAttnSourceParams lm ext cfg voice ALSource ALContext).IsHrtf = true →
      (CalcNonAttnSourceParams lm ext cfg voice ALSource ALContext).Direct.OutChannels = 2 ∧
      (CalcNonAttnSourceParams lm ext cfg voice ALSource ALContext).Direct.OutBuffer =
        0 + ALContext.Device.NumChannels ∧
      ALContext.Device.Hrtf.isSome = true) ∧
    (bufferChannels ALSource = FmtChannels.FmtBFormat2D ∨
        bufferChannels ALSource = FmtChannels.FmtBFormat3D →
      (CalcNonAttnSourceParams lm ext cfg voice ALSource ALContext).IsHrtf = false ∧
      (CalcNonAttnSourceParams lm ext cfg voice ALSource ALContext).Direct.OutChannels =
        ALContext.Device.NumChannels ∧
      (CalcNonAttnSourceParams lm ext cfg voice ALSource ALContext).Direct.OutBuffer = 0) := by
  obtain ⟨h1, h2, h3⟩ := CalcSourceParams_bus lm ext cfg voice ALSource ALContext
  obtain ⟨g1, g2⟩ := CalcNonAttnSourceParams_bus lm ext cfg voice ALSource ALContext
  refine ⟨?_, ?_, ?_⟩
  · intro h
    rw [h1] at h
    rw [h2, h3, h, zero_add]
    exact ⟨rfl, rfl, rfl⟩
  · intro h
    obtain ⟨a, b, c, _⟩ := g2 h
    rw [zero_add]
    exact ⟨a, b, c⟩
  · intro h
    apply g1
    rcases h with h | h <;> rw [h] <;> rfl

/-- C23 (instance): on the sample HRTF device (two channels) the mono sample source gets an
HRTF voice on the rows 2 and 3 of the dry buffer, and the B-Format sample source a voice without
HRTF on the two device channels. -/
theorem hrtf_bus_invariant_witness :
    (CalcSourceParams Sample.libm Sample.externs Sample.consts Sample.voice Sample.source
      Sample.hrtfContext).IsHrtf = true ∧
    (CalcSourceParams Sample.libm Sample.externs Sample.consts Sample.voice Sample.source
      Sample.hrtfContext).Direct.OutBuffer = 2 ∧
    bufferChannels Sample.bformatSource = FmtChannels.FmtBFormat3D ∧
    (CalcNonAttnSourceParams Sample.libm Sample.externs Sample.consts Sample.voice
      Sample.bformatSource Sample.hrtfContext).IsHrtf = false ∧
    (CalcNonAttnSourceParams Sample.libm Sample.externs Sample.consts Sample.voice
      Sample.bformatSource Sample.hrtfContext).Direct.OutChannels = 2 := by
  have hI : (CalcSourceParams Sample.libm Sample.externs Sample.consts Sample.voice
      Sample.source Sample.hrtfContext).IsHrtf = true :=
    (CalcSourceParams_bus Sample.libm Sample.externs Sample.consts Sample.voice Sample.source
      Sample.hrtfContext).1
  have h := hrtf_bus_invariant Sample.libm Sample.externs Sample.consts Sample.voice
    Sample.source Sample.hrtfContext
  have hb := (hrtf_bus_invariant Sample.libm Sample.externs Sample.consts Sample.voice
    Sample.bformatSource Sample.hrtfContext).2.2 (Or.inr rfl)
  exact ⟨hI, (h.1 hI).2.1, rfl, hb.1, hb.2.1⟩

end HrtfBus

section Panning

variable {K : Type} [LinearOrderedField K] [FloorRing K]

omit [FloorRing K] in
theorem UpdateDryStepping_Target (cfg : Consts K) (params : DirectParams K)
    (num_chans steps i j : Nat) :
    ((UpdateDryStepping cfg params num_chans steps).Gains i j).Target =
      (params.Gains i j).Target := by
  rw [UpdateDryStepping_Gains]
  split_ifs <;> rfl

omit [LinearOrderedField K] [FloorRing K] in
theorem storeTargets_apply (n : Nat) (Target : Nat → K) (gains : Nat → MixGains K) (j : Nat) :
    storeTargets n Target gains j =
      if j < n then { gains j with Target := Target j } else gains j := by
  unfold storeTargets
  rw [forLoop_pointwise (fun j (g : MixGains K) => { g with Target := Target j }) _
    (fun _ _ => rfl)]

omit [LinearOrderedField K] [FloorRing K] in
theorem setTarget_apply (gains : Nat → MixGains K) (idx : Nat) (DryGain : K) (j : Nat) :
    (setTarget gains idx DryGain j).Target =
      if j = idx then DryGain else (gains j).Target := by
  unfold setTarget
  by_cases h : j = idx
  · subst h
    simp
  · simp [h]

omit [FloorRing K] in
/-- The targets the regular panning branch leaves for an input channel that is not the LFE:
the pan result at the angle and elevation of the channel map. -/
theorem panningBranch_Target (ext : Externs K) (cfg : Consts K) (voice : ALvoice K)
    (Device : ALCdevice K) (chans : List (ChanMap K)) (num_channels : Nat) (DryGain : K)
    (c j : Nat) (hc : c < num_channels) (hj : j < cfg.MAX_OUTPUT_CHANNELS)
    (hL : (chanAt chans c).channel ≠ Channel.LFE) :
    ((panningBranch ext cfg voice Device chans num_channels DryGain).Direct.Gains c j).Target =
      ext.ComputeAngleGains Device (chanAt chans c).angle (chanAt chans c).elevation DryGain
        j := by
  unfold panningBranch
  simp only []
  rw [UpdateDryStepping_Target]
  simp only []
  rw [forLoop_pointwise (fun c (row : Nat → MixGains K) =>
    if (chanAt chans c).channel = Channel.LFE then
      (if ext.GetChannelIdxByName Device (chanAt chans c).channel ≠ -1 then
        setTarget (storeTargets cfg.MAX_OUTPUT_CHANNELS (fun _ => 0) row)
          (ext.GetChannelIdxByName Device (chanAt chans c).channel).toNat DryGain
      else storeTargets cfg.MAX_OUTPUT_CHANNELS (fun _ => 0) row)
    else
      storeTargets cfg.MAX_OUTPUT_CHANNELS
        (ext.ComputeAngleGains Device (chanAt chans c).angle (chanAt chans c).elevation
          DryGain) row) _ (fun c a => by beta_reduce; split_ifs <;> rfl)]
  rw [if_pos hc, if_neg hL, storeTargets_apply, if_pos hj]

/-- The direct gains and HRTF blocks `CalcNonAttnSourceParams` leaves are the ones of the
branch it takes, run on a voice with the same gains and HRTF blocks as the one passed in. -/
theorem CalcNonAttnSourceParams_branch (lm : Libm K) (ext : Externs K) (cfg : Consts K)
    (voice : ALvoice K) (ALSource : ALsource K) (ALContext : ALCcontext K)
    (hb : (channelSetup cfg ALContext.Device (bufferChannels ALSource)
      ALSource.DirectChannels).isbformat = false) :
    ∃ voice' : ALvoice K, voice'.Direct.Gains = voice.Direct.Gains ∧
      voice'.Direct.Hrtf = voice.Direct.Hrtf ∧
      ((channelSetup cfg ALContext.Device (bufferChannels ALSource)
          ALSource.DirectChannels).DirectChannels = true →
        (CalcNonAttnSourceParams lm ext cfg voice ALSource ALContext).Direct.Gains =
          (directChannelsBranch ext cfg voice' ALContext.Device
            (channelSetup cfg ALContext.Device (bufferChannels ALSource)
              ALSource.DirectChannels).chans
            (channelSetup cfg ALContext.Device (bufferChannels ALSource)
              ALSource.DirectChannels).num_channels
            (clampf ALSource.Gain ALSource.MinGain ALSource.MaxGain *
              (ALSource.Direct.Gain * ALContext.Listener.Gain))).Direct.Gains) ∧
      ((channelSetup cfg ALContext.Device (bufferChannels ALSource)
          ALSource.DirectChannels).DirectChannels = false →
        ALContext.Device.Hrtf = none →
        (CalcNonAttnSourceParams lm ext cfg voice ALSource ALContext).Direct.Gains =
          (panningBranch ext cfg voice' ALContext.Device
            (channelSetup cfg ALContext.Device (bufferChannels ALSource)
              ALSource.DirectChannels).chans
            (channelSetup cfg ALContext.Device (bufferChannels ALSource)
              ALSource.DirectChannels).num_channels
            (clampf ALSource.Gain ALSource.MinGain ALSource.MaxGain *
              (ALSource.Direct.Gain * ALContext.Listener.Gain))).Direct.Gains) ∧
      (∀ H : Hrtf, (channelSetup cfg ALContext.Device (bufferChannels ALSource)
          ALSource.DirectChannels).DirectChannels = false →
        ALContext.Device.Hrtf = some H →
        (CalcNonAttnSourceParams lm ext cfg voice ALSource ALContext).Direct.Hrtf =
          (hrtfChannelsBranch ext cfg voice' H
            (channelSetup cfg ALContext.Device (bufferChannels ALSource)
              ALSource.DirectChannels).chans
            (channelSetup cfg ALContext.Device (bufferChannels ALSource)
              ALSource.DirectChannels).num_channels
            (clampf ALSource.Gain ALSource.MinGain ALSource.MaxGain *
              (ALSource.Direct.Gain * ALContext.Listener.Gain))).Direct.Hrtf) := by
  unfold CalcNonAttnSourceParams
  simp only [hb, if_false, Bool.false_eq_true]
  refine ⟨
    { Step := (match firstBuffer ALSource.queue with
        | some ALBuffer =>
          pitchStep cfg (ALSource.Pitch * (ALBuffer.Frequency : K) /
            (ALContext.Device.Frequency : K))
        | none => voice.Step)
      IsHrtf := voice.IsHrtf
      Direct := { voice.Direct with OutBuffer := 0, OutChannels := ALContext.Device.NumChannels }
      Send := forLoop ALContext.Device.NumAuxSends (fun i Send =>
        Function.update Send i
          { Send i with OutBuffer := sendOutBuffer ALContext.Device ALSource i }) voice.Send },
    ?_, ?_, ?_, ?_, ?_⟩
  rotate_left 2
  · intro hd
    simp only [hd, ne_eq, Bool.true_eq_false, not_false_eq_true, if_true]
  · intro hd hH
    simp only [hd, hH, ne_eq, not_true_eq_false, if_false]
  · intro H hd hH
    simp only [hd, hH, ne_eq, not_true_eq_false, if_false]
  · rfl
  · rfl

omit [FloorRing K] in
/-- The HRIR coefficients and delays the per-channel HRTF branch leaves for an input channel
that is not the LFE: the static ones at the angle and elevation of the channel map. -/
theorem hrtfChannelsBranch_Hrtf (ext : Externs K) (cfg : Consts K) (voice : ALvoice K)
    (H : Hrtf) (chans : List (ChanMap K)) (num_channels : Nat) (DryGain : K)
    (c : Nat) (hc : c < num_channels) (hL : (chanAt chans c).channel ≠ Channel.LFE) :
    ((hrtfChannelsBranch ext cfg voice H chans num_channels DryGain).Direct.Hrtf c).Coeffs =
        (ext.GetLerpedHrtfCoeffs H (chanAt chans c).elevation (chanAt chans c).angle 1
          DryGain).1 ∧
      ((hrtfChannelsBranch ext cfg voice H chans num_channels DryGain).Direct.Hrtf c).Delay =
        (ext.GetLerpedHrtfCoeffs H (chanAt chans c).elevation (chanAt chans c).angle 1
          DryGain).2 := by
  unfold hrtfChannelsBranch
  simp only []
  rw [forLoop_pointwise (fun c (h : HrtfParams K) =>
    if (chanAt chans c).channel = Channel.LFE then
      { h with
        Coeffs := forLoop cfg.HRIR_LENGTH (fun i Coeffs =>
          Function.update Coeffs i (Function.update (Function.update (Coeffs i) 0 0) 1 0))
          h.Coeffs
        Delay := Function.update (Function.update h.Delay 0 0) 1 0 }
    else
      { h with
        Coeffs := (ext.GetLerpedHrtfCoeffs H (chanAt chans c).elevation (chanAt chans c).angle 1
          DryGain).1
        Delay := (ext.GetLerpedHrtfCoeffs H (chanAt chans c).elevation (chanAt chans c).angle 1
          DryGain).2 }) _ (fun c a => by beta_reduce; split_ifs <;> rfl)]
  rw [if_pos hc, if_neg hL]
  exact ⟨rfl, rfl⟩

/-- Claim C22 (stereo widening).  For a source playing a stereo buffer without
`DirectChannels`, with `DryGain` the clamped source gain times the direct gain times the
listener gain: on a stereo device without HRTF `CalcNonAttnSourceParams` leaves as target
gains of input channel 0 the pan result of `ComputeAngleGains` at azimuth -90 degrees and of
input channel 1 the one at +90 degrees (elevation 0, gain `DryGain`); on a device of any other
format without HRTF the azimuths are -30 and +30 degrees; and on a device with HRTF the angles
-30 and +30 degrees (elevation 0) are the ones used as well, there for the HRIR coefficients
and delays of the two input channels. -/
theorem stereo_widening (lm : Libm K) (ext : Externs K) (cfg : Consts K) (voice : ALvoice K)
    (ALSource : ALsource K) (ALContext : ALCcontext K)
    (hS : bufferChannels ALSource = FmtChannels.FmtStereo)
    (hD : ALSource.DirectChannels = false) :
    (ALContext.Device.Hrtf = none →
      ALContext.Device.FmtChans = DevFmtChannels.DevFmtStereo →
      ∀ j, j < cfg.MAX_OUTPUT_CHANNELS →
        ((CalcNonAttnSourceParams lm ext cfg voice ALSource ALContext).Direct.Gains 0 j).Target =
          ext.ComputeAngleGains ALContext.Device (DEG2RAD cfg (-90)) (DEG2RAD cfg 0)
            (clampf ALSource.Gain ALSource.MinGain ALSource.MaxGain *
              (ALSource.Direct.Gain * ALContext.Listener.Gain)) j ∧
        ((CalcNonAttnSourceParams lm ext cfg voice ALSource ALContext).Direct.Gains 1 j).Target =
          ext.ComputeAngleGains ALContext.Device (DEG2RAD cfg 90) (DEG2RAD cfg 0)
            (clampf ALSource.Gain ALSource.MinGain ALSource.MaxGain *
              (ALSource.Direct.Gain * ALContext.Listener.Gain)) j) ∧
    (ALContext.Device.Hrtf = none →
      ALContext.Device.FmtChans ≠ DevFmtChannels.DevFmtStereo →
      ∀ j, j < cfg.MAX_OUTPUT_CHANNELS →
        ((CalcNonAttnSourceParams lm ext cfg voice ALSource ALContext).Direct.Gains 0 j).Target =
          ext.ComputeAngleGains ALContext.Device (DEG2RAD cfg (-30)) (DEG2RAD cfg 0)
            (clampf ALSource.Gain ALSource.MinGain ALSource.MaxGain *
              (ALSource.Direct.Gain * ALContext.Listener.Gain)) j ∧
        ((CalcNonAttnSourceParams lm ext cfg voice ALSource ALContext).Direct.Gains 1 j).Target =
          ext.ComputeAngleGains ALContext.Device (DEG2RAD cfg 30) (DEG2RAD cfg 0)
            (clampf ALSource.Gain ALSource.MinGain ALSource.MaxGain *
              (ALSource.Direct.Gain * ALContext.Listener.Gain)) j) ∧
    (∀ H : Hrtf, ALContext.Device.Hrtf = some H →
      (((CalcNonAttnSourceParams lm ext cfg voice ALSource ALContext).Direct.Hrtf 0).Coeffs,
        ((CalcNonAttnSourceParams lm ext cfg voice ALSource ALContext).Direct.Hrtf 0).Delay) =
          ext.GetLerpedHrtfCoeffs H (DEG2RAD cfg 0) (DEG2RAD cfg (-30)) 1
            (clampf ALSource.Gain ALSource.MinGain ALSource.MaxGain *
              (ALSource.Direct.Gain * ALContext.Listener.Gain)) ∧
      (((CalcNonAttnSourceParams lm ext cfg voice ALSource ALContext).Direct.Hrtf 1).Coeffs,
        ((CalcNonAttnSourceParams lm ext cfg voice ALSource ALContext).Direct.Hrtf 1).Delay) =
          ext.GetLerpedHrtfCoeffs H (DEG2RAD cfg 0) (DEG2RAD cfg 30) 1
            (clampf ALSource.Gain ALSource.MinGain ALSource.MaxGain *
              (ALSource.Direct.Gain * ALContext.Listener.Gain))) := by
  have hb : (channelSetup cfg ALContext.Device (bufferChannels ALSource)
      ALSource.DirectChannels).isbformat = false := by
    rw [hS]
    rfl
  have hd : (channelSetup cfg ALContext.Device (bufferChannels ALSource)
      ALSource.DirectChannels).DirectChannels = false := by
    rw [hS, hD]
    rfl
  have hn : (channelSetup cfg ALContext.Device (bufferChannels ALSource)
      ALSource.DirectChannels).num_channels = 2 := by
    rw [hS]
    rfl
  obtain ⟨voice', -, -, -, hpan, hhrtf⟩ :=
    CalcNonAttnSourceParams_branch lm ext cfg voice ALSource ALContext hb
  refine ⟨?_, ?_, ?_⟩
  · intro hH hF j hj
    have hc : (channelSetup cfg ALContext.Device (bufferChannels ALSource)
        ALSource.DirectChannels).chans = StereoWideMap cfg := by
      rw [hS]
      simp [channelSetup, hH, hF]
    rw [hpan hd hH, hn, hc]
    constructor
    · rw [panningBranch_Target ext cfg voice' _ _ 2 _ 0 j (by decide) hj (by simp [chanAt, StereoWideMap])]
      rfl
    · rw [panningBranch_Target ext cfg voice' _ _ 2 _ 1 j (by decide) hj (by simp [chanAt, StereoWideMap])]
      rfl
  · intro hH hF j hj
    have hc : (channelSetup cfg ALContext.Device (bufferChannels ALSource)
        ALSource.DirectChannels).chans = StereoMap cfg := by
      rw [hS]
      simp [channelSetup, hF]
    rw [hpan hd hH, hn, hc]
    constructor
    · rw [panningBranch_Target ext cfg voice' _ _ 2 _ 0 j (by decide) hj (by simp [chanAt, StereoMap])]
      rfl
    · rw [panningBranch_Target ext cfg voice' _ _ 2 _ 1 j (by decide) hj (by simp [chanAt, StereoMap])]
      rfl
  · intro H hH
    have hc : (channelSetup cfg ALContext.Device (bufferChannels ALSource)
        ALSource.DirectChannels).chans = StereoMap cfg := by
      rw [hS]
      simp [channelSetup, hH]
    rw [hhrtf H hd hH, hn, hc]
    constructor
    · exact Prod.ext
        (hrtfChannelsBranch_Hrtf ext cfg voice' H _ 2 _ 0 (by decide)
          (by simp [chanAt, StereoMap])).1
        (hrtfChannelsBranch_Hrtf ext cfg voice' H _ 2 _ 0 (by decide)
          (by simp [chanAt, StereoMap])).2
    · exact Prod.ext
        (hrtfChannelsBranch_Hrtf ext cfg voice' H _ 2 _ 1 (by decide)
          (by simp [chanAt, StereoMap])).1
        (hrtfChannelsBranch_Hrtf ext cfg voice' H _ 2 _ 1 (by decide)
          (by simp [chanAt, StereoMap])).2

end Panning

section PanningInstance

/-- Claim C22 on the sample stereo device without HRTF, with a panner that gives the input gain
to output channel 0 for a negative azimuth and to output channel 1 for a positive one: input
channel 0 of a stereo buffer goes to output channel 0 only, input channel 1 to output channel 1
only. -/
theorem stereo_widening_witness :
    bufferChannels Sample.stereoSource = FmtChannels.FmtStereo ∧
    Sample.stereoSource.DirectChannels = false ∧
    ((CalcNonAttnSourceParams Sample.libm Sample.panners Sample.consts Sample.voice
        Sample.stereoSource Sample.context).Direct.Gains 0 0).Target = 1 ∧
    ((CalcNonAttnSourceParams Sample.libm Sample.panners Sample.consts Sample.voice
        Sample.stereoSource Sample.context).Direct.Gains 1 0).Target = 0 ∧
    ((CalcNonAttnSourceParams Sample.libm Sample.panners Sample.consts Sample.voice
        Sample.stereoSource Sample.context).Direct.Gains 0 1).Target = 0 ∧
    ((CalcNonAttnSourceParams Sample.libm Sample.panners Sample.consts Sample.voice
        Sample.stereoSource Sample.context).Direct.Gains 1 1).Target = 1 := by
  have h := (stereo_widening Sample.libm Sample.panners Sample.consts Sample.voice
    Sample.stereoSource Sample.context rfl rfl).1 rfl rfl
  refine ⟨rfl, rfl, ?_, ?_, ?_, ?_⟩
  · rw [(h 0 (by decide)).1]
    norm_num [Sample.panners, Sample.consts, Sample.stereoSource, Sample.source, Sample.context,
      Sample.listener, DEG2RAD, clampf, minf, maxf]
  · rw [(h 0 (by decide)).2]
    norm_num [Sample.panners, Sample.consts, Sample.stereoSource, Sample.source, Sample.context,
      Sample.listener, DEG2RAD, clampf, minf, maxf]
  · rw [(h 1 (by decide)).1]
    norm_num [Sample.panners, Sample.consts, Sample.stereoSource, Sample.source, Sample.context,
      Sample.listener, DEG2RAD, clampf, minf, maxf]
  · rw [(h 1 (by decide)).2]
    norm_num [Sample.panners, Sample.consts, Sample.stereoSource, Sample.source, Sample.context,
      Sample.listener, DEG2RAD, clampf, minf, maxf]

end PanningInstance


section DirectChannels

variable {K : Type} [LinearOrderedField K] [FloorRing K]

omit [FloorRing K] in
/-- The targets the direct-channels branch leaves on a device without HRTF: zero everywhere
except at the index `GetChannelIdxByName` returns for the channel, when it is not -1. -/
theorem directChannelsBranch_Target (ext : Externs K) (cfg : Consts K) (voice : ALvoice K)
    (Device : ALCdevice K) (chans : List (ChanMap K)) (num_channels : Nat) (DryGain : K)
    (hH : Device.Hrtf = none) (c j : Nat) (hc : c < num_channels)
    (hj : j < cfg.MAX_OUTPUT_CHANNELS) :
    ((directChannelsBranch ext cfg voice Device chans num_channels DryGain).Direct.Gains
        c j).Target =
      if ext.GetChannelIdxByName Device (chanAt chans c).channel ≠ -1 ∧
          j = (ext.GetChannelIdxByName Device (chanAt chans c).channel).toNat
        then DryGain else 0 := by
  unfold directChannelsBranch
  simp only [hH]
  rw [UpdateDryStepping_Target]
  simp only []
  rw [forLoop_pointwise (fun c (row : Nat → MixGains K) =>
    if ext.GetChannelIdxByName Device (chanAt chans c).channel ≠ -1 then
      setTarget (storeTargets cfg.MAX_OUTPUT_CHANNELS (fun _ => 0) row)
        (ext.GetChannelIdxByName Device (chanAt chans c).channel).toNat DryGain
    else storeTargets cfg.MAX_OUTPUT_CHANNELS (fun _ => 0) row) _
    (fun c a => by beta_reduce; split_ifs <;> rfl)]
  rw [if_pos hc]
  by_cases hi : ext.GetChannelIdxByName Device (chanAt chans c).channel = -1
  · rw [if_neg (not_not.mpr hi), storeTargets_apply, if_pos hj, if_neg (fun h => h.1 hi)]
  · rw [if_pos hi, setTarget_apply, storeTargets_apply, if_pos hj]
    by_cases hjx : j = (ext.GetChannelIdxByName Device (chanAt chans c).channel).toNat
    · rw [if_pos hjx, if_pos ⟨hi, hjx⟩]
    · rw [if_neg hjx, if_neg (fun h => hjx h.2)]

/-- Claim C25 (direct channels).  For a source with `DirectChannels` set that plays a buffer
which is not B-Format, on a device without HRTF whose channel lookup returns -1 or an index:
for every input channel `c` and every output channel `j` of the gain array, the target gain
`CalcNonAttnSourceParams` leaves is `DryGain` when `j` is the device index of `chans[c].channel`
and 0 otherwise; it is 0 for every `j` when the index is -1; and no input channel has two
non-zero target gains. -/
theorem direct_channels (lm : Libm K) (ext : Externs K) (cfg : Consts K) (voice : ALvoice K)
    (ALSource : ALsource K) (ALContext : ALCcontext K)
    (hD : ALSource.DirectChannels = true)
    (h2 : bufferChannels ALSource ≠ FmtChannels.FmtBFormat2D)
    (h3 : bufferChannels ALSource ≠ FmtChannels.FmtBFormat3D)
    (hH : ALContext.Device.Hrtf = none)
    (hidx : ∀ ch, -1 ≤ ext.GetChannelIdxByName ALContext.Device ch)
    (c : Nat)
    (hc : c < (channelSetup cfg ALContext.Device (bufferChannels ALSource)
      ALSource.DirectChannels).num_channels) :
    (∀ j, j < cfg.MAX_OUTPUT_CHANNELS →
      ((CalcNonAttnSourceParams lm ext cfg voice ALSource ALContext).Direct.Gains c j).Target =
        if (j : Int) = ext.GetChannelIdxByName ALContext.Device
            (chanAt (channelSetup cfg ALContext.Device (bufferChannels ALSource)
              ALSource.DirectChannels).chans c).channel
          then clampf ALSource.Gain ALSource.MinGain ALSource.MaxGain *
            (ALSource.Direct.Gain * ALContext.Listener.Gain)
          else 0) ∧
    (ext.GetChannelIdxByName ALContext.Device
        (chanAt (channelSetup cfg ALContext.Device (bufferChannels ALSource)
          ALSource.DirectChannels).chans c).channel = -1 →
      ∀ j, j < cfg.MAX_OUTPUT_CHANNELS →
        ((CalcNonAttnSourceParams lm ext cfg voice ALSource ALContext).Direct.Gains c j).Target
          = 0) ∧
    (∀ j j', j < cfg.MAX_OUTPUT_CHANNELS → j' < cfg.MAX_OUTPUT_CHANNELS →
      ((CalcNonAttnSourceParams lm ext cfg voice ALSource ALContext).Direct.Gains c j).Target
        ≠ 0 →
      ((CalcNonAttnSourceParams lm ext cfg voice ALSource ALContext).Direct.Gains c j').Target
        ≠ 0 → j = j') := by
  have hb : (channelSetup cfg ALContext.Device (bufferChannels ALSource)
      ALSource.DirectChannels).isbformat = false := by
    cases hC : bufferChannels ALSource <;> first | rfl | exact absurd hC h2 | exact absurd hC h3
  have hd : (channelSetup cfg ALContext.Device (bufferChannels ALSource)
      ALSource.DirectChannels).DirectChannels = true := by
    cases hC : bufferChannels ALSource <;>
      first | exact hD | exact absurd hC h2 | exact absurd hC h3
  obtain ⟨voice', -, -, hdc, -, -⟩ :=
    CalcNonAttnSourceParams_branch lm ext cfg voice ALSource ALContext hb
  have key : ∀ j, j < cfg.MAX_OUTPUT_CHANNELS →
      ((CalcNonAttnSourceParams lm ext cfg voice ALSource ALContext).Direct.Gains c j).Target =
        if (j : Int) = ext.GetChannelIdxByName ALContext.Device
            (chanAt (channelSetup cfg ALContext.Device (bufferChannels ALSource)
              ALSource.DirectChannels).chans c).channel
          then clampf ALSource.Gain ALSource.MinGain ALSource.MaxGain *
            (ALSource.Direct.Gain * ALContext.Listener.Gain)
          else 0 := by
    intro j hj
    rw [hdc hd, directChannelsBranch_Target ext cfg voice' _ _ _ _ hH c j hc hj]
    have hge := hidx (chanAt (channelSetup cfg ALContext.Device (bufferChannels ALSource)
      ALSource.DirectChannels).chans c).channel
    generalize ext.GetChannelIdxByName ALContext.Device
      (chanAt (channelSetup cfg ALContext.Device (bufferChannels ALSource)
        ALSource.DirectChannels).chans c).channel = idx at hge ⊢
    by_cases hji : (j : Int) = idx
    · rw [if_pos hji, if_pos]
      subst hji
      exact ⟨by omega, by simp⟩
    · rw [if_neg hji, if_neg]
      rintro ⟨hne, hjx⟩
      apply hji
      rw [hjx, Int.toNat_of_nonneg (by omega)]
  refine ⟨key, ?_, ?_⟩
  · intro hm j hj
    rw [key j hj, hm, if_neg (by omega)]
  · intro j j' hj hj' hn hn'
    rw [key j hj] at hn
    rw [key j' hj'] at hn'
    have e : (j : Int) = ext.GetChannelIdxByName ALContext.Device
        (chanAt (channelSetup cfg ALContext.Device (bufferChannels ALSource)
          ALSource.DirectChannels).chans c).channel := by
      by_contra hne
      exact hn (if_neg hne)
    have e' : (j' : Int) = ext.GetChannelIdxByName ALContext.Device
        (chanAt (channelSetup cfg ALContext.Device (bufferChannels ALSource)
          ALSource.DirectChannels).chans c).channel := by
      by_contra hne
      exact hn' (if_neg hne)
    exact Int.ofNat_inj.mp (e.trans e'.symm)

end DirectChannels

section DirectChannelsInstance

/-- Claim C25 on the sample stereo device, whose layout is (FrontLeft, FrontRight): input
channel 0 of a stereo direct-channels source has the target `DryGain = 1` on output channel 0
and 0 on the seven other entries of the gain array. -/
theorem direct_channels_witness :
    Sample.directSource.DirectChannels = true ∧
    bufferChannels Sample.directSource ≠ FmtChannels.FmtBFormat2D ∧
    bufferChannels Sample.directSource ≠ FmtChannels.FmtBFormat3D ∧
    Sample.context.Device.Hrtf = none ∧
    (∀ ch, -1 ≤ Sample.externs.GetChannelIdxByName Sample.context.Device ch) ∧
    ((CalcNonAttnSourceParams Sample.libm Sample.externs Sample.consts Sample.voice
        Sample.directSource Sample.context).Direct.Gains 0 0).Target = 1 ∧
    (∀ j, 0 < j → j < 8 →
      ((CalcNonAttnSourceParams Sample.libm Sample.externs Sample.consts Sample.voice
        Sample.directSource Sample.context).Direct.Gains 0 j).Target = 0) := by
  have hidx : ∀ ch, -1 ≤ Sample.externs.GetChannelIdxByName Sample.context.Device ch := by
    intro ch
    cases ch <;> decide
  have h := (direct_channels Sample.libm Sample.externs Sample.consts Sample.voice
    Sample.directSource Sample.context rfl (by decide) (by decide) rfl hidx 0 (by decide)).1
  refine ⟨rfl, by decide, by decide, rfl, hidx, ?_, ?_⟩
  · rw [h 0 (by decide)]
    norm_num [Sample.externs, Sample.consts, Sample.directSource, Sample.stereoSource,
      Sample.source, Sample.context, Sample.listener, Sample.device, bufferChannels, firstBuffer,
      channelSetup, chanAt, StereoWideMap, clampf, minf, maxf]
  · intro j hj0 hj
    rw [h j hj]
    have hj' : (j : Int) ≠ 0 := by omega
    simp [Sample.externs, Sample.directSource, Sample.stereoSource,
      Sample.source, Sample.context, Sample.device, bufferChannels, firstBuffer,
      channelSetup, chanAt, StereoWideMap, hj']

/-- Claim C25 when the device layout lacks the channel: both input channels of the rear
direct-channels source (BackLeft, BackRight) have the target 0 on every output channel. -/
theorem direct_channels_missing :
    ∀ c, c < 2 → ∀ j, j < 8 →
      ((CalcNonAttnSourceParams Sample.libm Sample.externs Sample.consts Sample.voice
        Sample.directRearSource Sample.context).Direct.Gains c j).Target = 0 := by
  have hb : (channelSetup Sample.consts Sample.context.Device
      (bufferChannels Sample.directRearSource)
      Sample.directRearSource.DirectChannels).isbformat = false := rfl
  obtain ⟨voice', -, -, hdc, -, -⟩ := CalcNonAttnSourceParams_branch Sample.libm Sample.externs
    Sample.consts Sample.voice Sample.directRearSource Sample.context hb
  intro c hc j hj
  rw [hdc rfl]
  refine (directChannelsBranch_Target Sample.externs Sample.consts voice' _ _ _ _ rfl c j
    ?_ ?_).trans ?_
  · exact hc
  · exact hj
  · have hc' : c = 0 ∨ c = 1 := by omega
    rcases hc' with rfl | rfl <;>
      simp [Sample.externs, Sample.directRearSource, Sample.source, bufferChannels, firstBuffer,
        channelSetup, chanAt, RearMap]

end DirectChannelsInstance


section AtListener

variable {K : Type} [LinearOrderedField K] [FloorRing K]

/-- The direct targets `CalcSourceParams` leaves on a device without HRTF: the result of
`ComputeDirectionalGains` for the direction `panDirection` and the dry gain. -/
theorem CalcSourceParams_pan_Target (lm : Libm K) (ext : Externs K) (cfg : Consts K)
    (voice : ALvoice K) (ALSource : ALsource K) (ALContext : ALCcontext K)
    (hH : ALContext.Device.Hrtf = none) (j : Nat) (hj : j < cfg.MAX_OUTPUT_CHANNELS) :
    ((CalcSourceParams lm ext cfg voice ALSource ALContext).Direct.Gains 0 j).Target =
      ext.ComputeDirectionalGains ALContext.Device
        (panDirection cfg (sourceLocals lm cfg ALSource ALContext).Position
          (sourceLocals lm cfg ALSource ALContext).Distance ALSource.Radius)
        (sourceLocals lm cfg ALSource ALContext).DryGain j := by
  unfold CalcSourceParams
  simp only [hH]
  rw [UpdateDryStepping_Target]
  simp only [Function.update_same]
  rw [storeTargets_apply, if_pos hj]
  rfl

omit [FloorRing K] in
theorem hrtfDirection_at_listener (lm : Libm K) (cfg : Consts K) (Position : aluVector K)
    (Distance radius : K) (hD : Distance ≤ cfg.FLT_EPSILON) :
    (hrtfDirection lm cfg Position Distance radius).dir = { v0 := 0, v1 := 0, v2 := -1, v3 := 0 } ∧
    (hrtfDirection lm cfg Position Distance radius).ev = 0 ∧
    (hrtfDirection lm cfg Position Distance radius).az = 0 := by
  unfold hrtfDirection
  simp only [gt_iff_lt, not_lt.mpr hD, if_false]
  refine ⟨?_, ?_, ?_⟩ <;> first | rfl | trivial

/-- C24 (counterexample): the sample source with the radius 1 is head-relative and at the
listener, so its distance is 0, and the sample device has no HRTF.  The direction handed to
`ComputeDirectionalGains` is the position divided by the radius, (0,0,0), and the target of
output channel 0 is the pan result for it, 1/2 with the sample panner, not the pan result 1 for
the forward direction (0,0,-1). -/
theorem listener_radius_counterexample :
    (sourceLocals Sample.libm Sample.consts Sample.wideSource Sample.context).Distance = 0 ∧
    (sourceLocals Sample.libm Sample.consts Sample.wideSource Sample.context).DryGain = 1 ∧
    Sample.context.Device.Hrtf = none ∧
    ((CalcSourceParams Sample.libm Sample.panners Sample.consts Sample.voice Sample.wideSource
      Sample.context).Direct.Gains 0 0).Target = 1 / 2 ∧
    Sample.panners.ComputeDirectionalGains Sample.context.Device { e0 := 0, e1 := 0, e2 := -1 }
      (sourceLocals Sample.libm Sample.consts Sample.wideSource Sample.context).DryGain 0 = 1 ∧
    ((CalcSourceParams Sample.libm Sample.panners Sample.consts Sample.voice Sample.wideSource
      Sample.context).Direct.Gains 0 0).Target ≠
      Sample.panners.ComputeDirectionalGains Sample.context.Device { e0 := 0, e1 := 0, e2 := -1 }
        (sourceLocals Sample.libm Sample.consts Sample.wideSource Sample.context).DryGain 0 := by
  have hDist : (sourceLocals Sample.libm Sample.consts Sample.wideSource
      Sample.context).Distance = 0 := by
    norm_num [sourceLocals, Sample.libm, Sample.consts, Sample.wideSource, Sample.source,
      Sample.context, Sample.listener, Sample.device, aluDotproduct]
  have hGain : (sourceLocals Sample.libm Sample.consts Sample.wideSource
      Sample.context).DryGain = 1 := by
    norm_num [sourceLocals, Sample.libm, Sample.consts, Sample.wideSource, Sample.source,
      Sample.context, Sample.listener, Sample.device, distanceAttenuation,
      caseInverseDistance, clampf, maxf, minf, lerp, aluDotproduct, aluVector.normalize,
      aluNormalize, coneGains, RAD2DEG, roomParams, sendSlot]
  have hPos : (sourceLocals Sample.libm Sample.consts Sample.wideSource
      Sample.context).Position = { v0 := 0, v1 := 0, v2 := 0, v3 := 1 } := rfl
  have hT : ((CalcSourceParams Sample.libm Sample.panners Sample.consts Sample.voice
      Sample.wideSource Sample.context).Direct.Gains 0 0).Target = 1 / 2 := by
    rw [CalcSourceParams_pan_Target _ _ _ _ _ _ rfl 0 (by decide), hDist, hGain, hPos]
    norm_num [panDirection, Sample.panners, Sample.consts, Sample.wideSource, Sample.context,
      Sample.device, maxf]
  have hF : Sample.panners.ComputeDirectionalGains Sample.context.Device
      { e0 := 0, e1 := 0, e2 := -1 }
      (sourceLocals Sample.libm Sample.consts Sample.wideSource Sample.context).DryGain 0
        = 1 := by
    rw [hGain]
    norm_num [Sample.panners, Sample.context, Sample.device]
  refine ⟨hDist, hGain, rfl, hT, hF, ?_⟩
  rw [hT, hF]
  norm_num

/-- Claim C24 (source at the listener), amended.  For a source whose head-space distance is
not above `FLT_EPSILON`: the HRTF branch of `CalcSourceParams` keeps the forward direction
(0,0,-1) and the elevation and azimuth 0, and a first update on an HRTF device stores that
direction and the static coefficients for elevation 0 and azimuth 0; on a device without HRTF
the direct target gains are the pan result of `ComputeDirectionalGains` for (0,0,-1) and the
dry gain when the source radius is not above `FLT_EPSILON` either, and the pan result for the
direction `Position / maxf(Distance, Radius)` (z times `ZScale`) when the radius is above
it. -/
theorem source_at_listener (lm : Libm K) (ext : Externs K) (cfg : Consts K)
    (voice : ALvoice K) (ALSource : ALsource K) (ALContext : ALCcontext K)
    (hD : (sourceLocals lm cfg ALSource ALContext).Distance ≤ cfg.FLT_EPSILON) :
    ((hrtfDirection lm cfg (sourceLocals lm cfg ALSource ALContext).Position
        (sourceLocals lm cfg ALSource ALContext).Distance ALSource.Radius).dir =
          { v0 := 0, v1 := 0, v2 := -1, v3 := 0 } ∧
      (hrtfDirection lm cfg (sourceLocals lm cfg ALSource ALContext).Position
        (sourceLocals lm cfg ALSource ALContext).Distance ALSource.Radius).ev = 0 ∧
      (hrtfDirection lm cfg (sourceLocals lm cfg ALSource ALContext).Position
        (sourceLocals lm cfg ALSource ALContext).Distance ALSource.Radius).az = 0) ∧
    (∀ H : Hrtf, ALContext.Device.Hrtf = some H → voice.Direct.Moving = false →
      (CalcSourceParams lm ext cfg voice ALSource ALContext).Direct.LastDir =
        { v0 := 0, v1 := 0, v2 := -1, v3 := 0 } ∧
      (((CalcSourceParams lm ext cfg voice ALSource ALContext).Direct.Hrtf 0).Coeffs,
        ((CalcSourceParams lm ext cfg voice ALSource ALContext).Direct.Hrtf 0).Delay) =
        ext.GetLerpedHrtfCoeffs H 0 0
          (hrtfDirection lm cfg (sourceLocals lm cfg ALSource ALContext).Position
            (sourceLocals lm cfg ALSource ALContext).Distance ALSource.Radius).dirfact
          (sourceLocals lm cfg ALSource ALContext).DryGain) ∧
    (ALContext.Device.Hrtf = none → ALSource.Radius ≤ cfg.FLT_EPSILON →
      ∀ j, j < cfg.MAX_OUTPUT_CHANNELS →
        ((CalcSourceParams lm ext cfg voice ALSource ALContext).Direct.Gains 0 j).Target =
          ext.ComputeDirectionalGains ALContext.Device { e0 := 0, e1 := 0, e2 := -1 }
            (sourceLocals lm cfg ALSource ALContext).DryGain j) ∧
    (ALContext.Device.Hrtf = none → cfg.FLT_EPSILON < ALSource.Radius →
      ∀ j, j < cfg.MAX_OUTPUT_CHANNELS →
        ((CalcSourceParams lm ext cfg voice ALSource ALContext).Direct.Gains 0 j).Target =
          ext.ComputeDirectionalGains ALContext.Device
            { e0 := (sourceLocals lm cfg ALSource ALContext).Position.v0 *
                (1 / maxf (sourceLocals lm cfg ALSource ALContext).Distance ALSource.Radius)
              e1 := (sourceLocals lm cfg ALSource ALContext).Position.v1 *
                (1 / maxf (sourceLocals lm cfg ALSource ALContext).Distance ALSource.Radius)
              e2 := (sourceLocals lm cfg ALSource ALContext).Position.v2 *
                (1 / maxf (sourceLocals lm cfg ALSource ALContext).Distance ALSource.Radius) *
                cfg.ZScale }
            (sourceLocals lm cfg ALSource ALContext).DryGain j) := by
  have hdir := hrtfDirection_at_listener lm cfg (sourceLocals lm cfg ALSource ALContext).Position
    (sourceLocals lm cfg ALSource ALContext).Distance ALSource.Radius hD
  refine ⟨hdir, ?_, ?_, ?_⟩
  · intro H hH hM
    obtain ⟨hC, hDl, -, -, -, hL, -⟩ :=
      CalcSourceParams_Hrtf_first lm ext cfg voice ALSource ALContext H hH hM
    refine ⟨hL.trans hdir.1, ?_⟩
    rw [hdir.2.1, hdir.2.2] at hC hDl
    exact Prod.ext hC hDl
  · intro hH hR j hj
    rw [CalcSourceParams_pan_Target lm ext cfg voice ALSource ALContext hH j hj]
    unfold panDirection
    simp only [gt_iff_lt, not_lt.mpr hD, not_lt.mpr hR, or_self, if_false]
  · intro hH hR j hj
    rw [CalcSourceParams_pan_Target lm ext cfg voice ALSource ALContext hH j hj]
    unfold panDirection
    simp only [gt_iff_lt, hR, or_true, if_true]

end AtListener

section AtListenerInstance

/-- The amended claim C24 on the sample source (head-relative, at the listener, radius 0,
gain 1) and the sample device without HRTF: the target of output channel 0 is the pan result
for the forward direction, which is 1 with the sample panner. -/
theorem source_at_listener_witness :
    (sourceLocals Sample.libm Sample.consts Sample.source Sample.context).Distance ≤
      Sample.consts.FLT_EPSILON ∧
    ((CalcSourceParams Sample.libm Sample.panners Sample.consts Sample.voice Sample.source
      Sample.context).Direct.Gains 0 0).Target =
      Sample.panners.ComputeDirectionalGains Sample.context.Device { e0 := 0, e1 := 0, e2 := -1 }
        (sourceLocals Sample.libm Sample.consts Sample.source Sample.context).DryGain 0 := by
  have hDist : (sourceLocals Sample.libm Sample.consts Sample.source Sample.context).Distance ≤
      Sample.consts.FLT_EPSILON := by
    norm_num [sourceLocals, Sample.libm, Sample.consts, Sample.source,
      Sample.context, Sample.listener, Sample.device, aluDotproduct]
  exact ⟨hDist, (source_at_listener Sample.libm Sample.panners Sample.consts Sample.voice
    Sample.source Sample.context hDist).2.2.1 rfl (by norm_num [Sample.source, Sample.consts]) 0
    (by decide)⟩

end AtListenerInstance


section VoiceHandling

variable {K : Type} [LinearOrderedField K] [FloorRing K] {σ : Type}

theorem callUpdate_Source (lm : Libm K) (ext : Externs K) (cfg : Consts K)
    (voice : VoiceObject K) (source : SourceObject K) (ctx : ContextObject K) :
    (callUpdate lm ext cfg voice source ctx).Source = voice.Source := by
  unfold callUpdate
  split <;> rfl

/-- A voice without a source is skipped: the visit changes nothing. -/
theorem mixVoice_none (lm : Libm K) (ext : Externs K) (mx : MixerExterns K σ) (cfg : Consts K)
    (device : ALCdevice K) (MixCount SamplesToDo ci : Nat) (DeferUpdates UpdateSources : Bool)
    (v : Nat) (s : ContextObject K × MixerMemory K σ)
    (hS : (s.1.Voices v).Source = none) :
    mixVoice lm ext mx cfg device MixCount SamplesToDo ci DeferUpdates UpdateSources v s = s := by
  unfold mixVoice
  simp only [hS]

/-- A voice whose source is neither playing nor paused is detached, and nothing else
changes. -/
theorem mixVoice_stopped (lm : Libm K) (ext : Externs K) (mx : MixerExterns K σ)
    (cfg : Consts K) (device : ALCdevice K) (MixCount SamplesToDo ci : Nat)
    (DeferUpdates UpdateSources : Bool) (v : Nat) (s : ContextObject K × MixerMemory K σ)
    (p : Nat) (hS : (s.1.Voices v).Source = some p)
    (h1 : (s.2.Sources p).state ≠ SourceState.AL_PLAYING)
    (h2 : (s.2.Sources p).state ≠ SourceState.AL_PAUSED) :
    mixVoice lm ext mx cfg device MixCount SamplesToDo ci DeferUpdates UpdateSources v s =
      ({ s.1 with Voices := Function.update s.1.Voices v { s.1.Voices v with Source := none } },
        s.2) := by
  unfold mixVoice
  simp only [hS, ne_eq, h1, h2, not_false_eq_true, and_self, if_true]

/-- The calls made for a voice whose source is paused: the update when one is due, and no
`MixSource`; the world, the buffers and the playback state of the source stay as they are. -/
theorem mixVoice_paused (lm : Libm K) (ext : Externs K) (mx : MixerExterns K σ)
    (cfg : Consts K) (device : ALCdevice K) (MixCount SamplesToDo ci : Nat)
    (DeferUpdates UpdateSources : Bool) (v : Nat) (s : ContextObject K × MixerMemory K σ)
    (p : Nat) (hS : (s.1.Voices v).Source = some p)
    (hP : (s.2.Sources p).state = SourceState.AL_PAUSED) :
    (mixVoice lm ext mx cfg device MixCount SamplesToDo ci DeferUpdates UpdateSources v
        s).2.trace =
      s.2.trace ++
        (if DeferUpdates = false ∧ ((s.2.Sources p).NeedsUpdate = true ∨ UpdateSources = true)
          then [(MixCount, MixEvent.Update ci v)] else []) ∧
    (mixVoice lm ext mx cfg device MixCount SamplesToDo ci DeferUpdates UpdateSources v
        s).2.world = s.2.world ∧
    (mixVoice lm ext mx cfg device MixCount SamplesToDo ci DeferUpdates UpdateSources v
        s).2.DryBuffer = s.2.DryBuffer ∧
    (mixVoice lm ext mx cfg device MixCount SamplesToDo ci DeferUpdates UpdateSources v
        s).2.WetBuffer = s.2.WetBuffer ∧
    ((mixVoice lm ext mx cfg device MixCount SamplesToDo ci DeferUpdates UpdateSources v
        s).1.Voices v).Source = some p ∧
    ((mixVoice lm ext mx cfg device MixCount SamplesToDo ci DeferUpdates UpdateSources v
        s).2.Sources p).state = SourceState.AL_PAUSED ∧
    ((mixVoice lm ext mx cfg device MixCount SamplesToDo ci DeferUpdates UpdateSources v
        s).2.Sources p).position = (s.2.Sources p).position := by
  unfold mixVoice
  cases DeferUpdates <;> cases hN : (s.2.Sources p).NeedsUpdate <;> cases UpdateSources <;>
    simp [hS, hP, hN, MixerMemory.log, callUpdate_Source]

/-- The calls made for a voice whose source is playing: the update when one is due, then
`MixSource`, once. -/
theorem mixVoice_playing (lm : Libm K) (ext : Externs K) (mx : MixerExterns K σ)
    (cfg : Consts K) (device : ALCdevice K) (MixCount SamplesToDo ci : Nat)
    (DeferUpdates UpdateSources : Bool) (v : Nat) (s : ContextObject K × MixerMemory K σ)
    (p : Nat) (hS : (s.1.Voices v).Source = some p)
    (hP : (s.2.Sources p).state = SourceState.AL_PLAYING) :
    (mixVoice lm ext mx cfg device MixCount SamplesToDo ci DeferUpdates UpdateSources v
        s).2.trace =
      s.2.trace ++
        (if DeferUpdates = false ∧ ((s.2.Sources p).NeedsUpdate = true ∨ UpdateSources = true)
          then [(MixCount, MixEvent.Update ci v)] else []) ++
        [(MixCount, MixEvent.MixSource ci v SamplesToDo)] := by
  unfold mixVoice
  cases DeferUpdates <;> cases hN : (s.2.Sources p).NeedsUpdate <;> cases UpdateSources <;>
    simp [hS, hP, hN, MixerMemory.log]

omit [LinearOrderedField K] [FloorRing K] in
theorem forLoop_add {α : Type} (a b : Nat) (body : Nat → α → α) (s : α) :
    forLoop (a + b) body s = forLoop b (fun i => body (a + i)) (forLoop a body s) := by
  induction b with
  | zero => rfl
  | succ b ih =>
    rw [← Nat.add_assoc, forLoop_succ, forLoop_succ, ih]

/-- The calls one visit of the voice loop makes are about the visited voice: its update, its
`MixSource`; no update is made when updates are deferred. -/
theorem mixVoice_events (lm : Libm K) (ext : Externs K) (mx : MixerExterns K σ)
    (cfg : Consts K) (device : ALCdevice K) (MixCount SamplesToDo ci : Nat)
    (DeferUpdates UpdateSources : Bool) (v : Nat) (s : ContextObject K × MixerMemory K σ) :
    ∃ mid : List (Nat × MixEvent K),
      (mixVoice lm ext mx cfg device MixCount SamplesToDo ci DeferUpdates UpdateSources v
        s).2.trace = s.2.trace ++ mid ∧
      ∀ e ∈ mid, (DeferUpdates = false ∧ e = (MixCount, MixEvent.Update ci v)) ∨
        e = (MixCount, MixEvent.MixSource ci v SamplesToDo) := by
  cases hS : (s.1.Voices v).Source with
  | none =>
    refine ⟨[], ?_, by simp⟩
    rw [mixVoice_none _ _ _ _ _ _ _ _ _ _ _ _ hS, List.append_nil]
  | some p =>
    by_cases h1 : (s.2.Sources p).state = SourceState.AL_PLAYING
    · refine ⟨_, mixVoice_playing lm ext mx cfg device MixCount SamplesToDo ci DeferUpdates
        UpdateSources v s p hS h1 |>.trans (List.append_assoc _ _ _), ?_⟩
      intro e he
      rcases List.mem_append.mp he with he | he
      · split_ifs at he with hU
        · exact Or.inl ⟨hU.1, List.mem_singleton.mp he⟩
        · exact absurd he (List.not_mem_nil _)
      · exact Or.inr (List.mem_singleton.mp he)
    · by_cases h2 : (s.2.Sources p).state = SourceState.AL_PAUSED
      · refine ⟨_, (mixVoice_paused lm ext mx cfg device MixCount SamplesToDo ci DeferUpdates
          UpdateSources v s p hS h2).1, ?_⟩
        intro e he
        split_ifs at he with hU
        · exact Or.inl ⟨hU.1, List.mem_singleton.mp he⟩
        · exact absurd he (List.not_mem_nil _)
      · refine ⟨[], ?_, by simp⟩
        rw [mixVoice_stopped _ _ _ _ _ _ _ _ _ _ _ _ p hS h1 h2, List.append_nil]

/-- The calls a stretch of the voice loop makes are about the voices of the stretch. -/
theorem voiceLoop_events (lm : Libm K) (ext : Externs K) (mx : MixerExterns K σ)
    (cfg : Consts K) (device : ALCdevice K) (MixCount SamplesToDo ci : Nat)
    (DeferUpdates UpdateSources : Bool) (a b : Nat) (s : ContextObject K × MixerMemory K σ) :
    ∃ new : List (Nat × MixEvent K),
      (forLoop b (fun i => mixVoice lm ext mx cfg device MixCount SamplesToDo ci DeferUpdates
        UpdateSources (a + i)) s).2.trace = s.2.trace ++ new ∧
      ∀ e ∈ new, ∃ w, a ≤ w ∧ w < a + b ∧
        ((DeferUpdates = false ∧ e = (MixCount, MixEvent.Update ci w)) ∨
          e = (MixCount, MixEvent.MixSource ci w SamplesToDo)) := by
  induction b with
  | zero => exact ⟨[], (List.append_nil _).symm, by simp⟩
  | succ b ih =>
    obtain ⟨new, h1, h2⟩ := ih
    obtain ⟨mid, h3, h4⟩ := mixVoice_events lm ext mx cfg device MixCount SamplesToDo ci
      DeferUpdates UpdateSources (a + b)
      (forLoop b (fun i => mixVoice lm ext mx cfg device MixCount SamplesToDo ci DeferUpdates
        UpdateSources (a + i)) s)
    refine ⟨new ++ mid, ?_, ?_⟩
    · rw [forLoop_succ, h3, h1, List.append_assoc]
    · intro e he
      rcases List.mem_append.mp he with he | he
      · obtain ⟨w, hw1, hw2, hw3⟩ := h2 e he
        exact ⟨w, hw1, by omega, hw3⟩
      · exact ⟨a + b, by omega, by omega, h4 e he⟩

/-- A visit of the voice loop leaves the other voices as they are. -/
theorem mixVoice_Voices_other (lm : Libm K) (ext : Externs K) (mx : MixerExterns K σ)
    (cfg : Consts K) (device : ALCdevice K) (MixCount SamplesToDo ci : Nat)
    (DeferUpdates UpdateSources : Bool) (v w : Nat) (hw : w ≠ v)
    (s : ContextObject K × MixerMemory K σ) :
    (mixVoice lm ext mx cfg device MixCount SamplesToDo ci DeferUpdates UpdateSources v
      s).1.Voices w = s.1.Voices w := by
  unfold mixVoice
  simp only []
  cases (s.1.Voices v).Source with
  | none => rfl
  | some p =>
    simp only []
    split_ifs <;> exact Function.update_noteq hw _ _

/-- A stretch of the voice loop leaves the voices outside the stretch as they are. -/
theorem voiceLoop_Voices_other (lm : Libm K) (ext : Externs K) (mx : MixerExterns K σ)
    (cfg : Consts K) (device : ALCdevice K) (MixCount SamplesToDo ci : Nat)
    (DeferUpdates UpdateSources : Bool) (a b w : Nat) (hw : w < a)
    (s : ContextObject K × MixerMemory K σ) :
    (forLoop b (fun i => mixVoice lm ext mx cfg device MixCount SamplesToDo ci DeferUpdates
      UpdateSources (a + i)) s).1.Voices w = s.1.Voices w := by
  induction b with
  | zero => rfl
  | succ b ih =>
    rw [forLoop_succ, mixVoice_Voices_other _ _ _ _ _ _ _ _ _ _ _ _ (by omega), ih]

/-- Claim C27 (voice handling).  In the voice loop of a mix slice for a context (voices
`0 .. n-1`, started in the state `s`), take a voice `v`, the state `before` in which the loop
reaches it, and the state `after` in which the loop leaves it.  The trace of the whole loop is
the trace of `s` followed by the calls `pre` made before the voice is reached, the calls `mid`
made for the voice, and the calls `post` made after it; neither `pre` nor `post` holds an update
or a `MixSource` of voice `v`, and the later visits leave the voice as it is in `after`.  A voice
with `Source = NULL` has no calls and `after = before`; a voice whose source is neither playing
nor paused has no calls, gets `Source := NULL`, and nothing else changes; for a voice whose
source is paused `mid` is empty or the one update, and the world and the buffers stay as they
are; for a voice whose source is playing `mid` is `MixSource`, called once, preceded by the
update when one is made. -/
theorem voice_handling (lm : Libm K) (ext : Externs K) (mx : MixerExterns K σ)
    (cfg : Consts K) (device : ALCdevice K) (MixCount SamplesToDo ci : Nat)
    (DeferUpdates UpdateSources : Bool) (n v : Nat) (hv : v < n)
    (s : ContextObject K × MixerMemory K σ) :
    let body := mixVoice lm ext mx cfg device MixCount SamplesToDo ci DeferUpdates UpdateSources
    let before := forLoop v body s
    let after := forLoop (v + 1) body s
    let final := forLoop n body s
    ∃ pre mid post : List (Nat × MixEvent K),
      before.2.trace = s.2.trace ++ pre ∧
      after.2.trace = s.2.trace ++ pre ++ mid ∧
      final.2.trace = s.2.trace ++ pre ++ mid ++ post ∧
      (∀ e ∈ pre ++ post,
        e.2 ≠ MixEvent.Update ci v ∧ ∀ k, e.2 ≠ MixEvent.MixSource ci v k) ∧
      final.1.Voices v = after.1.Voices v ∧
      ((before.1.Voices v).Source = none → mid = [] ∧ after = before) ∧
      (∀ p, (before.1.Voices v).Source = some p →
        (before.2.Sources p).state ≠ SourceState.AL_PLAYING →
        (before.2.Sources p).state ≠ SourceState.AL_PAUSED →
        mid = [] ∧ after.1.Voices v = { before.1.Voices v with Source := none } ∧
          after.2 = before.2) ∧
      (∀ p, (before.1.Voices v).Source = some p →
        (before.2.Sources p).state = SourceState.AL_PAUSED →
        (mid = [] ∨ mid = [(MixCount, MixEvent.Update ci v)]) ∧
          after.2.world = before.2.world ∧ after.2.DryBuffer = before.2.DryBuffer ∧
          after.2.WetBuffer = before.2.WetBuffer ∧ (after.1.Voices v).Source = some p) ∧
      (∀ p, (before.1.Voices v).Source = some p →
        (before.2.Sources p).state = SourceState.AL_PLAYING →
        mid = [(MixCount, MixEvent.MixSource ci v SamplesToDo)] ∨
          mid = [(MixCount, MixEvent.Update ci v),
            (MixCount, MixEvent.MixSource ci v SamplesToDo)]) := by
  intro body before after final
  obtain ⟨pre, hpre, hpreE⟩ := voiceLoop_events lm ext mx cfg device MixCount SamplesToDo ci
    DeferUpdates UpdateSources 0 v s
  simp only [Nat.zero_add] at hpre hpreE
  obtain ⟨mid, hmid, -⟩ := mixVoice_events lm ext mx cfg device MixCount SamplesToDo ci
    DeferUpdates UpdateSources v before
  obtain ⟨post, hpost, hpostE⟩ := voiceLoop_events lm ext mx cfg device MixCount SamplesToDo ci
    DeferUpdates UpdateSources (v + 1) (n - (v + 1)) after
  have hfinal : final = forLoop (n - (v + 1)) (fun i => body (v + 1 + i)) after := by
    show forLoop n body s = _
    have hn : n = (v + 1) + (n - (v + 1)) := by omega
    conv_lhs => rw [hn]
    exact forLoop_add _ _ _ _
  have hafter : after = body v before := rfl
  have hbefore : before.2.trace = s.2.trace ++ pre := hpre
  have hmid' : after.2.trace = before.2.trace ++ mid := hmid
  refine ⟨pre, mid, post, hbefore, ?_, ?_, ?_, ?_, ?_, ?_, ?_, ?_⟩
  · rw [hmid', hbefore]
  · rw [hfinal]
    refine hpost.trans ?_
    rw [hmid', hbefore]
  · intro e he
    rcases List.mem_append.mp he with he | he
    · obtain ⟨w, -, hw, hE⟩ := hpreE e he
      rcases hE with ⟨-, rfl⟩ | rfl
      · refine ⟨?_, fun k => ?_⟩
        · intro h
          injection h with _ h'
          omega
        · intro h
          cases h
      · refine ⟨?_, fun k => ?_⟩
        · intro h
          cases h
        · intro h
          injection h with _ h' _
          omega
    · obtain ⟨w, hw, -, hE⟩ := hpostE e he
      rcases hE with ⟨-, rfl⟩ | rfl
      · refine ⟨?_, fun k => ?_⟩
        · intro h
          injection h with _ h'
          omega
        · intro h
          cases h
      · refine ⟨?_, fun k => ?_⟩
        · intro h
          cases h
        · intro h
          injection h with _ h' _
          omega
  · rw [hfinal]
    exact voiceLoop_Voices_other lm ext mx cfg device MixCount SamplesToDo ci DeferUpdates
      UpdateSources (v + 1) (n - (v + 1)) v (by omega) after
  · intro hS
    have h := mixVoice_none lm ext mx cfg device MixCount SamplesToDo ci DeferUpdates
      UpdateSources v before hS
    have h' : after = before := h
    refine ⟨?_, h'⟩
    rw [h'] at hmid'
    exact (List.append_right_eq_self.mp hmid'.symm)
  · intro p hS h1 h2
    have h := mixVoice_stopped lm ext mx cfg device MixCount SamplesToDo ci DeferUpdates
      UpdateSources v before p hS h1 h2
    have h' : after = _ := h
    have h2' : after.2 = before.2 := by rw [h']
    refine ⟨?_, ?_, h2'⟩
    · rw [h2'] at hmid'
      exact (List.append_right_eq_self.mp hmid'.symm)
    · rw [h']
      exact Function.update_same _ _ _
  · intro p hS hP
    obtain ⟨ht, hw, hd, hwet, hsrc, -, -⟩ := mixVoice_paused lm ext mx cfg device MixCount
      SamplesToDo ci DeferUpdates UpdateSources v before p hS hP
    refine ⟨?_, hw, hd, hwet, hsrc⟩
    have ht' : after.2.trace = _ := ht
    rw [hmid'] at ht'
    have := List.append_cancel_left ht'
    rw [this]
    split_ifs
    · exact Or.inr rfl
    · exact Or.inl rfl
  · intro p hS hP
    have ht := mixVoice_playing lm ext mx cfg device MixCount
      SamplesToDo ci DeferUpdates UpdateSources v before p hS hP
    have ht' : after.2.trace = _ := ht
    rw [hmid', List.append_assoc] at ht'
    have := List.append_cancel_left ht'
    rw [this]
    split_ifs
    · exact Or.inr rfl
    · exact Or.inl rfl

end VoiceHandling

section VoiceHandlingInstance

/-- Claim C27 on the sample context (three voices; the sources of voices 0 and 2 are playing,
the source of voice 1 is paused), for voice 0 in a slice of 4 samples mixed while `MixCount` is
1: the calls made for it are its `MixSource`, once, possibly preceded by its update, and the
calls made for the other voices hold neither. -/
theorem voice_handling_witness :
    0 < 3 ∧
    ∃ pre mid post : List (Nat × MixEvent ℚ),
      (forLoop 3 (mixVoice Sample.libm Sample.externs Sample.mixerExterns Sample.consts
        Sample.device 1 4 0 false true) (Sample.mixerContext, Sample.mixerMemory)).2.trace =
          Sample.mixerMemory.trace ++ pre ++ mid ++ post ∧
      (∀ e ∈ pre ++ post,
        e.2 ≠ MixEvent.Update 0 0 ∧ ∀ k, e.2 ≠ MixEvent.MixSource 0 0 k) ∧
      (mid = [(1, MixEvent.MixSource 0 0 4)] ∨
        mid = [(1, MixEvent.Update 0 0), (1, MixEvent.MixSource 0 0 4)]) := by
  obtain ⟨pre, mid, post, -, -, h3, h4, -, -, -, -, h9⟩ :=
    voice_handling Sample.libm Sample.externs Sample.mixerExterns Sample.consts
      Sample.device 1 4 0 false true 3 0 (by decide) (Sample.mixerContext, Sample.mixerMemory)
  exact ⟨by decide, pre, mid, post, h3, h4, h9 0 rfl rfl⟩

end VoiceHandlingInstance


section Deferred

variable {K : Type} [LinearOrderedField K] [FloorRing K] {σ : Type}

omit [FloorRing K] in
/-- With updates deferred the slot loop makes one call per slot, `process`, and leaves the
`NeedsUpdate` flags of the slots as they are. -/
theorem mixSlot_deferred (mx : MixerExterns K σ) (device : ALCdevice K)
    (MixCount SamplesToDo : Nat) (mem : MixerMemory K σ) (slot : ALeffectslot K) :
    (mixSlot mx device MixCount SamplesToDo true mem slot).trace =
      mem.trace ++ [(MixCount, MixEvent.EffectState_process slot.WetBuffer SamplesToDo)] ∧
    (mixSlot mx device MixCount SamplesToDo true mem slot).SlotNeedsUpdate =
      mem.SlotNeedsUpdate := by
  unfold mixSlot
  simp [MixerMemory.log]

omit [FloorRing K] in
theorem mixSlots_deferred (mx : MixerExterns K σ) (device : ALCdevice K)
    (MixCount SamplesToDo : Nat) (slots : List (ALeffectslot K)) (mem : MixerMemory K σ) :
    (slots.foldl (mixSlot mx device MixCount SamplesToDo true) mem).trace =
      mem.trace ++ slots.map (fun slot =>
        (MixCount, MixEvent.EffectState_process slot.WetBuffer SamplesToDo)) ∧
    (slots.foldl (mixSlot mx device MixCount SamplesToDo true) mem).SlotNeedsUpdate =
      mem.SlotNeedsUpdate := by
  induction slots generalizing mem with
  | nil => simp
  | cons slot rest ih =>
    rw [List.foldl_cons]
    obtain ⟨h1, h2⟩ := ih (mixSlot mx device MixCount SamplesToDo true mem slot)
    obtain ⟨h3, h4⟩ := mixSlot_deferred mx device MixCount SamplesToDo mem slot
    refine ⟨?_, h2.trans h4⟩
    rw [h1, h3, List.map_cons, List.append_assoc, List.singleton_append]

/-- A visit of the voice loop leaves the `NeedsUpdate` flags of the slots as they are. -/
theorem mixVoice_SlotNeedsUpdate (lm : Libm K) (ext : Externs K) (mx : MixerExterns K σ)
    (cfg : Consts K) (device : ALCdevice K) (MixCount SamplesToDo ci : Nat)
    (DeferUpdates UpdateSources : Bool) (v : Nat) (s : ContextObject K × MixerMemory K σ) :
    (mixVoice lm ext mx cfg device MixCount SamplesToDo ci DeferUpdates UpdateSources v
      s).2.SlotNeedsUpdate = s.2.SlotNeedsUpdate := by
  unfold mixVoice
  simp only []
  cases (s.1.Voices v).Source with
  | none => rfl
  | some p =>
    simp only []
    split_ifs <;> rfl

theorem voiceLoop_SlotNeedsUpdate (lm : Libm K) (ext : Externs K) (mx : MixerExterns K σ)
    (cfg : Consts K) (device : ALCdevice K) (MixCount SamplesToDo ci : Nat)
    (DeferUpdates UpdateSources : Bool) (n : Nat) (s : ContextObject K × MixerMemory K σ) :
    (forLoop n (mixVoice lm ext mx cfg device MixCount SamplesToDo ci DeferUpdates
      UpdateSources) s).2.SlotNeedsUpdate = s.2.SlotNeedsUpdate := by
  induction n with
  | zero => rfl
  | succ n ih => rw [forLoop_succ, mixVoice_SlotNeedsUpdate, ih]

/-- The calls of the whole voice loop: they are about the voices of the loop, and `MixSource`
is among them for every voice whose source is playing when the loop reaches it. -/
theorem voiceLoop_calls (lm : Libm K) (ext : Externs K) (mx : MixerExterns K σ)
    (cfg : Consts K) (device : ALCdevice K) (MixCount SamplesToDo ci : Nat)
    (DeferUpdates UpdateSources : Bool) (n : Nat) (s : ContextObject K × MixerMemory K σ) :
    ∃ new : List (Nat × MixEvent K),
      (forLoop n (mixVoice lm ext mx cfg device MixCount SamplesToDo ci DeferUpdates
        UpdateSources) s).2.trace = s.2.trace ++ new ∧
      (∀ e ∈ new, ∃ w, w < n ∧
        ((DeferUpdates = false ∧ e = (MixCount, MixEvent.Update ci w)) ∨
          e = (MixCount, MixEvent.MixSource ci w SamplesToDo))) ∧
      (∀ v, v < n → ∀ p,
        ((forLoop v (mixVoice lm ext mx cfg device MixCount SamplesToDo ci DeferUpdates
          UpdateSources) s).1.Voices v).Source = some p →
        ((forLoop v (mixVoice lm ext mx cfg device MixCount SamplesToDo ci DeferUpdates
          UpdateSources) s).2.Sources p).state = SourceState.AL_PLAYING →
        (MixCount, MixEvent.MixSource ci v SamplesToDo) ∈ new) := by
  induction n with
  | zero => exact ⟨[], (List.append_nil _).symm, by simp, by simp⟩
  | succ n ih =>
    obtain ⟨new, h1, h2, h3⟩ := ih
    obtain ⟨mid, h4, h5⟩ := mixVoice_events lm ext mx cfg device MixCount SamplesToDo ci
      DeferUpdates UpdateSources n
      (forLoop n (mixVoice lm ext mx cfg device MixCount SamplesToDo ci DeferUpdates
        UpdateSources) s)
    refine ⟨new ++ mid, ?_, ?_, ?_⟩
    · rw [forLoop_succ, h4, h1, List.append_assoc]
    · intro e he
      rcases List.mem_append.mp he with he | he
      · obtain ⟨w, hw, hE⟩ := h2 e he
        exact ⟨w, by omega, hE⟩
      · exact ⟨n, by omega, h5 e he⟩
    · intro v hv p hS hP
      by_cases hvn : v = n
      · subst hvn
        have ht := mixVoice_playing lm ext mx cfg device MixCount SamplesToDo ci DeferUpdates
          UpdateSources v _ p hS hP
        rw [h4, List.append_assoc] at ht
        have hm := List.append_cancel_left ht
        rw [hm]
        exact List.mem_append_right _ (List.mem_append_right _ (List.mem_singleton.mpr rfl))
      · exact List.mem_append_left _ (h3 v (by omega) p hS hP)

/-- The pass of the context loop for the first context of the list does not depend on the
contexts that follow. -/
theorem mixContexts_cons (lm : Libm K) (ext : Externs K) (mx : MixerExterns K σ)
    (cfg : Consts K) (device : ALCdevice K) (MixCount SamplesToDo ci : Nat)
    (ctx : ContextObject K) (next : List (ContextObject K)) (mem : MixerMemory K σ) :
    mixContexts lm ext mx cfg device MixCount SamplesToDo ci (ctx :: next) mem =
      ((mixContexts lm ext mx cfg device MixCount SamplesToDo ci [ctx] mem).1 ++
        (mixContexts lm ext mx cfg device MixCount SamplesToDo (ci + 1) next
          (mixContexts lm ext mx cfg device MixCount SamplesToDo ci [ctx] mem).2).1,
        (mixContexts lm ext mx cfg device MixCount SamplesToDo (ci + 1) next
          (mixContexts lm ext mx cfg device MixCount SamplesToDo ci [ctx] mem).2).2) := by
  simp only [mixContexts, List.singleton_append]

/-- The pass of the context loop for a context with deferred updates: the voice loop and the
slot loop run with `DeferUpdates` true and `UpdateSources` false on the context as it is. -/
theorem mixContexts_single_deferred (lm : Libm K) (ext : Externs K) (mx : MixerExterns K σ)
    (cfg : Consts K) (device : ALCdevice K) (MixCount SamplesToDo ci : Nat)
    (ctx : ContextObject K) (mem : MixerMemory K σ) (hD : ctx.DeferUpdates = true) :
    mixContexts lm ext mx cfg device MixCount SamplesToDo ci [ctx] mem =
      ([(forLoop ctx.VoiceCount (mixVoice lm ext mx cfg device MixCount SamplesToDo ci true
          false) (ctx, mem)).1],
        (forLoop ctx.VoiceCount (mixVoice lm ext mx cfg device MixCount SamplesToDo ci true
          false) (ctx, mem)).1.ActiveAuxSlots.foldl
          (mixSlot mx device MixCount SamplesToDo true)
          (forLoop ctx.VoiceCount (mixVoice lm ext mx cfg device MixCount SamplesToDo ci true
            false) (ctx, mem)).2) := by
  simp [mixContexts, hD]

/-- A visit of the voice loop leaves the fields of the context other than the voices as they
are. -/
theorem mixVoice_ActiveAuxSlots (lm : Libm K) (ext : Externs K) (mx : MixerExterns K σ)
    (cfg : Consts K) (device : ALCdevice K) (MixCount SamplesToDo ci : Nat)
    (DeferUpdates UpdateSources : Bool) (v : Nat) (s : ContextObject K × MixerMemory K σ) :
    (mixVoice lm ext mx cfg device MixCount SamplesToDo ci DeferUpdates UpdateSources v
      s).1.ActiveAuxSlots = s.1.ActiveAuxSlots := by
  unfold mixVoice
  simp only []
  cases (s.1.Voices v).Source with
  | none => rfl
  | some p =>
    simp only []
    split_ifs <;> rfl

theorem voiceLoop_ActiveAuxSlots (lm : Libm K) (ext : Externs K) (mx : MixerExterns K σ)
    (cfg : Consts K) (device : ALCdevice K) (MixCount SamplesToDo ci : Nat)
    (DeferUpdates UpdateSources : Bool) (n : Nat) (s : ContextObject K × MixerMemory K σ) :
    (forLoop n (mixVoice lm ext mx cfg device MixCount SamplesToDo ci DeferUpdates
      UpdateSources) s).1.ActiveAuxSlots = s.1.ActiveAuxSlots := by
  induction n with
  | zero => rfl
  | succ n ih => rw [forLoop_succ, mixVoice_ActiveAuxSlots, ih]

/-- The context loop over contexts that all defer their updates leaves the `NeedsUpdate` flags
of the slots as they are. -/
theorem mixContexts_SlotNeedsUpdate (lm : Libm K) (ext : Externs K) (mx : MixerExterns K σ)
    (cfg : Consts K) (device : ALCdevice K) (MixCount SamplesToDo ci : Nat)
    (l : List (ContextObject K)) (mem : MixerMemory K σ)
    (hall : ∀ ctx ∈ l, ctx.DeferUpdates = true) :
    (mixContexts lm ext mx cfg device MixCount SamplesToDo ci l mem).2.SlotNeedsUpdate =
      mem.SlotNeedsUpdate := by
  induction l generalizing ci mem with
  | nil => rfl
  | cons ctx next ih =>
    rw [mixContexts_cons]
    show (mixContexts lm ext mx cfg device MixCount SamplesToDo (ci + 1) next _).2.SlotNeedsUpdate
      = _
    rw [ih _ _ (fun c hc => hall c (List.mem_cons_of_mem _ hc)),
      mixContexts_single_deferred _ _ _ _ _ _ _ _ _ _ (hall ctx (List.mem_cons_self _ _))]
    exact ((mixSlots_deferred mx device MixCount SamplesToDo _ _).2).trans
      (voiceLoop_SlotNeedsUpdate lm ext mx cfg device MixCount SamplesToDo ci true false _ _)

omit [LinearOrderedField K] [FloorRing K] in
theorem log_mem (mem : MixerMemory K σ) (c : Nat) (e' : MixEvent K) {e : Nat × MixEvent K}
    (he : e ∈ mem.trace) : e ∈ (mem.log c e').trace :=
  List.mem_append_left _ he

omit [LinearOrderedField K] [FloorRing K] in
theorem hrtfLoop_mem (mx : MixerExterns K σ)
    (MixCount NumChannels OutBuffer Offset irsize SamplesToDo : Nat) (mem : MixerMemory K σ)
    {e : Nat × MixEvent K} (he : e ∈ mem.trace) :
    e ∈ (hrtfLoop mx MixCount NumChannels OutBuffer Offset irsize SamplesToDo mem).trace := by
  obtain ⟨new, hn, -⟩ := hrtfLoop_trace (fun _ => True) mx MixCount NumChannels OutBuffer Offset
    irsize SamplesToDo trivial mem
  rw [hn]
  exact List.mem_append_left _ he

omit [LinearOrderedField K] [FloorRing K] in
theorem crossFeedLoop_mem (mx : MixerExterns K σ) (MixCount SamplesToDo : Nat)
    (mem : MixerMemory K σ) {e : Nat × MixEvent K} (he : e ∈ mem.trace) :
    e ∈ (crossFeedLoop mx MixCount SamplesToDo mem).trace := by
  obtain ⟨new, hn, -⟩ := crossFeedLoop_trace (fun _ => True) mx MixCount SamplesToDo trivial mem
  rw [hn]
  exact List.mem_append_left _ he

omit [FloorRing K] in
/-- The statements for the device's default slot call `update` when the `NeedsUpdate` flag of
the slot is set. -/
theorem mixSlot_update_mem (mx : MixerExterns K σ) (device : ALCdevice K)
    (MixCount SamplesToDo : Nat) (mem : MixerMemory K σ) (slot : ALeffectslot K)
    (hN : mem.SlotNeedsUpdate slot.WetBuffer = true) :
    (MixCount, MixEvent.EffectState_update slot.WetBuffer) ∈
      (mixSlot mx device MixCount SamplesToDo false mem slot).trace := by
  unfold mixSlot
  simp [MixerMemory.log, hN]

/-- In a slice on a device whose contexts all defer their updates, the default slot is
updated all the same when its `NeedsUpdate` flag is set. -/
theorem aluMixSlice_defaultSlot_update (lm : Libm K) (ext : Externs K)
    (mx : MixerExterns K σ) (cfg : Consts K) (s : MixSlice K σ) (slot : ALeffectslot K)
    (hS : s.device.DefaultSlot = some slot)
    (hall : ∀ ctx ∈ s.device.ContextList, ctx.DeferUpdates = true)
    (hN : s.mem.SlotNeedsUpdate slot.WetBuffer = true) :
    (s.device.MixCount + 1, MixEvent.EffectState_update slot.WetBuffer) ∈
      (aluMixSlice lm ext mx cfg s).mem.trace := by
  have hD : ∀ m : MixerMemory K σ, m.SlotNeedsUpdate slot.WetBuffer = true →
      (s.device.MixCount + 1, MixEvent.EffectState_update slot.WetBuffer) ∈
      (match s.device.DefaultSlot with
        | some slot => mixSlot mx s.device.toALCdevice (IncrementRef s.device.MixCount)
            (minu s.size.toNat cfg.BUFFERSIZE) false m slot
        | none => m).trace := by
    intro m hm
    rw [hS]
    exact mixSlot_update_mem mx _ _ _ m slot hm
  unfold aluMixSlice
  simp only []
  refine log_mem _ _ _ ?_
  cases hH : s.device.Hrtf with
  | some H =>
    simp only [Option.isSome_some, if_true]
    refine hrtfLoop_mem mx _ _ _ _ _ _ _ ?_
    refine log_mem _ _ _ ?_
    refine hD _ ?_
    rw [mixContexts_SlotNeedsUpdate _ _ _ _ _ _ _ _ _ _ hall]
    exact hN
  | none =>
    simp only [Option.isSome_none, Bool.false_eq_true, if_false]
    split_ifs
    · refine crossFeedLoop_mem mx _ _ _ ?_
      refine log_mem _ _ _ ?_
      refine hD _ ?_
      rw [mixContexts_SlotNeedsUpdate _ _ _ _ _ _ _ _ _ _ hall]
      exact hN
    · refine log_mem _ _ _ ?_
      refine hD _ ?_
      rw [mixContexts_SlotNeedsUpdate _ _ _ _ _ _ _ _ _ _ hall]
      exact hN

end Deferred

section DeferredUpdates

variable {K : Type} [LinearOrderedField K] [FloorRing K] {σ : Type}

/-- C21 (counterexample): the one context of the sample device `deferDevice` defers its
updates, the device has the default slot `reverbSlot` (wet buffer 7), and the `NeedsUpdate`
flag of the slot is set.  The slice calls the `update` function of the default slot all the
same. -/
theorem deferred_default_slot_counterexample :
    (∀ ctx ∈ Sample.deferDevice.ContextList, ctx.DeferUpdates = true) ∧
    Sample.deferDevice.DefaultSlot = some Sample.reverbSlot ∧
    Sample.pendingMemory.SlotNeedsUpdate Sample.reverbSlot.WetBuffer = true ∧
    (1, MixEvent.EffectState_update 7) ∈
      (aluMixSlice Sample.libm Sample.externs Sample.mixerExterns Sample.smallConsts
        { device := Sample.deferDevice, mem := Sample.pendingMemory, buffer := none,
          size := 4 }).mem.trace := by
  have hall : ∀ ctx ∈ Sample.deferDevice.ContextList, ctx.DeferUpdates = true := by
    intro ctx hctx
    rw [List.mem_singleton.mp hctx]
    rfl
  exact ⟨hall, rfl, rfl,
    aluMixSlice_defaultSlot_update Sample.libm Sample.externs Sample.mixerExterns
      Sample.smallConsts
      { device := Sample.deferDevice, mem := Sample.pendingMemory, buffer := none, size := 4 }
      Sample.reverbSlot rfl hall rfl⟩

/-- Claim C21 (deferred updates), amended.  The pass of the context loop for a context does
not depend on the contexts after it.  For a context whose `DeferUpdates` is true the calls of
the pass are, in this order, calls of `MixSource` for voices of the context, among them one for
every voice whose source is playing when the voice loop reaches it, and then one call of
`process` for each active effect slot of the context: there is no listener rebuild, no voice
update and no update of an effect slot of the context.  The device's default slot is outside
the deferral: in a slice on a device whose contexts all defer their updates, the `update`
function of the default slot is called when the `NeedsUpdate` flag of the slot is set. -/
theorem deferred_updates (lm : Libm K) (ext : Externs K) (mx : MixerExterns K σ)
    (cfg : Consts K) (device : ALCdevice K) (MixCount SamplesToDo ci : Nat)
    (ctx : ContextObject K) (next : List (ContextObject K)) (mem : MixerMemory K σ)
    (hD : ctx.DeferUpdates = true) :
    mixContexts lm ext mx cfg device MixCount SamplesToDo ci (ctx :: next) mem =
      ((mixContexts lm ext mx cfg device MixCount SamplesToDo ci [ctx] mem).1 ++
        (mixContexts lm ext mx cfg device MixCount SamplesToDo (ci + 1) next
          (mixContexts lm ext mx cfg device MixCount SamplesToDo ci [ctx] mem).2).1,
        (mixContexts lm ext mx cfg device MixCount SamplesToDo (ci + 1) next
          (mixContexts lm ext mx cfg device MixCount SamplesToDo ci [ctx] mem).2).2) ∧
    (∃ voiceCalls : List (Nat × MixEvent K),
      (mixContexts lm ext mx cfg device MixCount SamplesToDo ci [ctx] mem).2.trace =
        mem.trace ++ voiceCalls ++ ctx.ActiveAuxSlots.map (fun slot =>
          (MixCount, MixEvent.EffectState_process slot.WetBuffer SamplesToDo)) ∧
      (∀ e ∈ voiceCalls, ∃ v, v < ctx.VoiceCount ∧
        e = (MixCount, MixEvent.MixSource ci v SamplesToDo)) ∧
      (∀ v, v < ctx.VoiceCount → ∀ p,
        ((forLoop v (mixVoice lm ext mx cfg device MixCount SamplesToDo ci true false)
          (ctx, mem)).1.Voices v).Source = some p →
        ((forLoop v (mixVoice lm ext mx cfg device MixCount SamplesToDo ci true false)
          (ctx, mem)).2.Sources p).state = SourceState.AL_PLAYING →
        (MixCount, MixEvent.MixSource ci v SamplesToDo) ∈ voiceCalls)) ∧
    (∀ (s : MixSlice K σ) (slot : ALeffectslot K),
      s.device.DefaultSlot = some slot →
      (∀ c ∈ s.device.ContextList, c.DeferUpdates = true) →
      s.mem.SlotNeedsUpdate slot.WetBuffer = true →
      (s.device.MixCount + 1, MixEvent.EffectState_update slot.WetBuffer) ∈
        (aluMixSlice lm ext mx cfg s).mem.trace) := by
  refine ⟨mixContexts_cons lm ext mx cfg device MixCount SamplesToDo ci ctx next mem, ?_,
    fun s slot hS hall hN => aluMixSlice_defaultSlot_update lm ext mx cfg s slot hS hall hN⟩
  obtain ⟨new, h1, h2, h3⟩ := voiceLoop_calls lm ext mx cfg device MixCount SamplesToDo ci
    true false ctx.VoiceCount (ctx, mem)
  refine ⟨new, ?_, ?_, h3⟩
  · rw [mixContexts_single_deferred lm ext mx cfg device MixCount SamplesToDo ci ctx mem hD]
    show (List.foldl (mixSlot mx device MixCount SamplesToDo true) _ _).trace = _
    rw [(mixSlots_deferred mx device MixCount SamplesToDo _ _).1, h1,
      voiceLoop_ActiveAuxSlots]
  · intro e he
    obtain ⟨w, hw, hE⟩ := h2 e he
    rcases hE with ⟨hf, -⟩ | hE
    · exact absurd hf (by decide)
    · exact ⟨w, hw, hE⟩

end DeferredUpdates

section DeferredUpdatesInstance

/-- The amended claim C21 on the sample context with deferred updates (three voices, the
active slot with the wet buffer 3, a context update pending) in a slice of 4 samples mixed
while `MixCount` is 1: the calls are `MixSource` calls of the context's voices, among them the
one of voice 0, followed by the one `process` call of the slot. -/
theorem deferred_updates_witness :
    Sample.deferContext.DeferUpdates = true ∧
    ∃ voiceCalls : List (Nat × MixEvent ℚ),
      (mixContexts Sample.libm Sample.externs Sample.mixerExterns Sample.smallConsts
        Sample.defaultSlotDevice 1 4 0 [Sample.deferContext] Sample.pendingMemory).2.trace =
        voiceCalls ++ [(1, MixEvent.EffectState_process 3 4)] ∧
      (∀ e ∈ voiceCalls, ∃ v, v < 3 ∧ e = (1, MixEvent.MixSource 0 v 4)) ∧
      (1, MixEvent.MixSource 0 0 4) ∈ voiceCalls := by
  obtain ⟨-, ⟨voiceCalls, h1, h2, h3⟩, -⟩ :=
    deferred_updates Sample.libm Sample.externs Sample.mixerExterns Sample.smallConsts
      Sample.defaultSlotDevice 1 4 0 Sample.deferContext [] Sample.pendingMemory rfl
  refine ⟨rfl, voiceCalls, ?_, h2, h3 0 (by decide) 0 rfl rfl⟩
  rw [h1]
  show [] ++ voiceCalls ++ [(1, MixEvent.EffectState_process 3 4)] = _
  rw [List.nil_append]

end DeferredUpdatesInstance


section ListenerIsometry

variable {K : Type} [LinearOrderedField K]

/-- The image of a world point with `w = 1` under the matrix of `CalcListenerParams` for an
orthonormal `AT`, `UP`: the components of the offset from the listener along the right
vector `AT x UP`, along `UP`, and against `AT`. -/
theorem CalcListenerParams_image (lm : Libm K) (hsqrt : lm.sqrtf 1 = 1)
    (Listener : ALlistener K)
    (hN : Listener.Forward.e0 * Listener.Forward.e0 + Listener.Forward.e1 * Listener.Forward.e1 +
      Listener.Forward.e2 * Listener.Forward.e2 = 1)
    (hV : Listener.Up.e0 * Listener.Up.e0 + Listener.Up.e1 * Listener.Up.e1 +
      Listener.Up.e2 * Listener.Up.e2 = 1)
    (hNV : Listener.Forward.e0 * Listener.Up.e0 + Listener.Forward.e1 * Listener.Up.e1 +
      Listener.Forward.e2 * Listener.Up.e2 = 0)
    (p : aluVector K) (hw : p.v3 = 1) :
    aluMatrixVector p (CalcListenerParams lm Listener).Params.Matrix =
      { v0 := (aluCrossproduct Listener.Forward Listener.Up).e0 * (p.v0 - Listener.Position.v0) +
          (aluCrossproduct Listener.Forward Listener.Up).e1 * (p.v1 - Listener.Position.v1) +
          (aluCrossproduct Listener.Forward Listener.Up).e2 * (p.v2 - Listener.Position.v2)
        v1 := Listener.Up.e0 * (p.v0 - Listener.Position.v0) +
          Listener.Up.e1 * (p.v1 - Listener.Position.v1) +
          Listener.Up.e2 * (p.v2 - Listener.Position.v2)
        v2 := -(Listener.Forward.e0 * (p.v0 - Listener.Position.v0) +
          Listener.Forward.e1 * (p.v1 - Listener.Position.v1) +
          Listener.Forward.e2 * (p.v2 - Listener.Position.v2))
        v3 := 1 } := by
  rw [CalcListenerParams_Matrix lm hsqrt Listener hN hV hNV]
  simp only [aluMatrixVector, aluMatrixSetRow, aluMatrixSet, aluVectorSet, aluCrossproduct,
    aluVector.mk.injEq, hw]
  refine ⟨?_, ?_, ?_, ?_⟩
  all_goals ring1

/-- The squared length of the coordinates of a vector in the frame `AT x UP`, `UP`, `-AT` of
an orthonormal `AT`, `UP` is the squared length of the vector. -/
theorem orthonormal_frame_length (N V : Float3 K) (d0 d1 d2 : K)
    (hN : N.e0 * N.e0 + N.e1 * N.e1 + N.e2 * N.e2 = 1)
    (hV : V.e0 * V.e0 + V.e1 * V.e1 + V.e2 * V.e2 = 1)
    (hNV : N.e0 * V.e0 + N.e1 * V.e1 + N.e2 * V.e2 = 0) :
    ((aluCrossproduct N V).e0 * d0 + (aluCrossproduct N V).e1 * d1 +
        (aluCrossproduct N V).e2 * d2) *
      ((aluCrossproduct N V).e0 * d0 + (aluCrossproduct N V).e1 * d1 +
        (aluCrossproduct N V).e2 * d2) +
      (V.e0 * d0 + V.e1 * d1 + V.e2 * d2) * (V.e0 * d0 + V.e1 * d1 + V.e2 * d2) +
      -(N.e0 * d0 + N.e1 * d1 + N.e2 * d2) * -(N.e0 * d0 + N.e1 * d1 + N.e2 * d2) =
      d0 * d0 + d1 * d1 + d2 * d2 := by
  unfold aluCrossproduct
  simp only []
  linear_combination
    ((d0 * d0 + d1 * d1 + d2 * d2) * (V.e0 * V.e0 + V.e1 * V.e1 + V.e2 * V.e2) -
      (V.e0 * d0 + V.e1 * d1 + V.e2 * d2) * (V.e0 * d0 + V.e1 * d1 + V.e2 * d2)) * hN +
    ((d0 * d0 + d1 * d1 + d2 * d2) -
      (N.e0 * d0 + N.e1 * d1 + N.e2 * d2) * (N.e0 * d0 + N.e1 * d1 + N.e2 * d2)) * hV +
    (2 * (V.e0 * d0 + V.e1 * d1 + V.e2 * d2) * (N.e0 * d0 + N.e1 * d1 + N.e2 * d2) -
      (d0 * d0 + d1 * d1 + d2 * d2) * (N.e0 * V.e0 + N.e1 * V.e1 + N.e2 * V.e2)) * hNV

/-- Claim C35 (listener isometry).  For every listener position `P`, every orthonormal pair
`AT`, `UP` (and a `sqrtf` with `sqrtf(1) = 1`) and every world point `p` with `w = 1`: the
image of `p` under the matrix of `CalcListenerParams` has the squared Euclidean length
`|p - P|^2`; it is not changed when `p` and `P` are moved by the same offset `t`, so it depends
on `p` and `P` only through `p - P`; and the `Distance` that `CalcSourceParams` computes for a
source at `p` that is not head-relative, in a context whose listener parameters are those of
`CalcListenerParams`, is `sqrtf(|p - P|^2)`, the world distance between the source and the
listener. -/
theorem listener_isometry (lm : Libm K) (hsqrt : lm.sqrtf 1 = 1) (Listener : ALlistener K)
    (hN : Listener.Forward.e0 * Listener.Forward.e0 + Listener.Forward.e1 * Listener.Forward.e1 +
      Listener.Forward.e2 * Listener.Forward.e2 = 1)
    (hV : Listener.Up.e0 * Listener.Up.e0 + Listener.Up.e1 * Listener.Up.e1 +
      Listener.Up.e2 * Listener.Up.e2 = 1)
    (hNV : Listener.Forward.e0 * Listener.Up.e0 + Listener.Forward.e1 * Listener.Up.e1 +
      Listener.Forward.e2 * Listener.Up.e2 = 0)
    (p : aluVector K) (hw : p.v3 = 1) :
    aluDotproduct (aluMatrixVector p (CalcListenerParams lm Listener).Params.Matrix)
        (aluMatrixVector p (CalcListenerParams lm Listener).Params.Matrix) =
      (p.v0 - Listener.Position.v0) * (p.v0 - Listener.Position.v0) +
        (p.v1 - Listener.Position.v1) * (p.v1 - Listener.Position.v1) +
        (p.v2 - Listener.Position.v2) * (p.v2 - Listener.Position.v2) ∧
    (∀ t0 t1 t2 : K,
      aluMatrixVector { v0 := p.v0 + t0, v1 := p.v1 + t1, v2 := p.v2 + t2, v3 := p.v3 }
          (CalcListenerParams lm { Listener with
            Position := { v0 := Listener.Position.v0 + t0, v1 := Listener.Position.v1 + t1
                          v2 := Listener.Position.v2 + t2
                          v3 := Listener.Position.v3 } }).Params.Matrix =
        aluMatrixVector p (CalcListenerParams lm Listener).Params.Matrix) ∧
    (∀ (cfg : Consts K) (ALSource : ALsource K) (ALContext : ALCcontext K),
      ALSource.HeadRelative = false → ALSource.Position = p →
      ALContext.Listener = CalcListenerParams lm Listener →
      (sourceLocals lm cfg ALSource ALContext).Distance =
        lm.sqrtf ((p.v0 - Listener.Position.v0) * (p.v0 - Listener.Position.v0) +
          (p.v1 - Listener.Position.v1) * (p.v1 - Listener.Position.v1) +
          (p.v2 - Listener.Position.v2) * (p.v2 - Listener.Position.v2))) := by
  have hlen : aluDotproduct (aluMatrixVector p (CalcListenerParams lm Listener).Params.Matrix)
      (aluMatrixVector p (CalcListenerParams lm Listener).Params.Matrix) =
      (p.v0 - Listener.Position.v0) * (p.v0 - Listener.Position.v0) +
        (p.v1 - Listener.Position.v1) * (p.v1 - Listener.Position.v1) +
        (p.v2 - Listener.Position.v2) * (p.v2 - Listener.Position.v2) := by
    rw [CalcListenerParams_image lm hsqrt Listener hN hV hNV p hw]
    exact orthonormal_frame_length Listener.Forward Listener.Up _ _ _ hN hV hNV
  refine ⟨hlen, ?_, ?_⟩
  · intro t0 t1 t2
    have h2 := CalcListenerParams_image lm hsqrt
      { Listener with
        Position := { v0 := Listener.Position.v0 + t0, v1 := Listener.Position.v1 + t1
                      v2 := Listener.Position.v2 + t2
                      v3 := Listener.Position.v3 } } hN hV hNV
      { v0 := p.v0 + t0, v1 := p.v1 + t1, v2 := p.v2 + t2, v3 := p.v3 } hw
    rw [CalcListenerParams_image lm hsqrt Listener hN hV hNV p hw, h2]
    simp only [aluVector.mk.injEq, and_true]
    refine ⟨?_, ?_, ?_⟩
    all_goals ring1
  · intro cfg ALSource ALContext hR hP hL
    have hD : (sourceLocals lm cfg ALSource ALContext).Distance =
        lm.sqrtf (aluDotproduct
          (aluMatrixVector ALSource.Position ALContext.Listener.Params.Matrix)
          (aluMatrixVector ALSource.Position ALContext.Listener.Params.Matrix)) := by
      unfold sourceLocals
      simp only [hR, if_true]
    rw [hD, hP, hL, hlen]

end ListenerIsometry

section ListenerIsometryInstance

/-- Claim C35 on the sample listener (at the origin, facing -Z, +Y up) and the world-space
sample source at (0,0,-2): the distance `CalcSourceParams` computes is `sqrtf(4)`, which is 2
with the sample `libm`. -/
theorem listener_isometry_witness :
    Sample.libm.sqrtf 1 = 1 ∧ Sample.worldSource.Position.v3 = 1 ∧
    (sourceLocals Sample.libm Sample.consts Sample.worldSource Sample.inverseContext).Distance =
      2 := by
  have h := (listener_isometry Sample.libm (by norm_num [Sample.libm]) Sample.listener
    (by norm_num [Sample.listener]) (by norm_num [Sample.listener])
    (by norm_num [Sample.listener]) Sample.worldSource.Position rfl).2.2 Sample.consts
    Sample.worldSource Sample.inverseContext rfl rfl rfl
  refine ⟨by norm_num [Sample.libm], rfl, ?_⟩
  rw [h]
  norm_num [Sample.libm, Sample.listener, Sample.worldSource, Sample.source]

end ListenerIsometryInstance


section DopplerBound

variable {K : Type} [LinearOrderedField K]

theorem clampf_mem (val lo hi : K) (h : lo ≤ hi) :
    lo ≤ clampf val lo hi ∧ clampf val lo hi ≤ hi := by
  unfold clampf
  rw [minf_eq_min, maxf_eq_max]
  exact ⟨le_min h (le_max_left _ _), min_le_left _ _⟩

/-- The doppler shift multiplies the pitch by the shift of the pitch 1. -/
theorem dopplerPitch_mul (Pitch DopplerFactor SpeedOfSound : K)
    (Velocity lvelocity SourceToListener : aluVector K) :
    dopplerPitch Pitch DopplerFactor SpeedOfSound Velocity lvelocity SourceToListener =
      Pitch * dopplerPitch 1 DopplerFactor SpeedOfSound Velocity lvelocity SourceToListener := by
  unfold dopplerPitch
  by_cases hD : DopplerFactor > 0
  · simp only [hD, if_true, one_mul]
  · simp only [hD, if_false, mul_one]

/-- The doppler shift of the pitch 1 lies between `1/(2c-1)` and `2c-1`, with `c` the larger
of the speed of sound and 1. -/
theorem dopplerPitch_one_bound (DopplerFactor SpeedOfSound : K)
    (Velocity lvelocity SourceToListener : aluVector K) :
    1 / (max SpeedOfSound 1 * 2 - 1) ≤
        dopplerPitch 1 DopplerFactor SpeedOfSound Velocity lvelocity SourceToListener ∧
      dopplerPitch 1 DopplerFactor SpeedOfSound Velocity lvelocity SourceToListener ≤
        max SpeedOfSound 1 * 2 - 1 := by
  have hM : (1 : K) ≤ max SpeedOfSound 1 * 2 - 1 := by
    have := le_max_right SpeedOfSound 1
    linarith
  have hpos : (0 : K) < max SpeedOfSound 1 * 2 - 1 := lt_of_lt_of_le one_pos hM
  unfold dopplerPitch
  by_cases hD : DopplerFactor > 0
  · simp only [hD, if_true, one_mul]
    have hS : (if SpeedOfSound < 1 then 1 else SpeedOfSound) = max SpeedOfSound 1 := by
      split_ifs with h1
      · exact (max_eq_right h1.le).symm
      · exact (max_eq_left (not_lt.mp h1)).symm
    rw [hS]
    generalize aluDotproduct lvelocity SourceToListener *
      (if SpeedOfSound < 1 then DopplerFactor * (1 / SpeedOfSound) else DopplerFactor) = VLS
    generalize aluDotproduct Velocity SourceToListener *
      (if SpeedOfSound < 1 then DopplerFactor * (1 / SpeedOfSound) else DopplerFactor) = VSS
    obtain ⟨ha1, ha2⟩ := clampf_mem (max SpeedOfSound 1 - VLS) 1 _ hM
    obtain ⟨hb1, hb2⟩ := clampf_mem (max SpeedOfSound 1 - VSS) 1 _ hM
    have hb0 : (0 : K) < clampf (max SpeedOfSound 1 - VSS) 1 (max SpeedOfSound 1 * 2 - 1) :=
      lt_of_lt_of_le one_pos hb1
    constructor
    · rw [div_le_div_iff₀ hpos hb0]
      nlinarith
    · rw [div_le_iff₀ hb0]
      nlinarith
  · simp only [hD, if_false]
    constructor
    · rw [div_le_iff₀ hpos]
      linarith
    · exact hM

/-- Claim C33 (doppler ratio bound).  In `CalcSourceParams`, with `c` the larger of
`SpeedOfSound * DopplerVelocity` and 1: the pitch after the doppler step is the source pitch
times a factor, the shift of the pitch 1, which lies in `[1/(2c-1), 2c-1]` for all velocities
(for an effective doppler factor above 0 it is the quotient of the two clamped terms, otherwise
the step is skipped and it is 1); and when `0 < SpeedOfSound * DopplerVelocity <= 1` the factor
is 1 and the doppler step leaves the pitch unchanged, whatever the source and listener
velocities. -/
theorem doppler_ratio_bound [FloorRing K] (lm : Libm K) (cfg : Consts K)
    (ALSource : ALsource K) (ALContext : ALCcontext K) :
    (sourceLocals lm cfg ALSource ALContext).Pitch =
      ALSource.Pitch *
        dopplerPitch 1 (ALContext.DopplerFactor * ALSource.DopplerFactor)
          (ALContext.SpeedOfSound * ALContext.DopplerVelocity)
          (sourceLocals lm cfg ALSource ALContext).Velocity ALContext.Listener.Params.Velocity
          (sourceLocals lm cfg ALSource ALContext).SourceToListener ∧
    1 / (max (ALContext.SpeedOfSound * ALContext.DopplerVelocity) 1 * 2 - 1) ≤
      dopplerPitch 1 (ALContext.DopplerFactor * ALSource.DopplerFactor)
        (ALContext.SpeedOfSound * ALContext.DopplerVelocity)
        (sourceLocals lm cfg ALSource ALContext).Velocity ALContext.Listener.Params.Velocity
        (sourceLocals lm cfg ALSource ALContext).SourceToListener ∧
    dopplerPitch 1 (ALContext.DopplerFactor * ALSource.DopplerFactor)
        (ALContext.SpeedOfSound * ALContext.DopplerVelocity)
        (sourceLocals lm cfg ALSource ALContext).Velocity ALContext.Listener.Params.Velocity
        (sourceLocals lm cfg ALSource ALContext).SourceToListener ≤
      max (ALContext.SpeedOfSound * ALContext.DopplerVelocity) 1 * 2 - 1 ∧
    (0 < ALContext.SpeedOfSound * ALContext.DopplerVelocity →
      ALContext.SpeedOfSound * ALContext.DopplerVelocity ≤ 1 →
      dopplerPitch 1 (ALContext.DopplerFactor * ALSource.DopplerFactor)
        (ALContext.SpeedOfSound * ALContext.DopplerVelocity)
        (sourceLocals lm cfg ALSource ALContext).Velocity ALContext.Listener.Params.Velocity
        (sourceLocals lm cfg ALSource ALContext).SourceToListener = 1 ∧
      (sourceLocals lm cfg ALSource ALContext).Pitch = ALSource.Pitch) := by
  have hP : (sourceLocals lm cfg ALSource ALContext).Pitch =
      dopplerPitch ALSource.Pitch (ALContext.DopplerFactor * ALSource.DopplerFactor)
        (ALContext.SpeedOfSound * ALContext.DopplerVelocity)
        (sourceLocals lm cfg ALSource ALContext).Velocity ALContext.Listener.Params.Velocity
        (sourceLocals lm cfg ALSource ALContext).SourceToListener := rfl
  have hmul := dopplerPitch_mul ALSource.Pitch (ALContext.DopplerFactor * ALSource.DopplerFactor)
    (ALContext.SpeedOfSound * ALContext.DopplerVelocity)
    (sourceLocals lm cfg ALSource ALContext).Velocity ALContext.Listener.Params.Velocity
    (sourceLocals lm cfg ALSource ALContext).SourceToListener
  obtain ⟨hlo, hhi⟩ := dopplerPitch_one_bound (ALContext.DopplerFactor * ALSource.DopplerFactor)
    (ALContext.SpeedOfSound * ALContext.DopplerVelocity)
    (sourceLocals lm cfg ALSource ALContext).Velocity ALContext.Listener.Params.Velocity
    (sourceLocals lm cfg ALSource ALContext).SourceToListener
  refine ⟨hP.trans hmul, hlo, hhi, ?_⟩
  intro _ h1
  have hc : max (ALContext.SpeedOfSound * ALContext.DopplerVelocity) 1 = 1 := max_eq_right h1
  rw [hc] at hlo hhi
  norm_num at hlo hhi
  have h1' := le_antisymm hhi hlo
  exact ⟨h1', by rw [hP.trans hmul, h1', mul_one]⟩

end DopplerBound

section DopplerBoundInstance

/-- Claim C33 on the world-space sample source moving with the velocity (3,0,4) past a
listener at rest, in a context with the speed of sound 1/2: the doppler factor is 1 and the
pitch after the doppler step is the source pitch. -/
theorem doppler_ratio_bound_witness :
    0 < Sample.slowContext.SpeedOfSound * Sample.slowContext.DopplerVelocity ∧
    Sample.slowContext.SpeedOfSound * Sample.slowContext.DopplerVelocity ≤ 1 ∧
    (sourceLocals Sample.libm Sample.consts Sample.movingSource Sample.slowContext).Pitch =
      Sample.movingSource.Pitch := by
  have h0 : 0 < Sample.slowContext.SpeedOfSound * Sample.slowContext.DopplerVelocity := by
    norm_num [Sample.slowContext, Sample.inverseContext, Sample.context]
  have h1 : Sample.slowContext.SpeedOfSound * Sample.slowContext.DopplerVelocity ≤ 1 := by
    norm_num [Sample.slowContext, Sample.inverseContext, Sample.context]
  exact ⟨h0, h1, ((doppler_ratio_bound Sample.libm Sample.consts Sample.movingSource
    Sample.slowContext).2.2.2 h0 h1).2⟩

end DopplerBoundInstance


section ClampedModels

variable {K : Type} [LinearOrderedField K]

theorem clampf_mono (lo hi : K) {d d' : K} (h : d ≤ d') : clampf d lo hi ≤ clampf d' lo hi := by
  unfold clampf
  rw [minf_eq_min, maxf_eq_max, minf_eq_min, maxf_eq_max]
  exact min_le_min le_rfl (max_le_max le_rfl h)

/-- The dry attenuation of the clamped inverse model for `0 < MinDist <= MaxDist` and a
rolloff that is not negative. -/
theorem inverseClamped_Attenuation (lm : Libm K) (Distance MinDist MaxDist Rolloff : K)
    (RoomRolloff : Nat → K) (hR : 0 ≤ Rolloff) (hMin : 0 < MinDist) (hMM : MinDist ≤ MaxDist) :
    (distanceAttenuation lm DistanceModel.InverseDistanceClamped Distance MinDist MaxDist
      Rolloff RoomRolloff).Attenuation =
      MinDist / (MinDist + (clampf Distance MinDist MaxDist - MinDist) * Rolloff) ∧
    0 < MinDist + (clampf Distance MinDist MaxDist - MinDist) * Rolloff := by
  have hc := (clampf_mem Distance MinDist MaxDist hMM).1
  have hpos : 0 < MinDist + (clampf Distance MinDist MaxDist - MinDist) * Rolloff := by
    have : 0 ≤ (clampf Distance MinDist MaxDist - MinDist) * Rolloff :=
      mul_nonneg (sub_nonneg.mpr hc) hR
    linarith
  refine ⟨?_, hpos⟩
  unfold distanceAttenuation caseInverseDistance lerp
  simp only [not_lt.mpr hMM, if_false, gt_iff_lt, hMin, if_true, hpos]

/-- The dry attenuation of the clamped linear model for `MinDist <= MaxDist`. -/
theorem linearClamped_Attenuation (lm : Libm K) (Distance MinDist MaxDist Rolloff : K)
    (RoomRolloff : Nat → K) (hMM : MinDist ≤ MaxDist) :
    (distanceAttenuation lm DistanceModel.LinearDistanceClamped Distance MinDist MaxDist
      Rolloff RoomRolloff).Attenuation =
      if MaxDist ≠ MinDist then
        max (1 - Rolloff * (clampf Distance MinDist MaxDist - MinDist) / (MaxDist - MinDist)) 0
      else 1 := by
  unfold distanceAttenuation caseLinearDistance
  simp only [not_lt.mpr hMM, if_false]
  split_ifs
  · exact maxf_eq_max _ _
  · rfl

/-- The dry attenuation of the clamped exponent model for `0 < MinDist <= MaxDist`. -/
theorem exponentClamped_Attenuation (lm : Libm K) (Distance MinDist MaxDist Rolloff : K)
    (RoomRolloff : Nat → K) (hMin : 0 < MinDist) (hMM : MinDist ≤ MaxDist) :
    (distanceAttenuation lm DistanceModel.ExponentDistanceClamped Distance MinDist MaxDist
      Rolloff RoomRolloff).Attenuation =
      lm.powf (clampf Distance MinDist MaxDist / MinDist) (-Rolloff) := by
  have hc := (clampf_mem Distance MinDist MaxDist hMM).1
  have hpos : 0 < clampf Distance MinDist MaxDist := lt_of_lt_of_le hMin hc
  unfold distanceAttenuation caseExponentDistance
  simp only [not_lt.mpr hMM, if_false, gt_iff_lt, hMin, hpos, and_self, if_true]

/-- The dry attenuation of a clamped model is in `[0, 1]`. -/
theorem clamped_Attenuation_range (lm : Libm K)
    (hpow : ∀ x y : K, 1 ≤ x → y ≤ 0 → 0 ≤ lm.powf x y ∧ lm.powf x y ≤ 1)
    (model : DistanceModel)
    (hmodel : model = DistanceModel.InverseDistanceClamped ∨
      model = DistanceModel.LinearDistanceClamped ∨
      model = DistanceModel.ExponentDistanceClamped)
    (Distance MinDist MaxDist Rolloff : K) (RoomRolloff : Nat → K)
    (hR : 0 ≤ Rolloff) (hMin : 0 < MinDist) (hMM : MinDist ≤ MaxDist) :
    0 ≤ (distanceAttenuation lm model Distance MinDist MaxDist Rolloff RoomRolloff).Attenuation ∧
      (distanceAttenuation lm model Distance MinDist MaxDist Rolloff RoomRolloff).Attenuation
        ≤ 1 := by
  have hc := (clampf_mem Distance MinDist MaxDist hMM).1
  rcases hmodel with rfl | rfl | rfl
  · obtain ⟨hA, hpos⟩ := inverseClamped_Attenuation lm Distance MinDist MaxDist Rolloff
      RoomRolloff hR hMin hMM
    rw [hA]
    refine ⟨(div_pos hMin hpos).le, ?_⟩
    rw [div_le_one hpos]
    have : 0 ≤ (clampf Distance MinDist MaxDist - MinDist) * Rolloff :=
      mul_nonneg (sub_nonneg.mpr hc) hR
    linarith
  · rw [linearClamped_Attenuation lm Distance MinDist MaxDist Rolloff RoomRolloff hMM]
    split_ifs with hne
    · refine ⟨le_max_right _ _, max_le ?_ zero_le_one⟩
      have hd : 0 < MaxDist - MinDist := sub_pos.mpr (lt_of_le_of_ne hMM (Ne.symm hne))
      have : 0 ≤ Rolloff * (clampf Distance MinDist MaxDist - MinDist) / (MaxDist - MinDist) :=
        div_nonneg (mul_nonneg hR (sub_nonneg.mpr hc)) hd.le
      linarith
    · exact ⟨zero_le_one, le_rfl⟩
  · rw [exponentClamped_Attenuation lm Distance MinDist MaxDist Rolloff RoomRolloff hMin hMM]
    exact hpow _ _ ((one_le_div hMin).mpr hc) (neg_nonpos.mpr hR)

/-- The dry attenuation of a clamped model does not increase with the distance. -/
theorem clamped_Attenuation_antitone (lm : Libm K)
    (hmono : ∀ x x' y : K, 1 ≤ x → x ≤ x' → y ≤ 0 → lm.powf x' y ≤ lm.powf x y)
    (model : DistanceModel)
    (hmodel : model = DistanceModel.InverseDistanceClamped ∨
      model = DistanceModel.LinearDistanceClamped ∨
      model = DistanceModel.ExponentDistanceClamped)
    (d d' MinDist MaxDist Rolloff : K) (RoomRolloff RoomRolloff' : Nat → K)
    (hR : 0 ≤ Rolloff) (hMin : 0 < MinDist) (hMM : MinDist ≤ MaxDist) (hd : d ≤ d') :
    (distanceAttenuation lm model d' MinDist MaxDist Rolloff RoomRolloff').Attenuation ≤
      (distanceAttenuation lm model d MinDist MaxDist Rolloff RoomRolloff).Attenuation := by
  have hc := (clampf_mem d MinDist MaxDist hMM).1
  have hcc := clampf_mono MinDist MaxDist hd
  rcases hmodel with rfl | rfl | rfl
  · obtain ⟨hA, hpos⟩ := inverseClamped_Attenuation lm d MinDist MaxDist Rolloff
      RoomRolloff hR hMin hMM
    obtain ⟨hA', -⟩ := inverseClamped_Attenuation lm d' MinDist MaxDist Rolloff
      RoomRolloff' hR hMin hMM
    rw [hA, hA']
    refine div_le_div_of_nonneg_left hMin.le hpos ?_
    have := mul_le_mul_of_nonneg_right (sub_le_sub_right hcc MinDist) hR
    linarith
  · rw [linearClamped_Attenuation lm d MinDist MaxDist Rolloff RoomRolloff hMM,
      linearClamped_Attenuation lm d' MinDist MaxDist Rolloff RoomRolloff' hMM]
    split_ifs with hne
    · refine max_le_max ?_ le_rfl
      have hdd : 0 < MaxDist - MinDist := sub_pos.mpr (lt_of_le_of_ne hMM (Ne.symm hne))
      have : Rolloff * (clampf d MinDist MaxDist - MinDist) / (MaxDist - MinDist) ≤
          Rolloff * (clampf d' MinDist MaxDist - MinDist) / (MaxDist - MinDist) :=
        div_le_div_of_nonneg_right
          (mul_le_mul_of_nonneg_left (sub_le_sub_right hcc MinDist) hR) hdd.le
      linarith
    · exact le_rfl
  · rw [exponentClamped_Attenuation lm d MinDist MaxDist Rolloff RoomRolloff hMin hMM,
      exponentClamped_Attenuation lm d' MinDist MaxDist Rolloff RoomRolloff' hMin hMM]
    exact hmono _ _ _ ((one_le_div hMin).mpr hc)
      (div_le_div_of_nonneg_right hcc hMin.le) (neg_nonpos.mpr hR)

/-- Claim C32 (clamped models never amplify).  For each of the clamped inverse, linear and
exponent models, every rolloff factor that is not negative and every `0 < MinDist <= MaxDist`
(with a `powf` that is between 0 and 1 and not increasing in its base for bases from 1 on and
exponents that are not positive): the dry attenuation the distance-model switch computes is in
`[0, 1]` for every distance and does not increase when the distance grows; and so is the dry
attenuation `CalcSourceParams` computes for a source whose model is one of the three, with
`RefDistance` as `MinDist`, `MaxDistance` as `MaxDist` and `RollOffFactor` as the rolloff. -/
theorem clamped_never_amplifies [FloorRing K] (lm : Libm K)
    (hpow : ∀ x y : K, 1 ≤ x → y ≤ 0 → 0 ≤ lm.powf x y ∧ lm.powf x y ≤ 1)
    (hmono : ∀ x x' y : K, 1 ≤ x → x ≤ x' → y ≤ 0 → lm.powf x' y ≤ lm.powf x y)
    (model : DistanceModel)
    (hmodel : model = DistanceModel.InverseDistanceClamped ∨
      model = DistanceModel.LinearDistanceClamped ∨
      model = DistanceModel.ExponentDistanceClamped)
    (MinDist MaxDist Rolloff : K)
    (hR : 0 ≤ Rolloff) (hMin : 0 < MinDist) (hMM : MinDist ≤ MaxDist) :
    (∀ (d : K) (RoomRolloff : Nat → K),
      0 ≤ (distanceAttenuation lm model d MinDist MaxDist Rolloff RoomRolloff).Attenuation ∧
      (distanceAttenuation lm model d MinDist MaxDist Rolloff RoomRolloff).Attenuation ≤ 1) ∧
    (∀ (d d' : K) (RoomRolloff RoomRolloff' : Nat → K), d ≤ d' →
      (distanceAttenuation lm model d' MinDist MaxDist Rolloff RoomRolloff').Attenuation ≤
        (distanceAttenuation lm model d MinDist MaxDist Rolloff RoomRolloff).Attenuation) ∧
    (∀ (cfg : Consts K) (ALSource : ALsource K) (ALContext : ALCcontext K),
      (if ALContext.SourceDistanceModel then ALSource.DistanceModel
        else ALContext.DistanceModel) = model →
      ALSource.RefDistance = MinDist → ALSource.MaxDistance = MaxDist →
      ALSource.RollOffFactor = Rolloff →
      0 ≤ (sourceLocals lm cfg ALSource ALContext).Attenuation ∧
      (sourceLocals lm cfg ALSource ALContext).Attenuation ≤ 1) ∧
    (∀ (cfg : Consts K) (ALSource ALSource' : ALsource K) (ALContext ALContext' : ALCcontext K),
      (if ALContext.SourceDistanceModel then ALSource.DistanceModel
        else ALContext.DistanceModel) = model →
      (if ALContext'.SourceDistanceModel then ALSource'.DistanceModel
        else ALContext'.DistanceModel) = model →
      ALSource.RefDistance = MinDist → ALSource.MaxDistance = MaxDist →
      ALSource.RollOffFactor = Rolloff →
      ALSource'.RefDistance = MinDist → ALSource'.MaxDistance = MaxDist →
      ALSource'.RollOffFactor = Rolloff →
      (sourceLocals lm cfg ALSource ALContext).Distance ≤
        (sourceLocals lm cfg ALSource' ALContext').Distance →
      (sourceLocals lm cfg ALSource' ALContext').Attenuation ≤
        (sourceLocals lm cfg ALSource ALContext).Attenuation) := by
  refine ⟨?_, ?_, ?_, ?_⟩
  · intro d RoomRolloff
    exact clamped_Attenuation_range lm hpow model hmodel d MinDist MaxDist Rolloff RoomRolloff
      hR hMin hMM
  · intro d d' RoomRolloff RoomRolloff' hd
    exact clamped_Attenuation_antitone lm hmono model hmodel d d' MinDist MaxDist Rolloff
      RoomRolloff RoomRolloff' hR hMin hMM hd
  · intro cfg ALSource ALContext hm h1 h2 h3
    rw [(sourceLocals_distance lm cfg ALSource ALContext).1, hm, h1, h2, h3]
    exact clamped_Attenuation_range lm hpow model hmodel _ MinDist MaxDist Rolloff _
      hR hMin hMM
  · intro cfg ALSource ALSource' ALContext ALContext' hm hm' h1 h2 h3 h1' h2' h3' hd
    rw [(sourceLocals_distance lm cfg ALSource ALContext).1,
      (sourceLocals_distance lm cfg ALSource' ALContext').1, hm, hm', h1, h2, h3, h1', h2', h3']
    exact clamped_Attenuation_antitone lm hmono model hmodel _ _ MinDist MaxDist Rolloff
      _ _ hR hMin hMM hd

end ClampedModels

section ClampedModelsInstance

/-- Claim C32 on the world-space sample source at distance 2 with the clamped exponent model,
reference distance 1, maximum distance 1000000 and rolloff factor 1, with a `powf` that is
exact for the exponent -1: the dry attenuation is in `[0, 1]`. -/
theorem clamped_never_amplifies_witness :
    (∀ x y : ℚ, 1 ≤ x → y ≤ 0 →
      0 ≤ Sample.reciprocalLibm.powf x y ∧ Sample.reciprocalLibm.powf x y ≤ 1) ∧
    (∀ x x' y : ℚ, 1 ≤ x → x ≤ x' → y ≤ 0 →
      Sample.reciprocalLibm.powf x' y ≤ Sample.reciprocalLibm.powf x y) ∧
    (0 : ℚ) ≤ 1 ∧ (0 : ℚ) < 1 ∧ (1 : ℚ) ≤ 1000000 ∧
    0 ≤ (sourceLocals Sample.reciprocalLibm Sample.consts Sample.exponentSource
      Sample.sourceModelContext).Attenuation ∧
    (sourceLocals Sample.reciprocalLibm Sample.consts Sample.exponentSource
      Sample.sourceModelContext).Attenuation ≤ 1 := by
  have hpow : ∀ x y : ℚ, 1 ≤ x → y ≤ 0 →
      0 ≤ Sample.reciprocalLibm.powf x y ∧ Sample.reciprocalLibm.powf x y ≤ 1 := by
    intro x y hx _
    show 0 ≤ (if y = 0 then 1 else 1 / x) ∧ (if y = 0 then 1 else 1 / x) ≤ 1
    have hx0 : (0 : ℚ) < x := lt_of_lt_of_le one_pos hx
    split_ifs
    · exact ⟨zero_le_one, le_rfl⟩
    · exact ⟨(div_pos one_pos hx0).le, (div_le_one hx0).mpr hx⟩
  have hmono : ∀ x x' y : ℚ, 1 ≤ x → x ≤ x' → y ≤ 0 →
      Sample.reciprocalLibm.powf x' y ≤ Sample.reciprocalLibm.powf x y := by
    intro x x' y hx hxx _
    show (if y = 0 then 1 else 1 / x') ≤ (if y = 0 then 1 else 1 / x)
    have hx0 : (0 : ℚ) < x := lt_of_lt_of_le one_pos hx
    split_ifs
    · exact le_rfl
    · exact div_le_div_of_nonneg_left zero_le_one hx0 hxx
  have h := (clamped_never_amplifies Sample.reciprocalLibm hpow hmono
    DistanceModel.ExponentDistanceClamped (Or.inr (Or.inr rfl)) 1 1000000 1
    (by norm_num) (by norm_num) (by norm_num)).2.2.1 Sample.consts Sample.exponentSource
    Sample.sourceModelContext rfl rfl rfl rfl
  exact ⟨hpow, hmono, by norm_num, by norm_num, by norm_num, h.1, h.2⟩

end ClampedModelsInstance


section DeferredFlags

variable {K : Type} [LinearOrderedField K] [FloorRing K] {σ : Type}

/-- A visit of the voice loop leaves the sources other than the one of the visited voice as
they are. -/
theorem mixVoice_Sources_other (lm : Libm K) (ext : Externs K) (mx : MixerExterns K σ)
    (cfg : Consts K) (device : ALCdevice K) (MixCount SamplesToDo ci : Nat)
    (DeferUpdates UpdateSources : Bool) (v : Nat) (s : ContextObject K × MixerMemory K σ)
    (p : Nat) (hp : (s.1.Voices v).Source ≠ some p) :
    (mixVoice lm ext mx cfg device MixCount SamplesToDo ci DeferUpdates UpdateSources v
      s).2.Sources p = s.2.Sources p := by
  cases hS : (s.1.Voices v).Source with
  | none => rw [mixVoice_none _ _ _ _ _ _ _ _ _ _ _ _ hS]
  | some q =>
    have hq : p ≠ q := by
      intro h
      apply hp
      rw [hS, h]
    unfold mixVoice
    simp only [hS]
    cases DeferUpdates <;> cases hN : (s.2.Sources q).NeedsUpdate <;> cases UpdateSources <;>
      split_ifs <;> simp [MixerMemory.log, Function.update_noteq hq]

/-- With updates deferred a visit of the voice loop leaves the `NeedsUpdate` flag of every
source as it is. -/
theorem mixVoice_NeedsUpdate_deferred (lm : Libm K) (ext : Externs K) (mx : MixerExterns K σ)
    (cfg : Consts K) (device : ALCdevice K) (MixCount SamplesToDo ci : Nat)
    (UpdateSources : Bool) (v : Nat) (s : ContextObject K × MixerMemory K σ) (p : Nat) :
    ((mixVoice lm ext mx cfg device MixCount SamplesToDo ci true UpdateSources v
      s).2.Sources p).NeedsUpdate = (s.2.Sources p).NeedsUpdate := by
  by_cases hp : (s.1.Voices v).Source = some p
  · unfold mixVoice
    simp only [hp, Bool.true_eq_false, if_false, false_and]
    split_ifs <;> simp
  · rw [mixVoice_Sources_other _ _ _ _ _ _ _ _ _ _ _ _ p hp]

/-- The voice loop over the voices below `n` leaves the voices from `n` on as they are. -/
theorem voiceLoop_Voices_ge (lm : Libm K) (ext : Externs K) (mx : MixerExterns K σ)
    (cfg : Consts K) (device : ALCdevice K) (MixCount SamplesToDo ci : Nat)
    (DeferUpdates UpdateSources : Bool) (n w : Nat) (hw : n ≤ w)
    (s : ContextObject K × MixerMemory K σ) :
    (forLoop n (mixVoice lm ext mx cfg device MixCount SamplesToDo ci DeferUpdates
      UpdateSources) s).1.Voices w = s.1.Voices w := by
  induction n with
  | zero => rfl
  | succ n ih =>
    rw [forLoop_succ, mixVoice_Voices_other _ _ _ _ _ _ _ _ _ _ _ _ (by omega), ih (by omega)]

/-- The voice loop leaves a source to which none of its voices is bound as it is. -/
theorem voiceLoop_Sources_other (lm : Libm K) (ext : Externs K) (mx : MixerExterns K σ)
    (cfg : Consts K) (device : ALCdevice K) (MixCount SamplesToDo ci : Nat)
    (DeferUpdates UpdateSources : Bool) (n : Nat) (s : ContextObject K × MixerMemory K σ)
    (p : Nat) (hp : ∀ u, u < n → (s.1.Voices u).Source ≠ some p) :
    (forLoop n (mixVoice lm ext mx cfg device MixCount SamplesToDo ci DeferUpdates
      UpdateSources) s).2.Sources p = s.2.Sources p := by
  induction n with
  | zero => rfl
  | succ n ih =>
    rw [forLoop_succ, mixVoice_Sources_other, ih (fun u hu => hp u (by omega))]
    rw [voiceLoop_Voices_ge _ _ _ _ _ _ _ _ _ _ _ _ le_rfl]
    exact hp n (by omega)

/-- The voice loop leaves the `NeedsUpdate` flag of a source as it is when updates are
deferred, and when none of its voices is bound to the source. -/
theorem voiceLoop_NeedsUpdate (lm : Libm K) (ext : Externs K) (mx : MixerExterns K σ)
    (cfg : Consts K) (device : ALCdevice K) (MixCount SamplesToDo ci : Nat)
    (DeferUpdates UpdateSources : Bool) (n : Nat) (s : ContextObject K × MixerMemory K σ)
    (p : Nat)
    (hp : DeferUpdates = true ∨ ∀ u, u < n → (s.1.Voices u).Source ≠ some p) :
    ((forLoop n (mixVoice lm ext mx cfg device MixCount SamplesToDo ci DeferUpdates
      UpdateSources) s).2.Sources p).NeedsUpdate = (s.2.Sources p).NeedsUpdate := by
  rcases hp with rfl | hp
  · induction n with
    | zero => rfl
    | succ n ih => rw [forLoop_succ, mixVoice_NeedsUpdate_deferred, ih]
  · rw [voiceLoop_Sources_other _ _ _ _ _ _ _ _ _ _ _ _ p hp]

omit [FloorRing K] in
/-- The slot loop does not touch the sources, and it leaves the `NeedsUpdate` flag of a slot as
it is when updates are deferred and when it does not visit the slot. -/
theorem mixSlot_flags (mx : MixerExterns K σ) (device : ALCdevice K)
    (MixCount SamplesToDo : Nat) (DeferUpdates : Bool) (mem : MixerMemory K σ)
    (slot : ALeffectslot K) :
    (mixSlot mx device MixCount SamplesToDo DeferUpdates mem slot).Sources = mem.Sources ∧
    ∀ w, DeferUpdates = true ∨ slot.WetBuffer ≠ w →
      (mixSlot mx device MixCount SamplesToDo DeferUpdates mem slot).SlotNeedsUpdate w =
        mem.SlotNeedsUpdate w := by
  unfold mixSlot
  cases DeferUpdates <;> cases hN : mem.SlotNeedsUpdate slot.WetBuffer
  all_goals
    refine ⟨by simp [MixerMemory.log, hN], ?_⟩
    intro w hw
    rcases hw with hw | hw
    · first
        | exact absurd hw (by decide)
        | simp [MixerMemory.log, hN]
    · simp [MixerMemory.log, hN, Function.update_noteq (Ne.symm hw)]

omit [FloorRing K] in
theorem mixSlots_flags (mx : MixerExterns K σ) (device : ALCdevice K)
    (MixCount SamplesToDo : Nat) (DeferUpdates : Bool) (slots : List (ALeffectslot K))
    (mem : MixerMemory K σ) :
    (slots.foldl (mixSlot mx device MixCount SamplesToDo DeferUpdates) mem).Sources =
      mem.Sources ∧
    ∀ w, (DeferUpdates = true ∨ ∀ slot ∈ slots, slot.WetBuffer ≠ w) →
      (slots.foldl (mixSlot mx device MixCount SamplesToDo DeferUpdates) mem).SlotNeedsUpdate w =
        mem.SlotNeedsUpdate w := by
  induction slots generalizing mem with
  | nil => exact ⟨rfl, fun _ _ => rfl⟩
  | cons slot rest ih =>
    rw [List.foldl_cons]
    obtain ⟨h1, h2⟩ := ih (mixSlot mx device MixCount SamplesToDo DeferUpdates mem slot)
    obtain ⟨h3, h4⟩ := mixSlot_flags mx device MixCount SamplesToDo DeferUpdates mem slot
    refine ⟨h1.trans h3, ?_⟩
    intro w hw
    rw [h2 w (hw.imp id (fun h slot' hs => h slot' (List.mem_cons_of_mem _ hs))),
      h4 w (hw.imp id (fun h => h slot (List.mem_cons_self _ _)))]

/-- The pass of the context loop for a context whose updates are not deferred and which has a
context update pending: the flag is taken, the listener parameters are rebuilt, and the voice
loop runs with `UpdateSources` true. -/
theorem mixContexts_single_update (lm : Libm K) (ext : Externs K) (mx : MixerExterns K σ)
    (cfg : Consts K) (device : ALCdevice K) (MixCount SamplesToDo ci : Nat)
    (ctx : ContextObject K) (mem : MixerMemory K σ) (hD : ctx.DeferUpdates = false)
    (hU : ctx.UpdateSources = true) :
    mixContexts lm ext mx cfg device MixCount SamplesToDo ci [ctx] mem =
      ([(forLoop ctx.VoiceCount (mixVoice lm ext mx cfg device MixCount SamplesToDo ci false
          true)
          ({ ctx with UpdateSources := false, Listener := CalcListenerParams lm ctx.Listener },
            mem.log MixCount (MixEvent.CalcListenerParams ci))).1],
        ctx.ActiveAuxSlots.foldl (mixSlot mx device MixCount SamplesToDo false)
          (forLoop ctx.VoiceCount (mixVoice lm ext mx cfg device MixCount SamplesToDo ci false
            true)
            ({ ctx with UpdateSources := false, Listener := CalcListenerParams lm ctx.Listener },
              mem.log MixCount (MixEvent.CalcListenerParams ci))).2) := by
  simp [mixContexts, hD, hU, voiceLoop_ActiveAuxSlots]

/-- The pass of the context loop for a context whose updates are not deferred and which has no
context update pending. -/
theorem mixContexts_single_plain (lm : Libm K) (ext : Externs K) (mx : MixerExterns K σ)
    (cfg : Consts K) (device : ALCdevice K) (MixCount SamplesToDo ci : Nat)
    (ctx : ContextObject K) (mem : MixerMemory K σ) (hD : ctx.DeferUpdates = false)
    (hU : ctx.UpdateSources = false) :
    mixContexts lm ext mx cfg device MixCount SamplesToDo ci [ctx] mem =
      ([(forLoop ctx.VoiceCount (mixVoice lm ext mx cfg device MixCount SamplesToDo ci false
          false) ({ ctx with UpdateSources := false }, mem)).1],
        ctx.ActiveAuxSlots.foldl (mixSlot mx device MixCount SamplesToDo false)
          (forLoop ctx.VoiceCount (mixVoice lm ext mx cfg device MixCount SamplesToDo ci false
            false) ({ ctx with UpdateSources := false }, mem)).2) := by
  simp [mixContexts, hD, hU, voiceLoop_ActiveAuxSlots]

/-- A visit of the voice loop leaves the flags of the context as they are. -/
theorem mixVoice_context_flags (lm : Libm K) (ext : Externs K) (mx : MixerExterns K σ)
    (cfg : Consts K) (device : ALCdevice K) (MixCount SamplesToDo ci : Nat)
    (DeferUpdates UpdateSources : Bool) (v : Nat) (s : ContextObject K × MixerMemory K σ) :
    (mixVoice lm ext mx cfg device MixCount SamplesToDo ci DeferUpdates UpdateSources v
      s).1.UpdateSources = s.1.UpdateSources ∧
    (mixVoice lm ext mx cfg device MixCount SamplesToDo ci DeferUpdates UpdateSources v
      s).1.DeferUpdates = s.1.DeferUpdates := by
  unfold mixVoice
  simp only []
  cases (s.1.Voices v).Source with
  | none => exact ⟨rfl, rfl⟩
  | some p =>
    simp only []
    split_ifs <;> exact ⟨rfl, rfl⟩

theorem voiceLoop_context_flags (lm : Libm K) (ext : Externs K) (mx : MixerExterns K σ)
    (cfg : Consts K) (device : ALCdevice K) (MixCount SamplesToDo ci : Nat)
    (DeferUpdates UpdateSources : Bool) (n : Nat) (s : ContextObject K × MixerMemory K σ) :
    (forLoop n (mixVoice lm ext mx cfg device MixCount SamplesToDo ci DeferUpdates
      UpdateSources) s).1.UpdateSources = s.1.UpdateSources ∧
    (forLoop n (mixVoice lm ext mx cfg device MixCount SamplesToDo ci DeferUpdates
      UpdateSources) s).1.DeferUpdates = s.1.DeferUpdates := by
  induction n with
  | zero => exact ⟨rfl, rfl⟩
  | succ n ih =>
    rw [forLoop_succ]
    exact ⟨(mixVoice_context_flags _ _ _ _ _ _ _ _ _ _ _ _).1.trans ih.1,
      (mixVoice_context_flags _ _ _ _ _ _ _ _ _ _ _ _).2.trans ih.2⟩

/-- The flags after the pass of the context loop for one context.  The pass returns one
context, with the same `DeferUpdates`; when the context defers its updates its `UpdateSources`
flag is kept; the `NeedsUpdate` flag of a source is kept when the context defers its updates
and when none of its voices is bound to the source; the `NeedsUpdate` flag of a slot is kept
when the context defers its updates and when the slot is not among its active slots. -/
theorem mixContexts_single_flags (lm : Libm K) (ext : Externs K) (mx : MixerExterns K σ)
    (cfg : Consts K) (device : ALCdevice K) (MixCount SamplesToDo ci : Nat)
    (ctx : ContextObject K) (mem : MixerMemory K σ) :
    (∃ ctx' : ContextObject K,
      (mixContexts lm ext mx cfg device MixCount SamplesToDo ci [ctx] mem).1 = [ctx'] ∧
      ctx'.DeferUpdates = ctx.DeferUpdates ∧
      (ctx.DeferUpdates = true → ctx'.UpdateSources = ctx.UpdateSources)) ∧
    (∀ p, (ctx.DeferUpdates = true ∨
        ∀ u, u < ctx.VoiceCount → (ctx.Voices u).Source ≠ some p) →
      ((mixContexts lm ext mx cfg device MixCount SamplesToDo ci [ctx] mem).2.Sources
        p).NeedsUpdate = (mem.Sources p).NeedsUpdate) ∧
    (∀ w, (ctx.DeferUpdates = true ∨ ∀ slot ∈ ctx.ActiveAuxSlots, slot.WetBuffer ≠ w) →
      (mixContexts lm ext mx cfg device MixCount SamplesToDo ci [ctx] mem).2.SlotNeedsUpdate w =
        mem.SlotNeedsUpdate w) := by
  cases hD : ctx.DeferUpdates with
  | true =>
    rw [mixContexts_single_deferred lm ext mx cfg device MixCount SamplesToDo ci ctx mem hD]
    refine ⟨⟨_, rfl, ?_, fun _ => ?_⟩, fun p _ => ?_, fun w _ => ?_⟩
    · exact (voiceLoop_context_flags _ _ _ _ _ _ _ _ _ _ _ _).2.trans hD
    · exact (voiceLoop_context_flags _ _ _ _ _ _ _ _ _ _ _ _).1
    · show ((List.foldl (mixSlot mx device MixCount SamplesToDo true) _ _).Sources p).NeedsUpdate = _
      rw [(mixSlots_flags mx device MixCount SamplesToDo true _ _).1,
        voiceLoop_NeedsUpdate _ _ _ _ _ _ _ _ _ _ _ _ p (Or.inl rfl)]
    · show (List.foldl (mixSlot mx device MixCount SamplesToDo true) _ _).SlotNeedsUpdate w = _
      rw [(mixSlots_flags mx device MixCount SamplesToDo true _ _).2 w (Or.inl rfl),
        voiceLoop_SlotNeedsUpdate]
  | false =>
    cases hU : ctx.UpdateSources with
    | true =>
      rw [mixContexts_single_update lm ext mx cfg device MixCount SamplesToDo ci ctx mem hD hU]
      refine ⟨⟨_, rfl, ?_, fun h => absurd h (by decide)⟩, fun p hp => ?_, fun w hw => ?_⟩
      · exact (voiceLoop_context_flags _ _ _ _ _ _ _ _ _ _ _ _).2.trans hD
      · show ((List.foldl (mixSlot mx device MixCount SamplesToDo false) _ _).Sources p).NeedsUpdate = _
        rw [(mixSlots_flags mx device MixCount SamplesToDo false _ _).1,
          voiceLoop_NeedsUpdate _ _ _ _ _ _ _ _ _ _ _ _ p
            (Or.inr (hp.resolve_left (by decide)))]
        rfl
      · show (List.foldl (mixSlot mx device MixCount SamplesToDo false) _ _).SlotNeedsUpdate w = _
        rw [(mixSlots_flags mx device MixCount SamplesToDo false _ _).2 w
          (Or.inr (hw.resolve_left (by decide))), voiceLoop_SlotNeedsUpdate]
        rfl
    | false =>
      rw [mixContexts_single_plain lm ext mx cfg device MixCount SamplesToDo ci ctx mem hD hU]
      refine ⟨⟨_, rfl, ?_, fun h => absurd h (by decide)⟩, fun p hp => ?_, fun w hw => ?_⟩
      · exact (voiceLoop_context_flags _ _ _ _ _ _ _ _ _ _ _ _).2.trans hD
      · show ((List.foldl (mixSlot mx device MixCount SamplesToDo false) _ _).Sources p).NeedsUpdate = _
        rw [(mixSlots_flags mx device MixCount SamplesToDo false _ _).1,
          voiceLoop_NeedsUpdate _ _ _ _ _ _ _ _ _ _ _ _ p
            (Or.inr (hp.resolve_left (by decide)))]
      · show (List.foldl (mixSlot mx device MixCount SamplesToDo false) _ _).SlotNeedsUpdate w = _
        rw [(mixSlots_flags mx device MixCount SamplesToDo false _ _).2 w
          (Or.inr (hw.resolve_left (by decide))), voiceLoop_SlotNeedsUpdate]

/-- The flags after the whole context loop: each context keeps its `DeferUpdates`, and a
context that defers its updates keeps its `UpdateSources`; the `NeedsUpdate` flag of a source is
kept when no voice of a context that does not defer is bound to the source; the `NeedsUpdate`
flag of a slot is kept when the slot is not among the active slots of a context that does not
defer. -/
theorem mixContexts_flags (lm : Libm K) (ext : Externs K) (mx : MixerExterns K σ)
    (cfg : Consts K) (device : ALCdevice K) (MixCount SamplesToDo : Nat) (ci : Nat)
    (l : List (ContextObject K)) (mem : MixerMemory K σ) :
    (∀ (i : Nat) (ctx : ContextObject K), l[i]? = some ctx → ∃ ctx' : ContextObject K,
      (mixContexts lm ext mx cfg device MixCount SamplesToDo ci l mem).1[i]? = some ctx' ∧
      ctx'.DeferUpdates = ctx.DeferUpdates ∧
      (ctx.DeferUpdates = true → ctx'.UpdateSources = ctx.UpdateSources)) ∧
    (∀ p, (∀ ctx ∈ l, ctx.DeferUpdates = true ∨
        ∀ u, u < ctx.VoiceCount → (ctx.Voices u).Source ≠ some p) →
      ((mixContexts lm ext mx cfg device MixCount SamplesToDo ci l mem).2.Sources
        p).NeedsUpdate = (mem.Sources p).NeedsUpdate) ∧
    (∀ w, (∀ ctx ∈ l, ctx.DeferUpdates = true ∨
        ∀ slot ∈ ctx.ActiveAuxSlots, slot.WetBuffer ≠ w) →
      (mixContexts lm ext mx cfg device MixCount SamplesToDo ci l mem).2.SlotNeedsUpdate w =
        mem.SlotNeedsUpdate w) := by
  induction l generalizing ci mem with
  | nil =>
    refine ⟨fun i ctx h => ?_, fun _ _ => rfl, fun _ _ => rfl⟩
    simp at h
  | cons ctx next ih =>
    obtain ⟨⟨ctx', h1, h2, h3⟩, h4, h5⟩ :=
      mixContexts_single_flags lm ext mx cfg device MixCount SamplesToDo ci ctx mem
    obtain ⟨i1, i2, i3⟩ := ih (ci + 1)
      (mixContexts lm ext mx cfg device MixCount SamplesToDo ci [ctx] mem).2
    rw [mixContexts_cons, h1]
    refine ⟨fun i c h => ?_, fun p hp => ?_, fun w hw => ?_⟩
    · cases i with
      | zero =>
        rw [List.getElem?_cons_zero] at h
        cases h
        exact ⟨ctx', by simp, h2, h3⟩
      | succ i =>
        rw [List.getElem?_cons_succ] at h
        obtain ⟨c', hc1, hc2, hc3⟩ := i1 i c h
        exact ⟨c', by simpa using hc1, hc2, hc3⟩
    · show ((mixContexts lm ext mx cfg device MixCount SamplesToDo (ci + 1) next
        _).2.Sources p).NeedsUpdate = _
      rw [i2 p (fun c hc => hp c (List.mem_cons_of_mem _ hc)),
        h4 p (hp ctx (List.mem_cons_self _ _))]
    · show (mixContexts lm ext mx cfg device MixCount SamplesToDo (ci + 1) next
        _).2.SlotNeedsUpdate w = _
      rw [i3 w (fun c hc => hw c (List.mem_cons_of_mem _ hc)),
        h5 w (hw ctx (List.mem_cons_self _ _))]

omit [LinearOrderedField K] [FloorRing K] in
theorem forLoop_invariant {α β : Type} (f : α → β) (body : Nat → α → α)
    (h : ∀ i s, f (body i s) = f s) (n : Nat) (s : α) : f (forLoop n body s) = f s := by
  induction n with
  | zero => rfl
  | succ n ih => rw [forLoop_succ, h, ih]

omit [LinearOrderedField K] [FloorRing K] in
theorem hrtfLoop_flags (mx : MixerExterns K σ)
    (MixCount NumChannels OutBuffer Offset irsize SamplesToDo : Nat) (mem : MixerMemory K σ) :
    (hrtfLoop mx MixCount NumChannels OutBuffer Offset irsize SamplesToDo mem).Sources =
      mem.Sources ∧
    (hrtfLoop mx MixCount NumChannels OutBuffer Offset irsize SamplesToDo mem).SlotNeedsUpdate =
      mem.SlotNeedsUpdate := by
  unfold hrtfLoop
  refine ⟨forLoop_invariant (fun m : MixerMemory K σ => m.Sources) _ ?_ _ _,
    forLoop_invariant (fun m : MixerMemory K σ => m.SlotNeedsUpdate) _ ?_ _ _⟩ <;>
  · intro i m
    rfl

omit [LinearOrderedField K] [FloorRing K] in
theorem crossFeedLoop_flags (mx : MixerExterns K σ) (MixCount SamplesToDo : Nat)
    (mem : MixerMemory K σ) :
    (crossFeedLoop mx MixCount SamplesToDo mem).Sources = mem.Sources ∧
    (crossFeedLoop mx MixCount SamplesToDo mem).SlotNeedsUpdate = mem.SlotNeedsUpdate := by
  unfold crossFeedLoop
  refine ⟨forLoop_invariant (fun m : MixerMemory K σ => m.Sources) _ ?_ _ _,
    forLoop_invariant (fun m : MixerMemory K σ => m.SlotNeedsUpdate) _ ?_ _ _⟩ <;>
  · intro i m
    rfl

omit [LinearOrderedField K] [FloorRing K] in
theorem log_flags (mem : MixerMemory K σ) (c : Nat) (e : MixEvent K) :
    (mem.log c e).Sources = mem.Sources ∧ (mem.log c e).SlotNeedsUpdate = mem.SlotNeedsUpdate :=
  ⟨rfl, rfl⟩

/-- The flags after a slice, see `mixContexts_flags`: the statements after the context loop do
not touch the contexts and the sources, and of the slot flags only the one of the default
slot. -/
theorem aluMixSlice_flags (lm : Libm K) (ext : Externs K) (mx : MixerExterns K σ)
    (cfg : Consts K) (s : MixSlice K σ) :
    (∀ (i : Nat) (ctx : ContextObject K), s.device.ContextList[i]? = some ctx →
      ∃ ctx' : ContextObject K,
        (aluMixSlice lm ext mx cfg s).device.ContextList[i]? = some ctx' ∧
        ctx'.DeferUpdates = ctx.DeferUpdates ∧
        (ctx.DeferUpdates = true → ctx'.UpdateSources = ctx.UpdateSources)) ∧
    (∀ p, (∀ ctx ∈ s.device.ContextList, ctx.DeferUpdates = true ∨
        ∀ u, u < ctx.VoiceCount → (ctx.Voices u).Source ≠ some p) →
      ((aluMixSlice lm ext mx cfg s).mem.Sources p).NeedsUpdate =
        (s.mem.Sources p).NeedsUpdate) ∧
    (∀ w, (∀ ctx ∈ s.device.ContextList, ctx.DeferUpdates = true ∨
        ∀ slot ∈ ctx.ActiveAuxSlots, slot.WetBuffer ≠ w) →
      (∀ slot, s.device.DefaultSlot = some slot → slot.WetBuffer ≠ w) →
      (aluMixSlice lm ext mx cfg s).mem.SlotNeedsUpdate w = s.mem.SlotNeedsUpdate w) := by
  have hD : ∀ m : MixerMemory K σ,
      (match s.device.DefaultSlot with
        | some slot => mixSlot mx s.device.toALCdevice (IncrementRef s.device.MixCount)
            (minu s.size.toNat cfg.BUFFERSIZE) false m slot
        | none => m).Sources = m.Sources ∧
      ∀ w, (∀ slot, s.device.DefaultSlot = some slot → slot.WetBuffer ≠ w) →
      (match s.device.DefaultSlot with
        | some slot => mixSlot mx s.device.toALCdevice (IncrementRef s.device.MixCount)
            (minu s.size.toNat cfg.BUFFERSIZE) false m slot
        | none => m).SlotNeedsUpdate w = m.SlotNeedsUpdate w := by
    intro m
    cases hS : s.device.DefaultSlot with
    | none => exact ⟨rfl, fun _ _ => rfl⟩
    | some slot =>
      exact ⟨(mixSlot_flags mx _ _ _ false m slot).1,
        fun w hw => (mixSlot_flags mx _ _ _ false m slot).2 w (Or.inr (hw slot rfl))⟩
  refine ⟨?_, ?_, ?_⟩
  · intro i ctx h
    unfold aluMixSlice
    simp only []
    cases hH : s.device.Hrtf with
    | some H =>
      simp only [Option.isSome_some, if_true]
      exact (mixContexts_flags lm ext mx cfg _ _ _ 0 s.device.ContextList _).1 i ctx h
    | none =>
      simp only [Option.isSome_none, Bool.false_eq_true, if_false]
      split_ifs <;>
        exact (mixContexts_flags lm ext mx cfg _ _ _ 0 s.device.ContextList _).1 i ctx h
  · intro p hp
    unfold aluMixSlice
    simp only []
    cases hH : s.device.Hrtf with
    | some H =>
      simp only [Option.isSome_some, if_true, (log_flags _ _ _).1, (hrtfLoop_flags _ _ _ _ _ _ _ _).1,
        (hD _).1]
      exact (mixContexts_flags lm ext mx cfg _ _ _ 0 s.device.ContextList _).2.1 p hp
    | none =>
      simp only [Option.isSome_none, Bool.false_eq_true, if_false]
      split_ifs <;>
        simp only [(log_flags _ _ _).1, (crossFeedLoop_flags _ _ _ _).1, (hD _).1] <;>
        exact (mixContexts_flags lm ext mx cfg _ _ _ 0 s.device.ContextList _).2.1 p hp
  · intro w hw hdef
    unfold aluMixSlice
    simp only []
    cases hH : s.device.Hrtf with
    | some H =>
      simp only [Option.isSome_some, if_true, (log_flags _ _ _).2, (hrtfLoop_flags _ _ _ _ _ _ _ _).2,
        (hD _).2 w hdef]
      exact (mixContexts_flags lm ext mx cfg _ _ _ 0 s.device.ContextList _).2.2 w hw
    | none =>
      simp only [Option.isSome_none, Bool.false_eq_true, if_false]
      split_ifs <;>
        simp only [(log_flags _ _ _).2, (crossFeedLoop_flags _ _ _ _).2, (hD _).2 w hdef] <;>
        exact (mixContexts_flags lm ext mx cfg _ _ _ 0 s.device.ContextList _).2.2 w hw

theorem voiceLoop_mem (lm : Libm K) (ext : Externs K) (mx : MixerExterns K σ)
    (cfg : Consts K) (device : ALCdevice K) (MixCount SamplesToDo ci : Nat)
    (DeferUpdates UpdateSources : Bool) (n : Nat) (s : ContextObject K × MixerMemory K σ)
    {e : Nat × MixEvent K} (he : e ∈ s.2.trace) :
    e ∈ (forLoop n (mixVoice lm ext mx cfg device MixCount SamplesToDo ci DeferUpdates
      UpdateSources) s).2.trace := by
  obtain ⟨new, hn, -⟩ := voiceLoop_calls lm ext mx cfg device MixCount SamplesToDo ci
    DeferUpdates UpdateSources n s
  rw [hn]
  exact List.mem_append_left _ he

omit [FloorRing K] in
theorem mixSlots_mem (mx : MixerExterns K σ) (device : ALCdevice K)
    (MixCount SamplesToDo : Nat) (DeferUpdates : Bool) (slots : List (ALeffectslot K))
    (mem : MixerMemory K σ) {e : Nat × MixEvent K} (he : e ∈ mem.trace) :
    e ∈ (slots.foldl (mixSlot mx device MixCount SamplesToDo DeferUpdates) mem).trace := by
  obtain ⟨new, hn, -⟩ := mixSlots_trace (fun _ => True) mx device MixCount SamplesToDo trivial
    DeferUpdates slots mem
  rw [hn]
  exact List.mem_append_left _ he

/-- With updates not deferred, the voice loop calls the update of a voice whose source is
playing or paused when the `NeedsUpdate` flag of the source is set or a context update is
pending (no earlier voice being bound to the same source). -/
theorem voiceLoop_update_mem (lm : Libm K) (ext : Externs K) (mx : MixerExterns K σ)
    (cfg : Consts K) (device : ALCdevice K) (MixCount SamplesToDo ci : Nat)
    (UpdateSources : Bool) (n : Nat) (s : ContextObject K × MixerMemory K σ)
    (v : Nat) (hv : v < n) (p : Nat) (hS : (s.1.Voices v).Source = some p)
    (hfirst : ∀ u, u < v → (s.1.Voices u).Source ≠ some p)
    (hst : (s.2.Sources p).state = SourceState.AL_PLAYING ∨
      (s.2.Sources p).state = SourceState.AL_PAUSED)
    (hflag : (s.2.Sources p).NeedsUpdate = true ∨ UpdateSources = true) :
    (MixCount, MixEvent.Update ci v) ∈
      (forLoop n (mixVoice lm ext mx cfg device MixCount SamplesToDo ci false
        UpdateSources) s).2.trace := by
  have hn : n = (v + 1) + (n - (v + 1)) := by omega
  rw [hn, forLoop_add]
  obtain ⟨post, hpost, -⟩ := voiceLoop_events lm ext mx cfg device MixCount SamplesToDo ci
    false UpdateSources (v + 1) (n - (v + 1))
    (forLoop (v + 1) (mixVoice lm ext mx cfg device MixCount SamplesToDo ci false
      UpdateSources) s)
  rw [hpost]
  refine List.mem_append_left _ ?_
  rw [forLoop_succ]
  have hV : ((forLoop v (mixVoice lm ext mx cfg device MixCount SamplesToDo ci false
      UpdateSources) s).1.Voices v).Source = some p := by
    rw [voiceLoop_Voices_ge _ _ _ _ _ _ _ _ _ _ _ _ le_rfl]
    exact hS
  have hP : (forLoop v (mixVoice lm ext mx cfg device MixCount SamplesToDo ci false
      UpdateSources) s).2.Sources p = s.2.Sources p :=
    voiceLoop_Sources_other _ _ _ _ _ _ _ _ _ _ _ _ p hfirst
  have hU : (false = false ∧
      (((forLoop v (mixVoice lm ext mx cfg device MixCount SamplesToDo ci false
        UpdateSources) s).2.Sources p).NeedsUpdate = true ∨ UpdateSources = true)) := by
    rw [hP]
    exact ⟨rfl, hflag⟩
  rcases hst with hst | hst
  · have ht := mixVoice_playing lm ext mx cfg device MixCount SamplesToDo ci false
      UpdateSources v _ p hV (by rw [hP]; exact hst)
    rw [ht, if_pos hU]
    exact List.mem_append_left _ (List.mem_append_right _ (List.mem_singleton.mpr rfl))
  · have ht := (mixVoice_paused lm ext mx cfg device MixCount SamplesToDo ci false
      UpdateSources v _ p hV (by rw [hP]; exact hst)).1
    rw [ht, if_pos hU]
    exact List.mem_append_right _ (List.mem_singleton.mpr rfl)

omit [FloorRing K] in
/-- With updates not deferred, the slot loop calls `update` for every slot it visits whose
`NeedsUpdate` flag is set. -/
theorem mixSlots_update_mem (mx : MixerExterns K σ) (device : ALCdevice K)
    (MixCount SamplesToDo : Nat) (slots : List (ALeffectslot K)) (mem : MixerMemory K σ)
    (slot : ALeffectslot K) (hs : slot ∈ slots)
    (hN : mem.SlotNeedsUpdate slot.WetBuffer = true) :
    (MixCount, MixEvent.EffectState_update slot.WetBuffer) ∈
      (slots.foldl (mixSlot mx device MixCount SamplesToDo false) mem).trace := by
  induction slots generalizing mem with
  | nil => exact absurd hs (List.not_mem_nil _)
  | cons s0 rest ih =>
    rw [List.foldl_cons]
    by_cases hw : s0.WetBuffer = slot.WetBuffer
    · refine mixSlots_mem mx device MixCount SamplesToDo false rest _ ?_
      rw [← hw]
      exact mixSlot_update_mem mx device MixCount SamplesToDo mem s0 (by rw [hw]; exact hN)
    · have hr : slot ∈ rest := by
        rcases List.mem_cons.mp hs with h | h
        · exact absurd (by rw [h]) hw
        · exact h
      refine ih _ hr ?_
      rw [(mixSlot_flags mx device MixCount SamplesToDo false mem s0).2 _ (Or.inr hw)]
      exact hN

end DeferredFlags


section DeferredFlagsKept

variable {K : Type} [LinearOrderedField K] [FloorRing K] {σ : Type}

/-- The pass of the context loop for a context whose updates are not deferred applies what is
pending: the listener rebuild when `UpdateSources` is set, the update of a voice whose source is
playing or paused when the source's `NeedsUpdate` or `UpdateSources` is set, and the update of
every active slot whose `NeedsUpdate` is set. -/
theorem mixContexts_single_applies (lm : Libm K) (ext : Externs K) (mx : MixerExterns K σ)
    (cfg : Consts K) (device : ALCdevice K) (MixCount SamplesToDo ci : Nat)
    (ctx : ContextObject K) (mem : MixerMemory K σ) (hD : ctx.DeferUpdates = false) :
    (ctx.UpdateSources = true →
      (MixCount, MixEvent.CalcListenerParams ci) ∈
        (mixContexts lm ext mx cfg device MixCount SamplesToDo ci [ctx] mem).2.trace) ∧
    (∀ v, v < ctx.VoiceCount → ∀ p, (ctx.Voices v).Source = some p →
      (∀ u, u < v → (ctx.Voices u).Source ≠ some p) →
      ((mem.Sources p).state = SourceState.AL_PLAYING ∨
        (mem.Sources p).state = SourceState.AL_PAUSED) →
      ((mem.Sources p).NeedsUpdate = true ∨ ctx.UpdateSources = true) →
      (MixCount, MixEvent.Update ci v) ∈
        (mixContexts lm ext mx cfg device MixCount SamplesToDo ci [ctx] mem).2.trace) ∧
    (∀ slot ∈ ctx.ActiveAuxSlots, mem.SlotNeedsUpdate slot.WetBuffer = true →
      (MixCount, MixEvent.EffectState_update slot.WetBuffer) ∈
        (mixContexts lm ext mx cfg device MixCount SamplesToDo ci [ctx] mem).2.trace) := by
  cases hU : ctx.UpdateSources with
  | true =>
    rw [mixContexts_single_update lm ext mx cfg device MixCount SamplesToDo ci ctx mem hD hU]
    refine ⟨fun _ => ?_, fun v hv p hS hfirst hst hflag => ?_, fun slot hs hN => ?_⟩
    · refine mixSlots_mem mx device MixCount SamplesToDo false _ _ ?_
      refine voiceLoop_mem lm ext mx cfg device MixCount SamplesToDo ci false true _ _ ?_
      exact List.mem_append_right _ (List.mem_singleton.mpr rfl)
    · refine mixSlots_mem mx device MixCount SamplesToDo false _ _ ?_
      exact voiceLoop_update_mem lm ext mx cfg device MixCount SamplesToDo ci true _ _ v hv p
        hS hfirst hst (Or.inr rfl)
    · refine mixSlots_update_mem mx device MixCount SamplesToDo _ _ slot hs ?_
      rw [voiceLoop_SlotNeedsUpdate]
      exact hN
  | false =>
    rw [mixContexts_single_plain lm ext mx cfg device MixCount SamplesToDo ci ctx mem hD hU]
    refine ⟨fun h => absurd h (by decide), fun v hv p hS hfirst hst hflag => ?_,
      fun slot hs hN => ?_⟩
    · refine mixSlots_mem mx device MixCount SamplesToDo false _ _ ?_
      exact voiceLoop_update_mem lm ext mx cfg device MixCount SamplesToDo ci false _ _ v hv p
        hS hfirst hst (Or.inl (hflag.resolve_right (by decide)))
    · refine mixSlots_update_mem mx device MixCount SamplesToDo _ _ slot hs ?_
      rw [voiceLoop_SlotNeedsUpdate]
      exact hN

/-- Claim C34 (deferred updates are not lost).  (1) The pass of the context loop for a context
whose `DeferUpdates` is true leaves the context's `UpdateSources` flag, the `NeedsUpdate` flag
of every source and the `NeedsUpdate` flag of every effect slot unchanged.  (2) In a whole
slice, a context that defers keeps its `UpdateSources` flag; the `NeedsUpdate` flag of a source
is unchanged unless a voice of a context that does not defer is bound to it; the `NeedsUpdate`
flag of a slot is unchanged unless the slot is an active slot of a context that does not defer
or the device's default slot.  (3) The pass for a context whose `DeferUpdates` is false applies
what is pending: it rebuilds the listener parameters when `UpdateSources` is set, calls the
update of every voice whose source is playing or paused and has `NeedsUpdate` set (or when
`UpdateSources` is set), and calls `update` for every active slot whose `NeedsUpdate` is
set. -/
theorem deferred_flags_kept (lm : Libm K) (ext : Externs K) (mx : MixerExterns K σ)
    (cfg : Consts K) :
    (∀ (device : ALCdevice K) (MixCount SamplesToDo ci : Nat) (ctx : ContextObject K)
        (mem : MixerMemory K σ), ctx.DeferUpdates = true →
      (∃ ctx' : ContextObject K,
        (mixContexts lm ext mx cfg device MixCount SamplesToDo ci [ctx] mem).1 = [ctx'] ∧
        ctx'.DeferUpdates = true ∧ ctx'.UpdateSources = ctx.UpdateSources) ∧
      (∀ p, ((mixContexts lm ext mx cfg device MixCount SamplesToDo ci [ctx] mem).2.Sources
        p).NeedsUpdate = (mem.Sources p).NeedsUpdate) ∧
      (∀ w, (mixContexts lm ext mx cfg device MixCount SamplesToDo ci [ctx] mem).2.SlotNeedsUpdate
        w = mem.SlotNeedsUpdate w)) ∧
    (∀ s : MixSlice K σ,
      (∀ (i : Nat) (ctx : ContextObject K), s.device.ContextList[i]? = some ctx →
        ctx.DeferUpdates = true →
        ∃ ctx' : ContextObject K,
          (aluMixSlice lm ext mx cfg s).device.ContextList[i]? = some ctx' ∧
          ctx'.DeferUpdates = true ∧ ctx'.UpdateSources = ctx.UpdateSources) ∧
      (∀ p, (∀ ctx ∈ s.device.ContextList, ctx.DeferUpdates = true ∨
          ∀ u, u < ctx.VoiceCount → (ctx.Voices u).Source ≠ some p) →
        ((aluMixSlice lm ext mx cfg s).mem.Sources p).NeedsUpdate =
          (s.mem.Sources p).NeedsUpdate) ∧
      (∀ w, (∀ ctx ∈ s.device.ContextList, ctx.DeferUpdates = true ∨
          ∀ slot ∈ ctx.ActiveAuxSlots, slot.WetBuffer ≠ w) →
        (∀ slot, s.device.DefaultSlot = some slot → slot.WetBuffer ≠ w) →
        (aluMixSlice lm ext mx cfg s).mem.SlotNeedsUpdate w = s.mem.SlotNeedsUpdate w)) ∧
    (∀ (device : ALCdevice K) (MixCount SamplesToDo ci : Nat) (ctx : ContextObject K)
        (mem : MixerMemory K σ), ctx.DeferUpdates = false →
      (ctx.UpdateSources = true →
        (MixCount, MixEvent.CalcListenerParams ci) ∈
          (mixContexts lm ext mx cfg device MixCount SamplesToDo ci [ctx] mem).2.trace) ∧
      (∀ v, v < ctx.VoiceCount → ∀ p, (ctx.Voices v).Source = some p →
        (∀ u, u < v → (ctx.Voices u).Source ≠ some p) →
        ((mem.Sources p).state = SourceState.AL_PLAYING ∨
          (mem.Sources p).state = SourceState.AL_PAUSED) →
        ((mem.Sources p).NeedsUpdate = true ∨ ctx.UpdateSources = true) →
        (MixCount, MixEvent.Update ci v) ∈
          (mixContexts lm ext mx cfg device MixCount SamplesToDo ci [ctx] mem).2.trace) ∧
      (∀ slot ∈ ctx.ActiveAuxSlots, mem.SlotNeedsUpdate slot.WetBuffer = true →
        (MixCount, MixEvent.EffectState_update slot.WetBuffer) ∈
          (mixContexts lm ext mx cfg device MixCount SamplesToDo ci [ctx] mem).2.trace)) := by
  refine ⟨?_, ?_, ?_⟩
  · intro device MixCount SamplesToDo ci ctx mem hD
    obtain ⟨⟨ctx', h1, h2, h3⟩, h4, h5⟩ :=
      mixContexts_single_flags lm ext mx cfg device MixCount SamplesToDo ci ctx mem
    exact ⟨⟨ctx', h1, h2.trans hD, h3 hD⟩, fun p => h4 p (Or.inl hD),
      fun w => h5 w (Or.inl hD)⟩
  · intro s
    obtain ⟨h1, h2, h3⟩ := aluMixSlice_flags lm ext mx cfg s
    refine ⟨fun i ctx hi hD => ?_, h2, h3⟩
    obtain ⟨ctx', hc1, hc2, hc3⟩ := h1 i ctx hi
    exact ⟨ctx', hc1, hc2.trans hD, hc3 hD⟩
  · intro device MixCount SamplesToDo ci ctx mem hD
    exact mixContexts_single_applies lm ext mx cfg device MixCount SamplesToDo ci ctx mem hD

end DeferredFlagsKept

section DeferredFlagsKeptInstance

/-- Claim C34 on a slice of the sample device whose one context defers its updates, with a
context update pending, the `NeedsUpdate` flag of every source set and the `NeedsUpdate` flag of
every slot set: after the slice the context update is still pending, and so are the update of
the source of voice 0 and the update of the context's active slot (wet buffer 3). -/
theorem deferred_flags_kept_witness :
    Sample.deferDevice.ContextList[0]? = some Sample.deferContext ∧
    Sample.deferContext.DeferUpdates = true ∧
    Sample.deferContext.UpdateSources = true ∧
    (Sample.pendingMemory.Sources 0).NeedsUpdate = true ∧
    Sample.pendingMemory.SlotNeedsUpdate 3 = true ∧
    (∃ ctx' : ContextObject ℚ,
      (aluMixSlice Sample.libm Sample.externs Sample.mixerExterns Sample.smallConsts
        { device := Sample.deferDevice, mem := Sample.pendingMemory, buffer := none,
          size := 4 }).device.ContextList[0]? = some ctx' ∧
      ctx'.DeferUpdates = true ∧ ctx'.UpdateSources = true) ∧
    ((aluMixSlice Sample.libm Sample.externs Sample.mixerExterns Sample.smallConsts
        { device := Sample.deferDevice, mem := Sample.pendingMemory, buffer := none,
          size := 4 }).mem.Sources 0).NeedsUpdate = true ∧
    (aluMixSlice Sample.libm Sample.externs Sample.mixerExterns Sample.smallConsts
        { device := Sample.deferDevice, mem := Sample.pendingMemory, buffer := none,
          size := 4 }).mem.SlotNeedsUpdate 3 = true := by
  obtain ⟨h1, h2, h3⟩ := (deferred_flags_kept Sample.libm Sample.externs Sample.mixerExterns
    Sample.smallConsts).2.1
    { device := Sample.deferDevice, mem := Sample.pendingMemory, buffer := none, size := 4 }
  have hall : ∀ ctx ∈ Sample.deferDevice.ContextList, ctx.DeferUpdates = true := by
    intro ctx hctx
    rw [List.mem_singleton.mp hctx]
    rfl
  refine ⟨rfl, rfl, rfl, rfl, rfl, ?_, ?_, ?_⟩
  · obtain ⟨ctx', hc1, hc2, hc3⟩ := h1 0 Sample.deferContext rfl rfl
    exact ⟨ctx', hc1, hc2, hc3⟩
  · rw [h2 0 (fun ctx hctx => Or.inl (hall ctx hctx))]
    rfl
  · rw [h3 3 (fun ctx hctx => Or.inl (hall ctx hctx)) (fun slot hs => by
      have : slot = Sample.reverbSlot := (Option.some.inj hs).symm
      rw [this]
      decide)]
    rfl

end DeferredFlagsKeptInstance


section Loopback

variable {K : Type} [LinearOrderedField K] [FloorRing K] {σ : Type}

omit [LinearOrderedField K] [FloorRing K] in
theorem traceBy_refl (Q : Nat × MixEvent K → Prop) (t : List (Nat × MixEvent K)) :
    TraceExtendsBy Q t t :=
  ⟨[], by simp, by simp⟩

omit [LinearOrderedField K] [FloorRing K] in
theorem traceBy_trans {Q : Nat × MixEvent K → Prop} {t1 t2 t3 : List (Nat × MixEvent K)}
    (h1 : TraceExtendsBy Q t1 t2) (h2 : TraceExtendsBy Q t2 t3) : TraceExtendsBy Q t1 t3 := by
  obtain ⟨n1, e1, p1⟩ := h1
  obtain ⟨n2, e2, p2⟩ := h2
  refine ⟨n1 ++ n2, by rw [e2, e1, List.append_assoc], ?_⟩
  intro e he
  rcases List.mem_append.mp he with h | h
  · exact p1 e h
  · exact p2 e h

omit [LinearOrderedField K] [FloorRing K] in
theorem traceBy_log (Q : Nat × MixEvent K → Prop) (mem : MixerMemory K σ) (c : Nat)
    (e : MixEvent K) (hc : Q (c, e)) : TraceExtendsBy Q mem.trace (mem.log c e).trace :=
  ⟨[(c, e)], rfl, by
    intro x hx
    rw [List.mem_singleton] at hx
    rw [hx]
    exact hc⟩

omit [LinearOrderedField K] [FloorRing K] in
theorem forLoop_by {α : Type} (Q : Nat × MixEvent K → Prop) (tr : α → List (Nat × MixEvent K))
    (body : Nat → α → α) (hbody : ∀ i s, TraceExtendsBy Q (tr s) (tr (body i s)))
    (n : Nat) (s : α) : TraceExtendsBy Q (tr s) (tr (forLoop n body s)) := by
  induction n with
  | zero => exact traceBy_refl Q _
  | succ n ih =>
    rw [forLoop_succ]
    exact traceBy_trans ih (hbody n _)

theorem mixVoice_by (Q : Nat × MixEvent K → Prop)
    (hQ : ∀ e : Nat × MixEvent K, (∀ data len, e.2 ≠ MixEvent.WriteRingBuffer data len) → Q e)
    (lm : Libm K) (ext : Externs K) (mx : MixerExterns K σ) (cfg : Consts K)
    (device : ALCdevice K) (MixCount SamplesToDo ci : Nat) (DeferUpdates UpdateSources : Bool)
    (v : Nat) (s : ContextObject K × MixerMemory K σ) :
    TraceExtendsBy Q s.2.trace
      (mixVoice lm ext mx cfg device MixCount SamplesToDo ci DeferUpdates UpdateSources v
        s).2.trace := by
  obtain ⟨mid, h1, h2⟩ := mixVoice_events lm ext mx cfg device MixCount SamplesToDo ci
    DeferUpdates UpdateSources v s
  refine ⟨mid, h1, fun e he => hQ e ?_⟩
  intro data len
  rcases h2 e he with ⟨-, rfl⟩ | rfl <;> exact fun h => MixEvent.noConfusion h

omit [FloorRing K] in
theorem mixSlot_by (Q : Nat × MixEvent K → Prop)
    (hQ : ∀ e : Nat × MixEvent K, (∀ data len, e.2 ≠ MixEvent.WriteRingBuffer data len) → Q e)
    (mx : MixerExterns K σ) (device : ALCdevice K)
    (MixCount SamplesToDo : Nat) (DeferUpdates : Bool)
    (mem : MixerMemory K σ) (slot : ALeffectslot K) :
    TraceExtendsBy Q mem.trace
      (mixSlot mx device MixCount SamplesToDo DeferUpdates mem slot).trace := by
  have h1 : Q (MixCount, MixEvent.EffectState_update slot.WetBuffer) :=
    hQ _ (fun _ _ h => MixEvent.noConfusion h)
  have h2 : Q (MixCount, MixEvent.EffectState_process slot.WetBuffer SamplesToDo) :=
    hQ _ (fun _ _ h => MixEvent.noConfusion h)
  unfold mixSlot
  simp only []
  split_ifs
  all_goals first
    | exact traceBy_log Q _ _ _ h2
    | exact traceBy_trans (traceBy_log Q _ _ _ h1) (traceBy_log Q _ _ _ h2)

omit [FloorRing K] in
theorem mixSlots_by (Q : Nat × MixEvent K → Prop)
    (hQ : ∀ e : Nat × MixEvent K, (∀ data len, e.2 ≠ MixEvent.WriteRingBuffer data len) → Q e)
    (mx : MixerExterns K σ) (device : ALCdevice K)
    (MixCount SamplesToDo : Nat) (DeferUpdates : Bool)
    (slots : List (ALeffectslot K)) (mem : MixerMemory K σ) :
    TraceExtendsBy Q mem.trace
      (slots.foldl (mixSlot mx device MixCount SamplesToDo DeferUpdates) mem).trace := by
  induction slots generalizing mem with
  | nil => exact traceBy_refl Q _
  | cons slot rest ih =>
    rw [List.foldl_cons]
    exact traceBy_trans (mixSlot_by Q hQ mx device MixCount SamplesToDo DeferUpdates mem slot)
      (ih _)

theorem mixContexts_by (Q : Nat × MixEvent K → Prop)
    (hQ : ∀ e : Nat × MixEvent K, (∀ data len, e.2 ≠ MixEvent.WriteRingBuffer data len) → Q e)
    (lm : Libm K) (ext : Externs K)
    (mx : MixerExterns K σ) (cfg : Consts K) (device : ALCdevice K)
    (MixCount SamplesToDo : Nat) (ci : Nat) (l : List (ContextObject K))
    (mem : MixerMemory K σ) :
    TraceExtendsBy Q mem.trace
      (mixContexts lm ext mx cfg device MixCount SamplesToDo ci l mem).2.trace := by
  induction l generalizing ci mem with
  | nil => exact traceBy_refl Q _
  | cons ctx next ih =>
    unfold mixContexts
    simp only []
    refine traceBy_trans ?_ (ih _ _)
    refine traceBy_trans ?_ (mixSlots_by Q hQ mx device MixCount SamplesToDo _ _ _)
    refine traceBy_trans ?_
      (forLoop_by Q (fun s : ContextObject K × MixerMemory K σ => s.2.trace) _
        (fun i s => mixVoice_by Q hQ lm ext mx cfg device MixCount SamplesToDo ci _ _ i s)
        _ _)
    split_ifs
    all_goals first
      | exact traceBy_log Q _ _ _ (hQ _ (fun _ _ h => MixEvent.noConfusion h))
      | exact traceBy_refl Q _

omit [LinearOrderedField K] [FloorRing K] in
theorem hrtfLoop_by (Q : Nat × MixEvent K → Prop)
    (hQ : ∀ e : Nat × MixEvent K, (∀ data len, e.2 ≠ MixEvent.WriteRingBuffer data len) → Q e)
    (mx : MixerExterns K σ)
    (MixCount NumChannels OutBuffer Offset irsize SamplesToDo : Nat)
    (mem : MixerMemory K σ) :
    TraceExtendsBy Q mem.trace
      (hrtfLoop mx MixCount NumChannels OutBuffer Offset irsize SamplesToDo mem).trace := by
  unfold hrtfLoop
  refine forLoop_by Q (fun m : MixerMemory K σ => m.trace) _ ?_ _ _
  intro i m
  exact traceBy_log Q m MixCount _ (hQ _ (fun _ _ h => MixEvent.noConfusion h))

omit [LinearOrderedField K] [FloorRing K] in
theorem crossFeedLoop_by (Q : Nat × MixEvent K → Prop)
    (hQ : ∀ e : Nat × MixEvent K, (∀ data len, e.2 ≠ MixEvent.WriteRingBuffer data len) → Q e)
    (mx : MixerExterns K σ) (MixCount SamplesToDo : Nat) (mem : MixerMemory K σ) :
    TraceExtendsBy Q mem.trace (crossFeedLoop mx MixCount SamplesToDo mem).trace := by
  unfold crossFeedLoop
  refine forLoop_by Q (fun m : MixerMemory K σ => m.trace) _ ?_ _ _
  intro i m
  exact traceBy_log Q m MixCount _ (hQ _ (fun _ _ h => MixEvent.noConfusion h))

/-- The one-channel `Write_ALshort`: element `i` is the conversion of sample `i` of input
channel 0, for `i` below the sample count. -/
theorem Write_ALshort_mono (InBuffer : Nat → Nat → K) (OutBuffer : Nat → PCM K) (n i : Nat)
    (hi : i < n) :
    Write_ALshort InBuffer OutBuffer n 1 i = PCM.int (aluF2S (InBuffer 0 i)) := by
  unfold Write_ALshort Write
  rw [writeChannels_apply (fun val => PCM.int (aluF2S val)) InBuffer OutBuffer n 1 1 le_rfl i]
  simp [Nat.mod_one, hi]

/-- The end of a slice: the calls before the write to the loopback ring are no ring writes,
and the ring is written once, at the end, with the one-channel `Write_ALshort` of the output
rows of the dry buffer. -/
theorem aluMixSlice_tail (Q : Nat × MixEvent K → Prop)
    (hQ : ∀ e : Nat × MixEvent K, (∀ data len, e.2 ≠ MixEvent.WriteRingBuffer data len) → Q e)
    (lm : Libm K) (ext : Externs K) (mx : MixerExterns K σ)
    (cfg : Consts K) (s : MixSlice K σ) :
    ∃ M : MixerMemory K σ,
      TraceExtendsBy Q s.mem.trace M.trace ∧
      (aluMixSlice lm ext mx cfg s).mem.DryBuffer = M.DryBuffer ∧
      (aluMixSlice lm ext mx cfg s).mem.trace = M.trace ++
        [(IncrementRef s.device.MixCount, MixEvent.WriteRingBuffer
          ((List.range (minu s.size.toNat cfg.BUFFERSIZE)).map
            (Write_ALshort
              (fun j i => M.DryBuffer
                ((if s.device.Hrtf.isSome then 0 + s.device.NumChannels else 0) + j) i)
              (fun _ => PCM.int 0) (minu s.size.toNat cfg.BUFFERSIZE) 1))
          (minu s.size.toNat cfg.BUFFERSIZE * 2))] := by
  have hN : ∀ (c : Nat) (e : MixEvent K), (∀ data len, e ≠ MixEvent.WriteRingBuffer data len) →
      Q (c, e) := fun c e h => hQ (c, e) h
  have hD : ∀ m : MixerMemory K σ, TraceExtendsBy Q m.trace
      (match s.device.DefaultSlot with
        | some slot => mixSlot mx s.device.toALCdevice (IncrementRef s.device.MixCount)
            (minu s.size.toNat cfg.BUFFERSIZE) false m slot
        | none => m).trace := by
    intro m
    cases s.device.DefaultSlot with
    | none => exact traceBy_refl Q _
    | some slot => exact mixSlot_by Q hQ mx _ _ _ _ _ _
  have hL : ∀ (m : MixerMemory K σ) (t : List (Nat × MixEvent K)) (n : Nat),
      t = (m.trace ++ [(IncrementRef s.device.MixCount, MixEvent.Backend_lock)]) ++
        [(IncrementRef s.device.MixCount, MixEvent.Synth_process n)] →
      TraceExtendsBy Q m.trace t := by
    intro m t n ht
    refine ⟨[(IncrementRef s.device.MixCount, MixEvent.Backend_lock),
      (IncrementRef s.device.MixCount, MixEvent.Synth_process n)], by rw [ht]; simp, ?_⟩
    intro e he
    simp only [List.mem_cons, List.mem_singleton, List.not_mem_nil, or_false] at he
    rcases he with h | h <;> rw [h] <;> exact hN _ _ (fun _ _ h => MixEvent.noConfusion h)
  have hU : Q (IncrementRef s.device.MixCount, MixEvent.Backend_unlock) :=
    hN _ _ (fun _ _ h => MixEvent.noConfusion h)
  unfold aluMixSlice
  simp only []
  cases hH : s.device.Hrtf with
  | some H =>
    simp only [Option.isSome_some, if_true]
    refine ⟨_, ?_, ?_, rfl⟩
    · refine traceBy_trans ?_ (hrtfLoop_by Q hQ mx _ _ _ _ _ _ _)
      refine traceBy_trans ?_ (traceBy_log Q _ _ _ hU)
      refine traceBy_trans ?_ (hD _)
      refine traceBy_trans ?_ (mixContexts_by Q hQ lm ext mx cfg _ _ _ _ _ _)
      exact hL _ _ _ rfl
    · rfl
  | none =>
    simp only [Option.isSome_none, Bool.false_eq_true, if_false]
    split_ifs
    · refine ⟨_, ?_, ?_, rfl⟩
      · refine traceBy_trans ?_ (crossFeedLoop_by Q hQ mx _ _ _)
        refine traceBy_trans ?_ (traceBy_log Q _ _ _ hU)
        refine traceBy_trans ?_ (hD _)
        refine traceBy_trans ?_ (mixContexts_by Q hQ lm ext mx cfg _ _ _ _ _ _)
        exact hL _ _ _ rfl
      · rfl
    · refine ⟨_, ?_, ?_, rfl⟩
      · refine traceBy_trans ?_ (traceBy_log Q _ _ _ hU)
        refine traceBy_trans ?_ (hD _)
        refine traceBy_trans ?_ (mixContexts_by Q hQ lm ext mx cfg _ _ _ _ _ _)
        exact hL _ _ _ rfl
      · rfl

/-- Claim C31 (loopback), amended.  On every mix slice of `SamplesToDo = min(size, BUFFERSIZE)`
samples `aluMixData` writes the loopback ring exactly once, as the last call of the slice: none
of the calls before it is a ring write, and the write passes `SamplesToDo` 16-bit samples
(`SamplesToDo * 2` bytes), sample `i` being the `aluF2S` conversion of sample `i` of the first
output channel of the slice (row `OutBuffer` of the dry buffer, which is row `NumChannels` with
HRTF and row 0 without); the other output channels do not enter. -/
theorem loopback_write (lm : Libm K) (ext : Externs K) (mx : MixerExterns K σ)
    (cfg : Consts K) (s : MixSlice K σ) :
    ∃ calls : List (Nat × MixEvent K),
      (aluMixSlice lm ext mx cfg s).mem.trace = s.mem.trace ++ calls ++
        [(s.device.MixCount + 1, MixEvent.WriteRingBuffer
          ((List.range (min s.size.toNat cfg.BUFFERSIZE)).map (fun i => PCM.int (aluF2S
            ((aluMixSlice lm ext mx cfg s).mem.DryBuffer
              (if s.device.Hrtf.isSome then s.device.NumChannels else 0) i))))
          (min s.size.toNat cfg.BUFFERSIZE * 2))] ∧
      (∀ e ∈ calls, ∀ data len, e.2 ≠ MixEvent.WriteRingBuffer data len) ∧
      ((List.range (min s.size.toNat cfg.BUFFERSIZE)).map (fun i => (PCM.int (aluF2S
        ((aluMixSlice lm ext mx cfg s).mem.DryBuffer
          (if s.device.Hrtf.isSome then s.device.NumChannels else 0) i)) : PCM K))).length =
        min s.size.toNat cfg.BUFFERSIZE := by
  obtain ⟨M, ⟨calls, hc, hq⟩, hDry, hT⟩ := aluMixSlice_tail
    (fun e : Nat × MixEvent K => ∀ data len, e.2 ≠ MixEvent.WriteRingBuffer data len)
    (fun _ h => h) lm ext mx cfg s
  refine ⟨calls, ?_, hq, by simp⟩
  rw [hT, hc, hDry, minu_eq_min]
  have hrow : (if s.device.Hrtf.isSome then 0 + s.device.NumChannels else 0) =
      (if s.device.Hrtf.isSome then s.device.NumChannels else 0) := by
    rw [Nat.zero_add]
  rw [hrow]
  have hdata : (List.range (min s.size.toNat cfg.BUFFERSIZE)).map
      (Write_ALshort
        (fun j i => M.DryBuffer ((if s.device.Hrtf.isSome then s.device.NumChannels else 0) + j)
          i)
        (fun _ => PCM.int 0) (min s.size.toNat cfg.BUFFERSIZE) 1) =
      (List.range (min s.size.toNat cfg.BUFFERSIZE)).map (fun i => PCM.int (aluF2S
        (M.DryBuffer (if s.device.Hrtf.isSome then s.device.NumChannels else 0) i))) := by
    refine List.map_congr_left ?_
    intro i hi
    rw [Write_ALshort_mono _ _ _ _ (List.mem_range.mp hi)]
    rfl
  rw [hdata]
  rfl

end Loopback


section LoopbackInstance

/-- The dry buffer after a slice of 4 samples on the idle sample device with the synth that
plays on the second output channel: row 0 is silent, row 1 holds the constant 1. -/
theorem idle_slice_DryBuffer :
    (∀ i, (aluMixSlice Sample.libm Sample.externs Sample.rightSynth Sample.smallConsts
      { device := Sample.idleDevice, mem := Sample.mixerMemory, buffer := none,
        size := 4 }).mem.DryBuffer 0 i = 0) ∧
    (∀ i, i < 4 → (aluMixSlice Sample.libm Sample.externs Sample.rightSynth Sample.smallConsts
      { device := Sample.idleDevice, mem := Sample.mixerMemory, buffer := none,
        size := 4 }).mem.DryBuffer 1 i = 1) := by
  constructor
  · intro i
    simp [aluMixSlice, Sample.idleDevice, Sample.mixerDevice, Sample.device, Sample.rightSynth,
      Sample.mixerExterns, Sample.mixerMemory, Sample.smallConsts, Sample.consts, mixContexts,
      clearRows, forLoop, MixerMemory.log, minu]
  · intro i hi
    simp [aluMixSlice, Sample.idleDevice, Sample.mixerDevice, Sample.device, Sample.rightSynth,
      Sample.mixerExterns, Sample.mixerMemory, Sample.smallConsts, Sample.consts, mixContexts,
      clearRows, forLoop, MixerMemory.log, minu, hi]

/-- The last call of a slice is the write to the loopback ring. -/
theorem aluMixSlice_last {K : Type} [LinearOrderedField K] [FloorRing K] {σ : Type}
    (lm : Libm K) (ext : Externs K) (mx : MixerExterns K σ) (cfg : Consts K)
    (s : MixSlice K σ) :
    (aluMixSlice lm ext mx cfg s).mem.trace.getLast? =
      some (IncrementRef s.device.MixCount, MixEvent.WriteRingBuffer
        ((List.range (minu s.size.toNat cfg.BUFFERSIZE)).map
          (Write_ALshort
            (fun j i => (aluMixSlice lm ext mx cfg s).mem.DryBuffer
              ((if s.device.Hrtf.isSome then 0 + s.device.NumChannels else 0) + j) i)
            (fun _ => PCM.int 0) (minu s.size.toNat cfg.BUFFERSIZE) 1))
        (minu s.size.toNat cfg.BUFFERSIZE * 2)) := by
  obtain ⟨M, -, hDry, hT⟩ := aluMixSlice_tail (fun _ : Nat × MixEvent K => True)
    (fun _ _ => trivial) lm ext mx cfg s
  rw [hT, hDry, List.getLast?_append]
  rfl

/-- C31 (counterexample): a slice of 4 samples on the idle sample device (two output channels,
no HRTF) with a synth that plays the constant 1 on the second output channel.  The first output
channel is silent and the four samples written to the loopback ring are 0, although the sum of
the two output channels converts to 32767 and their mean to 16384: the second channel does not
enter. -/
theorem loopback_channel_counterexample :
    Sample.idleDevice.NumChannels = 2 ∧ Sample.idleDevice.Hrtf = none ∧
    (aluMixSlice Sample.libm Sample.externs Sample.rightSynth Sample.smallConsts
      { device := Sample.idleDevice, mem := Sample.mixerMemory, buffer := none,
        size := 4 }).mem.DryBuffer 0 0 = 0 ∧
    (aluMixSlice Sample.libm Sample.externs Sample.rightSynth Sample.smallConsts
      { device := Sample.idleDevice, mem := Sample.mixerMemory, buffer := none,
        size := 4 }).mem.DryBuffer 1 0 = 1 ∧
    (aluMixSlice Sample.libm Sample.externs Sample.rightSynth Sample.smallConsts
      { device := Sample.idleDevice, mem := Sample.mixerMemory, buffer := none,
        size := 4 }).mem.trace.getLast? =
      some (1, MixEvent.WriteRingBuffer [PCM.int 0, PCM.int 0, PCM.int 0, PCM.int 0] 8) ∧
    aluF2S ((aluMixSlice Sample.libm Sample.externs Sample.rightSynth Sample.smallConsts
        { device := Sample.idleDevice, mem := Sample.mixerMemory, buffer := none,
          size := 4 }).mem.DryBuffer 0 0 +
      (aluMixSlice Sample.libm Sample.externs Sample.rightSynth Sample.smallConsts
        { device := Sample.idleDevice, mem := Sample.mixerMemory, buffer := none,
          size := 4 }).mem.DryBuffer 1 0) = 32767 ∧
    aluF2S (((aluMixSlice Sample.libm Sample.externs Sample.rightSynth Sample.smallConsts
        { device := Sample.idleDevice, mem := Sample.mixerMemory, buffer := none,
          size := 4 }).mem.DryBuffer 0 0 +
      (aluMixSlice Sample.libm Sample.externs Sample.rightSynth Sample.smallConsts
        { device := Sample.idleDevice, mem := Sample.mixerMemory, buffer := none,
          size := 4 }).mem.DryBuffer 1 0) / 2) = 16384 := by
  obtain ⟨h0, h1⟩ := idle_slice_DryBuffer
  have hz : aluF2S (0 : ℚ) = 0 := by
    have h := aluF2I25_of_int (K := ℚ) 0 (by norm_num) (by norm_num)
    rw [(aluF2S_eq (0 : ℚ)).1]
    simp only [Int.cast_zero] at h
    rw [h]
    norm_num
  have hone : aluF2S (1 : ℚ) = 32767 := by
    have h := aluF2I25_of_int (K := ℚ) 1 (by norm_num) (by norm_num)
    rw [(aluF2S_eq (1 : ℚ)).1]
    simp only [Int.cast_one] at h
    rw [h]
    norm_num
  have hhalf : aluF2S ((1 : ℚ) / 2) = 16384 := by
    rw [(aluF2S_eq ((1 : ℚ) / 2)).1, aluF2I25_eq]
    have hc : clampf ((1 : ℚ) / 2) (-1) 1 = 1 / 2 := by
      norm_num [clampf, minf, maxf]
    have hr : round ((1 : ℚ) / 2 * 16777215) = 8388608 := by
      rw [round_eq, Int.floor_eq_iff]
      constructor <;> norm_num
    rw [hc, hr]
    norm_num
  refine ⟨rfl, rfl, h0 0, h1 0 (by norm_num), ?_, ?_, ?_⟩
  · rw [aluMixSlice_last]
    have hn : minu (4 : Int).toNat Sample.smallConsts.BUFFERSIZE = 4 := by decide
    have hrow : (if Sample.idleDevice.Hrtf.isSome then 0 + Sample.idleDevice.NumChannels else 0)
        = 0 := by decide
    simp only [hn, hrow]
    have hdata : (List.range 4).map
        (Write_ALshort
          (fun j i => (aluMixSlice Sample.libm Sample.externs Sample.rightSynth
            Sample.smallConsts
            { device := Sample.idleDevice, mem := Sample.mixerMemory, buffer := none,
              size := 4 }).mem.DryBuffer (0 + j) i)
          (fun _ => PCM.int 0) 4 1) =
        [PCM.int 0, PCM.int 0, PCM.int 0, PCM.int 0] := by
      have hm : (List.range 4).map
          (Write_ALshort
            (fun j i => (aluMixSlice Sample.libm Sample.externs Sample.rightSynth
              Sample.smallConsts
              { device := Sample.idleDevice, mem := Sample.mixerMemory, buffer := none,
                size := 4 }).mem.DryBuffer (0 + j) i)
            (fun _ => PCM.int 0) 4 1) =
          (List.range 4).map (fun _ => (PCM.int 0 : PCM ℚ)) := by
        refine List.map_congr_left ?_
        intro i hi
        rw [Write_ALshort_mono _ _ _ _ (List.mem_range.mp hi)]
        show PCM.int (aluF2S ((aluMixSlice Sample.libm Sample.externs Sample.rightSynth
          Sample.smallConsts
          { device := Sample.idleDevice, mem := Sample.mixerMemory, buffer := none,
            size := 4 }).mem.DryBuffer 0 i)) = _
        rw [h0 i, hz]
      rw [hm]
      rfl
    rw [hdata]
    rfl
  · rw [h0 0, h1 0 (by norm_num), zero_add]
    exact hone
  · rw [h0 0, h1 0 (by norm_num), zero_add]
    exact hhalf

/-- The amended claim C31 on a slice of 4 samples of the sample device, started while
`MixCount` is 0: the trace ends with the one write to the loopback ring, of 4 samples and 8
bytes. -/
theorem loopback_write_witness :
    ∃ calls : List (Nat × MixEvent ℚ), ∃ data : List (PCM ℚ),
      (aluMixSlice Sample.libm Sample.externs Sample.mixerExterns Sample.smallConsts
        { device := Sample.mixerDevice, mem := Sample.mixerMemory, buffer := none,
          size := 4 }).mem.trace =
        calls ++ [(1, MixEvent.WriteRingBuffer data 8)] ∧
      data.length = 4 ∧
      ∀ e ∈ calls, ∀ d len, e.2 ≠ MixEvent.WriteRingBuffer d len := by
  obtain ⟨calls, h1, h2, h3⟩ := loopback_write Sample.libm Sample.externs Sample.mixerExterns
    Sample.smallConsts
    { device := Sample.mixerDevice, mem := Sample.mixerMemory, buffer := none, size := 4 }
  exact ⟨calls, _, h1, h3, h2⟩

end LoopbackInstance

end ALu
